import Mathlib

/-!
# Verification development for the V4L2 capture backend (`isgursoy_V4L2.hpp`)

Shallow embedding of `Cartrack::V4L2_Backend` over explicit oracles: the capture calls
`get_frame_data` and `put_frame_data` with the helpers they use (kernel oracle `Kernel`),
the constructor with `setup_device`, `setup_buffering`, `set_fps` and the control getters
(device oracle `Device`), and the plane-size helpers of the demo (`main.cpp`).

Modelling conventions

* The kernel is an oracle `Kernel`: three streams giving the outcome of the k-th
  `VIDIOC_QBUF`, the k-th `select` and the k-th `VIDIOC_DQBUF`.  Outcomes are taken
  at the `xioctl` boundary (`xioctl` re-issues the ioctl while `errno == EINTR`, the
  stream holds the outcome of the last attempt).
* `Syscalls` counts the calls issued so far and logs them, in order, in `trace`.
* A `std::span` is its base address and its length (`Span`).  The bytes behind the
  address are not modelled.  The plane array a `v4l2_buffer` points to is carried
  inside the buffer value (`planes`).  This is exact where the array is in scope while
  it is used (`put_frame_data`, `setup_buffering`).  In `get_frame_data` the array of
  a multi-plane payload is a local of the lambda `instantiate_buf`, dead once the
  lambda has returned, so what DQBUF writes through `buf.m.planes` and what `take_span`
  reads back from it is not defined by the language; there the model describes the run
  in which the array stays intact.  The statements of C1, C3 and C22, which range over
  every constructed backend, therefore fix span lengths for single-plane capture only,
  where the payload holds no pointer; for multi-plane capture they state what does not
  pass through the plane array (indices, log, pending queue, number and base addresses
  of the spans).  The multi-plane run evaluated for C5 is used for the number and the
  base addresses of its spans.
* Indexing a `std::vector` out of range is undefined behaviour in the source; the
  model returns `none` there.  `none` is also returned when the fuel of the only
  unbounded loop (the USERPTR dequeue loop) runs out.  `std::copy` between spans does
  not throw and moves bytes only, so it leaves no trace in the model.
* The `ushort` and `uintmax_t` counters wrap explicitly (`% 2^16`, `% 2^64`).
* `WellFormed` collects what the constructor leaves behind in MMAP mode (`Negotiated` is
  its part common to both modes); the theorems about a constructed backend assume it.

The file has two parts: the definitions (embedding, vocabulary of the statements,
concrete backends, kernels and devices), then the theorems (helper lemmas and claims,
in three groups: C1 to C10, C11 to C20, C21 to C30).
-/

namespace Cartrack

/-! ## Data model (`Abstract_Capture_Backend.hpp`) -/

/-- Pixel format tags, `enum class Pixel_Format`. -/
inductive Pixel_Format
  | Invalid | YUYV422 | NV12 | NV12sp | YUV422P | MJPEG | BGR24 | RGB24
deriving DecidableEq, Repr

/-- Buffering mode, `Stream_Configuration::Buffering`. -/
inductive Buffering
  | Invalid | Internal | USERPTR
deriving DecidableEq, Repr

/-- Frame selection policy, `Stream_Configuration::V4L2::Internal_Buffering_Strategy`. -/
inductive Internal_Buffering_Strategy
  | Oldest | Only_Newest
deriving DecidableEq, Repr

/-- Nested configuration `Stream_Configuration::V4L2`. -/
structure Stream_Configuration.V4L2 where
  crop_rect : List Nat := [0, 0, 0, 0]
  buffer_usage_policy : Internal_Buffering_Strategy := Internal_Buffering_Strategy.Oldest
  contiguous : Bool := true
deriving DecidableEq, Repr

/-- Configuration struct `Stream_Configuration`. -/
structure Stream_Configuration where
  width : Nat := 0
  height : Nat := 0
  fps : Nat := 0
  pixel_format : Pixel_Format := Pixel_Format.NV12
  device_index : Int := -1
  num_buffers : Nat := 1
  buffering : Buffering := Buffering.Internal
  v4l2 : Stream_Configuration.V4L2 := {}
deriving DecidableEq, Repr

/-- A `std::span<Data_Type>`: base address and number of bytes. -/
structure Span where
  data : Nat
  size : Nat
deriving DecidableEq, Repr

/-- The alias `Multiplanar_Buffer_View = std::vector<std::span<Data_Type>>`. -/
abbrev Multiplanar_Buffer_View := List Span

/-! ## Kernel structures (`linux/videodev2.h`), the fields the backend touches -/

/-- Capture buffer types used by the backend. -/
inductive v4l2_buf_type
  | V4L2_BUF_TYPE_VIDEO_CAPTURE | V4L2_BUF_TYPE_VIDEO_CAPTURE_MPLANE
deriving DecidableEq, Repr

/-- Memory models. -/
inductive v4l2_memory
  | V4L2_MEMORY_MMAP | V4L2_MEMORY_USERPTR | V4L2_MEMORY_DMABUF
deriving DecidableEq, Repr

/-- Kernel timestamp `struct timeval` (two `long` fields). -/
structure timeval where
  tv_sec : Int := 0
  tv_usec : Int := 0
deriving DecidableEq, Repr

/-- One entry of the plane array, `struct v4l2_plane`; the members of the union `m` are
separate fields. -/
structure v4l2_plane where
  bytesused : Nat := 0
  length : Nat := 0
  m_mem_offset : Nat := 0
  m_userptr : Nat := 0
  data_offset : Nat := 0
deriving DecidableEq, Repr

/-- The ioctl payload `struct v4l2_buffer`; `planes` is the array behind `m.planes`, the
other members of the union `m` are separate fields. -/
structure v4l2_buffer where
  index : Nat := 0
  type : v4l2_buf_type
  bytesused : Nat := 0
  flags : Nat := 0
  timestamp : timeval := {}
  memory : v4l2_memory
  m_offset : Nat := 0
  m_userptr : Nat := 0
  planes : List v4l2_plane := []
  length : Nat := 0
deriving DecidableEq, Repr

/-- The negotiated format `struct v4l2_format` (`fmt.pix` and `fmt.pix_mp` fields; `field`
and `quantization` hold the values of `enum v4l2_field` and `enum v4l2_quantization`). -/
structure v4l2_format where
  type : v4l2_buf_type := v4l2_buf_type.V4L2_BUF_TYPE_VIDEO_CAPTURE
  width : Nat := 0
  height : Nat := 0
  pixelformat : Nat := 0
  field : Nat := 0
  quantization : Nat := 0
  sizeimage : Nat := 0
  num_planes : Nat := 0
  plane_sizeimage : List Nat := []
deriving DecidableEq, Repr

/-! ## Kernel oracle and syscall log -/

/-- Values of `errno` the backend distinguishes. -/
inductive Errno
  | EINTR | EAGAIN | EIO | EINVAL | OTHER
deriving DecidableEq, Repr

/-- Outcome of `select`: its return value and, when that is `-1`, `errno`. -/
structure select_result where
  r : Int
  errno : Errno := Errno.OTHER
deriving DecidableEq, Repr

/-- Outcome of `xioctl(fd, VIDIOC_DQBUF, &buf)`: `0` with the payload the kernel wrote
back, or `-1` with `errno` (payload untouched). -/
inductive dqbuf_result
  | ok (buf : v4l2_buffer)
  | error (errno : Errno)
deriving DecidableEq, Repr

/-- The kernel as an oracle: outcome of the k-th QBUF (`true` is return value `0`),
of the k-th `select` and of the k-th DQBUF. -/
structure Kernel where
  qbuf : Nat → Bool
  select : Nat → select_result
  dqbuf : Nat → dqbuf_result

/-- One logged syscall together with its outcome. -/
inductive Event
  | QBUF (buf : v4l2_buffer) (ret : Bool)
  | DQBUF (res : dqbuf_result)
  | SELECT (res : select_result)
deriving DecidableEq, Repr

/-- Number of QBUF, `select` and DQBUF calls issued so far, and the log of all calls. -/
structure Syscalls where
  nq : Nat := 0
  ns : Nat := 0
  nd : Nat := 0
  trace : List Event := []
deriving DecidableEq, Repr

/-! ## Backend state (`class V4L2_Backend`) -/

/-- Data members of `V4L2_Backend` (and of its base `Capture_Backend`). -/
structure V4L2_Backend where
  _configuration_ : Stream_Configuration := {}
  _frame_order_ : Nat := 0
  _v4l2_capture_format_ : v4l2_format := {}
  _pixel_format_ : Nat := 0
  _device_file_descriptor_ : Int := -1
  _buffer_plane_type_ : v4l2_buf_type := v4l2_buf_type.V4L2_BUF_TYPE_VIDEO_CAPTURE
  _num_buffers_ : Nat := 0
  _limit_range_ : Bool := false
  _allocated_buffers_ : List (List Span) := []
  _buffer_of_buffers : List v4l2_buffer := []
  _mapped_buffers_ : List Multiplanar_Buffer_View := []
  _buffer_dma_fds_ : List (List (Int × Nat)) := []
deriving DecidableEq, Repr

/-- Source `get_memory_mapping_type_v4l2`: MMAP for Internal buffering, USERPTR otherwise. -/
def get_memory_mapping_type_v4l2 (st : V4L2_Backend) : v4l2_memory :=
  if st._configuration_.buffering = Buffering.Internal then v4l2_memory.V4L2_MEMORY_MMAP
  else v4l2_memory.V4L2_MEMORY_USERPTR

/-- Source `get_buffer_type_v4l2`: single-plane capture iff `contiguous`. -/
def get_buffer_type_v4l2 (st : V4L2_Backend) : v4l2_buf_type :=
  if st._configuration_.v4l2.contiguous then v4l2_buf_type.V4L2_BUF_TYPE_VIDEO_CAPTURE
  else v4l2_buf_type.V4L2_BUF_TYPE_VIDEO_CAPTURE_MPLANE

/-- Source `num_planes`: 1 for a single-plane format type, else `fmt.pix_mp.num_planes`. -/
def num_planes (st : V4L2_Backend) : Nat :=
  if st._v4l2_capture_format_.type = v4l2_buf_type.V4L2_BUF_TYPE_VIDEO_CAPTURE then 1
  else st._v4l2_capture_format_.num_planes

/-- Source `get_frame_order`. -/
def get_frame_order (st : V4L2_Backend) : Nat := st._frame_order_

/-- The increment `++_frame_order_` on a `uintmax_t`. -/
def incr_frame_order (st : V4L2_Backend) : V4L2_Backend :=
  { st with _frame_order_ := (st._frame_order_ + 1) % 2 ^ 64 }

/-- Source `try_device`: one `select` on the device fd; false on EINTR and on timeout,
true in every other case. -/
def try_device (K : Kernel) (sys : Syscalls) : Bool × Syscalls :=
  let res := K.select sys.ns
  let sys1 : Syscalls := { sys with ns := sys.ns + 1, trace := sys.trace ++ [Event.SELECT res] }
  if res.r = -1 ∧ res.errno = Errno.EINTR then (false, sys1)
  else if res.r = 0 then (false, sys1)
  else (true, sys1)

/-- Lambda `queue_buf` of `get_frame_data`: one QBUF, true iff the ioctl succeeded. -/
def queue_buf (K : Kernel) (buf : v4l2_buffer) (sys : Syscalls) : Bool × Syscalls :=
  let ret := K.qbuf sys.nq
  (ret, { sys with nq := sys.nq + 1, trace := sys.trace ++ [Event.QBUF buf ret] })

/-- Lambda `deque_buf` of `get_frame_data`: one DQBUF.  EAGAIN and unknown errors give
false; EIO leaves the switch and, like success, goes on to the index check. -/
def deque_buf (K : Kernel) (st : V4L2_Backend) (buf : v4l2_buffer) (sys : Syscalls) :
    Bool × v4l2_buffer × Syscalls :=
  let res := K.dqbuf sys.nd
  let sys1 : Syscalls := { sys with nd := sys.nd + 1, trace := sys.trace ++ [Event.DQBUF res] }
  match res with
  | dqbuf_result.error Errno.EAGAIN => (false, buf, sys1)
  | dqbuf_result.error Errno.EIO =>
      if buf.index ≥ st._num_buffers_ then (false, buf, sys1) else (true, buf, sys1)
  | dqbuf_result.error _ => (false, buf, sys1)
  | dqbuf_result.ok written =>
      if written.index ≥ st._num_buffers_ then (false, written, sys1) else (true, written, sys1)

/-- Lambda `instantiate_buf` of `get_frame_data` (source lines 737-754): zeroed payload
with type and memory set and, for multi-plane capture, `m.planes` set to a zeroed plane
array of `num_planes()` entries and `length` to their number.  In the source that array
is a variable-length array local to the lambda, so `m.planes` of the returned payload
points at an array whose lifetime has ended; the model keeps the array inside the value.
The single-plane payload holds no pointer and is modelled exactly. -/
def instantiate_buf (st : V4L2_Backend) : v4l2_buffer :=
  if st._buffer_plane_type_ = v4l2_buf_type.V4L2_BUF_TYPE_VIDEO_CAPTURE_MPLANE then
    { type := get_buffer_type_v4l2 st, memory := get_memory_mapping_type_v4l2 st,
      planes := List.replicate (num_planes st) {}, length := num_planes st }
  else
    { type := get_buffer_type_v4l2 st, memory := get_memory_mapping_type_v4l2 st }

/-- Read `buf.m.planes[plane_index].bytesused`; entries the kernel did not write are zero.
For a payload made by `instantiate_buf` the source reads through the pointer described
there. -/
def plane_bytesused (buf : v4l2_buffer) (plane_index : Nat) : Nat :=
  match buf.planes[plane_index]? with
  | some p => p.bytesused
  | none => 0

/-- Lookup `_mapped_buffers_[slot][plane]`; `none` when an index is out of range. -/
def mapped_at (st : V4L2_Backend) (slot plane : Nat) : Option Span :=
  match st._mapped_buffers_[slot]? with
  | some row => row[plane]?
  | none => none

/-- The multi-plane loop of `take_span`: `n` iterations starting at `plane_index`. -/
def take_span_loop (st : V4L2_Backend) (buf : v4l2_buffer) :
    Nat → Nat → Multiplanar_Buffer_View → Option Multiplanar_Buffer_View
  | 0, _, collected_planes => some collected_planes
  | n + 1, plane_index, collected_planes =>
      match mapped_at st buf.index plane_index with
      | none => none
      | some sp =>
          take_span_loop st buf n (plane_index + 1)
            (collected_planes ++ [{ data := sp.data, size := plane_bytesused buf plane_index }])

/-- Lambda `take_span` of `get_frame_data`: appends to `collected_planes` one span per
plane (multi-plane) or one span over plane 0 (single-plane), each of length `bytesused`. -/
def take_span (st : V4L2_Backend) (buf : v4l2_buffer)
    (collected_planes : Multiplanar_Buffer_View) : Option Multiplanar_Buffer_View :=
  if get_buffer_type_v4l2 st = v4l2_buf_type.V4L2_BUF_TYPE_VIDEO_CAPTURE_MPLANE then
    take_span_loop st buf (num_planes st) 0 collected_planes
  else
    match mapped_at st buf.index 0 with
    | none => none
    | some sp => some (collected_planes ++ [{ data := sp.data, size := buf.bytesused }])

/-- The loop at the entry of `get_frame_data`: QBUF every pending descriptor, front first. -/
def drain_pending (K : Kernel) : List v4l2_buffer → Syscalls → Syscalls
  | [], sys => sys
  | buf :: rest, sys => drain_pending K rest (queue_buf K buf sys).2

/-- The local `std::map<long, std::pair<Multiplanar_Buffer_View, v4l2_buffer>>`, as the
list of its entries in increasing key order. -/
abbrev Ordered_Buffers := List (Int × (Multiplanar_Buffer_View × v4l2_buffer))

/-- The two statements `ordered_buffers[key].second = buf; take_span(buf,
ordered_buffers[key].first);` with `key = buf.timestamp.tv_usec`: `operator[]` creates
an entry with an empty view when the key is new and reuses the entry otherwise. -/
def ordered_buffers_store (st : V4L2_Backend) (buf : v4l2_buffer) :
    Ordered_Buffers → Option Ordered_Buffers
  | [] => (take_span st buf []).map (fun v => [(buf.timestamp.tv_usec, (v, buf))])
  | (k, e) :: rest =>
      if buf.timestamp.tv_usec < k then
        (take_span st buf []).map (fun v => (buf.timestamp.tv_usec, (v, buf)) :: (k, e) :: rest)
      else if buf.timestamp.tv_usec = k then
        (take_span st buf e.1).map (fun v => (k, (v, buf)) :: rest)
      else
        (ordered_buffers_store st buf rest).map (fun m => (k, e) :: m)

/-- The constant `dummy_buffer_index = UINT_MAX - 1`. -/
def dummy_buffer_index : Nat := 2 ^ 32 - 1 - 1

/-- The dequeue loop of the Only_Newest branch, `n` iterations left. -/
def only_newest_loop (K : Kernel) :
    Nat → V4L2_Backend → Ordered_Buffers → Syscalls →
      Option (V4L2_Backend × Ordered_Buffers × Syscalls)
  | 0, st, ordered_buffers, sys => some (st, ordered_buffers, sys)
  | n + 1, st, ordered_buffers, sys =>
      let buf := { instantiate_buf st with index := dummy_buffer_index }
      let st1 := incr_frame_order st
      match deque_buf K st1 buf sys with
      | (true, buf1, sys1) =>
          if buf1.index = dummy_buffer_index then only_newest_loop K n st1 ordered_buffers sys1
          else
            match ordered_buffers_store st1 buf1 ordered_buffers with
            | none => none
            | some m => only_newest_loop K n st1 m sys1
      | (false, _, sys1) => only_newest_loop K n st1 ordered_buffers sys1

/-- The final loop of the Only_Newest branch: QBUF every entry that has a successor. -/
def requeue_all_but_last (K : Kernel) : Ordered_Buffers → Syscalls → Syscalls
  | [], sys => sys
  | [_], sys => sys
  | e :: e1 :: rest, sys => requeue_all_but_last K (e1 :: rest) (queue_buf K e.2.2 sys).2

/-- The MMAP part of `get_frame_data` (source lines 671-835): drain the pending queue,
wait for readiness, then dequeue according to the policy. -/
def get_frame_data_mmap (K : Kernel) (st : V4L2_Backend) (sys : Syscalls) :
    Option (Multiplanar_Buffer_View × V4L2_Backend × Syscalls) :=
  let sys1 := drain_pending K st._buffer_of_buffers sys
  let st1 : V4L2_Backend := { st with _buffer_of_buffers := [] }
  match try_device K sys1 with
  | (false, sys2) => some ([], st1, sys2)
  | (true, sys2) =>
      match st1._configuration_.v4l2.buffer_usage_policy with
      | Internal_Buffering_Strategy.Oldest =>
          let buf := instantiate_buf st1
          let st2 := incr_frame_order st1
          match deque_buf K st2 buf sys2 with
          | (true, buf1, sys3) =>
              match take_span st2 buf1 [] with
              | none => none
              | some planes_to_return =>
                  some (planes_to_return,
                    { st2 with _buffer_of_buffers := st2._buffer_of_buffers ++ [buf1] }, sys3)
          | (false, buf1, sys3) =>
              some ([], { st2 with _buffer_of_buffers := st2._buffer_of_buffers ++ [buf1] }, sys3)
      | Internal_Buffering_Strategy.Only_Newest =>
          match only_newest_loop K st1._num_buffers_ st1 [] sys2 with
          | none => none
          | some (st2, ordered_buffers, sys3) =>
              match ordered_buffers with
              | [] => some ([], st2, sys3)
              | [e] =>
                  some (e.2.1, { st2 with _buffer_of_buffers := st2._buffer_of_buffers ++ [e.2.2] },
                    sys3)
              | e :: e1 :: rest =>
                  let last := (e1 :: rest).getLast (List.cons_ne_nil e1 rest)
                  some (last.2.1,
                    { st2 with _buffer_of_buffers := st2._buffer_of_buffers ++ [last.2.2] },
                    requeue_all_but_last K (e :: e1 :: rest) sys3)

/-! ## `put_frame_data` -/

/-- The indexed write `sizes[i][j] = v`; `none` when `i` or `j` is out of range. -/
def sizes_write (sizes : List (List Nat)) (i j v : Nat) : Option (List (List Nat)) :=
  match sizes[i]? with
  | none => none
  | some row => if j < row.length then some (sizes.set i (row.set j v)) else none

/-- The loops `for plane_index ...: sizes[i][plane_index] = f plane_index`, `n` iterations
starting at `plane_index`. -/
def sizes_write_planes (f : Nat → Nat) (i : Nat) :
    Nat → Nat → List (List Nat) → Option (List (List Nat))
  | 0, _, sizes => some sizes
  | n + 1, plane_index, sizes =>
      match sizes_write sizes i plane_index (f plane_index) with
      | none => none
      | some sizes1 => sizes_write_planes f i n (plane_index + 1) sizes1

/-- The plane loop of the MMAP branch of `put_frame_data`: reads
`mmap_frame_buffer_view[plane_index]` and `userspace_frame[plane_index]`, copies, and
records the size of the kernel view.  `std::copy` does not throw, so the `catch`
branch is never taken; the bytes copied are not modelled. -/
def copy_planes (mmap_frame_buffer_view userspace_frame : Multiplanar_Buffer_View) (i : Nat) :
    Nat → Nat → List (List Nat) → Option (List (List Nat))
  | 0, _, sizes => some sizes
  | n + 1, plane_index, sizes =>
      match mmap_frame_buffer_view[plane_index]?, userspace_frame[plane_index]? with
      | some src, some _ =>
          match sizes_write sizes i plane_index src.size with
          | none => none
          | some sizes1 =>
              copy_planes mmap_frame_buffer_view userspace_frame i n (plane_index + 1) sizes1
      | _, _ => none

/-- The frame loop of the MMAP branch of `put_frame_data` (source lines 854-885), from
`userspace_frame_index` on; `planes_count` is the constant computed at entry.  In this
branch the memory type is MMAP, so each `get_frame_data()` runs its MMAP part. -/
def put_frame_data_mmap (K : Kernel) (planes_count : Nat) :
    List Multiplanar_Buffer_View → Nat → V4L2_Backend → List (List Nat) → Syscalls →
      Option (List (List Nat) × V4L2_Backend × Syscalls)
  | [], _, st, sizes, sys => some (sizes, st, sys)
  | userspace_frame :: rest, userspace_frame_index, st, sizes, sys =>
      match get_frame_data_mmap K st sys with
      | none => none
      | some (mmap_frame_buffer_view, st1, sys1) =>
          if mmap_frame_buffer_view.isEmpty then
            put_frame_data_mmap K planes_count rest (userspace_frame_index + 1) st1 sizes sys1
          else if userspace_frame.length < mmap_frame_buffer_view.length then
            put_frame_data_mmap K planes_count rest (userspace_frame_index + 1) st1 sizes sys1
          else
            match copy_planes mmap_frame_buffer_view userspace_frame userspace_frame_index
                planes_count 0 sizes with
            | none => none
            | some sizes1 =>
                put_frame_data_mmap K planes_count rest (userspace_frame_index + 1) st1 sizes1 sys1

/-- The plane array filled before the USERPTR QBUF: `n` entries from `plane_index` on,
each with the caller's pointer and the negotiated `sizeimage`; `none` when the caller's
view has no such plane. -/
def userptr_planes (st : V4L2_Backend) (userspace_frame : Multiplanar_Buffer_View) :
    Nat → Nat → Option (List v4l2_plane)
  | 0, _ => some []
  | n + 1, plane_index =>
      match userspace_frame[plane_index]? with
      | none => none
      | some sp =>
          (userptr_planes st userspace_frame n (plane_index + 1)).map (fun ps =>
            { m_userptr := sp.data,
              length := st._v4l2_capture_format_.plane_sizeimage.getD plane_index 0 } :: ps)

/-- The payload built for caller buffer `userspace_frame_index` in the USERPTR branch. -/
def userptr_buf (st : V4L2_Backend) (userspace_frame : Multiplanar_Buffer_View)
    (userspace_frame_index : Nat) : Option v4l2_buffer :=
  if st._buffer_plane_type_ = v4l2_buf_type.V4L2_BUF_TYPE_VIDEO_CAPTURE_MPLANE then
    (userptr_planes st userspace_frame (num_planes st) 0).map (fun ps =>
      { index := userspace_frame_index, type := get_buffer_type_v4l2 st,
        memory := get_memory_mapping_type_v4l2 st, planes := ps, length := num_planes st })
  else
    match userspace_frame[0]? with
    | none => none
    | some sp =>
        some { index := userspace_frame_index, type := get_buffer_type_v4l2 st,
               memory := get_memory_mapping_type_v4l2 st, m_userptr := sp.data,
               length := st._v4l2_capture_format_.sizeimage }

/-- The queueing loop of the USERPTR branch of `put_frame_data` (source lines 889-949);
`num_queued_buffers` is a `ushort`. -/
def userptr_queue_loop (K : Kernel) :
    List Multiplanar_Buffer_View → Nat → V4L2_Backend → Nat → List (List Nat) → Syscalls →
      Option (V4L2_Backend × Nat × List (List Nat) × Syscalls)
  | [], _, st, num_queued_buffers, sizes, sys => some (st, num_queued_buffers, sizes, sys)
  | userspace_frame :: rest, userspace_frame_index, st, num_queued_buffers, sizes, sys =>
      match userptr_buf st userspace_frame userspace_frame_index with
      | none => none
      | some buf =>
          match queue_buf K buf sys with
          | (false, sys1) =>
              match (if st._buffer_plane_type_ = v4l2_buf_type.V4L2_BUF_TYPE_VIDEO_CAPTURE_MPLANE
                     then sizes_write_planes (fun _ => 0) userspace_frame_index buf.length 0 sizes
                     else sizes_write sizes userspace_frame_index 0 0) with
              | none => none
              | some sizes1 =>
                  userptr_queue_loop K rest (userspace_frame_index + 1) (incr_frame_order st)
                    num_queued_buffers sizes1 sys1
          | (true, sys1) =>
              userptr_queue_loop K rest (userspace_frame_index + 1) (incr_frame_order st)
                ((num_queued_buffers + 1) % 2 ^ 16) sizes sys1

/-- The dequeue loop of the USERPTR branch of `put_frame_data` (source lines 957-1004).
Each iteration consumes one unit of fuel; on EAGAIN the loop counter is decremented and
then incremented, so it stays where it is. -/
def userptr_dequeue_loop (K : Kernel) (st : V4L2_Backend) :
    Nat → Nat → Nat → List (List Nat) → Syscalls → Option (List (List Nat) × Syscalls)
  | 0, num_buffer_requests, num_queued_buffers, sizes, sys =>
      if num_buffer_requests < num_queued_buffers then none else some (sizes, sys)
  | fuel + 1, num_buffer_requests, num_queued_buffers, sizes, sys =>
      if num_buffer_requests < num_queued_buffers then
        let res := K.dqbuf sys.nd
        let sys1 : Syscalls :=
          { sys with nd := sys.nd + 1, trace := sys.trace ++ [Event.DQBUF res] }
        match res with
        | dqbuf_result.error Errno.EAGAIN =>
            userptr_dequeue_loop K st fuel num_buffer_requests num_queued_buffers sizes
              (try_device K sys1).2
        | dqbuf_result.error _ =>
            userptr_dequeue_loop K st fuel (num_buffer_requests + 1) num_queued_buffers sizes sys1
        | dqbuf_result.ok buf =>
            match (if st._buffer_plane_type_ = v4l2_buf_type.V4L2_BUF_TYPE_VIDEO_CAPTURE_MPLANE
                   then sizes_write_planes (plane_bytesused buf) buf.index buf.length 0 sizes
                   else sizes_write sizes buf.index 0 buf.bytesused) with
            | none => none
            | some sizes1 =>
                userptr_dequeue_loop K st fuel (num_buffer_requests + 1) num_queued_buffers
                  sizes1 sys1
      else some (sizes, sys)

/-- Source `put_frame_data`.  The matrix `sizes` is created with one zeroed row of
`num_planes()` entries per caller view; the MMAP branch then fills it from
`get_frame_data`, the USERPTR branch queues every caller buffer, waits once and
dequeues as many buffers as were queued. -/
def put_frame_data (fuel : Nat) (K : Kernel) (st : V4L2_Backend)
    (userspace_frames : List Multiplanar_Buffer_View) (sys : Syscalls) :
    Option (List (List Nat) × V4L2_Backend × Syscalls) :=
  let sizes := List.replicate userspace_frames.length (List.replicate (num_planes st) 0)
  if get_memory_mapping_type_v4l2 st = v4l2_memory.V4L2_MEMORY_MMAP
      ∨ get_memory_mapping_type_v4l2 st = v4l2_memory.V4L2_MEMORY_DMABUF then
    put_frame_data_mmap K (num_planes st) userspace_frames 0 st sizes sys
  else
    match userptr_queue_loop K userspace_frames 0 st 0 sizes sys with
    | none => none
    | some (st1, num_queued_buffers, sizes1, sys1) =>
        match userptr_dequeue_loop K st1 fuel 0 num_queued_buffers sizes1 (try_device K sys1).2 with
        | none => none
        | some (sizes2, sys2) => some (sizes2, st1, sys2)

/-! ## `get_frame_data` -/

/-- The views over `_allocated_buffers_[buffer_index]`, `n` planes from `plane_index` on. -/
def allocated_planes (st : V4L2_Backend) (buffer_index : Nat) :
    Nat → Nat → Option Multiplanar_Buffer_View
  | 0, _ => some []
  | n + 1, plane_index =>
      match st._allocated_buffers_[buffer_index]? with
      | none => none
      | some row =>
          match row[plane_index]? with
          | none => none
          | some sp => (allocated_planes st buffer_index n (plane_index + 1)).map (fun v => sp :: v)

/-- The vector `per_buffer_planes` built by the USERPTR branch of `get_frame_data`. -/
def per_buffer_planes (st : V4L2_Backend) : Nat → Nat → Option (List Multiplanar_Buffer_View)
  | 0, _ => some []
  | n + 1, buffer_index =>
      match allocated_planes st buffer_index (num_planes st) 0 with
      | none => none
      | some v => (per_buffer_planes st n (buffer_index + 1)).map (fun vs => v :: vs)

/-- The loops `planes_to_return.emplace_back(buffer_to_use[plane_index].data(),
bytes_used[plane_index])` of the USERPTR branch of `get_frame_data`. -/
def userptr_view (buffer_to_use : Multiplanar_Buffer_View) (bytes_used : List Nat) :
    Nat → Nat → Option Multiplanar_Buffer_View
  | 0, _ => some []
  | n + 1, plane_index =>
      match buffer_to_use[plane_index]?, bytes_used[plane_index]? with
      | some sp, some used =>
          (userptr_view buffer_to_use bytes_used n (plane_index + 1)).map (fun v =>
            { data := sp.data, size := used } :: v)
      | _, _ => none

/-- Source `get_frame_data`.  In USERPTR mode it runs `put_frame_data` over the backend's
own buffers and returns the first (Oldest) or the last buffer; otherwise it is the MMAP
part `get_frame_data_mmap`. -/
def get_frame_data (fuel : Nat) (K : Kernel) (st : V4L2_Backend) (sys : Syscalls) :
    Option (Multiplanar_Buffer_View × V4L2_Backend × Syscalls) :=
  if get_memory_mapping_type_v4l2 st = v4l2_memory.V4L2_MEMORY_USERPTR then
    match per_buffer_planes st st._num_buffers_ 0 with
    | none => none
    | some views =>
        match put_frame_data fuel K st views sys with
        | none => none
        | some (bytes_used_per_buffer, st1, sys1) =>
            match bytes_used_per_buffer with
            | [] => some ([], st1, sys1)
            | front :: _ =>
                if front.isEmpty then some ([], st1, sys1)
                else if st._configuration_.v4l2.buffer_usage_policy
                    = Internal_Buffering_Strategy.Oldest then
                  match views[0]? with
                  | none => none
                  | some buffer_to_use =>
                      (userptr_view buffer_to_use front (num_planes st) 0).map (fun v =>
                        (v, st1, sys1))
                else
                  match views.getLast?, bytes_used_per_buffer.getLast? with
                  | some buffer_to_use, some bytes_used =>
                      (userptr_view buffer_to_use bytes_used (num_planes st) 0).map (fun v =>
                        (v, st1, sys1))
                  | _, _ => none
  else get_frame_data_mmap K st sys

/-! ## State invariant established by construction -/

/-- What `setup_device` and `setup_buffering` leave behind: the format type, the plane
type and the configured plane type agree, `REQBUFS` granted between 1 and `UINT_MAX - 1`
buffers, and `_mapped_buffers_` has one row of `num_planes()` mapped planes per slot. -/
def WellFormed (st : V4L2_Backend) : Prop :=
  st._v4l2_capture_format_.type = get_buffer_type_v4l2 st
    ∧ st._buffer_plane_type_ = get_buffer_type_v4l2 st
    ∧ 1 ≤ st._num_buffers_
    ∧ st._num_buffers_ < 2 ^ 32
    ∧ st._mapped_buffers_.length = st._num_buffers_
    ∧ ∀ row ∈ st._mapped_buffers_, row.length = num_planes st

instance (st : V4L2_Backend) : Decidable (WellFormed st) := by
  unfold WellFormed; infer_instance

/-! ## Construction (`V4L2_Backend::V4L2_Backend`, `setup_device`, `setup_buffering`)

The device and the C library are an oracle `Device` that answers each call of the
constructor from its payload; the calls are logged in order as `Setup_Event`s.  A
construction ends in a backend, in one of the `throw`s of the source
(`Construction_Error`) or in undefined behaviour (a `std::vector` indexed out of
range, a `double` converted to an integer type that cannot hold it).  Allocation failure
is not modelled.  Loop indices declared `int` are taken not to overflow.  A `double` is
the rational it holds; the rounding of the one division in `set_fps` is not modelled. -/

/-- The table `pixel_formats_fourcc` (`Abstract_Capture_Backend.hpp`). -/
def pixel_formats_fourcc : List (Pixel_Format × (Char × Char × Char × Char)) :=
  [(Pixel_Format.YUYV422, ('Y', 'U', 'Y', 'V')),
   (Pixel_Format.YUV422P, ('4', '2', '2', 'P')),
   (Pixel_Format.NV12, ('N', 'V', '1', '2')),
   (Pixel_Format.NV12sp, ('N', 'M', '1', '2')),
   (Pixel_Format.MJPEG, ('M', 'J', 'P', 'G')),
   (Pixel_Format.BGR24, ('B', 'G', 'R', '3')),
   (Pixel_Format.RGB24, ('R', 'G', 'B', '3'))]

/-- The macro `v4l2_fourcc(a, b, c, d)` of `linux/videodev2.h`. -/
def v4l2_fourcc (a b c d : Char) : Nat :=
  a.toNat ||| (b.toNat <<< 8) ||| (c.toNat <<< 16) ||| (d.toNat <<< 24)

/-- The constant `V4L2_PIX_FMT_MJPEG`, `v4l2_fourcc('M', 'J', 'P', 'G')`. -/
def V4L2_PIX_FMT_MJPEG : Nat := v4l2_fourcc 'M' 'J' 'P' 'G'

/-- Value of `V4L2_FIELD_NONE` in `enum v4l2_field`. -/
def V4L2_FIELD_NONE : Nat := 1

/-- Value of `V4L2_FIELD_INTERLACED` in `enum v4l2_field`. -/
def V4L2_FIELD_INTERLACED : Nat := 4

/-- Value of `V4L2_QUANTIZATION_FULL_RANGE` in `enum v4l2_quantization`. -/
def V4L2_QUANTIZATION_FULL_RANGE : Nat := 1

/-- Value of `V4L2_QUANTIZATION_LIM_RANGE` in `enum v4l2_quantization`. -/
def V4L2_QUANTIZATION_LIM_RANGE : Nat := 2

/-- Capability bit `V4L2_CAP_VIDEO_CAPTURE`. -/
def V4L2_CAP_VIDEO_CAPTURE : Nat := 0x00000001

/-- Capability bit `V4L2_CAP_VIDEO_CAPTURE_MPLANE`. -/
def V4L2_CAP_VIDEO_CAPTURE_MPLANE : Nat := 0x00001000

/-- Capability bit `V4L2_CAP_STREAMING`. -/
def V4L2_CAP_STREAMING : Nat := 0x04000000

/-- Value of `V4L2_EXPOSURE_MANUAL` in `enum v4l2_exposure_auto_type`. -/
def V4L2_EXPOSURE_MANUAL : Int := 1

/-- Value of `V4L2_EXPOSURE_APERTURE_PRIORITY` in `enum v4l2_exposure_auto_type`. -/
def V4L2_EXPOSURE_APERTURE_PRIORITY : Int := 3

/-- The value `MAP_FAILED`, `(void*) -1`, as an address. -/
def MAP_FAILED : Nat := 2 ^ 64 - 1

/-- Control identifiers the backend reads or writes. -/
inductive v4l2_cid
  | V4L2_CID_ZOOM_ABSOLUTE | V4L2_CID_FOCUS_ABSOLUTE | V4L2_CID_SHARPNESS | V4L2_CID_FOCUS_AUTO
  | V4L2_CID_BRIGHTNESS | V4L2_CID_CONTRAST | V4L2_CID_SATURATION | V4L2_CID_HUE
  | V4L2_CID_GAIN | V4L2_CID_EXPOSURE_ABSOLUTE | V4L2_CID_WHITE_BALANCE_TEMPERATURE
  | V4L2_CID_AUTO_WHITE_BALANCE | V4L2_CID_EXPOSURE_AUTO | V4L2_CID_EXPOSURE_AUTO_PRIORITY
deriving DecidableEq, Repr

/-- Outcome of `stat` on the device path: `-1`, or `0` with a mode that is not, or is, a
character device. -/
inductive stat_result
  | error | not_chr | chr
deriving DecidableEq, Repr

/-- The device and the C library as seen by the constructor and the control accessors.
Each field answers one call from its payload: `stat` and `open_fd` take the device
index of the path `/dev/video<index>` (`open_fd` is the return value of `open`);
`querycap` gives the capability word; `s_fmt` the format written back; `s_parm` takes
the buffer type and the requested numerator and denominator and gives the pair
(numerator, denominator) written back; `g_ctrl` the value written back; `reqbufs` the
count written back; `querybuf` the descriptor written back; `expbuf` takes the buffer and
plane index and gives the exported fd; `mmap` takes length, fd and offset and gives the
address (`MAP_FAILED` on failure); `alloc` is the address at which the byte vector
`_allocated_buffers_[i][j]` is allocated.  `none` and `false` stand for the return value
`-1` with the payload untouched. -/
structure Device where
  stat : Int → stat_result
  open_fd : Int → Int
  querycap : Option Nat
  cropcap : Bool
  s_crop : Bool
  s_fmt : v4l2_format → Option v4l2_format
  s_parm : v4l2_buf_type → Nat → Nat → Option (Nat × Nat)
  s_ctrl : v4l2_cid → Int → Bool
  g_ctrl : v4l2_cid → Option Int
  reqbufs : Nat → v4l2_buf_type → v4l2_memory → Option Nat
  querybuf : v4l2_buffer → Option v4l2_buffer
  expbuf : Nat → Nat → Option Int
  mmap : Nat → Int → Nat → Nat
  qbuf : v4l2_buffer → Bool
  streamon : Bool
  alloc : Nat → Nat → Nat

/-- One logged call of the constructor, with its payload and its outcome (the last three
entries are the calls of the destructor). -/
inductive Setup_Event
  | STAT (device_index : Int) (res : stat_result)
  | OPEN (device_index : Int) (fd : Int)
  | QUERYCAP (res : Option Nat)
  | CROPCAP (type : v4l2_buf_type) (ret : Bool)
  | S_CROP (type : v4l2_buf_type) (left top : Int) (width height : Nat) (ret : Bool)
  | S_FMT (payload : v4l2_format) (res : Option v4l2_format)
  | S_PARM (type : v4l2_buf_type) (numerator denominator : Nat) (res : Option (Nat × Nat))
  | S_CTRL (id : v4l2_cid) (value : Int) (ret : Bool)
  | REQBUFS (count : Nat) (type : v4l2_buf_type) (memory : v4l2_memory) (res : Option Nat)
  | QUERYBUF (buf : v4l2_buffer) (res : Option v4l2_buffer)
  | EXPBUF (index plane : Nat) (res : Option Int)
  | MMAP (length : Nat) (fd : Int) (offset : Nat) (address : Nat)
  | QBUF (buf : v4l2_buffer) (ret : Bool)
  | STREAMON (type : v4l2_buf_type) (ret : Bool)
  | STREAMOFF (type : v4l2_buf_type)
  | MUNMAP (address length : Nat)
  | CLOSE (fd : Int)
deriving DecidableEq, Repr

/-- The `throw` statements of the constructor, `setup_device` and `setup_buffering`, in
source order. -/
inductive Construction_Error
  | pixel_format_not_supported
  | cannot_identify_camera_device
  | camera_device_is_not_a_device
  | cannot_open_camera_device
  | VIDIOC_QUERYCAP
  | not_a_video_capture_device
  | no_streaming_io
  | VIDIOC_S_FMT
  | VIDIOC_REQBUFS
  | insufficient_buffer_memory
  | VIDIOC_QUERYBUF
  | mmap
  | VIDIOC_QBUF
  | VIDIOC_STREAMON
deriving DecidableEq, Repr

/-- How a run of construction code ends: normally, in a `throw`, or in undefined
behaviour. -/
inductive Outcome (α : Type)
  | ok (a : α)
  | raised (e : Construction_Error)
  | undefined
deriving DecidableEq, Repr

/-- Source `is_mjpeg`. -/
def is_mjpeg (st : V4L2_Backend) : Bool := decide (st._pixel_format_ = V4L2_PIX_FMT_MJPEG)

/-! ### Control accessors and `set_fps` -/

/-- The common body of the setters: `ctrl = {0}`, the id and the value are stored and one
`VIDIOC_S_CTRL` is issued; false when the ioctl returns `-1`, true otherwise. -/
def s_ctrl (D : Device) (id : v4l2_cid) (value : Int) : Bool × Setup_Event :=
  if D.s_ctrl id value = false then (false, Setup_Event.S_CTRL id value false)
  else (true, Setup_Event.S_CTRL id value true)

/-- Source `set_auto_exposure_mode`. -/
def set_auto_exposure_mode (D : Device) (type : Int) : Bool × Setup_Event :=
  s_ctrl D v4l2_cid.V4L2_CID_EXPOSURE_AUTO type

/-- Source `enable_auto_exposure_auto_priority_mode`. -/
def enable_auto_exposure_auto_priority_mode (D : Device) (enable : Bool) :
    Bool × Setup_Event :=
  s_ctrl D v4l2_cid.V4L2_CID_EXPOSURE_AUTO_PRIORITY (if enable = true then 1 else 0)

/-- The first statements of every getter: `ctrl = {0}`, the id is stored and one
`VIDIOC_G_CTRL` is issued.  The result is whether the ioctl succeeded and `ctrl.value`
after the call: the value written back, or the initial 0 when the ioctl failed. -/
def g_ctrl (D : Device) (id : v4l2_cid) : Bool × Int :=
  match D.g_ctrl id with
  | none => (false, 0)
  | some value => (true, value)

/-- Source `get_zoom`: returns `ctrl.value` whether or not the ioctl succeeded. -/
def get_zoom (D : Device) : Int := (g_ctrl D v4l2_cid.V4L2_CID_ZOOM_ABSOLUTE).2

/-- Source `get_focus`. -/
def get_focus (D : Device) : Int := (g_ctrl D v4l2_cid.V4L2_CID_FOCUS_ABSOLUTE).2

/-- Source `get_sharpness`. -/
def get_sharpness (D : Device) : Int := (g_ctrl D v4l2_cid.V4L2_CID_SHARPNESS).2

/-- Source `get_auto_focus`: `ctrl.value` converted to `bool`. -/
def get_auto_focus (D : Device) : Bool := (g_ctrl D v4l2_cid.V4L2_CID_FOCUS_AUTO).2 != 0

/-- Source `get_brightness`. -/
def get_brightness (D : Device) : Int := (g_ctrl D v4l2_cid.V4L2_CID_BRIGHTNESS).2

/-- Source `get_contrast`. -/
def get_contrast (D : Device) : Int := (g_ctrl D v4l2_cid.V4L2_CID_CONTRAST).2

/-- Source `get_saturation`. -/
def get_saturation (D : Device) : Int := (g_ctrl D v4l2_cid.V4L2_CID_SATURATION).2

/-- Source `get_hue`. -/
def get_hue (D : Device) : Int := (g_ctrl D v4l2_cid.V4L2_CID_HUE).2

/-- Source `get_gain`. -/
def get_gain (D : Device) : Int := (g_ctrl D v4l2_cid.V4L2_CID_GAIN).2

/-- Source `get_exposure`. -/
def get_exposure (D : Device) : Int := (g_ctrl D v4l2_cid.V4L2_CID_EXPOSURE_ABSOLUTE).2

/-- Source `get_white_balance_temperature`. -/
def get_white_balance_temperature (D : Device) : Int :=
  (g_ctrl D v4l2_cid.V4L2_CID_WHITE_BALANCE_TEMPERATURE).2

/-- Source `get_auto_white_balance_val`: `ctrl.value` converted to `bool`. -/
def get_auto_white_balance_val (D : Device) : Bool :=
  (g_ctrl D v4l2_cid.V4L2_CID_AUTO_WHITE_BALANCE).2 != 0

/-- Source `get_auto_exposure_current_value`: the one getter with a `return` in the
failure branch; it returns `-1` there. -/
def get_auto_exposure_current_value (D : Device) : Int :=
  if (g_ctrl D v4l2_cid.V4L2_CID_EXPOSURE_AUTO).1 = false then -1
  else (g_ctrl D v4l2_cid.V4L2_CID_EXPOSURE_AUTO).2

/-- Source `is_auto_exposure_auto_priority_enabled`: `ctrl.value` converted to `bool`. -/
def is_auto_exposure_auto_priority_enabled (D : Device) : Bool :=
  (g_ctrl D v4l2_cid.V4L2_CID_EXPOSURE_AUTO_PRIORITY).2 != 0

/-- Source `get_manual_exposure_value`. -/
def get_manual_exposure_value (D : Device) : Int :=
  (g_ctrl D v4l2_cid.V4L2_CID_EXPOSURE_ABSOLUTE).2

/-- The constant `std::numeric_limits<double>::epsilon()`. -/
def epsilon : ℚ := 1 / 2 ^ 52

/-- Source `are_floats_equal`: the three-way comparison of `|a - b|` with epsilon is
`equivalent`, that is, `|a - b|` is equal to epsilon. -/
def are_floats_equal (a b : ℚ) : Bool := decide (|a - b| = epsilon)

/-- Conversion of a `double` to `unsigned int`: the value truncated toward zero; undefined
(`none`) when the truncated value does not fit. -/
def double_to_uint (x : ℚ) : Option Nat :=
  if 0 ≤ Int.tdiv x.num x.den ∧ Int.tdiv x.num x.den < 2 ^ 32 then
    some (Int.tdiv x.num x.den).toNat
  else none

/-- Source `set_fps`: one `VIDIOC_S_PARM` with `timeperframe = 1 / fps`; returns 0 when
the ioctl fails or the numerator read back is 0, else compares `fps` with the rate read
back and returns 0 or that rate.  `none` when the conversion of `fps` to the
`denominator` field is undefined. -/
def set_fps (D : Device) (st : V4L2_Backend) (fps : ℚ) : Option (ℚ × Setup_Event) :=
  match double_to_uint fps with
  | none => none
  | some denominator =>
      some
        (match D.s_parm (get_buffer_type_v4l2 st) 1 denominator with
          | none => 0
          | some (numerator_set, denominator_set) =>
              if numerator_set ≠ 0 then
                if are_floats_equal fps ((denominator_set : ℚ) / (numerator_set : ℚ)) = true
                then 0
                else (denominator_set : ℚ) / (numerator_set : ℚ)
              else 0,
         Setup_Event.S_PARM (get_buffer_type_v4l2 st) 1 denominator
           (D.s_parm (get_buffer_type_v4l2 st) 1 denominator))

/-! ### The constructor -/

/-- The statements of the constructor before `setup_device()` (source lines 58-76): the
table lookup (`none` is the `throw`), the plane type, the fourcc code, the frame counter
and the reset of `_limit_range_` for MJPEG. -/
def init_members (params : Stream_Configuration) : Option V4L2_Backend :=
  match pixel_formats_fourcc.lookup params.pixel_format with
  | none => none
  | some (c0, c1, c2, c3) =>
      let st0 : V4L2_Backend := { _configuration_ := params }
      let st1 : V4L2_Backend := { st0 with _buffer_plane_type_ := get_buffer_type_v4l2 st0 }
      let st2 : V4L2_Backend :=
        { st1 with _pixel_format_ := v4l2_fourcc c0 c1 c2 c3, _frame_order_ := 0 }
      if is_mjpeg st2 = true then some { st2 with _limit_range_ := false } else some st2

/-- Conversion of an `unsigned int` to `int` (modular). -/
def to_int32 (x : Nat) : Int :=
  if x % 2 ^ 32 < 2 ^ 31 then ((x % 2 ^ 32 : Nat) : Int) else ((x % 2 ^ 32 : Nat) : Int) - 2 ^ 32

/-- The call `std::accumulate(crop_rect.begin(), crop_rect.end(), 0)`: the accumulator is
an `int`; each step adds in `unsigned int` and converts the sum back to `int`. -/
def accumulate_crop_rect (crop_rect : List Nat) : Int :=
  crop_rect.foldl (fun acc x => to_int32 ((acc % 2 ^ 32).toNat + x % 2 ^ 32)) 0

/-- The crop part of `setup_device` (source lines 184-238): CROPCAP, then S_CROP when
CROPCAP succeeded and the sum of the rectangle is not 0.  Errors are logged and ignored. -/
def setup_crop (D : Device) (st : V4L2_Backend) (log : List Setup_Event) : List Setup_Event :=
  if D.cropcap = true then
    if accumulate_crop_rect st._configuration_.v4l2.crop_rect ≠ 0 then
      log ++ [Setup_Event.CROPCAP st._buffer_plane_type_ true]
        ++ [Setup_Event.S_CROP st._buffer_plane_type_
          (to_int32 (st._configuration_.v4l2.crop_rect.getD 0 0))
          (to_int32 (st._configuration_.v4l2.crop_rect.getD 1 0))
          (st._configuration_.v4l2.crop_rect.getD 2 0 % 2 ^ 32)
          (st._configuration_.v4l2.crop_rect.getD 3 0 % 2 ^ 32) D.s_crop]
    else log ++ [Setup_Event.CROPCAP st._buffer_plane_type_ true]
  else log ++ [Setup_Event.CROPCAP st._buffer_plane_type_ false]

/-- The payload of `VIDIOC_S_FMT` built by `setup_device` (source lines 240-276), in the
multi-plane (`fmt.pix_mp`) and in the single-plane (`fmt.pix`) layout. -/
def s_fmt_payload (st : V4L2_Backend) : v4l2_format :=
  if st._buffer_plane_type_ = v4l2_buf_type.V4L2_BUF_TYPE_VIDEO_CAPTURE_MPLANE then
    { type := st._buffer_plane_type_,
      width := st._configuration_.width,
      height := st._configuration_.height,
      pixelformat := st._pixel_format_,
      field := if is_mjpeg st = true then V4L2_FIELD_NONE else V4L2_FIELD_INTERLACED,
      quantization := if st._limit_range_ = true then V4L2_QUANTIZATION_LIM_RANGE
        else V4L2_QUANTIZATION_FULL_RANGE }
  else
    { type := st._buffer_plane_type_,
      width := st._configuration_.width,
      height := st._configuration_.height,
      pixelformat := st._pixel_format_,
      field := if is_mjpeg st = true then V4L2_FIELD_NONE else V4L2_FIELD_INTERLACED,
      quantization := if st._limit_range_ = true then V4L2_QUANTIZATION_LIM_RANGE
        else V4L2_QUANTIZATION_FULL_RANGE }

/-- The last statements of `setup_device` (source lines 291-294), given the result of the
call `set_fps(_configuration_.fps)`: the value returned is printed and dropped, then the
two exposure setters run and their results are dropped. -/
def setup_controls (D : Device) (st : V4L2_Backend) (log : List Setup_Event)
    (fps_set : Option (ℚ × Setup_Event)) : Outcome V4L2_Backend × List Setup_Event :=
  match fps_set with
  | none => (Outcome.undefined, log)
  | some (_, event) =>
      (Outcome.ok st,
        log ++ [event] ++ [(set_auto_exposure_mode D V4L2_EXPOSURE_APERTURE_PRIORITY).2]
          ++ [(enable_auto_exposure_auto_priority_mode D false).2])

/-- The format part of `setup_device` (source lines 240-294), entered once the capability
checks have passed and the crop part has run: S_FMT, then `set_fps` and the exposure
setters. -/
def setup_format (D : Device) (st : V4L2_Backend) (log : List Setup_Event) :
    Outcome V4L2_Backend × List Setup_Event :=
  match D.s_fmt (s_fmt_payload st) with
  | none =>
      (Outcome.raised Construction_Error.VIDIOC_S_FMT,
        log ++ [Setup_Event.S_FMT (s_fmt_payload st) none])
  | some written =>
      setup_controls D { st with _v4l2_capture_format_ := written }
        (log ++ [Setup_Event.S_FMT (s_fmt_payload st) (some written)])
        (set_fps D { st with _v4l2_capture_format_ := written } (st._configuration_.fps : ℚ))

/-- Source `setup_device`: `stat`, `open`, QUERYCAP and the capability checks, the crop
part, then the format part. -/
def setup_device (D : Device) (st : V4L2_Backend) (log : List Setup_Event) :
    Outcome V4L2_Backend × List Setup_Event :=
  match D.stat st._configuration_.device_index with
  | stat_result.error =>
      (Outcome.raised Construction_Error.cannot_identify_camera_device,
        log ++ [Setup_Event.STAT st._configuration_.device_index stat_result.error])
  | stat_result.not_chr =>
      (Outcome.raised Construction_Error.camera_device_is_not_a_device,
        log ++ [Setup_Event.STAT st._configuration_.device_index stat_result.not_chr])
  | stat_result.chr =>
      if D.open_fd st._configuration_.device_index = -1 then
        (Outcome.raised Construction_Error.cannot_open_camera_device,
          log ++ [Setup_Event.STAT st._configuration_.device_index stat_result.chr]
            ++ [Setup_Event.OPEN st._configuration_.device_index (-1)])
      else
        match D.querycap with
        | none =>
            (Outcome.raised Construction_Error.VIDIOC_QUERYCAP,
              log ++ [Setup_Event.STAT st._configuration_.device_index stat_result.chr]
                ++ [Setup_Event.OPEN st._configuration_.device_index
                  (D.open_fd st._configuration_.device_index)]
                ++ [Setup_Event.QUERYCAP none])
        | some capabilities =>
            if capabilities &&& V4L2_CAP_VIDEO_CAPTURE = 0
                ∧ capabilities &&& V4L2_CAP_VIDEO_CAPTURE_MPLANE = 0 then
              (Outcome.raised Construction_Error.not_a_video_capture_device,
                log ++ [Setup_Event.STAT st._configuration_.device_index stat_result.chr]
                  ++ [Setup_Event.OPEN st._configuration_.device_index
                    (D.open_fd st._configuration_.device_index)]
                  ++ [Setup_Event.QUERYCAP (some capabilities)])
            else if capabilities &&& V4L2_CAP_STREAMING = 0 then
              (Outcome.raised Construction_Error.no_streaming_io,
                log ++ [Setup_Event.STAT st._configuration_.device_index stat_result.chr]
                  ++ [Setup_Event.OPEN st._configuration_.device_index
                    (D.open_fd st._configuration_.device_index)]
                  ++ [Setup_Event.QUERYCAP (some capabilities)])
            else
              setup_format D
                { st with _device_file_descriptor_ := D.open_fd st._configuration_.device_index }
                (setup_crop D
                  { st with
                      _device_file_descriptor_ := D.open_fd st._configuration_.device_index }
                  (log ++ [Setup_Event.STAT st._configuration_.device_index stat_result.chr]
                    ++ [Setup_Event.OPEN st._configuration_.device_index
                      (D.open_fd st._configuration_.device_index)]
                    ++ [Setup_Event.QUERYCAP (some capabilities)]))

/-- The assignment `_mapped_buffers_[i][j] = sp`; `none` when an index is out of range. -/
def mapped_write (st : V4L2_Backend) (i j : Nat) (sp : Span) : Option V4L2_Backend :=
  match st._mapped_buffers_[i]? with
  | none => none
  | some row =>
      if j < row.length then
        some { st with _mapped_buffers_ := st._mapped_buffers_.set i (row.set j sp) }
      else none

/-- The statement `_mapped_buffers_[buffer_index].resize(planes_count)`, on a row that is
still empty: the row becomes `planes_count` empty spans. -/
def mapped_resize (st : V4L2_Backend) (buffer_index planes_count : Nat) : V4L2_Backend :=
  let row : Multiplanar_Buffer_View := List.replicate planes_count { data := 0, size := 0 }
  { st with _mapped_buffers_ := st._mapped_buffers_.set buffer_index row }

/-- The statement `_buffer_dma_fds_[buffer_index].emplace_back(fd, length)`. -/
def dma_fds_emplace_back (st : V4L2_Backend) (buffer_index : Nat) (fd : Int) (length : Nat) :
    V4L2_Backend :=
  let row : List (Int × Nat) := st._buffer_dma_fds_.getD buffer_index [] ++ [(fd, length)]
  { st with _buffer_dma_fds_ := st._buffer_dma_fds_.set buffer_index row }

/-- The payload of `VIDIOC_QUERYBUF` for `buffer_index` (source lines 343-362). -/
def querybuf_payload (st : V4L2_Backend) (buffer_index : Nat) : v4l2_buffer :=
  if st._buffer_plane_type_ = v4l2_buf_type.V4L2_BUF_TYPE_VIDEO_CAPTURE_MPLANE then
    { type := st._buffer_plane_type_, memory := get_memory_mapping_type_v4l2 st,
      index := buffer_index, planes := List.replicate (num_planes st) {},
      length := num_planes st }
  else
    { type := st._buffer_plane_type_, memory := get_memory_mapping_type_v4l2 st,
      index := buffer_index, length := st._v4l2_capture_format_.sizeimage }

/-- The `mmap` of one plane and the statements after it (source lines 410-434 and
464-490): the span is stored in `_mapped_buffers_[buffer_index][plane_index]`, then the
address is compared with `MAP_FAILED`. -/
def map_plane (D : Device) (st : V4L2_Backend) (buffer_index plane_index length : Nat)
    (fd : Int) (offset : Nat) (log : List Setup_Event) :
    Outcome V4L2_Backend × List Setup_Event :=
  match mapped_write st buffer_index plane_index
      { data := D.mmap length fd offset, size := length } with
  | none =>
      (Outcome.undefined, log ++ [Setup_Event.MMAP length fd offset (D.mmap length fd offset)])
  | some st1 =>
      if D.mmap length fd offset = MAP_FAILED then
        (Outcome.raised Construction_Error.mmap,
          log ++ [Setup_Event.MMAP length fd offset (D.mmap length fd offset)])
      else (Outcome.ok st1, log ++ [Setup_Event.MMAP length fd offset (D.mmap length fd offset)])

/-- The statements for one plane in the mapping loop: while `dmabuf` holds, EXPBUF (a
failure clears `dmabuf`, a success records the fd), then the `mmap` over the exported fd
at offset 0, or over the device fd at the queried offset when `dmabuf` is clear.  The
result carries the value of `dmabuf` after the plane. -/
def export_and_map (D : Device) (st : V4L2_Backend) (buffer_index plane_index : Nat)
    (dmabuf : Bool) (buf_length length offset : Nat) (log : List Setup_Event) :
    (Outcome V4L2_Backend × List Setup_Event) × Bool :=
  if dmabuf = true then
    match D.expbuf buffer_index plane_index with
    | none =>
        (map_plane D st buffer_index plane_index length st._device_file_descriptor_ offset
          (log ++ [Setup_Event.EXPBUF buffer_index plane_index none]), false)
    | some fd =>
        (map_plane D (dma_fds_emplace_back st buffer_index fd buf_length) buffer_index
          plane_index length fd 0
          (log ++ [Setup_Event.EXPBUF buffer_index plane_index (some fd)]), true)
  else
    (map_plane D st buffer_index plane_index length st._device_file_descriptor_ offset log,
      false)

/-- The plane loop of the multi-plane branch of the mapping loop (source lines 438-491),
`n` iterations from `plane_index` on. -/
def map_planes (D : Device) (buffer_index : Nat) (buf : v4l2_buffer) :
    Nat → Nat → Bool → V4L2_Backend → List Setup_Event →
      Outcome V4L2_Backend × List Setup_Event
  | 0, _, _, st, log => (Outcome.ok st, log)
  | n + 1, plane_index, dmabuf, st, log =>
      match export_and_map D st buffer_index plane_index dmabuf buf.length
          (buf.planes.getD plane_index {}).length
          (buf.planes.getD plane_index {}).m_mem_offset log with
      | ((Outcome.ok st1, log1), dmabuf1) =>
          map_planes D buffer_index buf n (plane_index + 1) dmabuf1 st1 log1
      | ((Outcome.raised e, log1), _) => (Outcome.raised e, log1)
      | ((Outcome.undefined, log1), _) => (Outcome.undefined, log1)

/-- One iteration of the mapping loop of `setup_buffering` (source lines 341-493):
QUERYBUF, the row of `_mapped_buffers_` resized to `planes_count` spans, then, with
`dmabuf` starting at true for this buffer, EXPBUF and `mmap` for plane 0 (single-plane)
or for each plane (multi-plane). -/
def map_buffer (D : Device) (st : V4L2_Backend) (buffer_index : Nat) (log : List Setup_Event) :
    Outcome V4L2_Backend × List Setup_Event :=
  match D.querybuf (querybuf_payload st buffer_index) with
  | none =>
      (Outcome.raised Construction_Error.VIDIOC_QUERYBUF,
        log ++ [Setup_Event.QUERYBUF (querybuf_payload st buffer_index) none])
  | some buf =>
      if st._buffer_plane_type_ = v4l2_buf_type.V4L2_BUF_TYPE_VIDEO_CAPTURE then
        (export_and_map D (mapped_resize st buffer_index (num_planes st)) buffer_index 0 true buf.length buf.length buf.m_offset
          (log ++ [Setup_Event.QUERYBUF (querybuf_payload st buffer_index) (some buf)])).1
      else
        map_planes D buffer_index buf (num_planes st) 0 true
          (mapped_resize st buffer_index (num_planes st))
          (log ++ [Setup_Event.QUERYBUF (querybuf_payload st buffer_index) (some buf)])

/-- The mapping loop of `setup_buffering`, `n` iterations from `buffer_index` on. -/
def map_buffers (D : Device) :
    Nat → Nat → V4L2_Backend → List Setup_Event → Outcome V4L2_Backend × List Setup_Event
  | 0, _, st, log => (Outcome.ok st, log)
  | n + 1, buffer_index, st, log =>
      match map_buffer D st buffer_index log with
      | (Outcome.ok st1, log1) => map_buffers D n (buffer_index + 1) st1 log1
      | (Outcome.raised e, log1) => (Outcome.raised e, log1)
      | (Outcome.undefined, log1) => (Outcome.undefined, log1)

/-- The payload of the initial `VIDIOC_QBUF` of slot `i` (source lines 497-509). -/
def initial_qbuf_payload (st : V4L2_Backend) (i : Nat) : v4l2_buffer :=
  if st._buffer_plane_type_ = v4l2_buf_type.V4L2_BUF_TYPE_VIDEO_CAPTURE_MPLANE then
    { type := st._buffer_plane_type_, memory := get_memory_mapping_type_v4l2 st, index := i,
      planes := List.replicate (num_planes st) {}, length := num_planes st }
  else
    { type := st._buffer_plane_type_, memory := get_memory_mapping_type_v4l2 st, index := i }

/-- The queueing loop that ends the MMAP branch of `setup_buffering` (source lines
495-517), `n` iterations from slot `i` on. -/
def initial_qbufs (D : Device) (st : V4L2_Backend) :
    Nat → Nat → List Setup_Event → Outcome V4L2_Backend × List Setup_Event
  | 0, _, log => (Outcome.ok st, log)
  | n + 1, i, log =>
      if D.qbuf (initial_qbuf_payload st i) = false then
        (Outcome.raised Construction_Error.VIDIOC_QBUF,
          log ++ [Setup_Event.QBUF (initial_qbuf_payload st i) false])
      else initial_qbufs D st n (i + 1) (log ++ [Setup_Event.QBUF (initial_qbuf_payload st i) true])

/-- The assignment to `_allocated_buffers_[i][j]` that stands for
`_allocated_buffers_[i][j].resize(size)`; `none` when an index is out of range. -/
def allocated_write (st : V4L2_Backend) (i j : Nat) (sp : Span) : Option V4L2_Backend :=
  match st._allocated_buffers_[i]? with
  | none => none
  | some row =>
      if j < row.length then
        some { st with _allocated_buffers_ := st._allocated_buffers_.set i (row.set j sp) }
      else none

/-- The statement `_allocated_buffers_[buffer_index].resize(planes_count)`, on a row that
is still empty: the row becomes `planes_count` empty byte vectors. -/
def allocated_resize (st : V4L2_Backend) (buffer_index planes_count : Nat) : V4L2_Backend :=
  let row : List Span := List.replicate planes_count { data := 0, size := 0 }
  { st with _allocated_buffers_ := st._allocated_buffers_.set buffer_index row }

/-- The inner loop of the USERPTR branch (source lines 537-542), `n` planes from `j` on. -/
def allocate_planes (D : Device) (buffer_index : Nat) :
    Nat → Nat → V4L2_Backend → Option V4L2_Backend
  | 0, _, st => some st
  | n + 1, j, st =>
      match allocated_write st buffer_index j
          { data := D.alloc buffer_index j,
            size := st._v4l2_capture_format_.plane_sizeimage.getD j 0 } with
      | none => none
      | some st1 => allocate_planes D buffer_index n (j + 1) st1

/-- The allocation loop of the USERPTR branch of `setup_buffering` (source lines
526-544), `n` iterations from `buffer_index` on. -/
def allocate_buffers (D : Device) : Nat → Nat → V4L2_Backend → Option V4L2_Backend
  | 0, _, st => some st
  | n + 1, buffer_index, st =>
      if st._buffer_plane_type_ = v4l2_buf_type.V4L2_BUF_TYPE_VIDEO_CAPTURE then
        match allocated_write (allocated_resize st buffer_index (num_planes st)) buffer_index 0
            { data := D.alloc buffer_index 0, size := st._v4l2_capture_format_.sizeimage } with
        | none => none
        | some st2 => allocate_buffers D n (buffer_index + 1) st2
      else
        match allocate_planes D buffer_index (num_planes st) 0
            (allocated_resize st buffer_index (num_planes st)) with
        | none => none
        | some st2 => allocate_buffers D n (buffer_index + 1) st2

/-- The part of `setup_buffering` after the check of the granted count (source lines
334-545): in MMAP mode the mapping loop and the initial QBUFs, in USERPTR mode the
allocation of the backend's own buffers. -/
def setup_buffers (D : Device) (st : V4L2_Backend) (count : Nat) (log : List Setup_Event) :
    Outcome V4L2_Backend × List Setup_Event :=
  if get_memory_mapping_type_v4l2 st = v4l2_memory.V4L2_MEMORY_MMAP
      ∨ get_memory_mapping_type_v4l2 st = v4l2_memory.V4L2_MEMORY_DMABUF then
    match map_buffers D count 0
        { st with _num_buffers_ := count,
                  _buffer_dma_fds_ := List.replicate count [],
                  _mapped_buffers_ := List.replicate count [] } log with
    | (Outcome.ok st2, log2) => initial_qbufs D st2 st2._num_buffers_ 0 log2
    | (Outcome.raised e, log2) => (Outcome.raised e, log2)
    | (Outcome.undefined, log2) => (Outcome.undefined, log2)
  else if get_memory_mapping_type_v4l2 st = v4l2_memory.V4L2_MEMORY_USERPTR then
    match allocate_buffers D count 0
        { st with _num_buffers_ := count, _allocated_buffers_ := List.replicate count [] } with
    | none => (Outcome.undefined, log)
    | some st2 => (Outcome.ok st2, log)
  else (Outcome.ok st, log)

/-- Source `setup_buffering`: REQBUFS and the check of the granted count, then the
buffers. -/
def setup_buffering (D : Device) (st : V4L2_Backend) (log : List Setup_Event) :
    Outcome V4L2_Backend × List Setup_Event :=
  match D.reqbufs st._configuration_.num_buffers st._buffer_plane_type_
      (get_memory_mapping_type_v4l2 st) with
  | none =>
      (Outcome.raised Construction_Error.VIDIOC_REQBUFS,
        log ++ [Setup_Event.REQBUFS st._configuration_.num_buffers st._buffer_plane_type_
          (get_memory_mapping_type_v4l2 st) none])
  | some count =>
      if count < 1 then
        (Outcome.raised Construction_Error.insufficient_buffer_memory,
          log ++ [Setup_Event.REQBUFS st._configuration_.num_buffers st._buffer_plane_type_
            (get_memory_mapping_type_v4l2 st) (some count)])
      else
        setup_buffers D st count
          (log ++ [Setup_Event.REQBUFS st._configuration_.num_buffers st._buffer_plane_type_
            (get_memory_mapping_type_v4l2 st) (some count)])

/-- Source constructor `V4L2_Backend::V4L2_Backend`: the member initialisation,
`setup_device`, `setup_buffering`, then STREAMON.  The result is the outcome and the log
of the calls made. -/
def construct (params : Stream_Configuration) (D : Device) :
    Outcome V4L2_Backend × List Setup_Event :=
  match init_members params with
  | none => (Outcome.raised Construction_Error.pixel_format_not_supported, [])
  | some st =>
      match setup_device D st [] with
      | (Outcome.ok st1, log1) =>
          match setup_buffering D st1 log1 with
          | (Outcome.ok st2, log2) =>
              if D.streamon = false then
                (Outcome.raised Construction_Error.VIDIOC_STREAMON,
                  log2 ++ [Setup_Event.STREAMON st2._buffer_plane_type_ false])
              else (Outcome.ok st2, log2 ++ [Setup_Event.STREAMON st2._buffer_plane_type_ true])
          | (Outcome.raised e, log2) => (Outcome.raised e, log2)
          | (Outcome.undefined, log2) => (Outcome.undefined, log2)
      | (Outcome.raised e, log1) => (Outcome.raised e, log1)
      | (Outcome.undefined, log1) => (Outcome.undefined, log1)

/-! ### Demo helper (`main.cpp`) -/

/-- Source `get_num_planes` of the demo. -/
def get_num_planes (px_format : Pixel_Format) : Nat :=
  match px_format with
  | Pixel_Format.NV12sp => 2
  | Pixel_Format.YUV422P => 3
  | Pixel_Format.NV12 => 1
  | Pixel_Format.YUYV422 => 1
  | Pixel_Format.MJPEG => 1
  | Pixel_Format.BGR24 => 1
  | Pixel_Format.RGB24 => 1
  | Pixel_Format.Invalid => 0

/-! ## Plane sizes of the demo (`main.cpp`)

`size_t` is 64 bits wide and wraps; a `double` has a 53-bit significand, rounds to
nearest with ties to even, and its exponent range is not reached by the values that
occur (all below `2^66`). -/

/-- The `double` nearest to the natural number `x`, for `x` below `2^66`: `x` itself when
it has at most 53 significant bits, else `x` rounded at the lowest kept bit (to nearest,
ties to even). -/
def round_to_double (x : Nat) : Nat :=
  if x < 2 ^ 53 then x
  else
    let shift := ((List.range 13).find? (fun s => decide (x < 2 ^ (54 + s)))).getD 12 + 1
    let q := x / 2 ^ shift
    let r := x % 2 ^ shift
    let half := 2 ^ (shift - 1)
    if r < half ∨ (r = half ∧ q % 2 = 0) then q * 2 ^ shift else (q + 1) * 2 ^ shift

/-- The expression `area * 1.5` assigned to a `size_t`, for `area` of type `size_t`: the
operand is converted to `double`, the product `3 * d / 2` is rounded to `double` (half the
rounding of `3 * d`; below `2^53` the half-integer is exact), and the conversion back
truncates.  `none` when the result does not fit a `size_t` (undefined behaviour). -/
def times_one_and_a_half (area : Nat) : Option Nat :=
  let product := round_to_double (3 * round_to_double area) / 2
  if product < 2 ^ 64 then some product else none

/-- The assignment `sizes[i] = v` on a `std::vector<size_t>`; `none` when `i` is out of
range. -/
def plane_size_write (sizes : List Nat) (i v : Nat) : Option (List Nat) :=
  if i < sizes.length then some (sizes.set i v) else none

/-- Source `get_plane_dimensions` of the demo: the vector is resized to
`get_num_planes(px_format)` zeros and filled per format. -/
def get_plane_dimensions (px_format : Pixel_Format) (width height : Nat) : Option (List Nat) :=
  let sizes := List.replicate (get_num_planes px_format) 0
  let area := (width * height) % 2 ^ 64
  match px_format with
  | Pixel_Format.MJPEG => plane_size_write sizes 0 ((area * 2) % 2 ^ 64)
  | Pixel_Format.YUYV422 => plane_size_write sizes 0 ((area * 2) % 2 ^ 64)
  | Pixel_Format.YUV422P =>
      ((plane_size_write sizes 0 area).bind (fun s => plane_size_write s 1 (area / 2))).bind
        (fun s => plane_size_write s 2 (area / 2))
  | Pixel_Format.NV12 =>
      (times_one_and_a_half area).bind (fun v => plane_size_write sizes 0 v)
  | Pixel_Format.NV12sp =>
      (plane_size_write sizes 0 area).bind (fun s => plane_size_write s 1 (area / 2))
  | Pixel_Format.BGR24 => plane_size_write sizes 0 ((area * 3) % 2 ^ 64)
  | Pixel_Format.RGB24 => plane_size_write sizes 0 ((area * 3) % 2 ^ 64)
  | Pixel_Format.Invalid => some sizes

/-! ## Vocabulary of the statements -/

/-- Log entries of consecutive QBUF calls on the descriptors `bufs`, the first of which
is the `k`-th QBUF overall. -/
def qbuf_events (K : Kernel) : Nat → List v4l2_buffer → List Event
  | _, [] => []
  | k, buf :: rest => Event.QBUF buf (K.qbuf k) :: qbuf_events K (k + 1) rest

/-- Log entries of `n` consecutive DQBUF calls, the first of which is the `k`-th overall. -/
def dqbuf_events (K : Kernel) : Nat → Nat → List Event
  | 0, _ => []
  | n + 1, k => Event.DQBUF (K.dqbuf k) :: dqbuf_events K n (k + 1)

/-- The spans `take_span` appends for `buf`, in closed form. -/
def spans_of (st : V4L2_Backend) (buf : v4l2_buffer) : Multiplanar_Buffer_View :=
  if get_buffer_type_v4l2 st = v4l2_buf_type.V4L2_BUF_TYPE_VIDEO_CAPTURE_MPLANE then
    (List.range' 0 (num_planes st)).map (fun i =>
      { data := ((mapped_at st buf.index i).map Span.data).getD 0,
        size := plane_bytesused buf i })
  else
    [{ data := ((mapped_at st buf.index 0).map Span.data).getD 0, size := buf.bytesused }]

/-- The buffers the Only_Newest loop stores in its map during `n` DQBUF attempts starting
with the `k`-th DQBUF: those the ioctl returned with an index inside the ring of
`num_buffers` slots (and other than the sentinel `dummy_buffer_index`), in dequeue order. -/
def stored_buffers (K : Kernel) (num_buffers : Nat) : Nat → Nat → List v4l2_buffer
  | 0, _ => []
  | n + 1, k =>
      match K.dqbuf k with
      | dqbuf_result.ok buf =>
          if buf.index < num_buffers ∧ buf.index ≠ dummy_buffer_index then
            buf :: stored_buffers K num_buffers n (k + 1)
          else stored_buffers K num_buffers n (k + 1)
      | dqbuf_result.error _ => stored_buffers K num_buffers n (k + 1)

/-- The map update `ordered_buffers_store` when no lookup fails. -/
def store_pure (st : V4L2_Backend) (buf : v4l2_buffer) : Ordered_Buffers → Ordered_Buffers
  | [] => [(buf.timestamp.tv_usec, (spans_of st buf, buf))]
  | (k, e) :: rest =>
      if buf.timestamp.tv_usec < k then
        (buf.timestamp.tv_usec, (spans_of st buf, buf)) :: (k, e) :: rest
      else if buf.timestamp.tv_usec = k then (k, (e.1 ++ spans_of st buf, buf)) :: rest
      else (k, e) :: store_pure st buf rest

/-- The map the Only_Newest loop has built after storing `bufs` in order. -/
def store_all (st : V4L2_Backend) (bufs : List v4l2_buffer) (m : Ordered_Buffers) :
    Ordered_Buffers :=
  bufs.foldl (fun acc buf => store_pure st buf acc) m

/-- The value of a `uintmax_t` counter after `n` increments `++x`. -/
def bump (n : Nat) (x : Nat) : Nat := (fun y => (y + 1) % 2 ^ 64)^[n] x

/-- The syscall log after the entry of a `get_frame_data` call in MMAP mode: one QBUF per
pending descriptor, then the `select` of the readiness wait. -/
def entry_syscalls (K : Kernel) (st : V4L2_Backend) (sys : Syscalls) : Syscalls :=
  { nq := sys.nq + st._buffer_of_buffers.length, ns := sys.ns + 1, nd := sys.nd,
    trace := sys.trace ++ qbuf_events K sys.nq st._buffer_of_buffers
      ++ [Event.SELECT (K.select sys.ns)] }

/-- The descriptor the Oldest branch pushes on the pending queue, by DQBUF outcome. -/
def oldest_buf (st : V4L2_Backend) : dqbuf_result → v4l2_buffer
  | dqbuf_result.ok buf => buf
  | dqbuf_result.error _ => instantiate_buf st

/-- The view the Oldest branch returns, by DQBUF outcome. -/
def oldest_view (st : V4L2_Backend) : dqbuf_result → Multiplanar_Buffer_View
  | dqbuf_result.ok buf => if buf.index < st._num_buffers_ then spans_of st buf else []
  | dqbuf_result.error Errno.EIO => spans_of st (instantiate_buf st)
  | dqbuf_result.error _ => []

/-- The shape of the Only_Newest map when no key was stored twice: keys increase strictly
and every entry holds one buffer, its key and its spans. -/
def MapSorted (st : V4L2_Backend) (m : Ordered_Buffers) : Prop :=
  m.Pairwise (fun a b => a.1 < b.1)
    ∧ ∀ e ∈ m, e.1 = e.2.2.timestamp.tv_usec ∧ e.2.1 = spans_of st e.2.2

/-- A matrix of `M` rows of `P` entries each. -/
def Shape (M P : Nat) (sizes : List (List Nat)) : Prop :=
  sizes.length = M ∧ ∀ row ∈ sizes, row.length = P

/-- What `setup_device` leaves behind in either buffering mode: the negotiated format's
type and the stored plane type are the configured plane type. -/
def Negotiated (st : V4L2_Backend) : Prop :=
  st._v4l2_capture_format_.type = get_buffer_type_v4l2 st
    ∧ st._buffer_plane_type_ = get_buffer_type_v4l2 st

instance (st : V4L2_Backend) : Decidable (Negotiated st) := by
  unfold Negotiated; infer_instance

/-- The per-plane `bytesused` a successful USERPTR DQBUF reports for its buffer, as a row
of `num_planes()` entries: the first `buf.length` planes of the plane array (multi-plane)
or `buf.bytesused` in entry 0 (single-plane); planes the kernel did not report are 0. -/
def reported_row (st : V4L2_Backend) (buf : v4l2_buffer) : List Nat :=
  if st._buffer_plane_type_ = v4l2_buf_type.V4L2_BUF_TYPE_VIDEO_CAPTURE_MPLANE then
    (List.range (num_planes st)).map (fun p => if p < buf.length then plane_bytesused buf p else 0)
  else (List.replicate (num_planes st) 0).set 0 buf.bytesused

/-- The rows of `sizes` agree with the DQBUF answers number `lo` to `hi - 1`: row `i` is
the row reported by the successful answer that carried index `i`, and is all zeros when
no successful answer in that range carried index `i`. -/
def RowsOK (K : Kernel) (st : V4L2_Backend) (M lo hi : Nat) (sizes : List (List Nat)) : Prop :=
  ∀ i, i < M →
    (∀ k b, lo ≤ k → k < hi → K.dqbuf k = dqbuf_result.ok b → b.index = i →
        sizes[i]? = some (reported_row st b))
    ∧ ((∀ k b, lo ≤ k → k < hi → K.dqbuf k = dqbuf_result.ok b → b.index ≠ i) →
        sizes[i]? = some (List.replicate (num_planes st) 0))

/-! ## Counting the entries of a syscall log -/

/-- Number of DQBUF ioctls in a log, whatever their outcome. -/
def dqbuf_attempts (log : List Event) : Nat :=
  log.countP (fun e => match e with
    | Event.DQBUF _ => true
    | _ => false)

/-- Number of QBUF ioctls in a log that returned 0: buffers handed to the kernel. -/
def queued_count (log : List Event) : Nat :=
  log.countP (fun e => match e with
    | Event.QBUF _ ret => ret
    | _ => false)

/-- Number of DQBUF ioctls in a log that returned 0: buffers taken back from the kernel. -/
def dequeued_count (log : List Event) : Nat :=
  log.countP (fun e => match e with
    | Event.DQBUF (dqbuf_result.ok _) => true
    | _ => false)

/-- Number of DQBUF ioctls in a log that failed with an `errno` other than EAGAIN. -/
def dqbuf_hard_errors (log : List Event) : Nat :=
  log.countP (fun e => match e with
    | Event.DQBUF (dqbuf_result.error Errno.EAGAIN) => false
    | Event.DQBUF (dqbuf_result.error _) => true
    | _ => false)

/-! ## Vocabulary for the construction -/

/-- The members that the buffer setup leaves as `setup_device` set them. -/
def Stable (st st1 : V4L2_Backend) : Prop :=
  st1._configuration_ = st._configuration_
    ∧ st1._frame_order_ = st._frame_order_
    ∧ st1._v4l2_capture_format_ = st._v4l2_capture_format_
    ∧ st1._pixel_format_ = st._pixel_format_
    ∧ st1._device_file_descriptor_ = st._device_file_descriptor_
    ∧ st1._buffer_plane_type_ = st._buffer_plane_type_
    ∧ st1._limit_range_ = st._limit_range_
    ∧ st1._buffer_of_buffers = st._buffer_of_buffers

/-- Log entries of the buffer setup: REQBUFS, QUERYBUF, EXPBUF, `mmap` and QBUF. -/
def is_buffer_setup : Setup_Event → Bool
  | Setup_Event.REQBUFS _ _ _ _ => true
  | Setup_Event.QUERYBUF _ _ => true
  | Setup_Event.EXPBUF _ _ _ => true
  | Setup_Event.MMAP _ _ _ _ => true
  | Setup_Event.QBUF _ _ => true
  | _ => false

/-- A step of the buffer setup run from state `st` and log `log`: it appends entries of the
buffer setup to the log, does not end in the `throw` of the format check, and leaves the
members of `Stable` as they are. -/
def Extends (st : V4L2_Backend) (log : List Setup_Event)
    (r : Outcome V4L2_Backend × List Setup_Event) : Prop :=
  (∃ ext, r.2 = log ++ ext ∧ ∀ e ∈ ext, is_buffer_setup e = true)
    ∧ r.1 ≠ Outcome.raised Construction_Error.pixel_format_not_supported
    ∧ ∀ st1, r.1 = Outcome.ok st1 → Stable st st1

/-- The payloads of the S_FMT calls in a log. -/
def s_fmt_payloads (log : List Setup_Event) : List v4l2_format :=
  log.filterMap (fun e => match e with
    | Setup_Event.S_FMT payload _ => some payload
    | _ => none)

/-- The device passes the steps of `setup_device` before the crop part: `stat` finds a
character device, `open` succeeds, QUERYCAP succeeds and reports a capture capability
(single- or multi-plane) and the streaming capability. -/
def Device_Opens (D : Device) (device_index : Int) : Prop :=
  D.stat device_index = stat_result.chr
    ∧ D.open_fd device_index ≠ -1
    ∧ ∃ capabilities, D.querycap = some capabilities
        ∧ ¬ (capabilities &&& V4L2_CAP_VIDEO_CAPTURE = 0
              ∧ capabilities &&& V4L2_CAP_VIDEO_CAPTURE_MPLANE = 0)
        ∧ capabilities &&& V4L2_CAP_STREAMING ≠ 0

/-- The 32-bit code the constructor computes for a pixel-format tag (`none` when the
constructor throws at the table lookup). -/
def fourcc_code (pixel_format : Pixel_Format) : Option Nat :=
  (init_members { pixel_format := pixel_format }).map (fun st => st._pixel_format_)

/-! ## Vocabulary for the construction log -/
/-- Log entries of `setup_device`: `stat`, `open`, QUERYCAP, CROPCAP, S_CROP, S_FMT,
S_PARM and S_CTRL. -/
def is_device_setup : Setup_Event → Bool
  | Setup_Event.STAT _ _ => true
  | Setup_Event.OPEN _ _ => true
  | Setup_Event.QUERYCAP _ => true
  | Setup_Event.CROPCAP _ _ => true
  | Setup_Event.S_CROP _ _ _ _ _ _ => true
  | Setup_Event.S_FMT _ _ => true
  | Setup_Event.S_PARM _ _ _ _ => true
  | Setup_Event.S_CTRL _ _ _ => true
  | _ => false

/-- Log entries of the mapping loop: QUERYBUF, EXPBUF and `mmap`. -/
def is_mapping : Setup_Event → Bool
  | Setup_Event.QUERYBUF _ _ => true
  | Setup_Event.EXPBUF _ _ _ => true
  | Setup_Event.MMAP _ _ _ _ => true
  | _ => false

/-- QBUF entries of a construction log. -/
def is_setup_qbuf : Setup_Event → Bool
  | Setup_Event.QBUF _ _ => true
  | _ => false

/-- The entry is a `close`. -/
def is_close : Setup_Event → Bool
  | Setup_Event.CLOSE _ => true
  | _ => false

/-- The log entries of the initial QBUFs of slots `i`, ..., `i + n - 1`, all successful. -/
def initial_qbuf_events (st : V4L2_Backend) (n i : Nat) : List Setup_Event :=
  (List.range' i n).map (fun slot => Setup_Event.QBUF (initial_qbuf_payload st slot) true)

/-- A step of the construction run from state `st` and log `log`: it appends entries that
satisfy `P` to the log and leaves `_num_buffers_` as it is. -/
def Appends (P : Setup_Event → Bool) (st : V4L2_Backend) (log : List Setup_Event)
    (r : Outcome V4L2_Backend × List Setup_Event) : Prop :=
  (∃ ext, r.2 = log ++ ext ∧ ∀ e ∈ ext, P e = true)
    ∧ ∀ st1, r.1 = Outcome.ok st1 → st1._num_buffers_ = st._num_buffers_

/-- Log entries of the plane loop of the mapping: EXPBUF and `mmap`. -/
def is_plane_mapping : Setup_Event → Bool
  | Setup_Event.EXPBUF _ _ _ => true
  | Setup_Event.MMAP _ _ _ _ => true
  | _ => false

/-- The slot indices named by the QUERYBUF entries of a construction log, in order. -/
def querybuf_slots (log : List Setup_Event) : List Nat :=
  log.filterMap (fun e => match e with
    | Setup_Event.QUERYBUF buf _ => some buf.index
    | _ => none)

/-- The slot indices named by the QBUF entries of a construction log, in order. -/
def qbuf_slots (log : List Setup_Event) : List Nat :=
  log.filterMap (fun e => match e with
    | Setup_Event.QBUF buf _ => some buf.index
    | _ => none)

/-- The log entries of `k` planes of `buf`, from `plane_index` on, each mapped over the
file descriptor `fd` at its queried offset. -/
def device_mmap_events (D : Device) (fd : Int) (buf : v4l2_buffer) (plane_index k : Nat) :
    List Setup_Event :=
  (List.range' plane_index k).map (fun j =>
    Setup_Event.MMAP (buf.planes.getD j {}).length fd (buf.planes.getD j {}).m_mem_offset
      (D.mmap (buf.planes.getD j {}).length fd (buf.planes.getD j {}).m_mem_offset))

/-- The spans of the `mmap` entries of a log, in order: the address `mmap` returned and
the length mapped. -/
def mmap_spans (log : List Setup_Event) : List Span :=
  log.filterMap (fun e => match e with
    | Setup_Event.MMAP length _ _ address => some { data := address, size := length }
    | _ => none)

/-- Number of planes the mapping loop maps for each slot: plane 0 alone for single-plane
capture (source lines 383-435), `num_planes()` planes otherwise (lines 436-492). -/
def mapped_planes_count (st : V4L2_Backend) : Nat :=
  if st._buffer_plane_type_ = v4l2_buf_type.V4L2_BUF_TYPE_VIDEO_CAPTURE then 1
  else num_planes st

/-- The log entries `seg` are the mapping of slot `slot` of the backend `st`: a successful
QUERYBUF for the slot, then EXPBUF and `mmap` entries only, among them one `mmap` entry for
each plane the loop maps, none of which returned `MAP_FAILED`; and the row
`_mapped_buffers_[slot]` of `st` holds, plane by plane, the address and the length of
these `mmap` entries. -/
def Slot_Mapped (st : V4L2_Backend) (slot : Nat) (seg : List Setup_Event) : Prop :=
  ∃ buf planes,
    seg = Setup_Event.QUERYBUF (querybuf_payload st slot) (some buf) :: planes
    ∧ (∀ e ∈ planes, is_plane_mapping e = true)
    ∧ (mmap_spans planes).length = mapped_planes_count st
    ∧ (∀ sp ∈ mmap_spans planes, sp.data ≠ MAP_FAILED)
    ∧ ∀ plane, plane < mapped_planes_count st →
        mapped_at st slot plane = (mmap_spans planes)[plane]?

/-! ## Concrete backends and kernels used in the evaluations -/

/-- A constructed MMAP backend for single-plane capture with `n` mapped slots of 4096
bytes; slot `i` is mapped at address `4096 * (i + 1)`. -/
def ring_single (policy : Internal_Buffering_Strategy) (n : Nat) : V4L2_Backend :=
  { _configuration_ :=
      { num_buffers := n, buffering := Buffering.Internal,
        v4l2 := { buffer_usage_policy := policy, contiguous := true } },
    _v4l2_capture_format_ :=
      { type := v4l2_buf_type.V4L2_BUF_TYPE_VIDEO_CAPTURE, sizeimage := 4096 },
    _device_file_descriptor_ := 3,
    _buffer_plane_type_ := v4l2_buf_type.V4L2_BUF_TYPE_VIDEO_CAPTURE,
    _num_buffers_ := n,
    _mapped_buffers_ := (List.range n).map (fun i => [{ data := 4096 * (i + 1), size := 4096 }]) }

/-- A constructed MMAP backend for multi-plane capture with two planes per slot; slot `i`
has its planes mapped at `8192 * (i + 1)` (4096 bytes) and `8192 * (i + 1) + 4096`
(2048 bytes). -/
def ring_mplane (policy : Internal_Buffering_Strategy) (n : Nat) : V4L2_Backend :=
  { _configuration_ :=
      { num_buffers := n, buffering := Buffering.Internal,
        v4l2 := { buffer_usage_policy := policy, contiguous := false } },
    _v4l2_capture_format_ :=
      { type := v4l2_buf_type.V4L2_BUF_TYPE_VIDEO_CAPTURE_MPLANE, num_planes := 2,
        plane_sizeimage := [4096, 2048] },
    _device_file_descriptor_ := 3,
    _buffer_plane_type_ := v4l2_buf_type.V4L2_BUF_TYPE_VIDEO_CAPTURE_MPLANE,
    _num_buffers_ := n,
    _mapped_buffers_ := (List.range n).map (fun i =>
      [{ data := 8192 * (i + 1), size := 4096 }, { data := 8192 * (i + 1) + 4096, size := 2048 }]) }

/-- A single-plane payload as the kernel writes it on a successful DQBUF in MMAP mode. -/
def frame (index : Nat) (tv_sec tv_usec : Int) (bytesused : Nat) : v4l2_buffer :=
  { index := index, type := v4l2_buf_type.V4L2_BUF_TYPE_VIDEO_CAPTURE, bytesused := bytesused,
    timestamp := { tv_sec := tv_sec, tv_usec := tv_usec },
    memory := v4l2_memory.V4L2_MEMORY_MMAP, length := 4096 }

/-- A multi-plane payload as the kernel writes it on a successful DQBUF in MMAP mode. -/
def frame_mp (index : Nat) (tv_sec tv_usec : Int) (used : List Nat) : v4l2_buffer :=
  { index := index, type := v4l2_buf_type.V4L2_BUF_TYPE_VIDEO_CAPTURE_MPLANE,
    timestamp := { tv_sec := tv_sec, tv_usec := tv_usec },
    memory := v4l2_memory.V4L2_MEMORY_MMAP,
    planes := used.map (fun u => { bytesused := u, length := 4096 }),
    length := used.length }

/-- A kernel on which every QBUF succeeds, every `select` reports the fd ready, and the
k-th DQBUF gives the k-th entry of `answers` (EAGAIN once the list is used up). -/
def scripted_kernel (answers : List dqbuf_result) : Kernel :=
  { qbuf := fun _ => true,
    select := fun _ => { r := 1 },
    dqbuf := fun k => answers.getD k (dqbuf_result.error Errno.EAGAIN) }

/-- A kernel whose `select` always times out and whose DQBUF always answers EAGAIN. -/
def stalled_kernel : Kernel :=
  { qbuf := fun _ => true,
    select := fun _ => { r := 0 },
    dqbuf := fun _ => dqbuf_result.error Errno.EAGAIN }

/-- A two-slot single-plane backend (Oldest policy) holding two descriptors that wait to
be requeued. -/
def ring_with_pending : V4L2_Backend :=
  { ring_single Internal_Buffering_Strategy.Oldest 2 with
      _buffer_of_buffers := [frame 0 1 0 100, frame 1 1 33000 100] }

/-- A constructed USERPTR backend for single-plane capture with `n` buffers of 4096
bytes. -/
def userptr_single (n : Nat) : V4L2_Backend :=
  { _configuration_ :=
      { num_buffers := n, buffering := Buffering.USERPTR, v4l2 := { contiguous := true } },
    _v4l2_capture_format_ :=
      { type := v4l2_buf_type.V4L2_BUF_TYPE_VIDEO_CAPTURE, sizeimage := 4096 },
    _device_file_descriptor_ := 3,
    _buffer_plane_type_ := v4l2_buf_type.V4L2_BUF_TYPE_VIDEO_CAPTURE,
    _num_buffers_ := n,
    _allocated_buffers_ := (List.range n).map (fun i => [{ data := 4096 * (i + 1), size := 4096 }]) }

/-- A constructed USERPTR backend for multi-plane capture with two planes per buffer. -/
def userptr_mplane (n : Nat) : V4L2_Backend :=
  { _configuration_ :=
      { num_buffers := n, buffering := Buffering.USERPTR, v4l2 := { contiguous := false } },
    _v4l2_capture_format_ :=
      { type := v4l2_buf_type.V4L2_BUF_TYPE_VIDEO_CAPTURE_MPLANE, num_planes := 2,
        plane_sizeimage := [4096, 2048] },
    _device_file_descriptor_ := 3,
    _buffer_plane_type_ := v4l2_buf_type.V4L2_BUF_TYPE_VIDEO_CAPTURE_MPLANE,
    _num_buffers_ := n,
    _allocated_buffers_ := (List.range n).map (fun i =>
      [{ data := 8192 * (i + 1), size := 4096 }, { data := 8192 * (i + 1) + 4096, size := 2048 }]) }

/-- A multi-plane payload as the kernel writes it on a successful DQBUF in USERPTR mode. -/
def frame_up (index : Nat) (used : List Nat) : v4l2_buffer :=
  { index := index, type := v4l2_buf_type.V4L2_BUF_TYPE_VIDEO_CAPTURE_MPLANE,
    memory := v4l2_memory.V4L2_MEMORY_USERPTR,
    planes := used.map (fun u => { bytesused := u, length := 4096 }),
    length := used.length }

/-- A kernel on which the QBUF of the second caller buffer fails, every `select` reports
ready, and the DQBUFs answer EAGAIN once, then hand back caller buffers 2 and 0. -/
def userptr_kernel : Kernel :=
  { qbuf := fun k => k != 1,
    select := fun _ => { r := 1 },
    dqbuf := fun k =>
      if k = 1 then dqbuf_result.ok (frame_up 2 [300, 150])
      else if k = 2 then dqbuf_result.ok (frame_up 0 [280, 140])
      else if k = 0 then dqbuf_result.error Errno.EAGAIN
      else dqbuf_result.error Errno.EIO }

/-- Three caller views of two planes each. -/
def caller_views : List Multiplanar_Buffer_View :=
  [[{ data := 100000, size := 4096 }, { data := 104096, size := 2048 }],
   [{ data := 200000, size := 4096 }, { data := 204096, size := 2048 }],
   [{ data := 300000, size := 4096 }, { data := 304096, size := 2048 }]]

/-! ## Concrete devices used in the evaluations -/

/-- A device that accepts every call: capture, multi-plane capture and streaming
capabilities; S_FMT keeps the payload and reports `sizeimage` 4096 and, for the
multi-plane type, two planes of 4096 and 2048 bytes; S_PARM honours the requested rate;
REQBUFS grants the requested count; QUERYBUF reports 4096 bytes at offset `4096 * index`
(multi-plane: planes of 4096 and 2048 bytes); EXPBUF exports fd `10 + 2 * index + plane`; `mmap`
maps at `65536 * fd + offset + 4096`. -/
def good_device : Device :=
  { stat := fun _ => stat_result.chr,
    open_fd := fun _ => 3,
    querycap := some 0x04001001,
    cropcap := true,
    s_crop := true,
    s_fmt := fun payload =>
      if payload.type = v4l2_buf_type.V4L2_BUF_TYPE_VIDEO_CAPTURE_MPLANE then
        some { payload with sizeimage := 0, num_planes := 2, plane_sizeimage := [4096, 2048] }
      else some { payload with sizeimage := 4096 },
    s_parm := fun _ numerator denominator => some (numerator, denominator),
    s_ctrl := fun _ _ => true,
    g_ctrl := fun _ => some 7,
    reqbufs := fun count _ _ => some count,
    querybuf := fun buf =>
      if buf.type = v4l2_buf_type.V4L2_BUF_TYPE_VIDEO_CAPTURE_MPLANE then
        some { buf with planes := [{ length := 4096, m_mem_offset := 8192 * buf.index },
                                   { length := 2048, m_mem_offset := 8192 * buf.index + 4096 }] }
      else some { buf with length := 4096, m_offset := 4096 * buf.index },
    expbuf := fun index plane => some (10 + 2 * (index : Int) + (plane : Int)),
    mmap := fun _ fd offset => 65536 * fd.toNat + offset + 4096,
    qbuf := fun _ => true,
    streamon := true,
    alloc := fun i j => 1048576 * (i + 1) + 65536 * j }

/-- The device `good_device` with the four calls CROPCAP, S_CROP, S_PARM and S_CTRL
failing (S_CROP is failing too, but is not reached since CROPCAP fails). -/
def lenient_device : Device :=
  { good_device with
      cropcap := false, s_crop := false, s_parm := fun _ _ _ => none, s_ctrl := fun _ _ => false }

/-- The device `good_device` with S_CROP, S_PARM and S_CTRL failing while CROPCAP
succeeds. -/
def no_crop_device : Device :=
  { good_device with s_crop := false, s_parm := fun _ _ _ => none, s_ctrl := fun _ _ => false }

/-- A device on which every `VIDIOC_G_CTRL` fails. -/
def no_controls_device : Device := { good_device with g_ctrl := fun _ => none }

/-- A configuration of the demo: 640 x 480 at 30 fps on `/dev/video0`, two buffers. -/
def demo_configuration (pixel_format : Pixel_Format) (buffering : Buffering)
    (contiguous : Bool) : Stream_Configuration :=
  { width := 640, height := 480, fps := 30, pixel_format := pixel_format, device_index := 0,
    num_buffers := 2, buffering := buffering, v4l2 := { contiguous := contiguous } }

/-! ## Further kernels and devices used in the evaluations -/
/-- A kernel whose `select` fails with an `errno` other than EINTR (`EBADF`, say) and
whose DQBUF answers EAGAIN. -/
def failing_select_kernel : Kernel :=
  { qbuf := fun _ => true,
    select := fun _ => { r := -1, errno := Errno.OTHER },
    dqbuf := fun _ => dqbuf_result.error Errno.EAGAIN }

/-- A kernel whose `select` is interrupted every time. -/
def interrupted_kernel : Kernel :=
  { qbuf := fun _ => true,
    select := fun _ => { r := -1, errno := Errno.EINTR },
    dqbuf := fun _ => dqbuf_result.error Errno.EAGAIN }

/-- The device `good_device` without DMABUF export: every EXPBUF fails. -/
def no_dmabuf_device : Device := { good_device with expbuf := fun _ _ => none }

/-- The device `good_device` on which S_FMT fails. -/
def no_format_device : Device := { good_device with s_fmt := fun _ => none }

/-- The device `good_device` on which REQBUFS grants one buffer less than requested. -/
def frugal_device : Device := { good_device with reqbufs := fun count _ _ => some (count - 1) }

/-! # Theorems -/

/-! ## Basic facts about the helpers -/

theorem get_frame_data_internal (fuel : Nat) (K : Kernel) (st : V4L2_Backend) (sys : Syscalls)
    (h : st._configuration_.buffering = Buffering.Internal) :
    get_frame_data fuel K st sys = get_frame_data_mmap K st sys := by
  simp [get_frame_data, get_memory_mapping_type_v4l2, h]

theorem drain_pending_eq (K : Kernel) (q : List v4l2_buffer) (sys : Syscalls) :
    drain_pending K q sys =
      { sys with nq := sys.nq + q.length, trace := sys.trace ++ qbuf_events K sys.nq q } := by
  induction q generalizing sys with
  | nil => simp [drain_pending, qbuf_events]
  | cons b rest ih =>
      simp [drain_pending, queue_buf, qbuf_events, ih]
      omega

theorem try_device_snd (K : Kernel) (sys : Syscalls) :
    (try_device K sys).2 =
      { sys with ns := sys.ns + 1, trace := sys.trace ++ [Event.SELECT (K.select sys.ns)] } := by
  unfold try_device
  simp only []
  split_ifs <;> rfl

theorem try_device_fst (K : Kernel) (sys sys1 : Syscalls) (h : sys.ns = sys1.ns) :
    (try_device K sys).1 = (try_device K sys1).1 := by
  unfold try_device
  simp only [h]
  split_ifs <;> rfl

theorem mapped_at_some (st : V4L2_Backend) (hwf : WellFormed st) (slot plane : Nat)
    (hs : slot < st._num_buffers_) (hp : plane < num_planes st) :
    ∃ sp, mapped_at st slot plane = some sp := by
  obtain ⟨_, _, _, _, hlen, hrows⟩ := hwf
  have h1 : slot < st._mapped_buffers_.length := by omega
  have hrow := hrows _ (List.getElem_mem h1)
  have h2 : plane < (st._mapped_buffers_[slot]).length := by omega
  refine ⟨(st._mapped_buffers_[slot])[plane], ?_⟩
  simp [mapped_at, List.getElem?_eq_getElem h1, List.getElem?_eq_getElem h2]

theorem num_planes_single (st : V4L2_Backend) (hwf : WellFormed st)
    (h : get_buffer_type_v4l2 st ≠ v4l2_buf_type.V4L2_BUF_TYPE_VIDEO_CAPTURE_MPLANE) :
    num_planes st = 1 := by
  obtain ⟨ht, _⟩ := hwf
  unfold num_planes
  rw [ht]
  cases hb : get_buffer_type_v4l2 st
  · simp
  · exact absurd hb h

theorem take_span_loop_eq (st : V4L2_Backend) (hwf : WellFormed st) (buf : v4l2_buffer)
    (hidx : buf.index < st._num_buffers_) (n p : Nat) (c : Multiplanar_Buffer_View)
    (hn : p + n ≤ num_planes st) :
    take_span_loop st buf n p c =
      some (c ++ (List.range' p n).map (fun i =>
        ({ data := ((mapped_at st buf.index i).map Span.data).getD 0,
           size := plane_bytesused buf i } : Span))) := by
  induction n generalizing p c with
  | zero => simp [take_span_loop]
  | succ n ih =>
      obtain ⟨sp, hsp⟩ := mapped_at_some st hwf buf.index p hidx (by omega)
      simp only [take_span_loop, hsp]
      rw [ih (p + 1) _ (by omega)]
      simp [List.range'_succ, hsp]

theorem take_span_eq (st : V4L2_Backend) (hwf : WellFormed st) (buf : v4l2_buffer)
    (hidx : buf.index < st._num_buffers_) (c : Multiplanar_Buffer_View) :
    take_span st buf c = some (c ++ spans_of st buf) := by
  unfold take_span spans_of
  split_ifs with h
  · exact take_span_loop_eq st hwf buf hidx _ 0 c (by omega)
  · obtain ⟨sp, hsp⟩ := mapped_at_some st hwf buf.index 0 hidx
      (by rw [num_planes_single st hwf h]; omega)
    simp [hsp]

theorem spans_of_length (st : V4L2_Backend) (hwf : WellFormed st) (buf : v4l2_buffer) :
    (spans_of st buf).length = num_planes st := by
  unfold spans_of
  split_ifs with h
  · simp
  · simp [num_planes_single st hwf h]

theorem ordered_buffers_store_eq (st : V4L2_Backend) (hwf : WellFormed st) (buf : v4l2_buffer)
    (hidx : buf.index < st._num_buffers_) (m : Ordered_Buffers) :
    ordered_buffers_store st buf m = some (store_pure st buf m) := by
  induction m with
  | nil => simp [ordered_buffers_store, store_pure, take_span_eq st hwf buf hidx]
  | cons e rest ih =>
      obtain ⟨k, e⟩ := e
      simp only [ordered_buffers_store, store_pure, take_span_eq st hwf buf hidx, ih]
      split_ifs <;> simp

theorem wellFormed_frame_order (st : V4L2_Backend) (f : Nat) (q : List v4l2_buffer) :
    WellFormed { st with _frame_order_ := f, _buffer_of_buffers := q } ↔ WellFormed st :=
  Iff.rfl

theorem store_pure_frame_order (st : V4L2_Backend) (f : Nat) (q : List v4l2_buffer)
    (buf : v4l2_buffer) (m : Ordered_Buffers) :
    store_pure { st with _frame_order_ := f, _buffer_of_buffers := q } buf m
      = store_pure st buf m := by
  induction m with
  | nil => rfl
  | cons e rest ih =>
      obtain ⟨k, e⟩ := e
      simp only [store_pure, ih]
      rfl


theorem wellFormed_incr (st : V4L2_Backend) : WellFormed (incr_frame_order st) ↔ WellFormed st :=
  Iff.rfl

theorem store_all_frame_order (st : V4L2_Backend) (f : Nat) (q : List v4l2_buffer)
    (bufs : List v4l2_buffer) (m : Ordered_Buffers) :
    store_all { st with _frame_order_ := f, _buffer_of_buffers := q } bufs m
      = store_all st bufs m := by
  induction bufs generalizing m with
  | nil => rfl
  | cons b rest ih =>
      simp only [store_all, List.foldl_cons] at ih ⊢
      rw [store_pure_frame_order, ih]

theorem bump_succ (n x : Nat) : bump (n + 1) x = bump n ((x + 1) % 2 ^ 64) := by
  simp [bump, Function.iterate_succ_apply]

theorem only_newest_loop_eq (K : Kernel) (n : Nat) (st : V4L2_Backend) (m : Ordered_Buffers)
    (sys : Syscalls) (hwf : WellFormed st) :
    only_newest_loop K n st m sys =
      some ({ st with _frame_order_ := bump n st._frame_order_ },
        store_all st (stored_buffers K st._num_buffers_ n sys.nd) m,
        { sys with nd := sys.nd + n, trace := sys.trace ++ dqbuf_events K n sys.nd }) := by
  induction n generalizing st m sys with
  | zero => simp [only_newest_loop, bump, stored_buffers, store_all, dqbuf_events]
  | succ n ih =>
      have hwf1 : WellFormed (incr_frame_order st) := (wellFormed_incr st).2 hwf
      have key : ∀ (m1 : Ordered_Buffers),
          only_newest_loop K n (incr_frame_order st) m1
              { sys with nd := sys.nd + 1, trace := sys.trace ++ [Event.DQBUF (K.dqbuf sys.nd)] }
            = some ({ st with _frame_order_ := bump (n + 1) st._frame_order_ },
                store_all st (stored_buffers K st._num_buffers_ n (sys.nd + 1)) m1,
                { sys with nd := sys.nd + (n + 1),
                           trace := sys.trace ++ dqbuf_events K (n + 1) sys.nd }) := by
        intro m1
        rw [ih (incr_frame_order st) m1 _ hwf1]
        have e1 : store_all (incr_frame_order st)
            (stored_buffers K (incr_frame_order st)._num_buffers_ n (sys.nd + 1)) m1
            = store_all st (stored_buffers K st._num_buffers_ n (sys.nd + 1)) m1 :=
          store_all_frame_order st _ st._buffer_of_buffers _ m1
        simp only [e1, bump_succ, dqbuf_events]
        simp [incr_frame_order, Nat.add_assoc, Nat.add_comm 1 n]
      unfold only_newest_loop
      simp only [deque_buf]
      cases hres : K.dqbuf sys.nd with
      | ok b =>
          simp only []
          by_cases hge : b.index ≥ (incr_frame_order st)._num_buffers_
          · have hlt : ¬ b.index < st._num_buffers_ := by
              simpa [incr_frame_order] using hge
            simp only [hge, if_true]
            rw [← hres, key m]
            simp [stored_buffers, hres, hlt]
          · have hlt : b.index < st._num_buffers_ := by
              simpa [incr_frame_order] using hge
            simp only [hge, if_false]
            by_cases hd : b.index = dummy_buffer_index
            · simp only [hd, if_true]
              rw [← hres, key m]
              simp [stored_buffers, hres, hd]
            · simp only [hd, if_false]
              rw [ordered_buffers_store_eq (incr_frame_order st) hwf1 b hlt m]
              simp only []
              rw [← hres, key]
              have e2 : store_pure (incr_frame_order st) b m = store_pure st b m :=
                store_pure_frame_order st _ st._buffer_of_buffers b m
              simp [stored_buffers, hres, hlt, hd, store_all, e2]
      | error e =>
          cases e
          case EIO =>
            simp only []
            by_cases hge : dummy_buffer_index ≥ (incr_frame_order st)._num_buffers_
            · simp only [hge, if_true]
              rw [← hres, key m]; simp [stored_buffers, hres]
            · simp only [hge, if_false, if_true]
              rw [← hres, key m]; simp [stored_buffers, hres]
          all_goals
            simp only []
            rw [← hres, key m]
            simp [stored_buffers, hres]


theorem entry_syscalls_eq (K : Kernel) (st : V4L2_Backend) (sys : Syscalls) :
    (try_device K (drain_pending K st._buffer_of_buffers sys)).2 = entry_syscalls K st sys := by
  rw [try_device_snd, drain_pending_eq]
  rfl

theorem requeue_all_but_last_eq (K : Kernel) (m : Ordered_Buffers) (sys : Syscalls) :
    requeue_all_but_last K m sys = drain_pending K (m.dropLast.map (fun e => e.2.2)) sys := by
  induction m generalizing sys with
  | nil => rfl
  | cons e rest ih =>
      cases rest with
      | nil => rfl
      | cons e1 rest1 =>
          simp only [requeue_all_but_last, List.dropLast_cons₂, List.map_cons, drain_pending]
          exact ih _

theorem get_frame_data_mmap_oldest (K : Kernel) (st : V4L2_Backend) (sys : Syscalls)
    (hwf : WellFormed st)
    (hpol : st._configuration_.v4l2.buffer_usage_policy = Internal_Buffering_Strategy.Oldest)
    (hready : (try_device K (drain_pending K st._buffer_of_buffers sys)).1 = true) :
    get_frame_data_mmap K st sys =
      some (oldest_view st (K.dqbuf sys.nd),
        { st with _frame_order_ := (st._frame_order_ + 1) % 2 ^ 64,
                  _buffer_of_buffers := [oldest_buf st (K.dqbuf sys.nd)] },
        { entry_syscalls K st sys with
            nd := sys.nd + 1,
            trace := (entry_syscalls K st sys).trace ++ [Event.DQBUF (K.dqbuf sys.nd)] }) := by
  have h2 := entry_syscalls_eq K st sys
  unfold get_frame_data_mmap
  simp only []
  rcases hp : try_device K (drain_pending K st._buffer_of_buffers sys) with ⟨b, s2⟩
  rw [hp] at hready h2
  simp only [] at hready h2
  subst hready
  subst h2
  simp only [hpol]
  have hwf2 : WellFormed (incr_frame_order { st with _buffer_of_buffers := [] }) := hwf
  have hN : 1 ≤ st._num_buffers_ := hwf.2.2.1
  simp only [deque_buf]
  have hnd : (entry_syscalls K st sys).nd = sys.nd := rfl
  rw [hnd]
  cases hres : K.dqbuf sys.nd with
  | ok b =>
      simp only []
      by_cases hge : b.index ≥ (incr_frame_order { st with _buffer_of_buffers := [] })._num_buffers_
      · have hlt : ¬ b.index < st._num_buffers_ := by simpa [incr_frame_order] using hge
        simp only [hge, if_true]
        simp [oldest_view, oldest_buf, hlt, incr_frame_order, entry_syscalls]
      · have hlt : b.index < st._num_buffers_ := by simpa [incr_frame_order] using hge
        simp only [hge, if_false]
        rw [take_span_eq _ hwf2 b hlt]
        simp [oldest_view, oldest_buf, hlt, incr_frame_order, entry_syscalls]
        rfl
  | error e =>
      have hi : (instantiate_buf { st with _buffer_of_buffers := [] }).index = 0 := by
        unfold instantiate_buf
        split_ifs <;> rfl
      have hinst : instantiate_buf { st with _buffer_of_buffers := [] } = instantiate_buf st := rfl
      cases e
      case EIO =>
        simp only []
        have hge : ¬ (instantiate_buf { st with _buffer_of_buffers := [] }).index
            ≥ (incr_frame_order { st with _buffer_of_buffers := [] })._num_buffers_ := by
          rw [hi]
          simp only [incr_frame_order]
          omega
        simp only [hge, if_false]
        rw [take_span_eq _ hwf2 _ (by rw [hi]; exact hN)]
        simp [oldest_view, oldest_buf, incr_frame_order, entry_syscalls, hinst]
        rfl
      all_goals
        simp only []
        simp [oldest_view, oldest_buf, incr_frame_order, entry_syscalls, hinst]

theorem get_frame_data_mmap_only_newest (K : Kernel) (st : V4L2_Backend) (sys : Syscalls)
    (hwf : WellFormed st)
    (hpol : st._configuration_.v4l2.buffer_usage_policy
      = Internal_Buffering_Strategy.Only_Newest)
    (hready : (try_device K (drain_pending K st._buffer_of_buffers sys)).1 = true) :
    get_frame_data_mmap K st sys =
      match (store_all st (stored_buffers K st._num_buffers_ st._num_buffers_ sys.nd) []).getLast?
      with
      | none =>
          some ([],
            { st with _frame_order_ := bump st._num_buffers_ st._frame_order_,
                      _buffer_of_buffers := [] },
            { entry_syscalls K st sys with
                nd := sys.nd + st._num_buffers_,
                trace := (entry_syscalls K st sys).trace
                  ++ dqbuf_events K st._num_buffers_ sys.nd })
      | some last =>
          some (last.2.1,
            { st with _frame_order_ := bump st._num_buffers_ st._frame_order_,
                      _buffer_of_buffers := [last.2.2] },
            { nq := (entry_syscalls K st sys).nq
                + ((store_all st (stored_buffers K st._num_buffers_ st._num_buffers_ sys.nd)
                    []).dropLast.map (fun e => e.2.2)).length,
              ns := sys.ns + 1,
              nd := sys.nd + st._num_buffers_,
              trace := (entry_syscalls K st sys).trace
                ++ dqbuf_events K st._num_buffers_ sys.nd
                ++ qbuf_events K (entry_syscalls K st sys).nq
                    ((store_all st (stored_buffers K st._num_buffers_ st._num_buffers_ sys.nd)
                      []).dropLast.map (fun e => e.2.2)) }) := by
  have h2 := entry_syscalls_eq K st sys
  unfold get_frame_data_mmap
  simp only []
  rcases hp : try_device K (drain_pending K st._buffer_of_buffers sys) with ⟨b, s2⟩
  rw [hp] at hready h2
  simp only [] at hready h2
  subst hready
  subst h2
  simp only [hpol]
  have hwf1 : WellFormed { st with _buffer_of_buffers := [] } := hwf
  rw [only_newest_loop_eq K _ _ _ _ hwf1]
  have e1 : store_all { st with _buffer_of_buffers := [] }
      (stored_buffers K st._num_buffers_ st._num_buffers_ (entry_syscalls K st sys).nd) []
      = store_all st (stored_buffers K st._num_buffers_ st._num_buffers_ sys.nd) [] :=
    store_all_frame_order st st._frame_order_ [] _ _
  simp only [e1]
  generalize store_all st (stored_buffers K st._num_buffers_ st._num_buffers_ sys.nd) [] = m
  cases m with
  | nil => simp [entry_syscalls]
  | cons e rest =>
      cases rest with
      | nil => simp [entry_syscalls, qbuf_events]
      | cons e1 rest1 =>
          simp only [requeue_all_but_last_eq, drain_pending_eq]
          simp [entry_syscalls, List.getLast?_cons_cons, List.getLast?_eq_getLast]


theorem mem_store_pure (st : V4L2_Backend) (buf : v4l2_buffer) (m : Ordered_Buffers)
    (e : Int × (Multiplanar_Buffer_View × v4l2_buffer)) (he : e ∈ store_pure st buf m) :
    e.1 = buf.timestamp.tv_usec ∨ e ∈ m := by
  induction m with
  | nil =>
      simp only [store_pure, List.mem_singleton] at he
      left; rw [he]
  | cons x rest ih =>
      obtain ⟨k, v⟩ := x
      simp only [store_pure] at he
      split_ifs at he with h1 h2
      · rcases List.mem_cons.1 he with h | h
        · left; rw [h]
        · right; exact h
      · rcases List.mem_cons.1 he with h | h
        · left; rw [h]; exact h2.symm
        · right; exact List.mem_cons_of_mem _ h
      · rcases List.mem_cons.1 he with h | h
        · right; rw [h]; exact List.mem_cons_self _ _
        · rcases ih h with h3 | h3
          · left; exact h3
          · right; exact List.mem_cons_of_mem _ h3

theorem store_pure_sorted (st : V4L2_Backend) (buf : v4l2_buffer) (m : Ordered_Buffers)
    (hinv : MapSorted st m) (hnew : ∀ e ∈ m, e.1 ≠ buf.timestamp.tv_usec) :
    MapSorted st (store_pure st buf m)
      ∧ ((store_pure st buf m).map (fun e => e.2.2)).Perm (buf :: m.map (fun e => e.2.2)) := by
  induction m with
  | nil =>
      refine ⟨⟨by simp [store_pure], ?_⟩, by simp [store_pure]⟩
      intro e he
      simp only [store_pure, List.mem_singleton] at he
      subst he
      exact ⟨rfl, rfl⟩
  | cons x rest ih =>
      obtain ⟨k, v⟩ := x
      obtain ⟨hpw, hent⟩ := hinv
      have hk : k ≠ buf.timestamp.tv_usec := hnew (k, v) (List.mem_cons_self _ _)
      have hrest : MapSorted st rest :=
        ⟨(List.pairwise_cons.1 hpw).2, fun e he => hent e (List.mem_cons_of_mem _ he)⟩
      have hnew1 : ∀ e ∈ rest, e.1 ≠ buf.timestamp.tv_usec :=
        fun e he => hnew e (List.mem_cons_of_mem _ he)
      obtain ⟨⟨ihpw, ihent⟩, ihperm⟩ := ih hrest hnew1
      simp only [store_pure]
      split_ifs with h1 h2
      · refine ⟨⟨?_, ?_⟩, List.Perm.refl _⟩
        · refine List.pairwise_cons.2 ⟨?_, hpw⟩
          intro e he
          rcases List.mem_cons.1 he with h | h
          · rw [h]; exact h1
          · exact lt_trans h1 ((List.pairwise_cons.1 hpw).1 e h)
        · intro e he
          rcases List.mem_cons.1 he with h | h
          · subst h; exact ⟨rfl, rfl⟩
          · exact hent e h
      · exact absurd h2.symm hk
      · refine ⟨⟨?_, ?_⟩, ?_⟩
        · refine List.pairwise_cons.2 ⟨?_, ihpw⟩
          intro e he
          rcases mem_store_pure st buf rest e he with h | h
          · rw [h]
            have : k ≤ buf.timestamp.tv_usec := not_lt.1 h1
            exact lt_of_le_of_ne this hk
          · exact (List.pairwise_cons.1 hpw).1 e h
        · intro e he
          rcases List.mem_cons.1 he with h | h
          · subst h; exact hent _ (List.mem_cons_self _ _)
          · exact ihent e h
        · simp only [List.map_cons]
          exact (List.Perm.cons _ ihperm).trans (List.Perm.swap _ _ _)

theorem store_all_sorted (st : V4L2_Backend) (bufs : List v4l2_buffer) (m : Ordered_Buffers)
    (hinv : MapSorted st m)
    (hnodup : (bufs.map (fun b => b.timestamp.tv_usec)).Nodup)
    (hnew : ∀ b ∈ bufs, ∀ e ∈ m, e.1 ≠ b.timestamp.tv_usec) :
    MapSorted st (store_all st bufs m)
      ∧ ((store_all st bufs m).map (fun e => e.2.2)).Perm (m.map (fun e => e.2.2) ++ bufs) := by
  induction bufs generalizing m with
  | nil => simpa [store_all] using hinv
  | cons b rest ih =>
      obtain ⟨h1, h2⟩ := store_pure_sorted st b m hinv (hnew b (List.mem_cons_self _ _))
      have hnd : b.timestamp.tv_usec ∉ rest.map (fun b => b.timestamp.tv_usec)
          ∧ (rest.map (fun b => b.timestamp.tv_usec)).Nodup := by
        rw [List.map_cons] at hnodup
        exact List.nodup_cons.1 hnodup
      have hnew1 : ∀ b1 ∈ rest, ∀ e ∈ store_pure st b m, e.1 ≠ b1.timestamp.tv_usec := by
        intro b1 hb1 e he
        rcases mem_store_pure st b m e he with h | h
        · rw [h]
          intro hEq
          exact hnd.1 (List.mem_map.2 ⟨b1, hb1, hEq.symm⟩)
        · exact hnew b1 (List.mem_cons_of_mem _ hb1) e h
      obtain ⟨h3, h4⟩ := ih (store_pure st b m) h1 hnd.2 hnew1
      refine ⟨h3, ?_⟩
      have h5 : (store_all st (b :: rest) m) = store_all st rest (store_pure st b m) := rfl
      rw [h5]
      refine h4.trans ?_
      refine (List.Perm.append_right rest h2).trans ?_
      simpa using (@List.perm_middle _ b (m.map (fun e => e.2.2)) rest).symm

theorem mapSorted_le_getLast (st : V4L2_Backend) (m : Ordered_Buffers) (hinv : MapSorted st m)
    (last : Int × (Multiplanar_Buffer_View × v4l2_buffer)) (hl : m.getLast? = some last) :
    ∀ e ∈ m, e.1 ≤ last.1 := by
  have hne : m ≠ [] := by
    intro h; subst h; simp at hl
  have hlast : m.getLast hne = last := by
    rw [List.getLast?_eq_getLast m hne] at hl
    exact Option.some.inj hl
  have hm : m.dropLast ++ [last] = m := by
    rw [← hlast]; exact List.dropLast_append_getLast hne
  intro e he
  rw [← hm] at he
  have hpw := hinv.1
  rw [← hm, List.pairwise_append] at hpw
  rcases List.mem_append.1 he with h | h
  · exact le_of_lt (hpw.2.2 e h last (List.mem_singleton_self _))
  · rw [List.mem_singleton.1 h]


theorem stored_buffers_index (K : Kernel) (num_buffers n k : Nat) :
    ∀ b ∈ stored_buffers K num_buffers n k,
      b.index < num_buffers ∧ b.index ≠ dummy_buffer_index := by
  induction n generalizing k with
  | zero => simp [stored_buffers]
  | succ n ih =>
      intro b hb
      simp only [stored_buffers] at hb
      cases hres : K.dqbuf k with
      | ok buf =>
          rw [hres] at hb
          simp only [] at hb
          split_ifs at hb with h
          · rcases List.mem_cons.1 hb with h1 | h1
            · rw [h1]; exact h
            · exact ih _ b h1
          · exact ih _ b hb
      | error e =>
          rw [hres] at hb
          exact ih _ b hb

theorem only_newest_distinct (K : Kernel) (st : V4L2_Backend) (sys : Syscalls)
    (hwf : WellFormed st)
    (hpol : st._configuration_.v4l2.buffer_usage_policy
      = Internal_Buffering_Strategy.Only_Newest)
    (hready : (try_device K (drain_pending K st._buffer_of_buffers sys)).1 = true)
    (hk : 1 ≤ (stored_buffers K st._num_buffers_ st._num_buffers_ sys.nd).length)
    (hkeys : ((stored_buffers K st._num_buffers_ st._num_buffers_ sys.nd).map
      (fun b => b.timestamp.tv_usec)).Nodup) :
    ∃ newest requeued,
      (requeued ++ [newest]).Perm (stored_buffers K st._num_buffers_ st._num_buffers_ sys.nd)
      ∧ (∀ b ∈ stored_buffers K st._num_buffers_ st._num_buffers_ sys.nd,
          b.timestamp.tv_usec ≤ newest.timestamp.tv_usec)
      ∧ get_frame_data_mmap K st sys =
          some (spans_of st newest,
            { st with _frame_order_ := bump st._num_buffers_ st._frame_order_,
                      _buffer_of_buffers := [newest] },
            { nq := (entry_syscalls K st sys).nq + requeued.length,
              ns := sys.ns + 1,
              nd := sys.nd + st._num_buffers_,
              trace := (entry_syscalls K st sys).trace
                ++ dqbuf_events K st._num_buffers_ sys.nd
                ++ qbuf_events K (entry_syscalls K st sys).nq requeued }) := by
  have hnf := get_frame_data_mmap_only_newest K st sys hwf hpol hready
  obtain ⟨hsorted, hperm⟩ := store_all_sorted st
    (stored_buffers K st._num_buffers_ st._num_buffers_ sys.nd) []
    ⟨List.Pairwise.nil, by simp⟩ hkeys (by simp)
  simp only [List.map_nil, List.nil_append] at hperm
  generalize hm : store_all st (stored_buffers K st._num_buffers_ st._num_buffers_ sys.nd) [] = m
    at hnf hsorted hperm
  have hne : m ≠ [] := by
    intro h
    subst h
    have := hperm.length_eq
    simp at this
    omega
  have hlast : m.getLast? = some (m.getLast hne) := List.getLast?_eq_getLast m hne
  rw [hlast] at hnf
  simp only [] at hnf
  have hsplit : m.dropLast ++ [m.getLast hne] = m := List.dropLast_append_getLast hne
  refine ⟨(m.getLast hne).2.2, m.dropLast.map (fun e => e.2.2), ?_, ?_, ?_⟩
  · have : m.dropLast.map (fun e => e.2.2) ++ [(m.getLast hne).2.2]
        = m.map (fun e => e.2.2) := by
      conv_rhs => rw [← hsplit]
      simp
    rw [this]
    exact hperm
  · intro b hb
    have hb1 : b ∈ m.map (fun e => e.2.2) := hperm.symm.subset hb
    obtain ⟨e, he, heb⟩ := List.mem_map.1 hb1
    have h1 := mapSorted_le_getLast st m hsorted _ hlast e he
    have h2 := (hsorted.2 e he).1
    have h3 := (hsorted.2 _ (List.getLast_mem hne)).1
    rw [← heb]
    rw [h2, h3] at h1
    exact h1
  · rw [hnf]
    have h3 := (hsorted.2 _ (List.getLast_mem hne)).2
    rw [h3]


theorem get_frame_data_mmap_not_ready (K : Kernel) (st : V4L2_Backend) (sys : Syscalls)
    (hwait : (try_device K (drain_pending K st._buffer_of_buffers sys)).1 = false) :
    get_frame_data_mmap K st sys =
      some ([], { st with _buffer_of_buffers := [] }, entry_syscalls K st sys) := by
  have h2 := entry_syscalls_eq K st sys
  unfold get_frame_data_mmap
  simp only []
  rcases hp : try_device K (drain_pending K st._buffer_of_buffers sys) with ⟨b, s2⟩
  rw [hp] at hwait h2
  simp only [] at hwait h2
  subst hwait
  subst h2
  rfl

theorem store_pure_view_length (st : V4L2_Backend) (hwf : WellFormed st) (buf : v4l2_buffer)
    (m : Ordered_Buffers) (hm : ∀ e ∈ m, num_planes st ≤ e.2.1.length) :
    ∀ e ∈ store_pure st buf m, num_planes st ≤ e.2.1.length := by
  induction m with
  | nil =>
      intro e he
      simp only [store_pure, List.mem_singleton] at he
      subst he
      simp [spans_of_length st hwf]
  | cons x rest ih =>
      obtain ⟨k, v⟩ := x
      intro e he
      simp only [store_pure] at he
      split_ifs at he with h1 h2
      · rcases List.mem_cons.1 he with h | h
        · subst h; simp [spans_of_length st hwf]
        · exact hm e h
      · rcases List.mem_cons.1 he with h | h
        · subst h; simp [spans_of_length st hwf]
        · exact hm e (List.mem_cons_of_mem _ h)
      · rcases List.mem_cons.1 he with h | h
        · subst h; exact hm _ (List.mem_cons_self _ _)
        · exact ih (fun e he => hm e (List.mem_cons_of_mem _ he)) e h

theorem store_all_view_length (st : V4L2_Backend) (hwf : WellFormed st)
    (bufs : List v4l2_buffer) (m : Ordered_Buffers)
    (hm : ∀ e ∈ m, num_planes st ≤ e.2.1.length) :
    ∀ e ∈ store_all st bufs m, num_planes st ≤ e.2.1.length := by
  induction bufs generalizing m with
  | nil => simpa [store_all] using hm
  | cons b rest ih => exact ih _ (store_pure_view_length st hwf b m hm)

theorem oldest_view_length (st : V4L2_Backend) (hwf : WellFormed st) (res : dqbuf_result)
    (h : oldest_view st res ≠ []) : num_planes st ≤ (oldest_view st res).length := by
  cases res with
  | ok b =>
      simp only [oldest_view] at h ⊢
      split_ifs at h ⊢ with h1
      · simp [spans_of_length st hwf]
      · exact absurd rfl h
  | error e =>
      cases e <;> simp only [oldest_view] at h ⊢
      case EIO => simp [spans_of_length st hwf]
      all_goals exact absurd rfl h

theorem get_frame_data_mmap_total (K : Kernel) (st : V4L2_Backend) (sys : Syscalls)
    (hwf : WellFormed st) :
    ∃ view f q nq nd late,
      get_frame_data_mmap K st sys =
        some (view, { st with _frame_order_ := f, _buffer_of_buffers := q },
          { nq := nq, ns := sys.ns + 1, nd := nd,
            trace := (entry_syscalls K st sys).trace ++ late })
      ∧ (view ≠ [] → num_planes st ≤ view.length) := by
  by_cases hready : (try_device K (drain_pending K st._buffer_of_buffers sys)).1 = true
  · cases hpol : st._configuration_.v4l2.buffer_usage_policy with
    | Oldest =>
        refine ⟨_, _, _, _, _, [Event.DQBUF (K.dqbuf sys.nd)],
          get_frame_data_mmap_oldest K st sys hwf hpol hready, oldest_view_length st hwf _⟩
    | Only_Newest =>
        have hnf := get_frame_data_mmap_only_newest K st sys hwf hpol hready
        have hlen := store_all_view_length st hwf
          (stored_buffers K st._num_buffers_ st._num_buffers_ sys.nd) [] (by simp)
        generalize store_all st (stored_buffers K st._num_buffers_ st._num_buffers_ sys.nd) []
          = m at hnf hlen
        cases hl : m.getLast? with
        | none =>
            rw [hl] at hnf
            exact ⟨_, _, _, _, _, dqbuf_events K st._num_buffers_ sys.nd, hnf,
              fun h => absurd rfl h⟩
        | some last =>
            rw [hl] at hnf
            simp only [List.append_assoc] at hnf
            exact ⟨_, _, _, _, _, _, hnf, fun _ => hlen last (List.mem_of_getLast?_eq_some hl)⟩
  · have hwait : (try_device K (drain_pending K st._buffer_of_buffers sys)).1 = false := by
      simpa using hready
    refine ⟨[], st._frame_order_, [], (entry_syscalls K st sys).nq, (entry_syscalls K st sys).nd,
      [], ?_, fun h => absurd rfl h⟩
    rw [get_frame_data_mmap_not_ready K st sys hwait]
    simp [entry_syscalls]

theorem mem_qbuf_events (K : Kernel) (k : Nat) (bufs : List v4l2_buffer) (buf : v4l2_buffer)
    (ret : Bool) (h : Event.QBUF buf ret ∈ qbuf_events K k bufs) : buf ∈ bufs := by
  induction bufs generalizing k with
  | nil => simp [qbuf_events] at h
  | cons b rest ih =>
      simp only [qbuf_events, List.mem_cons] at h
      rcases h with h | h
      · injection h with h1 _
        rw [h1]; exact List.mem_cons_self _ _
      · exact List.mem_cons_of_mem _ (ih _ h)

theorem not_mem_dqbuf_events (K : Kernel) (n k : Nat) (buf : v4l2_buffer) (ret : Bool) :
    Event.QBUF buf ret ∉ dqbuf_events K n k := by
  induction n generalizing k with
  | zero => simp [dqbuf_events]
  | succ n ih =>
      simp only [dqbuf_events, List.mem_cons, not_or]
      exact ⟨fun h => by injection h, ih _⟩


/-! ## Shape of the sizes matrix -/

theorem shape_replicate (M P : Nat) : Shape M P (List.replicate M (List.replicate P 0)) := by
  refine ⟨by simp, ?_⟩
  intro row hrow
  rw [(List.mem_replicate.1 hrow).2]
  simp

theorem sizes_write_shape (M P : Nat) (sizes sizes1 : List (List Nat)) (i j v : Nat)
    (h : sizes_write sizes i j v = some sizes1) (hs : Shape M P sizes) : Shape M P sizes1 := by
  unfold sizes_write at h
  cases hrow : sizes[i]? with
  | none => rw [hrow] at h; simp at h
  | some row =>
      rw [hrow] at h
      simp only [] at h
      split_ifs at h with hj
      injection h with h
      subst h
      refine ⟨by simpa using hs.1, ?_⟩
      intro r hr
      rcases List.mem_or_eq_of_mem_set hr with h1 | h1
      · exact hs.2 r h1
      · rw [h1, List.length_set]
        exact hs.2 row (List.getElem?_mem hrow)

theorem sizes_write_planes_shape (M P : Nat) (f : Nat → Nat) (i n p : Nat)
    (sizes sizes1 : List (List Nat))
    (h : sizes_write_planes f i n p sizes = some sizes1) (hs : Shape M P sizes) :
    Shape M P sizes1 := by
  induction n generalizing p sizes with
  | zero =>
      simp only [sizes_write_planes] at h
      injection h with h
      rw [← h]; exact hs
  | succ n ih =>
      simp only [sizes_write_planes] at h
      cases hw : sizes_write sizes i p (f p) with
      | none => rw [hw] at h; simp at h
      | some s1 =>
          rw [hw] at h
          exact ih _ _ h (sizes_write_shape M P _ _ _ _ _ hw hs)

theorem copy_planes_shape (M P : Nat) (view frame : Multiplanar_Buffer_View) (i n p : Nat)
    (sizes sizes1 : List (List Nat))
    (h : copy_planes view frame i n p sizes = some sizes1) (hs : Shape M P sizes) :
    Shape M P sizes1 := by
  induction n generalizing p sizes with
  | zero =>
      simp only [copy_planes] at h
      injection h with h
      rw [← h]; exact hs
  | succ n ih =>
      simp only [copy_planes] at h
      cases hv : view[p]? with
      | none => rw [hv] at h; simp at h
      | some src =>
          cases hf : frame[p]? with
          | none => rw [hv, hf] at h; simp at h
          | some dst =>
              rw [hv, hf] at h
              simp only [] at h
              cases hw : sizes_write sizes i p src.size with
              | none => rw [hw] at h; simp at h
              | some s1 =>
                  rw [hw] at h
                  exact ih _ _ h (sizes_write_shape M P _ _ _ _ _ hw hs)

theorem put_frame_data_mmap_shape (M P : Nat) (K : Kernel) (planes_count : Nat)
    (frames : List Multiplanar_Buffer_View) (idx : Nat) (st : V4L2_Backend)
    (sizes : List (List Nat)) (sys : Syscalls)
    (out : List (List Nat) × V4L2_Backend × Syscalls)
    (h : put_frame_data_mmap K planes_count frames idx st sizes sys = some out)
    (hs : Shape M P sizes) : Shape M P out.1 := by
  induction frames generalizing idx st sizes sys with
  | nil =>
      simp only [put_frame_data_mmap] at h
      injection h with h
      rw [← h]; exact hs
  | cons frame rest ih =>
      simp only [put_frame_data_mmap] at h
      cases hg : get_frame_data_mmap K st sys with
      | none => rw [hg] at h; simp at h
      | some r =>
          obtain ⟨view, st1, sys1⟩ := r
          rw [hg] at h
          simp only [] at h
          split_ifs at h with h1 h2
          · exact ih _ _ _ _ h hs
          · exact ih _ _ _ _ h hs
          · cases hc : copy_planes view frame idx planes_count 0 sizes with
            | none => rw [hc] at h; simp at h
            | some s1 =>
                rw [hc] at h
                exact ih _ _ _ _ h (copy_planes_shape M P _ _ _ _ _ _ _ hc hs)

theorem userptr_queue_loop_shape (M P : Nat) (K : Kernel)
    (frames : List Multiplanar_Buffer_View) (idx : Nat) (st : V4L2_Backend) (nq : Nat)
    (sizes : List (List Nat)) (sys : Syscalls)
    (out : V4L2_Backend × Nat × List (List Nat) × Syscalls)
    (h : userptr_queue_loop K frames idx st nq sizes sys = some out)
    (hs : Shape M P sizes) : Shape M P out.2.2.1 := by
  induction frames generalizing idx st nq sizes sys with
  | nil =>
      simp only [userptr_queue_loop] at h
      injection h with h
      rw [← h]; exact hs
  | cons frame rest ih =>
      simp only [userptr_queue_loop] at h
      cases hb : userptr_buf st frame idx with
      | none => rw [hb] at h; simp at h
      | some buf =>
          rw [hb] at h
          simp only [queue_buf] at h
          cases hq : K.qbuf sys.nq with
          | false =>
              rw [hq] at h
              simp only [] at h
              split_ifs at h with hm
              · cases hw : sizes_write_planes (fun _ => 0) idx buf.length 0 sizes with
                | none => rw [hw] at h; simp at h
                | some s1 =>
                    rw [hw] at h
                    exact ih _ _ _ _ _ h (sizes_write_planes_shape M P _ _ _ _ _ _ hw hs)
              · cases hw : sizes_write sizes idx 0 0 with
                | none => rw [hw] at h; simp at h
                | some s1 =>
                    rw [hw] at h
                    exact ih _ _ _ _ _ h (sizes_write_shape M P _ _ _ _ _ hw hs)
          | true =>
              rw [hq] at h
              exact ih _ _ _ _ _ h hs

theorem userptr_dequeue_loop_shape (M P : Nat) (K : Kernel) (st : V4L2_Backend)
    (fuel r nq : Nat) (sizes : List (List Nat)) (sys : Syscalls)
    (out : List (List Nat) × Syscalls)
    (h : userptr_dequeue_loop K st fuel r nq sizes sys = some out)
    (hs : Shape M P sizes) : Shape M P out.1 := by
  induction fuel generalizing r sizes sys with
  | zero =>
      simp only [userptr_dequeue_loop] at h
      split_ifs at h
      injection h with h
      rw [← h]; exact hs
  | succ fuel ih =>
      simp only [userptr_dequeue_loop] at h
      by_cases hlt : r < nq
      · simp only [hlt, if_true] at h
        cases hres : K.dqbuf sys.nd with
        | ok b =>
            rw [hres] at h
            simp only [] at h
            by_cases hm : st._buffer_plane_type_
                = v4l2_buf_type.V4L2_BUF_TYPE_VIDEO_CAPTURE_MPLANE
            · simp only [hm, if_true] at h
              cases hw : sizes_write_planes (plane_bytesused b) b.index b.length 0 sizes with
              | none => rw [hw] at h; simp at h
              | some s1 =>
                  rw [hw] at h
                  exact ih _ _ _ h (sizes_write_planes_shape M P _ _ _ _ _ _ hw hs)
            · simp only [hm, if_false] at h
              cases hw : sizes_write sizes b.index 0 b.bytesused with
              | none => rw [hw] at h; simp at h
              | some s1 =>
                  rw [hw] at h
                  exact ih _ _ _ h (sizes_write_shape M P _ _ _ _ _ hw hs)
        | error e =>
            rw [hres] at h
            cases e <;> exact ih _ _ _ h hs
      · simp only [hlt, if_false] at h
        injection h with h
        rw [← h]; exact hs

theorem put_frame_data_shape (fuel : Nat) (K : Kernel) (st : V4L2_Backend)
    (frames : List Multiplanar_Buffer_View) (sys : Syscalls)
    (out : List (List Nat) × V4L2_Backend × Syscalls)
    (h : put_frame_data fuel K st frames sys = some out) :
    Shape frames.length (num_planes st) out.1 := by
  unfold put_frame_data at h
  simp only [] at h
  split_ifs at h with hm
  · exact put_frame_data_mmap_shape _ _ K _ _ _ _ _ _ _ h (shape_replicate _ _)
  · cases hq : userptr_queue_loop K frames 0 st 0
        (List.replicate frames.length (List.replicate (num_planes st) 0)) sys with
    | none => rw [hq] at h; simp at h
    | some r =>
        obtain ⟨st1, nq, sizes1, sys1⟩ := r
        rw [hq] at h
        simp only [] at h
        have hs1 := userptr_queue_loop_shape _ _ K _ _ _ _ _ _ _ hq (shape_replicate _ _)
        cases hd : userptr_dequeue_loop K st1 fuel 0 nq sizes1 (try_device K sys1).2 with
        | none => rw [hd] at h; simp at h
        | some r2 =>
            obtain ⟨sizes2, sys2⟩ := r2
            rw [hd] at h
            simp only [] at h
            injection h with h
            rw [← h]
            exact userptr_dequeue_loop_shape _ _ K _ _ _ _ _ _ _ hd hs1


/-! ## `put_frame_data` returns -/

theorem sizes_write_some (M P : Nat) (sizes : List (List Nat)) (i j v : Nat)
    (hs : Shape M P sizes) (hi : i < M) (hj : j < P) :
    ∃ sizes1, sizes_write sizes i j v = some sizes1 := by
  have h1 : i < sizes.length := by rw [hs.1]; exact hi
  have h2 : (sizes[i]).length = P := hs.2 _ (List.getElem_mem h1)
  refine ⟨sizes.set i ((sizes[i]).set j v), ?_⟩
  simp [sizes_write, List.getElem?_eq_getElem h1, h2, hj]

theorem sizes_write_planes_some (M P : Nat) (f : Nat → Nat) (i n p : Nat)
    (sizes : List (List Nat)) (hs : Shape M P sizes) (hi : i < M) (hp : p + n ≤ P) :
    ∃ sizes1, sizes_write_planes f i n p sizes = some sizes1 := by
  induction n generalizing p sizes with
  | zero => exact ⟨sizes, rfl⟩
  | succ n ih =>
      obtain ⟨s1, h1⟩ := sizes_write_some M P sizes i p (f p) hs hi (by omega)
      obtain ⟨s2, h2⟩ := ih (p + 1) s1 (sizes_write_shape M P _ _ _ _ _ h1 hs) (by omega)
      exact ⟨s2, by simp only [sizes_write_planes, h1, h2]⟩

theorem copy_planes_some (M P : Nat) (view frame : Multiplanar_Buffer_View) (i n p : Nat)
    (sizes : List (List Nat)) (hs : Shape M P sizes) (hi : i < M) (hp : p + n ≤ P)
    (hv : p + n ≤ view.length) (hf : p + n ≤ frame.length) :
    ∃ sizes1, copy_planes view frame i n p sizes = some sizes1 := by
  induction n generalizing p sizes with
  | zero => exact ⟨sizes, rfl⟩
  | succ n ih =>
      have h1 : p < view.length := by omega
      have h2 : p < frame.length := by omega
      obtain ⟨s1, hw⟩ := sizes_write_some M P sizes i p (view[p]).size hs hi (by omega)
      obtain ⟨s2, h3⟩ := ih (p + 1) s1 (sizes_write_shape M P _ _ _ _ _ hw hs) (by omega)
        (by omega) (by omega)
      refine ⟨s2, ?_⟩
      simp only [copy_planes, List.getElem?_eq_getElem h1, List.getElem?_eq_getElem h2, hw, h3]

theorem put_frame_data_mmap_some (M : Nat) (K : Kernel)
    (frames : List Multiplanar_Buffer_View) (idx : Nat) (st : V4L2_Backend)
    (sizes : List (List Nat)) (sys : Syscalls) (hwf : WellFormed st)
    (hs : Shape M (num_planes st) sizes) (hidx : idx + frames.length ≤ M) :
    ∃ out, put_frame_data_mmap K (num_planes st) frames idx st sizes sys = some out := by
  induction frames generalizing idx st sizes sys with
  | nil => exact ⟨_, rfl⟩
  | cons frame rest ih =>
      obtain ⟨view, f, q, nq, nd, late, hg, hlen⟩ := get_frame_data_mmap_total K st sys hwf
      have hwf1 : WellFormed { st with _frame_order_ := f, _buffer_of_buffers := q } := hwf
      have hidx1 : idx + 1 + rest.length ≤ M := by
        simp only [List.length_cons] at hidx
        omega
      simp only [put_frame_data_mmap, hg]
      split_ifs with h1 h2
      · exact ih (idx + 1) _ sizes _ hwf1 hs hidx1
      · exact ih (idx + 1) _ sizes _ hwf1 hs hidx1
      · have hne : view ≠ [] := by
          intro h; subst h; simp at h1
        have hv := hlen hne
        obtain ⟨s1, hc⟩ := copy_planes_some M (num_planes st) view frame idx (num_planes st) 0
          sizes hs (by simp only [List.length_cons] at hidx; omega) (by omega) (by omega)
          (by omega)
        simp only [hc]
        exact ih (idx + 1) _ s1 _ hwf1 (copy_planes_shape M _ _ _ _ _ _ _ _ hc hs) hidx1

theorem num_planes_of_single (st : V4L2_Backend) (hneg : Negotiated st)
    (h : st._buffer_plane_type_ ≠ v4l2_buf_type.V4L2_BUF_TYPE_VIDEO_CAPTURE_MPLANE) :
    num_planes st = 1 := by
  obtain ⟨h1, h2⟩ := hneg
  unfold num_planes
  rw [h1, ← h2]
  cases hb : st._buffer_plane_type_
  · simp
  · exact absurd hb h

theorem userptr_planes_some (st : V4L2_Backend) (frame : Multiplanar_Buffer_View) (n p : Nat)
    (h : p + n ≤ frame.length) : ∃ ps, userptr_planes st frame n p = some ps := by
  induction n generalizing p with
  | zero => exact ⟨[], rfl⟩
  | succ n ih =>
      have h1 : p < frame.length := by omega
      obtain ⟨ps, h2⟩ := ih (p + 1) (by omega)
      simp only [userptr_planes, List.getElem?_eq_getElem h1, h2, Option.map_some']
      exact ⟨_, rfl⟩

theorem userptr_buf_some (st : V4L2_Backend) (frame : Multiplanar_Buffer_View) (idx : Nat)
    (hneg : Negotiated st) (hf : num_planes st ≤ frame.length) :
    ∃ buf, userptr_buf st frame idx = some buf
      ∧ (st._buffer_plane_type_ = v4l2_buf_type.V4L2_BUF_TYPE_VIDEO_CAPTURE_MPLANE →
          buf.length = num_planes st) := by
  unfold userptr_buf
  split_ifs with hm
  · obtain ⟨ps, h⟩ := userptr_planes_some st frame (num_planes st) 0 (by omega)
    simp only [h, Option.map_some']
    exact ⟨_, rfl, fun _ => rfl⟩
  · have h1 : 0 < frame.length := by
      rw [num_planes_of_single st hneg hm] at hf
      omega
    simp only [List.getElem?_eq_getElem h1]
    exact ⟨_, rfl, fun h => absurd h hm⟩

theorem userptr_queue_loop_some (M : Nat) (K : Kernel)
    (frames : List Multiplanar_Buffer_View) (idx : Nat) (st : V4L2_Backend) (nq : Nat)
    (sizes : List (List Nat)) (sys : Syscalls) (hneg : Negotiated st)
    (hframes : ∀ f ∈ frames, num_planes st ≤ f.length)
    (hs : Shape M (num_planes st) sizes) (hidx : idx + frames.length ≤ M) :
    ∃ f nq1 sizes1 sys1,
      userptr_queue_loop K frames idx st nq sizes sys
        = some ({ st with _frame_order_ := f }, nq1, sizes1, sys1)
      ∧ nq1 ≤ nq + frames.length ∧ sys1.nd = sys.nd := by
  induction frames generalizing idx st nq sizes sys with
  | nil => exact ⟨st._frame_order_, nq, sizes, sys, rfl, by simp, rfl⟩
  | cons frame rest ih =>
      obtain ⟨buf, hb, hblen⟩ := userptr_buf_some st frame idx hneg
        (hframes frame (List.mem_cons_self _ _))
      have hneg1 : Negotiated (incr_frame_order st) := hneg
      have hframes1 : ∀ f ∈ rest, num_planes (incr_frame_order st) ≤ f.length :=
        fun f hf => hframes f (List.mem_cons_of_mem _ hf)
      have hi : idx < M := by
        simp only [List.length_cons] at hidx
        omega
      have hidx1 : idx + 1 + rest.length ≤ M := by
        simp only [List.length_cons] at hidx
        omega
      simp only [userptr_queue_loop, hb, queue_buf]
      cases hq : K.qbuf sys.nq with
      | false =>
          simp only []
          by_cases hm : st._buffer_plane_type_
              = v4l2_buf_type.V4L2_BUF_TYPE_VIDEO_CAPTURE_MPLANE
          · rw [if_pos hm]
            obtain ⟨s1, hw⟩ := sizes_write_planes_some M (num_planes st) (fun _ => 0) idx
              buf.length 0 sizes hs hi (by rw [hblen hm]; omega)
            simp only [hw]
            obtain ⟨f, nq1, sizes1, sys1, h1, h2, h3⟩ := ih (idx + 1) (incr_frame_order st) nq s1
              { sys with nq := sys.nq + 1, trace := sys.trace ++ [Event.QBUF buf false] }
              hneg1 hframes1 (sizes_write_planes_shape M _ _ _ _ _ _ _ hw hs) hidx1
            refine ⟨f, nq1, sizes1, sys1, h1, ?_, h3⟩
            simp only [List.length_cons]
            omega
          · rw [if_neg hm]
            obtain ⟨s1, hw⟩ := sizes_write_some M (num_planes st) sizes idx 0 0 hs hi
              (by rw [num_planes_of_single st hneg hm]; omega)
            simp only [hw]
            obtain ⟨f, nq1, sizes1, sys1, h1, h2, h3⟩ := ih (idx + 1) (incr_frame_order st) nq s1
              { sys with nq := sys.nq + 1, trace := sys.trace ++ [Event.QBUF buf false] }
              hneg1 hframes1 (sizes_write_shape M _ _ _ _ _ _ hw hs) hidx1
            refine ⟨f, nq1, sizes1, sys1, h1, ?_, h3⟩
            simp only [List.length_cons]
            omega
      | true =>
          simp only []
          obtain ⟨f, nq1, sizes1, sys1, h1, h2, h3⟩ := ih (idx + 1) (incr_frame_order st)
            ((nq + 1) % 2 ^ 16) sizes
            { sys with nq := sys.nq + 1, trace := sys.trace ++ [Event.QBUF buf true] }
            hneg1 hframes1 hs hidx1
          refine ⟨f, nq1, sizes1, sys1, h1, ?_, h3⟩
          have : (nq + 1) % 2 ^ 16 ≤ nq + 1 := Nat.mod_le _ _
          simp only [List.length_cons]
          omega

theorem userptr_dequeue_loop_some (M : Nat) (K : Kernel) (st : V4L2_Backend) (B : Nat)
    (hneg : Negotiated st)
    (hB : ∀ k, B ≤ k → K.dqbuf k ≠ dqbuf_result.error Errno.EAGAIN)
    (fuel r nq : Nat) (sizes : List (List Nat)) (sys : Syscalls)
    (hs : Shape M (num_planes st) sizes)
    (hrange : ∀ k b, sys.nd ≤ k → K.dqbuf k = dqbuf_result.ok b →
      b.index < M ∧ (st._buffer_plane_type_ = v4l2_buf_type.V4L2_BUF_TYPE_VIDEO_CAPTURE_MPLANE →
        b.length ≤ num_planes st))
    (hfuel : (nq - r) + (B - sys.nd) ≤ fuel) :
    ∃ out, userptr_dequeue_loop K st fuel r nq sizes sys = some out := by
  induction fuel generalizing r sizes sys with
  | zero =>
      have : ¬ r < nq := by omega
      simp only [userptr_dequeue_loop, this, if_false]
      exact ⟨_, rfl⟩
  | succ fuel ih =>
      by_cases hlt : r < nq
      · simp only [userptr_dequeue_loop, hlt, if_true]
        cases hres : K.dqbuf sys.nd with
        | ok b =>
            simp only []
            obtain ⟨hbi, hbl⟩ := hrange sys.nd b (le_refl _) hres
            by_cases hm : st._buffer_plane_type_
                = v4l2_buf_type.V4L2_BUF_TYPE_VIDEO_CAPTURE_MPLANE
            · rw [if_pos hm]
              obtain ⟨s1, hw⟩ := sizes_write_planes_some M (num_planes st) (plane_bytesused b)
                b.index b.length 0 sizes hs hbi (by have := hbl hm; omega)
              simp only [hw]
              exact ih (r + 1) s1 _ (sizes_write_planes_shape M _ _ _ _ _ _ _ hw hs)
                (fun k b hk => hrange k b (by simp only [] at hk; omega))
                (by simp only []; omega)
            · rw [if_neg hm]
              obtain ⟨s1, hw⟩ := sizes_write_some M (num_planes st) sizes b.index 0 b.bytesused
                hs hbi (by rw [num_planes_of_single st hneg hm]; omega)
              simp only [hw]
              exact ih (r + 1) s1 _ (sizes_write_shape M _ _ _ _ _ _ hw hs)
                (fun k b hk => hrange k b (by simp only [] at hk; omega))
                (by simp only []; omega)
        | error e =>
            have hltB : e = Errno.EAGAIN → sys.nd < B := by
              intro he
              by_contra hcon
              exact hB sys.nd (by omega) (by rw [hres, he])
            cases e with
            | EAGAIN =>
                simp only []
                have := hltB rfl
                rw [try_device_snd]
                exact ih r sizes _ hs
                  (fun k b hk => hrange k b (by simp only [] at hk; omega))
                  (by simp only []; omega)
            | _ =>
                simp only []
                exact ih (r + 1) sizes _ hs
                  (fun k b hk => hrange k b (by simp only [] at hk; omega))
                  (by simp only []; omega)
      · simp only [userptr_dequeue_loop, hlt, if_false]
        exact ⟨_, rfl⟩

theorem put_frame_data_userptr_some (fuel : Nat) (K : Kernel) (st : V4L2_Backend)
    (frames : List Multiplanar_Buffer_View) (sys : Syscalls) (B : Nat)
    (hmode : st._configuration_.buffering ≠ Buffering.Internal) (hneg : Negotiated st)
    (hframes : ∀ f ∈ frames, num_planes st ≤ f.length)
    (hrange : ∀ k b, sys.nd ≤ k → K.dqbuf k = dqbuf_result.ok b →
      b.index < frames.length
        ∧ (st._buffer_plane_type_ = v4l2_buf_type.V4L2_BUF_TYPE_VIDEO_CAPTURE_MPLANE →
          b.length ≤ num_planes st))
    (hB : ∀ k, B ≤ k → K.dqbuf k ≠ dqbuf_result.error Errno.EAGAIN)
    (hfuel : frames.length + (B - sys.nd) ≤ fuel) :
    ∃ out, put_frame_data fuel K st frames sys = some out := by
  have hmem : ¬ (get_memory_mapping_type_v4l2 st = v4l2_memory.V4L2_MEMORY_MMAP
      ∨ get_memory_mapping_type_v4l2 st = v4l2_memory.V4L2_MEMORY_DMABUF) := by
    simp [get_memory_mapping_type_v4l2, hmode]
  obtain ⟨f, nq1, sizes1, sys1, hq, hle, hnd⟩ := userptr_queue_loop_some frames.length K frames 0
    st 0 _ sys hneg hframes (shape_replicate _ _) (by omega)
  have hs1 := userptr_queue_loop_shape _ _ K _ _ _ _ _ _ _ hq (shape_replicate _ _)
  have hnd2 : ((try_device K sys1).2).nd = sys.nd := by rw [try_device_snd]; exact hnd
  obtain ⟨out, hd⟩ := userptr_dequeue_loop_some frames.length K
    { st with _frame_order_ := f } B hneg hB fuel 0 nq1 sizes1 (try_device K sys1).2 hs1
    (fun k b hk => hrange k b (by rw [hnd2] at hk; exact hk))
    (by rw [hnd2]; omega)
  refine ⟨(out.1, { st with _frame_order_ := f }, out.2), ?_⟩
  unfold put_frame_data
  simp only [hmem, if_false, hq, hd]


/-! ## Row contents in USERPTR mode -/

theorem sizes_write_get (sizes sizes1 : List (List Nat)) (i j v : Nat)
    (h : sizes_write sizes i j v = some sizes1) :
    (∀ i1, i1 ≠ i → sizes1[i1]? = sizes[i1]?)
      ∧ ∃ row, sizes[i]? = some row ∧ j < row.length ∧ sizes1[i]? = some (row.set j v) := by
  unfold sizes_write at h
  cases hrow : sizes[i]? with
  | none => rw [hrow] at h; simp at h
  | some row =>
      rw [hrow] at h
      simp only [] at h
      split_ifs at h with hj
      injection h with h
      subst h
      have hi : i < sizes.length := (List.getElem?_eq_some.1 hrow).1
      refine ⟨fun i1 hne => List.getElem?_set_ne (Ne.symm hne), row, rfl, hj, ?_⟩
      exact List.getElem?_set_self hi

theorem sizes_write_planes_get (f : Nat → Nat) (i n p : Nat) (sizes sizes1 : List (List Nat))
    (h : sizes_write_planes f i n p sizes = some sizes1) :
    (∀ i1, i1 ≠ i → sizes1[i1]? = sizes[i1]?)
      ∧ ∀ row, sizes[i]? = some row →
          (n ≠ 0 → p + n ≤ row.length)
          ∧ ∃ row1, sizes1[i]? = some row1
              ∧ ∀ q, row1[q]? = if p ≤ q ∧ q < p + n then some (f q) else row[q]? := by
  induction n generalizing p sizes with
  | zero =>
      simp only [sizes_write_planes] at h
      injection h with h
      subst h
      refine ⟨fun _ _ => rfl, fun row hrow => ⟨fun h0 => absurd rfl h0, row, hrow, ?_⟩⟩
      intro q
      have : ¬ (p ≤ q ∧ q < p + 0) := by omega
      simp only [this, if_false]
  | succ n ih =>
      simp only [sizes_write_planes] at h
      cases hw : sizes_write sizes i p (f p) with
      | none => rw [hw] at h; simp at h
      | some s0 =>
          rw [hw] at h
          obtain ⟨hother0, row0, hrow0, hp0, hset0⟩ := sizes_write_get _ _ _ _ _ hw
          obtain ⟨hother1, hrow1⟩ := ih (p + 1) s0 h
          refine ⟨fun i1 hne => (hother1 i1 hne).trans (hother0 i1 hne), ?_⟩
          intro row hrow
          have hrr : row0 = row := Option.some.inj (hrow0.symm.trans hrow)
          subst hrr
          obtain ⟨hlen1, row1, hr1, hq1⟩ := hrow1 _ hset0
          refine ⟨fun _ => ?_, row1, hr1, ?_⟩
          · by_cases hn : n = 0
            · omega
            · have := hlen1 hn
              simp only [List.length_set] at this
              omega
          · intro q
            rw [hq1 q]
            by_cases hqp : q = p
            · subst hqp
              have h1 : ¬ (q + 1 ≤ q ∧ q < q + 1 + n) := by omega
              have h2 : q ≤ q ∧ q < q + (n + 1) := by omega
              simp only [h1, h2, if_false, if_true]
              exact List.getElem?_set_self hp0
            · by_cases hc : p + 1 ≤ q ∧ q < p + 1 + n
              · have h2 : p ≤ q ∧ q < p + (n + 1) := by omega
                simp only [hc, h2, and_self, if_true]
              · have h2 : ¬ (p ≤ q ∧ q < p + (n + 1)) := by omega
                simp only [hc, h2, if_false]
                exact List.getElem?_set_ne (Ne.symm hqp)

theorem reported_row_frame_order (st : V4L2_Backend) (f : Nat) (b : v4l2_buffer) :
    reported_row { st with _frame_order_ := f } b = reported_row st b := rfl

/-- The write a successful USERPTR DQBUF performs, on a row that is still all zeros. -/
theorem dequeue_write_get (st : V4L2_Backend) (b : v4l2_buffer) (sizes sizes1 : List (List Nat))
    (h : (if st._buffer_plane_type_ = v4l2_buf_type.V4L2_BUF_TYPE_VIDEO_CAPTURE_MPLANE
          then sizes_write_planes (plane_bytesused b) b.index b.length 0 sizes
          else sizes_write sizes b.index 0 b.bytesused) = some sizes1) :
    (∀ i1, i1 ≠ b.index → sizes1[i1]? = sizes[i1]?)
      ∧ (sizes[b.index]? = some (List.replicate (num_planes st) 0) →
          sizes1[b.index]? = some (reported_row st b)) := by
  by_cases hm : st._buffer_plane_type_ = v4l2_buf_type.V4L2_BUF_TYPE_VIDEO_CAPTURE_MPLANE
  · rw [if_pos hm] at h
    obtain ⟨hother, hrow⟩ := sizes_write_planes_get _ _ _ _ _ _ h
    refine ⟨hother, fun hz => ?_⟩
    obtain ⟨hlen, row1, hr1, hq⟩ := hrow _ hz
    rw [hr1]
    congr 1
    apply List.ext_getElem?
    intro q
    rw [hq q]
    simp only [reported_row, hm, if_true, List.getElem?_map, Nat.zero_le, true_and, Nat.zero_add]
    by_cases hqn : q < b.length
    · have hqP : q < num_planes st := by
        have := hlen (by omega)
        simp only [List.length_replicate] at this
        omega
      simp [hqn, List.getElem?_range hqP]
    · by_cases hqP : q < num_planes st
      · simp [hqn, List.getElem?_range hqP, hqP]
      · have h1 : (List.range (num_planes st))[q]? = none := by
          apply List.getElem?_eq_none
          simp only [List.length_range]
          omega
        simp [hqn, h1]
        omega
  · rw [if_neg hm] at h
    obtain ⟨hother, row, hrow, _, hset⟩ := sizes_write_get _ _ _ _ _ h
    refine ⟨hother, fun hz => ?_⟩
    have hrr : row = List.replicate (num_planes st) 0 := Option.some.inj (hrow.symm.trans hz)
    rw [hset, hrr]
    simp only [reported_row, hm, if_false]

theorem userptr_dequeue_loop_rows (K : Kernel) (st : V4L2_Backend) (M lo : Nat)
    (huniq : ∀ j k b c, lo ≤ j → lo ≤ k → K.dqbuf j = dqbuf_result.ok b →
      K.dqbuf k = dqbuf_result.ok c → b.index = c.index → j = k)
    (fuel r nq : Nat) (sizes : List (List Nat)) (sys : Syscalls)
    (out : List (List Nat) × Syscalls) (hlo : lo ≤ sys.nd)
    (hrows : RowsOK K st M lo sys.nd sizes)
    (h : userptr_dequeue_loop K st fuel r nq sizes sys = some out) :
    RowsOK K st M lo out.2.nd out.1 ∧ sys.nd ≤ out.2.nd := by
  induction fuel generalizing r sizes sys with
  | zero =>
      simp only [userptr_dequeue_loop] at h
      split_ifs at h
      injection h with h
      subst h
      exact ⟨hrows, le_refl _⟩
  | succ fuel ih =>
      simp only [userptr_dequeue_loop] at h
      by_cases hlt : r < nq
      · simp only [hlt, if_true] at h
        -- answers that are not successful leave the rows as they are
        have hskip : ∀ e, K.dqbuf sys.nd = dqbuf_result.error e →
            RowsOK K st M lo (sys.nd + 1) sizes := by
          intro e he i hi
          obtain ⟨h1, h2⟩ := hrows i hi
          refine ⟨fun k b hk1 hk2 hkb hbi => ?_, fun hno => ?_⟩
          · have hne : k ≠ sys.nd := by
              intro hEq; rw [hEq, he] at hkb; exact dqbuf_result.noConfusion hkb
            exact h1 k b hk1 (by omega) hkb hbi
          · exact h2 (fun k b hk1 hk2 hkb => hno k b hk1 (by omega) hkb)
        cases hres : K.dqbuf sys.nd with
        | ok b =>
            rw [hres] at h
            simp only [] at h
            cases hw : (if st._buffer_plane_type_
                  = v4l2_buf_type.V4L2_BUF_TYPE_VIDEO_CAPTURE_MPLANE
                then sizes_write_planes (plane_bytesused b) b.index b.length 0 sizes
                else sizes_write sizes b.index 0 b.bytesused) with
            | none => rw [hw] at h; simp at h
            | some s1 =>
                rw [hw] at h
                simp only [] at h
                obtain ⟨hother, hself⟩ := dequeue_write_get st b sizes s1 hw
                have hrows1 : RowsOK K st M lo (sys.nd + 1) s1 := by
                  intro i hi
                  obtain ⟨h1, h2⟩ := hrows i hi
                  by_cases hib : i = b.index
                  · subst hib
                    have hzero : sizes[b.index]? = some (List.replicate (num_planes st) 0) := by
                      apply h2
                      intro k c hk1 hk2 hkc hci
                      have := huniq k sys.nd c b hk1 hlo hkc hres hci
                      omega
                    refine ⟨fun k c hk1 hk2 hkc hci => ?_, fun hno => ?_⟩
                    · have hk := huniq k sys.nd c b hk1 hlo hkc hres hci
                      rw [hk, hres] at hkc
                      injection hkc with hbc
                      rw [← hbc]
                      exact hself hzero
                    · exact absurd rfl (hno sys.nd b hlo (by omega) hres)
                  · rw [hother i hib]
                    refine ⟨fun k c hk1 hk2 hkc hci => ?_, fun hno => ?_⟩
                    · have hne : k ≠ sys.nd := by
                        intro hEq
                        rw [hEq, hres] at hkc
                        injection hkc with hbc
                        rw [← hbc] at hci
                        exact hib hci.symm
                      exact h1 k c hk1 (by omega) hkc hci
                    · exact h2 (fun k c hk1 hk2 hkc => hno k c hk1 (by omega) hkc)
                obtain ⟨h3, h4⟩ := ih (r + 1) s1 _ (by simp only []; omega) hrows1 h
                exact ⟨h3, by simp only [] at h4; omega⟩
        | error e =>
            rw [hres] at h
            have hrows1 := hskip e hres
            cases e with
            | EAGAIN =>
                simp only [] at h
                rw [try_device_snd] at h
                obtain ⟨h3, h4⟩ := ih r sizes _ (by simp only []; omega) hrows1 h
                exact ⟨h3, by simp only [] at h4; omega⟩
            | _ =>
                simp only [] at h
                obtain ⟨h3, h4⟩ := ih (r + 1) sizes _ (by simp only []; omega) hrows1 h
                exact ⟨h3, by simp only [] at h4; omega⟩
      · simp only [hlt, if_false] at h
        injection h with h
        subst h
        exact ⟨hrows, le_refl _⟩


theorem sizes_write_zero (M P : Nat) (i j : Nat) (sizes1 : List (List Nat))
    (h : sizes_write (List.replicate M (List.replicate P 0)) i j 0 = some sizes1) :
    sizes1 = List.replicate M (List.replicate P 0) := by
  obtain ⟨_, row, hrow, _, _⟩ := sizes_write_get _ _ _ _ _ h
  have hr : row = List.replicate P 0 := by
    rw [List.getElem?_replicate] at hrow
    split_ifs at hrow
    exact (Option.some.inj hrow).symm
  unfold sizes_write at h
  rw [hrow] at h
  simp only [] at h
  split_ifs at h
  injection h with h
  rw [← h, hr, List.set_replicate_self, List.set_replicate_self]

theorem sizes_write_planes_zero (M P : Nat) (i n p : Nat) (sizes1 : List (List Nat))
    (h : sizes_write_planes (fun _ => 0) i n p (List.replicate M (List.replicate P 0))
      = some sizes1) :
    sizes1 = List.replicate M (List.replicate P 0) := by
  induction n generalizing p with
  | zero =>
      simp only [sizes_write_planes] at h
      exact (Option.some.inj h).symm
  | succ n ih =>
      simp only [sizes_write_planes] at h
      cases hw : sizes_write (List.replicate M (List.replicate P 0)) i p 0 with
      | none => rw [hw] at h; simp at h
      | some s0 =>
          rw [hw] at h
          simp only [] at h
          rw [sizes_write_zero M P i p s0 hw] at h
          exact ih (p + 1) h

theorem userptr_buf_index (st : V4L2_Backend) (frame : Multiplanar_Buffer_View) (idx : Nat)
    (buf : v4l2_buffer) (h : userptr_buf st frame idx = some buf) : buf.index = idx := by
  unfold userptr_buf at h
  split_ifs at h
  · cases hp : userptr_planes st frame (num_planes st) 0 with
    | none => rw [hp] at h; simp at h
    | some ps =>
        rw [hp] at h
        simp only [Option.map_some'] at h
        rw [← Option.some.inj h]
  · cases hf : frame[0]? with
    | none => rw [hf] at h; simp at h
    | some sp =>
        rw [hf] at h
        simp only [] at h
        rw [← Option.some.inj h]

theorem userptr_queue_loop_zero (M P : Nat) (K : Kernel)
    (frames : List Multiplanar_Buffer_View) (idx : Nat) (st : V4L2_Backend) (nq : Nat)
    (sys : Syscalls) (out : V4L2_Backend × Nat × List (List Nat) × Syscalls)
    (h : userptr_queue_loop K frames idx st nq (List.replicate M (List.replicate P 0)) sys
      = some out) :
    out.2.2.1 = List.replicate M (List.replicate P 0)
      ∧ out.2.2.2.nd = sys.nd
      ∧ (∃ f, out.1 = { st with _frame_order_ := f })
      ∧ ∃ bufs, out.2.2.2.trace = sys.trace ++ qbuf_events K sys.nq bufs
          ∧ bufs.map (fun b => b.index) = List.range' idx frames.length := by
  induction frames generalizing idx st nq sys with
  | nil =>
      simp only [userptr_queue_loop] at h
      rw [← Option.some.inj h]
      exact ⟨rfl, rfl, ⟨st._frame_order_, rfl⟩, [], by simp [qbuf_events], rfl⟩
  | cons frame rest ih =>
      simp only [userptr_queue_loop] at h
      cases hb : userptr_buf st frame idx with
      | none => rw [hb] at h; simp at h
      | some buf =>
          rw [hb] at h
          simp only [queue_buf] at h
          have hbi := userptr_buf_index st frame idx buf hb
          have fin : ∀ (ret : Bool) (nq1 : Nat),
              userptr_queue_loop K rest (idx + 1) (incr_frame_order st) nq1
                  (List.replicate M (List.replicate P 0))
                  { sys with nq := sys.nq + 1, trace := sys.trace ++ [Event.QBUF buf ret] }
                = some out → K.qbuf sys.nq = ret →
              out.2.2.1 = List.replicate M (List.replicate P 0)
                ∧ out.2.2.2.nd = sys.nd
                ∧ (∃ f, out.1 = { st with _frame_order_ := f })
                ∧ ∃ bufs, out.2.2.2.trace = sys.trace ++ qbuf_events K sys.nq bufs
                    ∧ bufs.map (fun b => b.index) = List.range' idx (frame :: rest).length := by
            intro ret nq1 h1 hret
            obtain ⟨h2, h3, ⟨f, h4⟩, bufs, h5, h6⟩ := ih _ _ _ _ h1
            refine ⟨h2, h3, ⟨f, h4⟩, buf :: bufs, ?_, ?_⟩
            · rw [h5]
              simp [qbuf_events, hret]
            · simp [List.range'_succ, hbi, h6]
          cases hq : K.qbuf sys.nq with
          | false =>
              rw [hq] at h
              simp only [] at h
              by_cases hm : st._buffer_plane_type_
                  = v4l2_buf_type.V4L2_BUF_TYPE_VIDEO_CAPTURE_MPLANE
              · rw [if_pos hm] at h
                cases hw : sizes_write_planes (fun _ => 0) idx buf.length 0
                    (List.replicate M (List.replicate P 0)) with
                | none => rw [hw] at h; simp at h
                | some s1 =>
                    rw [hw] at h
                    simp only [] at h
                    rw [sizes_write_planes_zero M P _ _ _ s1 hw] at h
                    exact fin false nq h hq
              · rw [if_neg hm] at h
                cases hw : sizes_write (List.replicate M (List.replicate P 0)) idx 0 0 with
                | none => rw [hw] at h; simp at h
                | some s1 =>
                    rw [hw] at h
                    simp only [] at h
                    rw [sizes_write_zero M P _ _ s1 hw] at h
                    exact fin false nq h hq
          | true =>
              rw [hq] at h
              exact fin true _ h hq

theorem userptr_dequeue_loop_trace (K : Kernel) (st : V4L2_Backend) (fuel r nq : Nat)
    (sizes : List (List Nat)) (sys : Syscalls) (out : List (List Nat) × Syscalls)
    (h : userptr_dequeue_loop K st fuel r nq sizes sys = some out) :
    ∃ late, out.2.trace = sys.trace ++ late ∧ ∀ buf ret, Event.QBUF buf ret ∉ late := by
  induction fuel generalizing r sizes sys with
  | zero =>
      simp only [userptr_dequeue_loop] at h
      split_ifs at h
      rw [← Option.some.inj h]
      exact ⟨[], by simp, by simp⟩
  | succ fuel ih =>
      simp only [userptr_dequeue_loop] at h
      by_cases hlt : r < nq
      · simp only [hlt, if_true] at h
        have fin : ∀ (r1 : Nat) (s1 : List (List Nat)) (sysx : Syscalls) (extra : List Event),
            (∀ buf ret, Event.QBUF buf ret ∉ extra) →
            sysx.trace = sys.trace ++ extra →
            userptr_dequeue_loop K st fuel r1 nq s1 sysx = some out →
            ∃ late, out.2.trace = sys.trace ++ late ∧ ∀ buf ret, Event.QBUF buf ret ∉ late := by
          intro r1 s1 sysx extra hex htr h1
          obtain ⟨late, h2, h3⟩ := ih _ _ _ h1
          refine ⟨extra ++ late, ?_, ?_⟩
          · rw [h2, htr]; simp
          · intro buf ret hmem
            rcases List.mem_append.1 hmem with h4 | h4
            · exact hex buf ret h4
            · exact h3 buf ret h4
        cases hres : K.dqbuf sys.nd with
        | ok b =>
            rw [hres] at h
            simp only [] at h
            cases hw : (if st._buffer_plane_type_
                  = v4l2_buf_type.V4L2_BUF_TYPE_VIDEO_CAPTURE_MPLANE
                then sizes_write_planes (plane_bytesused b) b.index b.length 0 sizes
                else sizes_write sizes b.index 0 b.bytesused) with
            | none => rw [hw] at h; simp at h
            | some s1 =>
                rw [hw] at h
                simp only [] at h
                refine fin (r + 1) s1 _ [Event.DQBUF (dqbuf_result.ok b)] ?_ rfl h
                intro buf ret hmem
                simp at hmem
        | error e =>
            rw [hres] at h
            cases e with
            | EAGAIN =>
                simp only [] at h
                rw [try_device_snd] at h
                refine fin r sizes _ [Event.DQBUF (dqbuf_result.error Errno.EAGAIN),
                  Event.SELECT (K.select sys.ns)] ?_ (by simp) h
                intro buf ret hmem
                simp at hmem
            | _ =>
                simp only [] at h
                refine fin (r + 1) sizes _ [Event.DQBUF (dqbuf_result.error _)] ?_ rfl h
                intro buf ret hmem
                simp at hmem
      · simp only [hlt, if_false] at h
        rw [← Option.some.inj h]
        exact ⟨[], by simp, by simp⟩

theorem stalled_dequeue_none (st : V4L2_Backend) (fuel : Nat) (sizes : List (List Nat))
    (sys : Syscalls) : userptr_dequeue_loop stalled_kernel st fuel 0 1 sizes sys = none := by
  induction fuel generalizing sys with
  | zero => simp [userptr_dequeue_loop]
  | succ fuel ih =>
      simp only [userptr_dequeue_loop]
      have h1 : stalled_kernel.dqbuf sys.nd = dqbuf_result.error Errno.EAGAIN := rfl
      simp only [h1, Nat.lt_one_iff, if_true]
      exact ih _

theorem spans_of_closed (st : V4L2_Backend) (hwf : WellFormed st) (buf : v4l2_buffer)
    (hidx : buf.index < st._num_buffers_) :
    ∃ row, st._mapped_buffers_[buf.index]? = some row
      ∧ row.length = num_planes st
      ∧ (spans_of st buf).map Span.data = row.map Span.data
      ∧ (get_buffer_type_v4l2 st = v4l2_buf_type.V4L2_BUF_TYPE_VIDEO_CAPTURE →
          ∃ sp, row = [sp] ∧ spans_of st buf = [{ data := sp.data, size := buf.bytesused }]) := by
  obtain ⟨_, _, _, _, hlen, hrows⟩ := hwf
  have hi : buf.index < st._mapped_buffers_.length := by rw [hlen]; exact hidx
  have hrow : st._mapped_buffers_[buf.index]? = some (st._mapped_buffers_[buf.index]) :=
    List.getElem?_eq_getElem hi
  have hrl : (st._mapped_buffers_[buf.index]).length = num_planes st :=
    hrows _ (List.getElem_mem hi)
  have hat : ∀ i, mapped_at st buf.index i = (st._mapped_buffers_[buf.index])[i]? := by
    intro i
    simp only [mapped_at, hrow]
  refine ⟨_, hrow, hrl, ?_, ?_⟩
  · apply List.ext_getElem?
    intro i
    unfold spans_of
    split_ifs with hm
    · simp only [List.map_map, List.getElem?_map, hat]
      by_cases hlt : i < num_planes st
      · have h1 : (List.range' 0 (num_planes st))[i]? = some i := by
          rw [List.getElem?_range' _ _ hlt]
          simp
        have h2 : i < (st._mapped_buffers_[buf.index]).length := by rw [hrl]; exact hlt
        simp [h1, List.getElem?_eq_getElem h2]
      · have h1 : (List.range' 0 (num_planes st))[i]? = none := by
          apply List.getElem?_eq_none
          simp
          omega
        have h2 : (st._mapped_buffers_[buf.index])[i]? = none := by
          apply List.getElem?_eq_none
          rw [hrl]; omega
        simp [h1, h2]
    · have hn1 : num_planes st = 1 :=
        num_planes_single st ⟨‹_›, ‹_›, ‹_›, ‹_›, hlen, hrows⟩ hm
      rw [hn1] at hrl
      obtain ⟨sp, hsp⟩ := List.length_eq_one.1 hrl
      simp only [hat, hsp]
      cases i with
      | zero => simp
      | succ j => simp
  · intro hs
    have hm : get_buffer_type_v4l2 st ≠ v4l2_buf_type.V4L2_BUF_TYPE_VIDEO_CAPTURE_MPLANE := by
      rw [hs]; decide
    have hn1 : num_planes st = 1 :=
      num_planes_single st ⟨‹_›, ‹_›, ‹_›, ‹_›, hlen, hrows⟩ hm
    rw [hn1] at hrl
    obtain ⟨sp, hsp⟩ := List.length_eq_one.1 hrl
    refine ⟨sp, hsp, ?_⟩
    unfold spans_of
    rw [if_neg hm]
    simp [hat, hsp]

/-! ## The claims -/

/-- C1 (counterexample to the claim as stated). Ring of one slot, Oldest policy, slot 0
pending from the previous call: the call requeues slot 0 on entry (a QBUF naming slot 0 is
in its log), the kernel hands slot 0 back, and the returned non-empty view is the span
over the mapping of slot 0. -/
theorem deferred_requeue_entry_qbuf_same_slot :
    ∃ st1 sys1,
      get_frame_data 0 (scripted_kernel [dqbuf_result.ok (frame 0 2 0 120)])
          { ring_single Internal_Buffering_Strategy.Oldest 1 with
              _buffer_of_buffers := [frame 0 1 0 100] } {}
        = some ([{ data := 4096, size := 120 }], st1, sys1)
      ∧ mapped_at (ring_single Internal_Buffering_Strategy.Oldest 1) 0 0
          = some { data := 4096, size := 4096 }
      ∧ Event.QBUF (frame 0 1 0 100) true ∈ sys1.trace
      ∧ (frame 0 1 0 100).index = 0 :=
  ⟨_, _, rfl, rfl, by decide, rfl⟩

/-- C1 (amended). Deferred requeue: in MMAP mode every `get_frame_data` call returns, and
when the returned view is non-empty (under Only_Newest: provided the buffers stored in the
call have pairwise distinct `tv_usec` keys and pairwise distinct slot indices) the pending
queue holds exactly one descriptor `held`, whose slot is inside the ring and is the slot
of the view: the base addresses of the spans of the view are those of the row
`_mapped_buffers_[held.index]`, in order, and for single-plane capture the view is the one
span over plane 0 of that row with length `held.bytesused` (for multi-plane capture the
span lengths are not stated: the source reads them through `buf.m.planes`, which
`instantiate_buf` leaves pointing at an array whose lifetime has ended).  No QBUF issued
after the readiness wait of the call names the slot of `held`, and the next
`get_frame_data` call starts with the QBUF of `held`, before its `select` and before any
DQBUF. -/
theorem deferred_requeue_after_wait (fuel : Nat) (K : Kernel) (st : V4L2_Backend)
    (sys : Syscalls) (hwf : WellFormed st)
    (hmode : st._configuration_.buffering = Buffering.Internal)
    (hdistinct : st._configuration_.v4l2.buffer_usage_policy
        = Internal_Buffering_Strategy.Only_Newest →
      ((stored_buffers K st._num_buffers_ st._num_buffers_ sys.nd).map
          (fun b => b.timestamp.tv_usec)).Nodup
      ∧ ((stored_buffers K st._num_buffers_ st._num_buffers_ sys.nd).map
          (fun b => b.index)).Nodup) :
    ∃ view st1 sys1,
      get_frame_data fuel K st sys = some (view, st1, sys1)
      ∧ (view ≠ [] →
          ∃ held late row,
            st1._buffer_of_buffers = [held]
            ∧ held.index < st._num_buffers_
            ∧ st._mapped_buffers_[held.index]? = some row
            ∧ view.map Span.data = row.map Span.data
            ∧ (get_buffer_type_v4l2 st = v4l2_buf_type.V4L2_BUF_TYPE_VIDEO_CAPTURE →
                ∃ sp, row = [sp] ∧ view = [{ data := sp.data, size := held.bytesused }])
            ∧ sys1.trace = (entry_syscalls K st sys).trace ++ late
            ∧ (∀ buf ret, Event.QBUF buf ret ∈ late → buf.index ≠ held.index)
            ∧ ∀ (fuel2 : Nat) (K2 : Kernel) (sys2 : Syscalls),
                ∃ view2 st2 sys3 rest,
                  get_frame_data fuel2 K2 st1 sys2 = some (view2, st2, sys3)
                  ∧ sys3.trace = sys2.trace
                      ++ Event.QBUF held (K2.qbuf sys2.nq)
                        :: Event.SELECT (K2.select sys2.ns) :: rest) := by
  rw [get_frame_data_internal fuel K st sys hmode]
  -- what the next call does, for any state that differs from `st` in the two mutable members
  have hnext : ∀ (f : Nat) (held : v4l2_buffer) (fuel2 : Nat) (K2 : Kernel) (sys2 : Syscalls),
      ∃ view2 st2 sys3 rest,
        get_frame_data fuel2 K2
            { st with _frame_order_ := f, _buffer_of_buffers := [held] } sys2
          = some (view2, st2, sys3)
        ∧ sys3.trace = sys2.trace
            ++ Event.QBUF held (K2.qbuf sys2.nq) :: Event.SELECT (K2.select sys2.ns) :: rest := by
    intro f held fuel2 K2 sys2
    have hwf1 : WellFormed { st with _frame_order_ := f, _buffer_of_buffers := [held] } := hwf
    obtain ⟨view2, f2, q2, nq2, nd2, late2, h1, _⟩ :=
      get_frame_data_mmap_total K2 _ sys2 hwf1
    have hgi := get_frame_data_internal fuel2 K2
      { st with _frame_order_ := f, _buffer_of_buffers := [held] } sys2 hmode
    refine ⟨view2, _, _, late2, hgi.trans h1, ?_⟩
    simp [entry_syscalls, qbuf_events]
  by_cases hready : (try_device K (drain_pending K st._buffer_of_buffers sys)).1 = true
  · cases hpol : st._configuration_.v4l2.buffer_usage_policy with
    | Oldest =>
        refine ⟨_, _, _, get_frame_data_mmap_oldest K st sys hwf hpol hready, ?_⟩
        intro hne
        have hheld : (oldest_buf st (K.dqbuf sys.nd)).index < st._num_buffers_
            ∧ oldest_view st (K.dqbuf sys.nd) = spans_of st (oldest_buf st (K.dqbuf sys.nd)) := by
          cases hres : K.dqbuf sys.nd with
          | ok b =>
              rw [hres] at hne
              simp only [oldest_view] at hne ⊢
              split_ifs at hne ⊢ with h1
              · exact ⟨h1, rfl⟩
              · exact absurd rfl hne
          | error e =>
              rw [hres] at hne
              have hi : (instantiate_buf st).index < st._num_buffers_ := by
                have h0 : (instantiate_buf st).index = 0 := by
                  unfold instantiate_buf
                  split_ifs <;> rfl
                rw [h0]
                exact hwf.2.2.1
              cases e with
              | EIO => exact ⟨hi, rfl⟩
              | _ =>
                  simp only [oldest_view] at hne
                  exact absurd rfl hne
        obtain ⟨row, hrow, _, hbases, hsingle⟩ :=
          spans_of_closed st hwf (oldest_buf st (K.dqbuf sys.nd)) hheld.1
        rw [← hheld.2] at hbases hsingle
        refine ⟨oldest_buf st (K.dqbuf sys.nd), [Event.DQBUF (K.dqbuf sys.nd)], row, rfl,
          hheld.1, hrow, hbases, hsingle, rfl, ?_, hnext _ _⟩
        intro buf ret hmem
        simp at hmem
    | Only_Newest =>
        obtain ⟨hkeys, hidx⟩ := hdistinct hpol
        by_cases hk : 1 ≤ (stored_buffers K st._num_buffers_ st._num_buffers_ sys.nd).length
        · obtain ⟨newest, requeued, hperm, _, hres⟩ :=
            only_newest_distinct K st sys hwf hpol hready hk hkeys
          refine ⟨_, _, _, hres, ?_⟩
          intro _
          have hmemN : newest ∈ stored_buffers K st._num_buffers_ st._num_buffers_ sys.nd :=
            hperm.subset (by simp)
          have hin : newest.index < st._num_buffers_ :=
            (stored_buffers_index K _ _ _ newest hmemN).1
          obtain ⟨row, hrow, _, hbases, hsingle⟩ := spans_of_closed st hwf newest hin
          refine ⟨newest, dqbuf_events K st._num_buffers_ sys.nd
            ++ qbuf_events K (entry_syscalls K st sys).nq requeued, row, rfl, hin, hrow, hbases,
            hsingle, ?_, ?_, hnext _ _⟩
          · simp only [List.append_assoc]
          · intro buf ret hmem
            rcases List.mem_append.1 hmem with h | h
            · exact absurd h (not_mem_dqbuf_events K _ _ buf ret)
            · have hb : buf ∈ requeued := mem_qbuf_events K _ _ buf ret h
              have hnd : ((requeued ++ [newest]).map (fun b => b.index)).Nodup :=
                (hperm.map _).nodup_iff.2 hidx
              rw [List.map_append, List.nodup_append] at hnd
              intro hEq
              exact hnd.2.2 (List.mem_map.2 ⟨buf, hb, rfl⟩) (by simp [hEq])
        · have hnil : stored_buffers K st._num_buffers_ st._num_buffers_ sys.nd = [] := by
            apply List.eq_nil_of_length_eq_zero
            omega
          have hnf := get_frame_data_mmap_only_newest K st sys hwf hpol hready
          rw [hnil] at hnf
          simp only [store_all, List.foldl_nil, List.getLast?_nil] at hnf
          exact ⟨_, _, _, hnf, fun h => absurd rfl h⟩
  · have hwait : (try_device K (drain_pending K st._buffer_of_buffers sys)).1 = false := by
      simpa using hready
    exact ⟨_, _, _, get_frame_data_mmap_not_ready K st sys hwait, fun h => absurd rfl h⟩

/-- C1 (witness). Instance of the amended statement: three slots, single-plane capture,
Only_Newest, three buffers dequeued with distinct keys and distinct slots; the returned
view is the span of 20 bytes over the mapping of slot 0, slot 0 stays pending and the two
QBUFs after the wait name slots 2 and 1. -/
theorem deferred_requeue_after_wait_witness :
    WellFormed (ring_single Internal_Buffering_Strategy.Only_Newest 3)
    ∧ ∃ st1 sys1,
        get_frame_data 0
            (scripted_kernel [dqbuf_result.ok (frame 2 5 100 10), dqbuf_result.ok (frame 0 5 300 20),
              dqbuf_result.ok (frame 1 5 200 30)])
            (ring_single Internal_Buffering_Strategy.Only_Newest 3) {}
          = some ([{ data := 4096, size := 20 }], st1, sys1)
        ∧ ∃ held late,
            st1._buffer_of_buffers = [held]
            ∧ held.index < 3
            ∧ (∃ sp, (ring_single Internal_Buffering_Strategy.Only_Newest 3)._mapped_buffers_[
                    held.index]? = some [sp]
                ∧ ([{ data := 4096, size := 20 }] : Multiplanar_Buffer_View)
                    = [{ data := sp.data, size := held.bytesused }])
            ∧ sys1.trace = [Event.SELECT { r := 1 }] ++ late
            ∧ ∀ buf ret, Event.QBUF buf ret ∈ late → buf.index ≠ held.index := by
  obtain ⟨view, st1, sys1, h, himp⟩ := deferred_requeue_after_wait 0
    (scripted_kernel [dqbuf_result.ok (frame 2 5 100 10), dqbuf_result.ok (frame 0 5 300 20),
      dqbuf_result.ok (frame 1 5 200 30)])
    (ring_single Internal_Buffering_Strategy.Only_Newest 3) {} (by decide) rfl
    (fun _ => ⟨by decide, by decide⟩)
  have h0 : (get_frame_data 0
      (scripted_kernel [dqbuf_result.ok (frame 2 5 100 10), dqbuf_result.ok (frame 0 5 300 20),
        dqbuf_result.ok (frame 1 5 200 30)])
      (ring_single Internal_Buffering_Strategy.Only_Newest 3) {}).map (fun r => r.1)
      = some [{ data := 4096, size := 20 }] := by decide
  have hv : view = [{ data := 4096, size := 20 }] := by
    rw [h] at h0
    simp only [Option.map_some', Option.some.injEq] at h0
    exact h0
  subst hv
  obtain ⟨held, late, row, h1, h2, h3, _, h5, h6, h7, _⟩ := himp (by simp)
  obtain ⟨sp, hrow, hview⟩ := h5 rfl
  rw [hrow] at h3
  exact ⟨by decide, st1, sys1, h, held, late, h1, h2, ⟨sp, h3, hview⟩, h6, h7⟩

/-- C2 (evaluation at the failing input). Only_Newest, two slots: slot 0 is dequeued with
timestamp 1.900000 s and slot 1 with the later timestamp 2.100000 s.  The map key is
`tv_usec` alone, so the call returns the view of slot 0 (the older frame), keeps its
descriptor pending, and requeues the newer slot 1 at once. -/
theorem only_newest_returns_older_frame :
    (get_frame_data 0
        (scripted_kernel [dqbuf_result.ok (frame 0 1 900000 100),
          dqbuf_result.ok (frame 1 2 100000 200)])
        (ring_single Internal_Buffering_Strategy.Only_Newest 2) {}).map
      (fun r => (r.1, r.2.1._buffer_of_buffers, r.2.2.trace))
    = some ([{ data := 4096, size := 100 }], [frame 0 1 900000 100],
        [Event.SELECT { r := 1 }, Event.DQBUF (dqbuf_result.ok (frame 0 1 900000 100)),
          Event.DQBUF (dqbuf_result.ok (frame 1 2 100000 200)),
          Event.QBUF (frame 1 2 100000 200) true]) := by
  decide

/-- C3. OnlyNewest requeue split: in MMAP mode under Only_Newest, when the readiness wait
succeeds and the `k ≥ 1` buffers stored in the call have pairwise distinct `tv_usec` keys,
the call logs, after its DQBUF attempts, exactly `k - 1` QBUFs, one for each stored buffer
other than `newest` (the one with the largest key), and leaves exactly the descriptor of
`newest` on the pending queue.  The view returned is the view of the slot of `newest`: it
has `num_planes()` spans whose base addresses are those of the row
`_mapped_buffers_[newest.index]`, in order.  For single-plane capture the view is the one
span over plane 0 of that row with length `newest.bytesused`.  For multi-plane capture the
span lengths are not stated: the source reads them through `buf.m.planes`, which
`instantiate_buf` leaves pointing at an array whose lifetime has ended. -/
theorem only_newest_requeue_split (fuel : Nat) (K : Kernel) (st : V4L2_Backend)
    (sys : Syscalls) (hwf : WellFormed st)
    (hmode : st._configuration_.buffering = Buffering.Internal)
    (hpol : st._configuration_.v4l2.buffer_usage_policy
      = Internal_Buffering_Strategy.Only_Newest)
    (hready : (try_device K (drain_pending K st._buffer_of_buffers sys)).1 = true)
    (hk : 1 ≤ (stored_buffers K st._num_buffers_ st._num_buffers_ sys.nd).length)
    (hkeys : ((stored_buffers K st._num_buffers_ st._num_buffers_ sys.nd).map
      (fun b => b.timestamp.tv_usec)).Nodup) :
    ∃ newest requeued view row,
      (requeued ++ [newest]).Perm (stored_buffers K st._num_buffers_ st._num_buffers_ sys.nd)
      ∧ (∀ b ∈ stored_buffers K st._num_buffers_ st._num_buffers_ sys.nd,
          b.timestamp.tv_usec ≤ newest.timestamp.tv_usec)
      ∧ requeued.length
          = (stored_buffers K st._num_buffers_ st._num_buffers_ sys.nd).length - 1
      ∧ newest.index < st._num_buffers_
      ∧ st._mapped_buffers_[newest.index]? = some row
      ∧ view.length = num_planes st
      ∧ view.map Span.data = row.map Span.data
      ∧ (get_buffer_type_v4l2 st = v4l2_buf_type.V4L2_BUF_TYPE_VIDEO_CAPTURE →
          ∃ sp, row = [sp] ∧ view = [{ data := sp.data, size := newest.bytesused }])
      ∧ get_frame_data fuel K st sys =
          some (view,
            { st with _frame_order_ := bump st._num_buffers_ st._frame_order_,
                      _buffer_of_buffers := [newest] },
            { nq := (entry_syscalls K st sys).nq + requeued.length,
              ns := sys.ns + 1,
              nd := sys.nd + st._num_buffers_,
              trace := (entry_syscalls K st sys).trace
                ++ dqbuf_events K st._num_buffers_ sys.nd
                ++ qbuf_events K (entry_syscalls K st sys).nq requeued }) := by
  obtain ⟨newest, requeued, hperm, hmax, hres⟩ :=
    only_newest_distinct K st sys hwf hpol hready hk hkeys
  have hmemN : newest ∈ stored_buffers K st._num_buffers_ st._num_buffers_ sys.nd :=
    hperm.subset (by simp)
  have hidx : newest.index < st._num_buffers_ := (stored_buffers_index K _ _ _ newest hmemN).1
  obtain ⟨row, hrow, _, hbases, hsingle⟩ := spans_of_closed st hwf newest hidx
  refine ⟨newest, requeued, spans_of st newest, row, hperm, hmax, ?_, hidx, hrow,
    spans_of_length st hwf newest, hbases, hsingle, ?_⟩
  · have := hperm.length_eq
    simp only [List.length_append, List.length_singleton] at this
    omega
  · rw [get_frame_data_internal fuel K st sys hmode]
    exact hres

/-- C3 (witness). Instance: three slots, single-plane capture, three buffers dequeued with
keys 100, 300 and 200: slot 0 (key 300) stays pending, the two other buffers are requeued,
and the view is the span of 20 bytes over the mapping of slot 0. -/
theorem only_newest_requeue_split_witness :
    WellFormed (ring_single Internal_Buffering_Strategy.Only_Newest 3)
    ∧ ∃ requeued st1 sys1,
        (requeued ++ [frame 0 5 300 20]).Perm
          [frame 2 5 100 10, frame 0 5 300 20, frame 1 5 200 30]
        ∧ requeued.length = 2
        ∧ get_frame_data 0
            (scripted_kernel [dqbuf_result.ok (frame 2 5 100 10),
              dqbuf_result.ok (frame 0 5 300 20), dqbuf_result.ok (frame 1 5 200 30)])
            (ring_single Internal_Buffering_Strategy.Only_Newest 3) {}
          = some ([{ data := 4096, size := 20 }], st1, sys1)
        ∧ st1._buffer_of_buffers = [frame 0 5 300 20] := by
  refine ⟨by decide, ?_⟩
  obtain ⟨newest, requeued, view, row, h1, h2, h3, _, h5, _, _, h8, h9⟩ :=
    only_newest_requeue_split 0
      (scripted_kernel [dqbuf_result.ok (frame 2 5 100 10), dqbuf_result.ok (frame 0 5 300 20),
        dqbuf_result.ok (frame 1 5 200 30)])
      (ring_single Internal_Buffering_Strategy.Only_Newest 3) {} (by decide) rfl rfl
      (by decide) (by decide) (by decide)
  have hp : (requeued ++ [newest]).Perm
      [frame 2 5 100 10, frame 0 5 300 20, frame 1 5 200 30] := h1
  have hmax : (300 : Int) ≤ newest.timestamp.tv_usec :=
    h2 (frame 0 5 300 20) (by decide)
  have hmem : newest ∈ [frame 2 5 100 10, frame 0 5 300 20, frame 1 5 200 30] :=
    hp.subset (by simp)
  have hnew : newest = frame 0 5 300 20 := by
    simp only [List.mem_cons, List.mem_singleton, List.not_mem_nil, or_false] at hmem
    rcases hmem with h | h | h
    · rw [h] at hmax; exact absurd hmax (by decide)
    · exact h
    · rw [h] at hmax; exact absurd hmax (by decide)
  subst hnew
  obtain ⟨sp, hrow, hview⟩ := h8 rfl
  have hrow0 : row = [{ data := 4096, size := 4096 }] := by
    have h0 : (ring_single Internal_Buffering_Strategy.Only_Newest 3)._mapped_buffers_[
        (frame 0 5 300 20).index]? = some [{ data := 4096, size := 4096 }] := by decide
    exact Option.some.inj (h5.symm.trans h0)
  have hsp : sp = { data := 4096, size := 4096 } := by
    rw [hrow0] at hrow
    exact (List.cons.inj hrow).1.symm
  rw [hsp] at hview
  rw [hview] at h9
  exact ⟨requeued, _, _, hp, h3, h9, rfl⟩

/-- C4 (evaluation at the failing input). Only_Newest, two slots, both dequeued with the
same `tv_usec`: the call logs no QBUF at all and leaves only the descriptor of slot 1 on
the pending queue, so the dequeued slot 0 is neither handed back nor recorded. -/
theorem only_newest_shared_key_drops_slot :
    (get_frame_data 0
        (scripted_kernel [dqbuf_result.ok (frame 0 1 500000 100),
          dqbuf_result.ok (frame 1 2 500000 200)])
        (ring_single Internal_Buffering_Strategy.Only_Newest 2) {}).map
      (fun r => (r.2.1._buffer_of_buffers, r.2.2.trace))
    = some ([frame 1 2 500000 200],
        [Event.SELECT { r := 1 }, Event.DQBUF (dqbuf_result.ok (frame 0 1 500000 100)),
          Event.DQBUF (dqbuf_result.ok (frame 1 2 500000 200))]) := by
  decide

/-- C5 (evaluation at the failing input). Only_Newest, multi-plane capture with two
planes, two slots dequeued with the same `tv_usec`: the returned view has four spans, the
two planes of the earlier slot 0 followed by the two planes of the later slot 1, while
`num_planes()` is 2. -/
theorem only_newest_shared_key_view_has_both_buffers :
    (get_frame_data 0
        (scripted_kernel [dqbuf_result.ok (frame_mp 0 7 250000 [10, 20]),
          dqbuf_result.ok (frame_mp 1 8 250000 [30, 40])])
        (ring_mplane Internal_Buffering_Strategy.Only_Newest 2) {}).map (fun r => r.1)
      = some [{ data := 8192, size := 10 }, { data := 12288, size := 20 },
          { data := 16384, size := 30 }, { data := 20480, size := 40 }]
    ∧ num_planes (ring_mplane Internal_Buffering_Strategy.Only_Newest 2) = 2 := by
  decide

/-- C6 (evaluation at the failing input). Only_Newest, single-plane capture, three slots:
slot 2 is dequeued with key 100, slots 0 and 1 with the same larger key 900.  The call
returns descriptor 1 on the pending queue together with a view of two spans (slot 0 with
222 bytes, then slot 1 with 333 bytes), while `num_planes()` is 1. -/
theorem only_newest_single_plane_view_has_two_spans :
    (get_frame_data 0
        (scripted_kernel [dqbuf_result.ok (frame 2 3 100 111), dqbuf_result.ok (frame 0 3 900 222),
          dqbuf_result.ok (frame 1 4 900 333)])
        (ring_single Internal_Buffering_Strategy.Only_Newest 3) {}).map
      (fun r => (r.1, r.2.1._buffer_of_buffers))
      = some ([{ data := 4096, size := 222 }, { data := 8192, size := 333 }], [frame 1 4 900 333])
    ∧ num_planes (ring_single Internal_Buffering_Strategy.Only_Newest 3) = 1 := by
  decide

/-- C7. Empty on timeout: in MMAP mode, when the readiness wait of a `get_frame_data`
call reports not-ready, the call issues exactly one QBUF per pending descriptor in FIFO
order followed by the one `select`, issues no DQBUF, leaves the pending queue empty,
leaves every other member unchanged and returns an empty view; it does not fail. -/
theorem get_frame_data_empty_on_timeout (fuel : Nat) (K : Kernel) (st : V4L2_Backend)
    (sys : Syscalls) (hmode : st._configuration_.buffering = Buffering.Internal)
    (hwait : (try_device K (drain_pending K st._buffer_of_buffers sys)).1 = false) :
    get_frame_data fuel K st sys =
      some ([], { st with _buffer_of_buffers := [] },
        { nq := sys.nq + st._buffer_of_buffers.length, ns := sys.ns + 1, nd := sys.nd,
          trace := sys.trace ++ qbuf_events K sys.nq st._buffer_of_buffers
            ++ [Event.SELECT (K.select sys.ns)] }) := by
  rw [get_frame_data_internal fuel K st sys hmode]
  exact get_frame_data_mmap_not_ready K st sys hwait

/-- C7 (witness). Instance: two pending descriptors, `select`
times out. -/
theorem get_frame_data_empty_on_timeout_witness :
    (try_device stalled_kernel
        (drain_pending stalled_kernel ring_with_pending._buffer_of_buffers {})).1 = false
    ∧ get_frame_data 0 stalled_kernel ring_with_pending {}
        = some ([], ring_single Internal_Buffering_Strategy.Oldest 2,
            { nq := 2, ns := 1, nd := 0,
              trace := [Event.QBUF (frame 0 1 0 100) true, Event.QBUF (frame 1 1 33000 100) true,
                Event.SELECT { r := 0 }] }) :=
  ⟨by decide, get_frame_data_empty_on_timeout 0 stalled_kernel ring_with_pending {} rfl (by decide)⟩

/-- C8 (evaluation at the failing input). Oldest policy, the device is ready and the one
DQBUF fails with EIO: the call returns a view with one span (slot 0, length 0), not an
empty view, and pushes the untouched zero payload (index 0) on the pending queue. -/
theorem oldest_eio_returns_nonempty_view :
    (get_frame_data 0 (scripted_kernel [dqbuf_result.error Errno.EIO])
        (ring_single Internal_Buffering_Strategy.Oldest 2) {}).map
      (fun r => (r.1, r.2.1._buffer_of_buffers, r.2.2.trace))
    = some ([{ data := 4096, size := 0 }],
        [instantiate_buf (ring_single Internal_Buffering_Strategy.Oldest 2)],
        [Event.SELECT { r := 1 }, Event.DQBUF (dqbuf_result.error Errno.EIO)]) := by
  decide

/-- C9 (counterexample to the claim as stated). USERPTR mode, one caller view, the QBUF
succeeds and the kernel answers EAGAIN to every DQBUF: whatever the fuel, the dequeue loop
of `put_frame_data` is still running, so the call returns no matrix. -/
theorem put_frame_data_stalled_never_returns :
    ¬ ∃ fuel, (put_frame_data fuel stalled_kernel (userptr_single 1)
        [[{ data := 65536, size := 4096 }]] {}).isSome = true := by
  rintro ⟨fuel, h⟩
  have hq : ∃ stq sizesq sysq,
      userptr_queue_loop stalled_kernel [[{ data := 65536, size := 4096 }]] 0
        (userptr_single 1) 0
        (List.replicate 1 (List.replicate (num_planes (userptr_single 1)) 0)) {}
      = some (stq, 1, sizesq, sysq) := ⟨_, _, _, rfl⟩
  obtain ⟨stq, sizesq, sysq, hq⟩ := hq
  have hmem : ¬ (get_memory_mapping_type_v4l2 (userptr_single 1) = v4l2_memory.V4L2_MEMORY_MMAP
      ∨ get_memory_mapping_type_v4l2 (userptr_single 1) = v4l2_memory.V4L2_MEMORY_DMABUF) := by
    decide
  unfold put_frame_data at h
  simp only [hmem, if_false, List.length_singleton, hq, stalled_dequeue_none] at h
  exact absurd h (by simp)

/-- C9 (amended). Sizes matrix shape: whenever `put_frame_data` returns, in either
buffering mode and for every kernel, the matrix has exactly one row per caller view and
every row has exactly `num_planes()` entries.  The call returns for every kernel in MMAP
mode; in USERPTR mode it returns when the caller views have `num_planes()` planes, the
kernel writes back indices and plane counts in range, and the kernel stops answering
EAGAIN from some DQBUF `B` on. -/
theorem put_frame_data_sizes_shape (fuel : Nat) (K : Kernel) (st : V4L2_Backend)
    (frames : List Multiplanar_Buffer_View) (sys : Syscalls) :
    (∀ out, put_frame_data fuel K st frames sys = some out →
        out.1.length = frames.length ∧ ∀ row ∈ out.1, row.length = num_planes st)
    ∧ (st._configuration_.buffering = Buffering.Internal → WellFormed st →
        ∃ out, put_frame_data fuel K st frames sys = some out)
    ∧ (st._configuration_.buffering ≠ Buffering.Internal → Negotiated st →
        (∀ f ∈ frames, num_planes st ≤ f.length) →
        (∀ k b, sys.nd ≤ k → K.dqbuf k = dqbuf_result.ok b →
          b.index < frames.length
            ∧ (st._buffer_plane_type_ = v4l2_buf_type.V4L2_BUF_TYPE_VIDEO_CAPTURE_MPLANE →
              b.length ≤ num_planes st)) →
        ∀ B, (∀ k, B ≤ k → K.dqbuf k ≠ dqbuf_result.error Errno.EAGAIN) →
          frames.length + (B - sys.nd) ≤ fuel →
          ∃ out, put_frame_data fuel K st frames sys = some out) := by
  refine ⟨fun out h => put_frame_data_shape fuel K st frames sys out h, ?_, ?_⟩
  · intro hmode hwf
    have hmem : get_memory_mapping_type_v4l2 st = v4l2_memory.V4L2_MEMORY_MMAP
        ∨ get_memory_mapping_type_v4l2 st = v4l2_memory.V4L2_MEMORY_DMABUF := by
      left
      simp [get_memory_mapping_type_v4l2, hmode]
    unfold put_frame_data
    simp only [hmem, if_true]
    exact put_frame_data_mmap_some frames.length K frames 0 st _ sys hwf (shape_replicate _ _)
      (by omega)
  · intro hmode hneg hframes hrange B hB hfuel
    exact put_frame_data_userptr_some fuel K st frames sys B hmode hneg hframes hrange hB hfuel

/-- C9 (witness). Instances of the amended statement: an MMAP run over three caller views and a
USERPTR run over three two-plane caller views both return, with matrices of three rows. -/
theorem put_frame_data_sizes_shape_witness :
    ((put_frame_data 0
          (scripted_kernel [dqbuf_result.ok (frame 0 1 0 100), dqbuf_result.ok (frame 1 1 5 200)])
          (ring_single Internal_Buffering_Strategy.Oldest 2)
          [[{ data := 5, size := 4096 }], [], [{ data := 7, size := 50 }]] {}).map (fun r => r.1)
        = some [[100], [0], [0]])
    ∧ ((put_frame_data 3 userptr_kernel (userptr_mplane 3) caller_views {}).map (fun r => r.1)
        = some [[280, 140], [0, 0], [300, 150]])
    ∧ ∀ out, put_frame_data 3 userptr_kernel (userptr_mplane 3) caller_views {} = some out →
        out.1.length = 3 ∧ ∀ row ∈ out.1, row.length = 2 :=
  ⟨by decide, by decide,
    (put_frame_data_sizes_shape 3 userptr_kernel (userptr_mplane 3) caller_views {}).1⟩

/-- C10. USERPTR row contents: in USERPTR mode, assuming every index a DQBUF writes back
is below `M = frames.length` and belongs to a caller buffer whose QBUF succeeded in this
call (the QBUF of caller buffer `i` is the `i`-th QBUF of the call), and no index is
written back twice, the matrix `put_frame_data` returns has, for every `i < M`, row `i`
equal to the per-plane `bytesused` reported by the successful DQBUF of this call that
carried index `i`, and all zeros when no DQBUF of this call carried index `i`; in
particular row `i` is all zeros when the QBUF of caller buffer `i` failed.  The call logs
one QBUF per caller buffer, in order, and no other QBUF.  It returns whenever the caller
views have `num_planes()` planes, the kernel reports at most `num_planes()` planes and
stops answering EAGAIN from some DQBUF `B` on. -/
theorem userptr_row_contents (fuel : Nat) (K : Kernel) (st : V4L2_Backend)
    (frames : List Multiplanar_Buffer_View) (sys : Syscalls)
    (hmode : st._configuration_.buffering ≠ Buffering.Internal)
    (hassume : ∀ k b, sys.nd ≤ k → K.dqbuf k = dqbuf_result.ok b →
      b.index < frames.length ∧ K.qbuf (sys.nq + b.index) = true)
    (huniq : ∀ j k b c, sys.nd ≤ j → sys.nd ≤ k → K.dqbuf j = dqbuf_result.ok b →
      K.dqbuf k = dqbuf_result.ok c → b.index = c.index → j = k) :
    (∀ sizes st1 sys1, put_frame_data fuel K st frames sys = some (sizes, st1, sys1) →
        (∃ bufs late, sys1.trace = sys.trace ++ qbuf_events K sys.nq bufs ++ late
            ∧ bufs.map (fun b => b.index) = List.range frames.length
            ∧ ∀ buf ret, Event.QBUF buf ret ∉ late)
        ∧ sys.nd ≤ sys1.nd
        ∧ ∀ i, i < frames.length →
            (∀ k b, sys.nd ≤ k → k < sys1.nd → K.dqbuf k = dqbuf_result.ok b → b.index = i →
                sizes[i]? = some (reported_row st b))
            ∧ ((∀ k b, sys.nd ≤ k → k < sys1.nd → K.dqbuf k = dqbuf_result.ok b →
                  b.index ≠ i) →
                sizes[i]? = some (List.replicate (num_planes st) 0))
            ∧ (K.qbuf (sys.nq + i) = false →
                sizes[i]? = some (List.replicate (num_planes st) 0)))
    ∧ (Negotiated st → (∀ f ∈ frames, num_planes st ≤ f.length) →
        (∀ k b, sys.nd ≤ k → K.dqbuf k = dqbuf_result.ok b →
          st._buffer_plane_type_ = v4l2_buf_type.V4L2_BUF_TYPE_VIDEO_CAPTURE_MPLANE →
          b.length ≤ num_planes st) →
        ∀ B, (∀ k, B ≤ k → K.dqbuf k ≠ dqbuf_result.error Errno.EAGAIN) →
          frames.length + (B - sys.nd) ≤ fuel →
          ∃ out, put_frame_data fuel K st frames sys = some out) := by
  have hmem : ¬ (get_memory_mapping_type_v4l2 st = v4l2_memory.V4L2_MEMORY_MMAP
      ∨ get_memory_mapping_type_v4l2 st = v4l2_memory.V4L2_MEMORY_DMABUF) := by
    simp [get_memory_mapping_type_v4l2, hmode]
  refine ⟨?_, ?_⟩
  · intro sizes st1 sys1 h
    unfold put_frame_data at h
    simp only [hmem, if_false] at h
    cases hq : userptr_queue_loop K frames 0 st 0
        (List.replicate frames.length (List.replicate (num_planes st) 0)) sys with
    | none => rw [hq] at h; simp at h
    | some r =>
        obtain ⟨stq, nq1, sizesq, sysq⟩ := r
        rw [hq] at h
        simp only [] at h
        obtain ⟨hz, hnd, ⟨f, hst⟩, bufs, htr, hbufs⟩ :=
          userptr_queue_loop_zero _ _ K frames 0 st 0 sys _ hq
        simp only [] at hz hnd hst htr
        subst hz
        subst hst
        cases hd : userptr_dequeue_loop K { st with _frame_order_ := f } fuel 0 nq1
            (List.replicate frames.length (List.replicate (num_planes st) 0))
            (try_device K sysq).2 with
        | none => rw [hd] at h; simp at h
        | some r2 =>
            obtain ⟨sizes2, sys2⟩ := r2
            rw [hd] at h
            simp only [Option.some.injEq, Prod.mk.injEq] at h
            obtain ⟨h1, h2, h3⟩ := h
            subst h1
            subst h3
            have hnd2 : ((try_device K sysq).2).nd = sys.nd := by
              rw [try_device_snd]; exact hnd
            have hinit : RowsOK K { st with _frame_order_ := f } frames.length sys.nd
                ((try_device K sysq).2).nd
                (List.replicate frames.length (List.replicate (num_planes st) 0)) := by
              intro i hi
              refine ⟨fun k b hk1 hk2 => ?_, fun _ => ?_⟩
              · rw [hnd2] at hk2
                omega
              · simp [List.getElem?_replicate, hi]
                rfl
            obtain ⟨hrows, hle⟩ := userptr_dequeue_loop_rows K { st with _frame_order_ := f }
              frames.length sys.nd huniq fuel 0 nq1 _ _ _ (by rw [hnd2]) hinit hd
            obtain ⟨late, hlate, hnoq⟩ := userptr_dequeue_loop_trace K _ fuel 0 nq1 _ _ _ hd
            simp only [] at hrows hle hlate
            refine ⟨⟨bufs, Event.SELECT (K.select sysq.ns) :: late, ?_, ?_, ?_⟩, ?_, ?_⟩
            · rw [hlate, try_device_snd]
              simp only [htr]
              simp
            · rw [hbufs, List.range_eq_range']
            · intro buf ret hmem2
              rcases List.mem_cons.1 hmem2 with h4 | h4
              · exact Event.noConfusion h4
              · exact hnoq buf ret h4
            · rw [hnd2] at hle
              exact hle
            · intro i hi
              obtain ⟨hr1, hr2⟩ := hrows i hi
              refine ⟨hr1, hr2, fun hfail => hr2 ?_⟩
              intro k b hk1 _ hkb hbi
              have := (hassume k b hk1 hkb).2
              rw [hbi, hfail] at this
              exact Bool.noConfusion this
  · intro hneg hframes hlen B hB hfuel
    exact put_frame_data_userptr_some fuel K st frames sys B hmode hneg hframes
      (fun k b hk hkb => ⟨(hassume k b hk hkb).1, hlen k b hk hkb⟩) hB hfuel

/-- C10 (witness). Instance: three caller buffers, the QBUF of buffer 1 fails,
the kernel answers EAGAIN once and then hands back buffers 2 and 0. -/
theorem userptr_row_contents_witness :
    ∃ sizes st1 sys1,
      put_frame_data 3 userptr_kernel (userptr_mplane 3) caller_views {} = some (sizes, st1, sys1)
      ∧ sizes[2]? = some (reported_row (userptr_mplane 3) (frame_up 2 [300, 150]))
      ∧ sizes[1]? = some (List.replicate (num_planes (userptr_mplane 3)) 0) := by
  have hassume : ∀ k b, ({} : Syscalls).nd ≤ k → userptr_kernel.dqbuf k = dqbuf_result.ok b →
      b.index < caller_views.length
        ∧ userptr_kernel.qbuf (({} : Syscalls).nq + b.index) = true := by
    intro k b _ hkb
    simp only [userptr_kernel] at hkb
    split_ifs at hkb <;> injection hkb with hb <;> subst hb <;> decide
  have huniq : ∀ j k b c, ({} : Syscalls).nd ≤ j → ({} : Syscalls).nd ≤ k →
      userptr_kernel.dqbuf j = dqbuf_result.ok b → userptr_kernel.dqbuf k = dqbuf_result.ok c →
      b.index = c.index → j = k := by
    intro j k b c _ _ hjb hkc hbc
    simp only [userptr_kernel] at hjb hkc
    split_ifs at hjb hkc <;> injection hjb with hb <;> injection hkc with hc <;>
      subst hb <;> subst hc <;> first | omega | exact absurd hbc (by decide)
  have h := (userptr_row_contents 3 userptr_kernel (userptr_mplane 3) caller_views {}
    (by decide) hassume huniq).1
  obtain ⟨sizes, st1, sys1, hrun, hnd⟩ : ∃ sizes st1 sys1,
      put_frame_data 3 userptr_kernel (userptr_mplane 3) caller_views {} = some (sizes, st1, sys1)
      ∧ sys1.nd = 3 := ⟨_, _, _, rfl, rfl⟩
  obtain ⟨_, _, hrows⟩ := h sizes st1 sys1 hrun
  refine ⟨sizes, st1, sys1, hrun, ?_, ?_⟩
  · exact (hrows 2 (by decide)).1 1 _ (by decide) (by rw [hnd]; decide) rfl rfl
  · exact (hrows 1 (by decide)).2.2 rfl

/-! ## Helper lemmas: log counts and the frame counter -/
theorem dqbuf_attempts_append (a b : List Event) :
    dqbuf_attempts (a ++ b) = dqbuf_attempts a + dqbuf_attempts b := by
  simp [dqbuf_attempts, List.countP_append]

theorem dqbuf_attempts_qbuf_events (K : Kernel) (k : Nat) (bufs : List v4l2_buffer) :
    dqbuf_attempts (qbuf_events K k bufs) = 0 := by
  induction bufs generalizing k with
  | nil => rfl
  | cons b rest ih =>
      have := ih (k + 1)
      simp only [dqbuf_attempts, qbuf_events, List.countP_cons] at this ⊢
      simpa using this

theorem dqbuf_attempts_dqbuf_events (K : Kernel) (n k : Nat) :
    dqbuf_attempts (dqbuf_events K n k) = n := by
  induction n generalizing k with
  | zero => rfl
  | succ n ih =>
      have := ih (k + 1)
      simp only [dqbuf_attempts, dqbuf_events, List.countP_cons] at this ⊢
      simpa using this

theorem bump_eq (n x : Nat) (hx : x < 2 ^ 64) : bump n x = (x + n) % 2 ^ 64 := by
  induction n generalizing x with
  | zero =>
      have h0 : bump 0 x = x := rfl
      rw [h0, Nat.add_zero, Nat.mod_eq_of_lt hx]
  | succ n ih =>
      rw [bump_succ, ih _ (Nat.mod_lt _ (by norm_num))]
      omega

theorem try_device_timeout (K : Kernel) (q : List v4l2_buffer) (sys : Syscalls)
    (h : (K.select sys.ns).r = 0) : (try_device K (drain_pending K q sys)).1 = false := by
  have hns : (drain_pending K q sys).ns = sys.ns := by rw [drain_pending_eq]
  unfold try_device
  simp only [hns, h]
  simp

theorem queued_count_append (a b : List Event) :
    queued_count (a ++ b) = queued_count a + queued_count b := by
  simp [queued_count, List.countP_append]

theorem dequeued_count_append (a b : List Event) :
    dequeued_count (a ++ b) = dequeued_count a + dequeued_count b := by
  simp [dequeued_count, List.countP_append]

theorem dqbuf_hard_errors_append (a b : List Event) :
    dqbuf_hard_errors (a ++ b) = dqbuf_hard_errors a + dqbuf_hard_errors b := by
  simp [dqbuf_hard_errors, List.countP_append]

theorem userptr_dequeue_loop_counts (K : Kernel) (st : V4L2_Backend) (fuel r nq : Nat)
    (sizes : List (List Nat)) (sys : Syscalls) (out : List (List Nat) × Syscalls)
    (h : userptr_dequeue_loop K st fuel r nq sizes sys = some out) :
    ∃ late, out.2.trace = sys.trace ++ late ∧ queued_count late = 0
      ∧ r + dequeued_count late + dqbuf_hard_errors late = max r nq := by
  induction fuel generalizing r sizes sys with
  | zero =>
      simp only [userptr_dequeue_loop] at h
      split_ifs at h with hlt
      rw [← Option.some.inj h]
      exact ⟨[], by simp, rfl, by simp [dequeued_count, dqbuf_hard_errors]; omega⟩
  | succ fuel ih =>
      simp only [userptr_dequeue_loop] at h
      by_cases hlt : r < nq
      · simp only [hlt, if_true] at h
        have fin : ∀ (r1 : Nat) (s1 : List (List Nat)) (sysx : Syscalls) (extra : List Event),
            queued_count extra = 0 →
            r + dequeued_count extra + dqbuf_hard_errors extra = r1 → r1 ≤ nq →
            sysx.trace = sys.trace ++ extra →
            userptr_dequeue_loop K st fuel r1 nq s1 sysx = some out →
            ∃ late, out.2.trace = sys.trace ++ late ∧ queued_count late = 0
              ∧ r + dequeued_count late + dqbuf_hard_errors late = max r nq := by
          intro r1 s1 sysx extra hq hr hle htr h1
          obtain ⟨late, h2, h3, h4⟩ := ih _ _ _ h1
          refine ⟨extra ++ late, ?_, ?_, ?_⟩
          · rw [h2, htr]; simp
          · rw [queued_count_append, hq, h3]
          · rw [dequeued_count_append, dqbuf_hard_errors_append]
            have h5 : max r1 nq = nq := max_eq_right hle
            have h6 : max r nq = nq := max_eq_right (le_of_lt hlt)
            omega
        cases hres : K.dqbuf sys.nd with
        | ok b =>
            rw [hres] at h
            simp only [] at h
            cases hw : (if st._buffer_plane_type_
                  = v4l2_buf_type.V4L2_BUF_TYPE_VIDEO_CAPTURE_MPLANE
                then sizes_write_planes (plane_bytesused b) b.index b.length 0 sizes
                else sizes_write sizes b.index 0 b.bytesused) with
            | none => rw [hw] at h; simp at h
            | some s1 =>
                rw [hw] at h
                simp only [] at h
                exact fin (r + 1) s1 _ [Event.DQBUF (dqbuf_result.ok b)] rfl rfl hlt rfl h
        | error e =>
            rw [hres] at h
            cases e with
            | EAGAIN =>
                simp only [] at h
                rw [try_device_snd] at h
                exact fin r sizes _ [Event.DQBUF (dqbuf_result.error Errno.EAGAIN),
                  Event.SELECT (K.select sys.ns)] rfl rfl (le_of_lt hlt) (by simp) h
            | _ =>
                simp only [] at h
                refine fin (r + 1) sizes _ [Event.DQBUF (dqbuf_result.error _)] ?_ ?_ hlt rfl h <;> rfl
      · simp only [hlt, if_false] at h
        rw [← Option.some.inj h]
        exact ⟨[], by simp, rfl, by simp [dequeued_count, dqbuf_hard_errors]; omega⟩

theorem userptr_queue_loop_counts (K : Kernel) (frames : List Multiplanar_Buffer_View)
    (idx : Nat) (st : V4L2_Backend) (nq : Nat) (sizes : List (List Nat)) (sys : Syscalls)
    (out : V4L2_Backend × Nat × List (List Nat) × Syscalls)
    (h : userptr_queue_loop K frames idx st nq sizes sys = some out) (hnq : nq < 2 ^ 16) :
    ∃ log, out.2.2.2.trace = sys.trace ++ log
      ∧ dequeued_count log = 0 ∧ dqbuf_hard_errors log = 0
      ∧ queued_count log ≤ frames.length
      ∧ out.2.1 = (nq + queued_count log) % 2 ^ 16 := by
  induction frames generalizing idx st nq sizes sys with
  | nil =>
      simp only [userptr_queue_loop] at h
      rw [← Option.some.inj h]
      refine ⟨[], by simp, rfl, rfl, Nat.le_refl _, ?_⟩
      show nq = (nq + 0) % 2 ^ 16
      rw [Nat.add_zero, Nat.mod_eq_of_lt hnq]
  | cons frame rest ih =>
      simp only [userptr_queue_loop] at h
      cases hb : userptr_buf st frame idx with
      | none => rw [hb] at h; simp at h
      | some buf =>
          rw [hb] at h
          simp only [queue_buf] at h
          cases hq : K.qbuf sys.nq with
          | false =>
              rw [hq] at h
              simp only [] at h
              cases hw : (if st._buffer_plane_type_
                    = v4l2_buf_type.V4L2_BUF_TYPE_VIDEO_CAPTURE_MPLANE
                  then sizes_write_planes (fun _ => 0) idx buf.length 0 sizes
                  else sizes_write sizes idx 0 0) with
              | none => rw [hw] at h; simp at h
              | some s1 =>
                  rw [hw] at h
                  simp only [] at h
                  obtain ⟨log, h1, h2, h3, h4, h5⟩ := ih _ _ _ _ _ h hnq
                  refine ⟨Event.QBUF buf false :: log, ?_, ?_, ?_, ?_, ?_⟩
                  · rw [h1]; simp
                  · simpa [dequeued_count] using h2
                  · simpa [dqbuf_hard_errors] using h3
                  · have : queued_count (Event.QBUF buf false :: log) = queued_count log := by
                      simp [queued_count]
                    rw [this, List.length_cons]; omega
                  · have : queued_count (Event.QBUF buf false :: log) = queued_count log := by
                      simp [queued_count]
                    rw [this]; exact h5
          | true =>
              rw [hq] at h
              simp only [] at h
              obtain ⟨log, h1, h2, h3, h4, h5⟩ :=
                ih _ _ _ _ _ h (Nat.mod_lt _ (by norm_num))
              refine ⟨Event.QBUF buf true :: log, ?_, ?_, ?_, ?_, ?_⟩
              · rw [h1]; simp
              · simpa [dequeued_count] using h2
              · simpa [dqbuf_hard_errors] using h3
              · have : queued_count (Event.QBUF buf true :: log) = queued_count log + 1 := by
                  simp [queued_count]
                rw [this, List.length_cons]; omega
              · have : queued_count (Event.QBUF buf true :: log) = queued_count log + 1 := by
                  simp [queued_count]
                rw [this, h5]; omega

/-! ## Helper lemmas: construction -/
theorem stable_refl (st : V4L2_Backend) : Stable st st :=
  ⟨rfl, rfl, rfl, rfl, rfl, rfl, rfl, rfl⟩

theorem stable_trans (a b c : V4L2_Backend) (h1 : Stable a b) (h2 : Stable b c) : Stable a c := by
  obtain ⟨a1, a2, a3, a4, a5, a6, a7, a8⟩ := h1
  obtain ⟨b1, b2, b3, b4, b5, b6, b7, b8⟩ := h2
  exact ⟨b1.trans a1, b2.trans a2, b3.trans a3, b4.trans a4, b5.trans a5, b6.trans a6,
    b7.trans a7, b8.trans a8⟩

theorem extends_trans (st st1 : V4L2_Backend) (log log1 : List Setup_Event)
    (r : Outcome V4L2_Backend × List Setup_Event)
    (h1 : Extends st log (Outcome.ok st1, log1)) (h2 : Extends st1 log1 r) :
    Extends st log r := by
  obtain ⟨⟨ext1, e1, p1⟩, _, s1⟩ := h1
  obtain ⟨⟨ext2, e2, p2⟩, n2, s2⟩ := h2
  refine ⟨⟨ext1 ++ ext2, ?_, ?_⟩, n2, ?_⟩
  · rw [e2]
    simp only [] at e1
    rw [e1, List.append_assoc]
  · intro e he
    rcases List.mem_append.1 he with h | h
    · exact p1 e h
    · exact p2 e h
  · intro st2 h
    exact stable_trans _ _ _ (s1 st1 rfl) (s2 st2 h)

theorem extends_stable (st st0 : V4L2_Backend) (log : List Setup_Event)
    (r : Outcome V4L2_Backend × List Setup_Event) (hs : Stable st st0)
    (h : Extends st0 log r) : Extends st log r :=
  ⟨h.1, h.2.1, fun st1 h1 => stable_trans _ _ _ hs (h.2.2 st1 h1)⟩

theorem extends_step (st st0 : V4L2_Backend) (log : List Setup_Event) (e : Setup_Event)
    (r : Outcome V4L2_Backend × List Setup_Event) (hs : Stable st st0)
    (h : Extends st0 (log ++ [e]) r) (he : is_buffer_setup e = true) : Extends st log r := by
  obtain ⟨⟨ext, e1, p1⟩, n1, s1⟩ := h
  refine ⟨⟨e :: ext, ?_, ?_⟩, n1, fun st1 h1 => stable_trans _ _ _ hs (s1 st1 h1)⟩
  · rw [e1]; simp
  · intro x hx
    rcases List.mem_cons.1 hx with h | h
    · rw [h]; exact he
    · exact p1 x h

theorem extends_raised (st : V4L2_Backend) (log : List Setup_Event) (e : Construction_Error)
    (he : e ≠ Construction_Error.pixel_format_not_supported) :
    Extends st log (Outcome.raised e, log) :=
  ⟨⟨[], by simp, by simp⟩, by simpa using he, by simp⟩

theorem extends_undefined (st : V4L2_Backend) (log : List Setup_Event) :
    Extends st log (Outcome.undefined, log) :=
  ⟨⟨[], by simp, by simp⟩, by simp, by simp⟩

theorem extends_ok (st st1 : V4L2_Backend) (log : List Setup_Event) (hs : Stable st st1) :
    Extends st log (Outcome.ok st1, log) :=
  ⟨⟨[], by simp, by simp⟩, by simp, fun st2 h => by
    have : st1 = st2 := by simpa using h
    rw [← this]; exact hs⟩

theorem mapped_write_stable (st st1 : V4L2_Backend) (i j : Nat) (sp : Span)
    (h : mapped_write st i j sp = some st1) : Stable st st1 := by
  unfold mapped_write at h
  cases hrow : st._mapped_buffers_[i]? with
  | none => rw [hrow] at h; simp at h
  | some row =>
      rw [hrow] at h
      simp only [] at h
      split_ifs at h
      rw [← Option.some.inj h]
      exact stable_refl _

theorem map_plane_extends (D : Device) (st : V4L2_Backend) (buffer_index plane_index length : Nat)
    (fd : Int) (offset : Nat) (log : List Setup_Event) :
    Extends st log (map_plane D st buffer_index plane_index length fd offset log) := by
  unfold map_plane
  cases hw : mapped_write st buffer_index plane_index
      { data := D.mmap length fd offset, size := length } with
  | none =>
      exact extends_step _ _ _ _ _ (stable_refl _) (extends_undefined _ _) rfl
  | some st1 =>
      simp only []
      split_ifs
      · exact extends_step _ _ _ _ _ (stable_refl _) (extends_raised _ _ _ (by decide)) rfl
      · exact extends_step _ _ _ _ _ (stable_refl _)
          (extends_ok _ _ _ (mapped_write_stable _ _ _ _ _ hw)) rfl

theorem export_and_map_extends (D : Device) (st : V4L2_Backend) (buffer_index plane_index : Nat)
    (dmabuf : Bool) (buf_length length offset : Nat) (log : List Setup_Event) :
    Extends st log
      (export_and_map D st buffer_index plane_index dmabuf buf_length length offset log).1 := by
  unfold export_and_map
  split_ifs
  · cases hx : D.expbuf buffer_index plane_index with
    | none =>
        exact extends_step _ _ _ _ _ (stable_refl _) (map_plane_extends _ _ _ _ _ _ _ _) rfl
    | some fd =>
        exact extends_step _ _ _ _ _ (stable_refl _)
          (extends_stable _ _ _ _ (stable_refl _) (map_plane_extends _ _ _ _ _ _ _ _)) rfl
  · exact map_plane_extends _ _ _ _ _ _ _ _

theorem map_planes_extends (D : Device) (buffer_index : Nat) (buf : v4l2_buffer) (n : Nat) :
    ∀ (plane_index : Nat) (dmabuf : Bool) (st : V4L2_Backend) (log : List Setup_Event),
      Extends st log (map_planes D buffer_index buf n plane_index dmabuf st log) := by
  induction n with
  | zero =>
      intro plane_index dmabuf st log
      exact extends_ok _ _ _ (stable_refl _)
  | succ n ih =>
      intro plane_index dmabuf st log
      simp only [map_planes]
      have h1 := export_and_map_extends D st buffer_index plane_index dmabuf buf.length
        (buf.planes.getD plane_index {}).length (buf.planes.getD plane_index {}).m_mem_offset log
      rcases hr : export_and_map D st buffer_index plane_index dmabuf buf.length
        (buf.planes.getD plane_index {}).length (buf.planes.getD plane_index {}).m_mem_offset log
        with ⟨⟨o, l⟩, d⟩
      rw [hr] at h1
      cases o with
      | ok st1 => exact extends_trans _ _ _ _ _ h1 (ih _ _ _ _)
      | raised e => exact h1
      | undefined => exact h1

theorem map_buffer_extends (D : Device) (st : V4L2_Backend) (buffer_index : Nat)
    (log : List Setup_Event) : Extends st log (map_buffer D st buffer_index log) := by
  unfold map_buffer
  cases hq : D.querybuf (querybuf_payload st buffer_index) with
  | none => exact extends_step _ _ _ _ _ (stable_refl _) (extends_raised _ _ _ (by decide)) rfl
  | some buf =>
      simp only []
      split_ifs
      · exact extends_step _ _ _ _ _ (stable_refl _)
          (extends_stable _ _ _ _ (stable_refl _) (export_and_map_extends _ _ _ _ _ _ _ _ _)) rfl
      · exact extends_step _ _ _ _ _ (stable_refl _)
          (extends_stable _ _ _ _ (stable_refl _) (map_planes_extends _ _ _ _ _ _ _ _)) rfl

theorem map_buffers_extends (D : Device) (n : Nat) :
    ∀ (buffer_index : Nat) (st : V4L2_Backend) (log : List Setup_Event),
      Extends st log (map_buffers D n buffer_index st log) := by
  induction n with
  | zero =>
      intro buffer_index st log
      exact extends_ok _ _ _ (stable_refl _)
  | succ n ih =>
      intro buffer_index st log
      simp only [map_buffers]
      have h1 := map_buffer_extends D st buffer_index log
      rcases hr : map_buffer D st buffer_index log with ⟨o, l⟩
      rw [hr] at h1
      cases o with
      | ok st1 => exact extends_trans _ _ _ _ _ h1 (ih _ _ _)
      | raised e => exact h1
      | undefined => exact h1

theorem initial_qbufs_extends (D : Device) (st : V4L2_Backend) (n : Nat) :
    ∀ (i : Nat) (log : List Setup_Event), Extends st log (initial_qbufs D st n i log) := by
  induction n with
  | zero =>
      intro i log
      exact extends_ok _ _ _ (stable_refl _)
  | succ n ih =>
      intro i log
      simp only [initial_qbufs]
      split_ifs
      · exact extends_step _ _ _ _ _ (stable_refl _) (extends_raised _ _ _ (by decide)) rfl
      · exact extends_step _ _ _ _ _ (stable_refl _) (ih _ _) rfl

theorem allocated_write_stable (st st1 : V4L2_Backend) (i j : Nat) (sp : Span)
    (h : allocated_write st i j sp = some st1) : Stable st st1 := by
  unfold allocated_write at h
  cases hrow : st._allocated_buffers_[i]? with
  | none => rw [hrow] at h; simp at h
  | some row =>
      rw [hrow] at h
      simp only [] at h
      split_ifs at h
      rw [← Option.some.inj h]
      exact stable_refl _

theorem allocate_planes_stable (D : Device) (buffer_index n : Nat) :
    ∀ (j : Nat) (st st1 : V4L2_Backend),
      allocate_planes D buffer_index n j st = some st1 → Stable st st1 := by
  induction n with
  | zero =>
      intro j st st1 h
      simp only [allocate_planes] at h
      rw [← Option.some.inj h]
      exact stable_refl _
  | succ n ih =>
      intro j st st1 h
      simp only [allocate_planes] at h
      cases hw : allocated_write st buffer_index j
          { data := D.alloc buffer_index j,
            size := st._v4l2_capture_format_.plane_sizeimage.getD j 0 } with
      | none => rw [hw] at h; simp at h
      | some st2 =>
          rw [hw] at h
          exact stable_trans _ _ _ (allocated_write_stable _ _ _ _ _ hw) (ih _ _ _ h)

theorem allocate_buffers_stable (D : Device) (n : Nat) :
    ∀ (buffer_index : Nat) (st st1 : V4L2_Backend),
      allocate_buffers D n buffer_index st = some st1 → Stable st st1 := by
  induction n with
  | zero =>
      intro buffer_index st st1 h
      simp only [allocate_buffers] at h
      rw [← Option.some.inj h]
      exact stable_refl _
  | succ n ih =>
      intro buffer_index st st1 h
      simp only [allocate_buffers] at h
      split_ifs at h
      · cases hw : allocated_write (allocated_resize st buffer_index (num_planes st))
            buffer_index 0
            { data := D.alloc buffer_index 0, size := st._v4l2_capture_format_.sizeimage } with
        | none => rw [hw] at h; simp at h
        | some st2 =>
            rw [hw] at h
            exact stable_trans _ _ _
              (stable_trans _ _ _ (stable_refl _ : Stable st (allocated_resize st _ _))
                (allocated_write_stable _ _ _ _ _ hw)) (ih _ _ _ h)
      · cases hw : allocate_planes D buffer_index (num_planes st) 0
            (allocated_resize st buffer_index (num_planes st)) with
        | none => rw [hw] at h; simp at h
        | some st2 =>
            rw [hw] at h
            exact stable_trans _ _ _
              (stable_trans _ _ _ (stable_refl _ : Stable st (allocated_resize st _ _))
                (allocate_planes_stable _ _ _ _ _ _ hw)) (ih _ _ _ h)

theorem setup_buffers_extends (D : Device) (st : V4L2_Backend) (count : Nat)
    (log : List Setup_Event) : Extends st log (setup_buffers D st count log) := by
  unfold setup_buffers
  split_ifs with h1 h2
  · have hm := map_buffers_extends D count 0
      { st with _num_buffers_ := count,
                _buffer_dma_fds_ := List.replicate count [],
                _mapped_buffers_ := List.replicate count [] } log
    rcases hr : map_buffers D count 0
      { st with _num_buffers_ := count,
                _buffer_dma_fds_ := List.replicate count [],
                _mapped_buffers_ := List.replicate count [] } log with ⟨o, l⟩
    rw [hr] at hm
    cases o with
    | ok st2 =>
        exact extends_stable _ _ _ _ (stable_refl _)
          (extends_trans _ _ _ _ _ hm (initial_qbufs_extends _ _ _ _ _))
    | raised e => exact extends_stable _ _ _ _ (stable_refl _) hm
    | undefined => exact extends_stable _ _ _ _ (stable_refl _) hm
  · cases ha : allocate_buffers D count 0
        { st with _num_buffers_ := count, _allocated_buffers_ := List.replicate count [] } with
    | none => exact extends_undefined _ _
    | some st2 =>
        have hs := allocate_buffers_stable _ _ _ _ _ ha
        exact extends_ok _ _ _ (stable_trans _ _ _ ⟨rfl, rfl, rfl, rfl, rfl, rfl, rfl, rfl⟩ hs)
  · exact extends_ok _ _ _ (stable_refl _)

theorem setup_buffering_extends (D : Device) (st : V4L2_Backend) (log : List Setup_Event) :
    Extends st log (setup_buffering D st log) := by
  unfold setup_buffering
  cases hr : D.reqbufs st._configuration_.num_buffers st._buffer_plane_type_
      (get_memory_mapping_type_v4l2 st) with
  | none => exact extends_step _ _ _ _ _ (stable_refl _) (extends_raised _ _ _ (by decide)) rfl
  | some count =>
      simp only []
      split_ifs
      · exact extends_step _ _ _ _ _ (stable_refl _) (extends_raised _ _ _ (by decide)) rfl
      · exact extends_step _ _ _ _ _ (stable_refl _) (setup_buffers_extends _ _ _ _) rfl

theorem double_to_uint_natCast (n : Nat) :
    double_to_uint (n : ℚ) = if n < 2 ^ 32 then some n else none := by
  unfold double_to_uint
  simp only [Rat.num_natCast, Rat.den_natCast, Nat.cast_one, Int.tdiv_one]
  by_cases h : n < 2 ^ 32
  · have h2 : (n : Int) < 2 ^ 32 := by exact_mod_cast h
    simp [h, h2]
  · have h2 : ¬ (n : Int) < 2 ^ 32 := by
      intro hc
      exact h (by exact_mod_cast hc)
    simp [h, h2]

theorem set_fps_eq (D : Device) (st : V4L2_Backend) (fps : ℚ) :
    set_fps D st fps = none
    ∨ ∃ value den, set_fps D st fps
        = some (value, Setup_Event.S_PARM (get_buffer_type_v4l2 st) 1 den
            (D.s_parm (get_buffer_type_v4l2 st) 1 den)) := by
  unfold set_fps
  cases hd : double_to_uint fps with
  | none => exact Or.inl rfl
  | some den => exact Or.inr ⟨_, den, rfl⟩

theorem set_fps_of_denominator (D : Device) (st : V4L2_Backend) (fps : ℚ) (den : Nat)
    (h : double_to_uint fps = some den) :
    ∃ value, set_fps D st fps
      = some (value, Setup_Event.S_PARM (get_buffer_type_v4l2 st) 1 den
          (D.s_parm (get_buffer_type_v4l2 st) 1 den)) := by
  unfold set_fps
  rw [h]
  exact ⟨_, rfl⟩

theorem set_fps_natCast (D : Device) (st : V4L2_Backend) (n : Nat) (h : n < 2 ^ 32) :
    ∃ value, set_fps D st (n : ℚ)
      = some (value, Setup_Event.S_PARM (get_buffer_type_v4l2 st) 1 n
          (D.s_parm (get_buffer_type_v4l2 st) 1 n)) :=
  set_fps_of_denominator D st _ n (by rw [double_to_uint_natCast, if_pos h])

theorem s_fmt_payloads_append (a b : List Setup_Event) :
    s_fmt_payloads (a ++ b) = s_fmt_payloads a ++ s_fmt_payloads b := by
  simp [s_fmt_payloads, List.filterMap_append]

theorem s_fmt_payloads_buffer_setup (ext : List Setup_Event)
    (h : ∀ e ∈ ext, is_buffer_setup e = true) : s_fmt_payloads ext = [] := by
  induction ext with
  | nil => rfl
  | cons e rest ih =>
      have he := h e (List.mem_cons_self _ _)
      have hr := ih (fun x hx => h x (List.mem_cons_of_mem _ hx))
      cases e <;> simp [is_buffer_setup] at he <;>
        simpa [s_fmt_payloads, List.filterMap_cons] using hr

theorem s_fmt_payloads_setup_crop (D : Device) (st : V4L2_Backend) (log : List Setup_Event) :
    s_fmt_payloads (setup_crop D st log) = s_fmt_payloads log := by
  unfold setup_crop
  split_ifs <;> simp [s_fmt_payloads, List.filterMap_append]

theorem setup_controls_spec (D : Device) (st : V4L2_Backend) (log : List Setup_Event)
    (fps_set : Option (ℚ × Setup_Event))
    (hev : ∀ r, fps_set = some r → ∃ t n d res, r.2 = Setup_Event.S_PARM t n d res) :
    ∃ o l, setup_controls D st log fps_set = (o, l)
      ∧ s_fmt_payloads l = s_fmt_payloads log
      ∧ (fps_set = none → o = Outcome.undefined)
      ∧ (fps_set ≠ none → o = Outcome.ok st) := by
  cases fps_set with
  | none => exact ⟨_, _, rfl, rfl, fun _ => rfl, fun h => absurd rfl h⟩
  | some r =>
      obtain ⟨v, ev⟩ := r
      obtain ⟨t, n, d, res, he⟩ := hev (v, ev) rfl
      simp only [] at he
      refine ⟨_, _, rfl, ?_, fun h => by simp at h, fun _ => rfl⟩
      rw [he]
      simp only [s_fmt_payloads_append, set_auto_exposure_mode,
        enable_auto_exposure_auto_priority_mode, s_ctrl]
      split_ifs <;> simp [s_fmt_payloads]

theorem setup_format_spec (D : Device) (st : V4L2_Backend) (log : List Setup_Event) :
    ∃ o l, setup_format D st log = (o, l)
      ∧ s_fmt_payloads l = s_fmt_payloads log ++ [s_fmt_payload st]
      ∧ o ≠ Outcome.raised Construction_Error.pixel_format_not_supported
      ∧ (D.s_fmt (s_fmt_payload st) = none → o = Outcome.raised Construction_Error.VIDIOC_S_FMT)
      ∧ (∀ written, D.s_fmt (s_fmt_payload st) = some written →
          st._configuration_.fps < 2 ^ 32 →
          o = Outcome.ok { st with _v4l2_capture_format_ := written })
      ∧ (∀ st1, o = Outcome.ok st1 →
          ∃ written, D.s_fmt (s_fmt_payload st) = some written
            ∧ st1 = { st with _v4l2_capture_format_ := written }) := by
  unfold setup_format
  cases hf : D.s_fmt (s_fmt_payload st) with
  | none =>
      exact ⟨_, _, rfl, by simp [s_fmt_payloads_append, s_fmt_payloads], by simp,
        fun _ => rfl, fun w hw => by simp at hw, fun st1 h => by simp at h⟩
  | some written =>
      have hev : ∀ r, set_fps D { st with _v4l2_capture_format_ := written }
          (st._configuration_.fps : ℚ) = some r →
          ∃ t n d res, r.2 = Setup_Event.S_PARM t n d res := by
        intro r hr
        rcases set_fps_eq D { st with _v4l2_capture_format_ := written }
          (st._configuration_.fps : ℚ) with h | ⟨v, den, h⟩
        · rw [h] at hr; simp at hr
        · rw [h] at hr
          rw [← Option.some.inj hr]
          exact ⟨_, _, _, _, rfl⟩
      obtain ⟨o, l, hrun, hlog, hnone, hsome⟩ :=
        setup_controls_spec D { st with _v4l2_capture_format_ := written }
          (log ++ [Setup_Event.S_FMT (s_fmt_payload st) (some written)])
          (set_fps D { st with _v4l2_capture_format_ := written } (st._configuration_.fps : ℚ))
          hev
      refine ⟨o, l, hrun, ?_, ?_, fun h => by simp at h, ?_, ?_⟩
      · rw [hlog, s_fmt_payloads_append]
        simp [s_fmt_payloads]
      · rcases set_fps_eq D { st with _v4l2_capture_format_ := written }
          (st._configuration_.fps : ℚ) with h | ⟨v, den, h⟩
        · rw [hnone h]; simp
        · rw [hsome (by rw [h]; simp)]; simp
      · intro w hw hfps
        obtain ⟨v, hv⟩ := set_fps_natCast D { st with _v4l2_capture_format_ := written }
          st._configuration_.fps hfps
        rw [hsome (by rw [hv]; simp), ← Option.some.inj hw]
      · intro st1 h1
        rcases set_fps_eq D { st with _v4l2_capture_format_ := written }
          (st._configuration_.fps : ℚ) with h | ⟨v, den, h⟩
        · rw [hnone h] at h1; simp at h1
        · rw [hsome (by rw [h]; simp)] at h1
          exact ⟨written, rfl, (Outcome.ok.inj h1).symm⟩

theorem s_fmt_payload_fd (st : V4L2_Backend) (fd : Int) :
    s_fmt_payload { st with _device_file_descriptor_ := fd } = s_fmt_payload st := rfl

theorem setup_device_spec (D : Device) (st : V4L2_Backend) (log : List Setup_Event) :
    ∃ o l, setup_device D st log = (o, l)
      ∧ o ≠ Outcome.raised Construction_Error.pixel_format_not_supported
      ∧ (¬ Device_Opens D st._configuration_.device_index →
          (∃ e, o = Outcome.raised e) ∧ s_fmt_payloads l = s_fmt_payloads log)
      ∧ (Device_Opens D st._configuration_.device_index →
          s_fmt_payloads l = s_fmt_payloads log ++ [s_fmt_payload st]
          ∧ (D.s_fmt (s_fmt_payload st) = none →
              o = Outcome.raised Construction_Error.VIDIOC_S_FMT)
          ∧ (∀ written, D.s_fmt (s_fmt_payload st) = some written →
              st._configuration_.fps < 2 ^ 32 →
              o = Outcome.ok
                { st with _device_file_descriptor_ := D.open_fd st._configuration_.device_index,
                          _v4l2_capture_format_ := written }))
      ∧ (∀ st1, o = Outcome.ok st1 →
          ∃ written, D.s_fmt (s_fmt_payload st) = some written
            ∧ st1 =
              { st with _device_file_descriptor_ := D.open_fd st._configuration_.device_index,
                        _v4l2_capture_format_ := written }) := by
  unfold setup_device
  cases hstat : D.stat st._configuration_.device_index with
  | error =>
      refine ⟨_, _, rfl, by simp, fun _ => ⟨⟨_, rfl⟩, by simp [s_fmt_payloads_append, s_fmt_payloads]⟩,
        fun h => ?_, fun st1 h => by simp at h⟩
      rw [h.1] at hstat; simp at hstat
  | not_chr =>
      refine ⟨_, _, rfl, by simp, fun _ => ⟨⟨_, rfl⟩, by simp [s_fmt_payloads_append, s_fmt_payloads]⟩,
        fun h => ?_, fun st1 h => by simp at h⟩
      rw [h.1] at hstat; simp at hstat
  | chr =>
      simp only []
      by_cases hopen : D.open_fd st._configuration_.device_index = -1
      · rw [if_pos hopen]
        refine ⟨_, _, rfl, by simp,
          fun _ => ⟨⟨_, rfl⟩, by simp [s_fmt_payloads_append, s_fmt_payloads]⟩,
          fun h => absurd hopen h.2.1, fun st1 h => by simp at h⟩
      · rw [if_neg hopen]
        cases hcap : D.querycap with
        | none =>
            refine ⟨_, _, rfl, by simp,
              fun _ => ⟨⟨_, rfl⟩, by simp [s_fmt_payloads_append, s_fmt_payloads]⟩,
              fun h => ?_, fun st1 h => by simp at h⟩
            obtain ⟨_, _, caps, hc, _⟩ := h
            rw [hc] at hcap; simp at hcap
        | some capabilities =>
            simp only []
            by_cases hcapture : capabilities &&& V4L2_CAP_VIDEO_CAPTURE = 0
                ∧ capabilities &&& V4L2_CAP_VIDEO_CAPTURE_MPLANE = 0
            · rw [if_pos hcapture]
              refine ⟨_, _, rfl, by simp,
                fun _ => ⟨⟨_, rfl⟩, by simp [s_fmt_payloads_append, s_fmt_payloads]⟩,
                fun h => ?_, fun st1 h => by simp at h⟩
              obtain ⟨_, _, caps, hc, hno, _⟩ := h
              rw [hcap] at hc
              rw [← Option.some.inj hc] at hno
              exact absurd hcapture hno
            · rw [if_neg hcapture]
              by_cases hstream : capabilities &&& V4L2_CAP_STREAMING = 0
              · rw [if_pos hstream]
                refine ⟨_, _, rfl, by simp,
                  fun _ => ⟨⟨_, rfl⟩, by simp [s_fmt_payloads_append, s_fmt_payloads]⟩,
                  fun h => ?_, fun st1 h => by simp at h⟩
                obtain ⟨_, _, caps, hc, _, hs⟩ := h
                rw [hcap] at hc
                rw [← Option.some.inj hc] at hs
                exact absurd hstream hs
              · rw [if_neg hstream]
                have hopens : Device_Opens D st._configuration_.device_index :=
                  ⟨hstat, hopen, capabilities, hcap, hcapture, hstream⟩
                obtain ⟨o, l, hrun, hlog, hnot, hfail, hok, hinv⟩ :=
                  setup_format_spec D
                    { st with
                        _device_file_descriptor_ := D.open_fd st._configuration_.device_index }
                    (setup_crop D
                      { st with
                          _device_file_descriptor_ := D.open_fd st._configuration_.device_index }
                      (log ++ [Setup_Event.STAT st._configuration_.device_index stat_result.chr]
                        ++ [Setup_Event.OPEN st._configuration_.device_index
                          (D.open_fd st._configuration_.device_index)]
                        ++ [Setup_Event.QUERYCAP (some capabilities)]))
                rw [s_fmt_payload_fd] at hlog hfail hok hinv
                refine ⟨o, l, hrun, hnot, fun h => absurd hopens h, fun _ => ⟨?_, hfail, ?_⟩, ?_⟩
                · rw [hlog, s_fmt_payloads_setup_crop]
                  simp [s_fmt_payloads_append, s_fmt_payloads]
                · intro written hw hfps
                  exact hok written hw hfps
                · intro st1 h1
                  exact hinv st1 h1

theorem setup_controls_log (D : Device) (st : V4L2_Backend) (log : List Setup_Event)
    (fps_set : Option (ℚ × Setup_Event)) :
    ∃ o ext, setup_controls D st log fps_set = (o, log ++ ext) := by
  cases fps_set with
  | none => exact ⟨Outcome.undefined, [], by simp [setup_controls]⟩
  | some r =>
      exact ⟨Outcome.ok st,
        [r.2, (set_auto_exposure_mode D V4L2_EXPOSURE_APERTURE_PRIORITY).2,
          (enable_auto_exposure_auto_priority_mode D false).2], by simp [setup_controls]⟩

theorem setup_crop_log (D : Device) (st : V4L2_Backend) (log : List Setup_Event) :
    ∃ ext, setup_crop D st log = log ++ ext := by
  unfold setup_crop
  split_ifs
  · exact ⟨_, List.append_assoc _ _ _⟩
  · exact ⟨_, rfl⟩
  · exact ⟨_, rfl⟩

theorem setup_format_log (D : Device) (st : V4L2_Backend) (log : List Setup_Event) :
    ∃ o ext, setup_format D st log = (o, log ++ ext) := by
  unfold setup_format
  cases hf : D.s_fmt (s_fmt_payload st) with
  | none => exact ⟨_, _, rfl⟩
  | some written =>
      obtain ⟨o, ext, h⟩ := setup_controls_log D { st with _v4l2_capture_format_ := written }
        (log ++ [Setup_Event.S_FMT (s_fmt_payload st) (some written)])
        (set_fps D { st with _v4l2_capture_format_ := written } (st._configuration_.fps : ℚ))
      rw [List.append_assoc] at h
      exact ⟨o, _, h⟩

theorem setup_device_log (D : Device) (st : V4L2_Backend) (log : List Setup_Event) :
    ∃ o ext, setup_device D st log
      = (o, log ++ Setup_Event.STAT st._configuration_.device_index
          (D.stat st._configuration_.device_index) :: ext) := by
  have assoc2 : ∀ (a b : Setup_Event),
      log ++ [a] ++ [b] = log ++ a :: [b] := by intro a b; simp
  have assoc3 : ∀ (a b c : Setup_Event),
      log ++ [a] ++ [b] ++ [c] = log ++ a :: [b, c] := by intro a b c; simp
  unfold setup_device
  cases hstat : D.stat st._configuration_.device_index with
  | error => exact ⟨_, [], rfl⟩
  | not_chr => exact ⟨_, [], rfl⟩
  | chr =>
      simp only []
      split_ifs
      · exact ⟨_, _, congrArg (Prod.mk _) (assoc2 _ _)⟩
      · cases hcap : D.querycap with
        | none => exact ⟨_, _, congrArg (Prod.mk _) (assoc3 _ _ _)⟩
        | some capabilities =>
            simp only []
            split_ifs
            · exact ⟨_, _, congrArg (Prod.mk _) (assoc3 _ _ _)⟩
            · exact ⟨_, _, congrArg (Prod.mk _) (assoc3 _ _ _)⟩
            · obtain ⟨ext1, h1⟩ := setup_crop_log D
                { st with _device_file_descriptor_ := D.open_fd st._configuration_.device_index }
                (log ++ [Setup_Event.STAT st._configuration_.device_index stat_result.chr]
                  ++ [Setup_Event.OPEN st._configuration_.device_index
                    (D.open_fd st._configuration_.device_index)]
                  ++ [Setup_Event.QUERYCAP (some capabilities)])
              rw [h1]
              obtain ⟨o, ext2, h2⟩ := setup_format_log D
                { st with _device_file_descriptor_ := D.open_fd st._configuration_.device_index }
                (log ++ [Setup_Event.STAT st._configuration_.device_index stat_result.chr]
                  ++ [Setup_Event.OPEN st._configuration_.device_index
                    (D.open_fd st._configuration_.device_index)]
                  ++ [Setup_Event.QUERYCAP (some capabilities)] ++ ext1)
              rw [h2]
              refine ⟨o, Setup_Event.OPEN st._configuration_.device_index
                  (D.open_fd st._configuration_.device_index)
                :: Setup_Event.QUERYCAP (some capabilities) :: (ext1 ++ ext2), ?_⟩
              simp

theorem init_members_of_lookup (params : Stream_Configuration) (c0 c1 c2 c3 : Char)
    (hl : pixel_formats_fourcc.lookup params.pixel_format = some (c0, c1, c2, c3)) :
    init_members params = some
      { _configuration_ := params,
        _buffer_plane_type_ := get_buffer_type_v4l2 { _configuration_ := params },
        _pixel_format_ := v4l2_fourcc c0 c1 c2 c3 } := by
  unfold init_members
  rw [hl]
  simp only []
  split <;> rfl

theorem init_members_spec (params : Stream_Configuration) :
    (params.pixel_format = Pixel_Format.Invalid → init_members params = none)
    ∧ (params.pixel_format ≠ Pixel_Format.Invalid →
        ∃ code, init_members params = some
          { _configuration_ := params,
            _buffer_plane_type_ := get_buffer_type_v4l2 { _configuration_ := params },
            _pixel_format_ := code }
          ∧ code = (match params.pixel_format with
            | Pixel_Format.YUYV422 => 0x56595559
            | Pixel_Format.YUV422P => 0x50323234
            | Pixel_Format.NV12 => 0x3231564E
            | Pixel_Format.NV12sp => 0x32314D4E
            | Pixel_Format.MJPEG => 0x47504A4D
            | Pixel_Format.BGR24 => 0x33524742
            | Pixel_Format.RGB24 => 0x33424752
            | Pixel_Format.Invalid => 0)) := by
  constructor
  · intro h
    unfold init_members
    rw [h]
    rfl
  · intro h
    cases hpf : params.pixel_format with
    | Invalid => exact absurd hpf h
    | YUYV422 =>
        exact ⟨_, init_members_of_lookup params 'Y' 'U' 'Y' 'V' (by rw [hpf]; rfl), by decide⟩
    | YUV422P =>
        exact ⟨_, init_members_of_lookup params '4' '2' '2' 'P' (by rw [hpf]; rfl), by decide⟩
    | NV12 =>
        exact ⟨_, init_members_of_lookup params 'N' 'V' '1' '2' (by rw [hpf]; rfl), by decide⟩
    | NV12sp =>
        exact ⟨_, init_members_of_lookup params 'N' 'M' '1' '2' (by rw [hpf]; rfl), by decide⟩
    | MJPEG =>
        exact ⟨_, init_members_of_lookup params 'M' 'J' 'P' 'G' (by rw [hpf]; rfl), by decide⟩
    | BGR24 =>
        exact ⟨_, init_members_of_lookup params 'B' 'G' 'R' '3' (by rw [hpf]; rfl), by decide⟩
    | RGB24 =>
        exact ⟨_, init_members_of_lookup params 'R' 'G' 'B' '3' (by rw [hpf]; rfl), by decide⟩

theorem construct_spec (params : Stream_Configuration) (D : Device) (st0 : V4L2_Backend)
    (h0 : init_members params = some st0) :
    ∃ o ext, construct params D
        = (o, Setup_Event.STAT st0._configuration_.device_index
            (D.stat st0._configuration_.device_index) :: ext)
      ∧ o ≠ Outcome.raised Construction_Error.pixel_format_not_supported
      ∧ (¬ Device_Opens D st0._configuration_.device_index →
          (∃ e, o = Outcome.raised e)
          ∧ s_fmt_payloads (Setup_Event.STAT st0._configuration_.device_index
              (D.stat st0._configuration_.device_index) :: ext) = [])
      ∧ (Device_Opens D st0._configuration_.device_index →
          s_fmt_payloads (Setup_Event.STAT st0._configuration_.device_index
              (D.stat st0._configuration_.device_index) :: ext) = [s_fmt_payload st0]
          ∧ (D.s_fmt (s_fmt_payload st0) = none →
              o = Outcome.raised Construction_Error.VIDIOC_S_FMT))
      ∧ (∀ st, o = Outcome.ok st →
          ∃ written, D.s_fmt (s_fmt_payload st0) = some written
            ∧ Stable
              { st0 with
                  _device_file_descriptor_ := D.open_fd st0._configuration_.device_index,
                  _v4l2_capture_format_ := written } st) := by
  obtain ⟨o1, l1, hrun1, hnot1, hclosed1, hopen1, hinv1⟩ := setup_device_spec D st0 []
  obtain ⟨o1', ext1, hlog1⟩ := setup_device_log D st0 []
  rw [hrun1] at hlog1
  have hl1 : l1 = Setup_Event.STAT st0._configuration_.device_index
      (D.stat st0._configuration_.device_index) :: ext1 := by
    have := congrArg Prod.snd hlog1
    simpa using this
  have hnil : s_fmt_payloads ([] : List Setup_Event) = [] := rfl
  rw [hnil] at hclosed1 hopen1
  unfold construct
  rw [h0]
  simp only []
  rw [hrun1]
  cases o1 with
  | raised e =>
      refine ⟨Outcome.raised e, ext1, by rw [hl1], hnot1, ?_, ?_, fun st h => by simp at h⟩
      · intro hc
        rw [← hl1]
        exact ⟨⟨e, rfl⟩, (hclosed1 hc).2⟩
      · intro ho
        rw [← hl1]
        exact ⟨by simpa using (hopen1 ho).1, (hopen1 ho).2.1⟩
  | undefined =>
      refine ⟨Outcome.undefined, ext1, by rw [hl1], hnot1, ?_, ?_, fun st h => by simp at h⟩
      · intro hc
        obtain ⟨⟨e, he⟩, _⟩ := hclosed1 hc
        simp at he
      · intro ho
        rw [← hl1]
        exact ⟨by simpa using (hopen1 ho).1, (hopen1 ho).2.1⟩
  | ok st1 =>
      simp only []
      obtain ⟨written, hw, hst1⟩ := hinv1 st1 rfl
      have hopens : Device_Opens D st0._configuration_.device_index := by
        by_contra hc
        obtain ⟨⟨e, he⟩, _⟩ := hclosed1 hc
        simp at he
      have hpay1 : s_fmt_payloads l1 = [s_fmt_payload st0] := by
        simpa using (hopen1 hopens).1
      have hext := setup_buffering_extends D st1 l1
      rcases hr : setup_buffering D st1 l1 with ⟨o2, l2⟩
      rw [hr] at hext
      obtain ⟨⟨ext2, hl2, hbuf⟩, hnot2, hstable⟩ := hext
      simp only [] at hl2 hnot2 hstable
      have hpay2 : s_fmt_payloads l2 = [s_fmt_payload st0] := by
        rw [hl2, s_fmt_payloads_append, hpay1, s_fmt_payloads_buffer_setup ext2 hbuf]
        rfl
      cases o2 with
      | raised e =>
          refine ⟨Outcome.raised e, ext1 ++ ext2, ?_, hnot2, fun hc => absurd hopens hc, ?_,
            fun st h => by simp at h⟩
          · rw [hl2, hl1]; rfl
          · intro _
            have hl : Setup_Event.STAT st0._configuration_.device_index
                (D.stat st0._configuration_.device_index) :: (ext1 ++ ext2) = l2 := by
              rw [hl2, hl1]; rfl
            rw [hl]
            refine ⟨hpay2, fun hnone => ?_⟩
            rw [hnone] at hw; simp at hw
      | undefined =>
          refine ⟨Outcome.undefined, ext1 ++ ext2, ?_, hnot2, fun hc => absurd hopens hc, ?_,
            fun st h => by simp at h⟩
          · rw [hl2, hl1]; rfl
          · intro _
            have hl : Setup_Event.STAT st0._configuration_.device_index
                (D.stat st0._configuration_.device_index) :: (ext1 ++ ext2) = l2 := by
              rw [hl2, hl1]; rfl
            rw [hl]
            refine ⟨hpay2, fun hnone => ?_⟩
            rw [hnone] at hw; simp at hw
      | ok st2 =>
          simp only []
          have hst2 := hstable st2 rfl
          by_cases hon : D.streamon = false
          · rw [if_pos hon]
            refine ⟨Outcome.raised Construction_Error.VIDIOC_STREAMON,
              ext1 ++ ext2 ++ [Setup_Event.STREAMON st2._buffer_plane_type_ false], ?_,
              by simp, fun hc => absurd hopens hc, ?_, fun st h => by simp at h⟩
            · rw [hl2, hl1]; rfl
            · intro _
              have hl : Setup_Event.STAT st0._configuration_.device_index
                  (D.stat st0._configuration_.device_index)
                  :: (ext1 ++ ext2 ++ [Setup_Event.STREAMON st2._buffer_plane_type_ false])
                  = l2 ++ [Setup_Event.STREAMON st2._buffer_plane_type_ false] := by
                rw [hl2, hl1]; rfl
              rw [hl, s_fmt_payloads_append, hpay2]
              refine ⟨rfl, fun hnone => ?_⟩
              rw [hnone] at hw; simp at hw
          · rw [if_neg hon]
            refine ⟨Outcome.ok st2,
              ext1 ++ ext2 ++ [Setup_Event.STREAMON st2._buffer_plane_type_ true], ?_,
              by simp, fun hc => absurd hopens hc, ?_, ?_⟩
            · rw [hl2, hl1]; rfl
            · intro _
              have hl : Setup_Event.STAT st0._configuration_.device_index
                  (D.stat st0._configuration_.device_index)
                  :: (ext1 ++ ext2 ++ [Setup_Event.STREAMON st2._buffer_plane_type_ true])
                  = l2 ++ [Setup_Event.STREAMON st2._buffer_plane_type_ true] := by
                rw [hl2, hl1]; rfl
              rw [hl, s_fmt_payloads_append, hpay2]
              refine ⟨rfl, fun hnone => ?_⟩
              rw [hnone] at hw; simp at hw
            · intro st h
              have hst : st2 = st := Outcome.ok.inj h
              rw [← hst]
              refine ⟨written, hw, ?_⟩
              rw [← hst1]
              exact hst2

theorem fourcc_code_of_lookup (pixel_format : Pixel_Format) (c0 c1 c2 c3 : Char)
    (hl : pixel_formats_fourcc.lookup pixel_format = some (c0, c1, c2, c3)) :
    fourcc_code pixel_format = some (v4l2_fourcc c0 c1 c2 c3) := by
  unfold fourcc_code
  rw [init_members_of_lookup { pixel_format := pixel_format } c0 c1 c2 c3 hl]
  rfl

theorem init_members_some (params : Stream_Configuration) (st0 : V4L2_Backend)
    (h : init_members params = some st0) :
    params.pixel_format ≠ Pixel_Format.Invalid
    ∧ st0 = { _configuration_ := params,
              _buffer_plane_type_ := get_buffer_type_v4l2 { _configuration_ := params },
              _pixel_format_ := st0._pixel_format_ }
    ∧ fourcc_code params.pixel_format = some st0._pixel_format_ := by
  obtain ⟨hinv, hsupp⟩ := init_members_spec params
  have hne : params.pixel_format ≠ Pixel_Format.Invalid := by
    intro hc
    rw [hinv hc] at h
    simp at h
  obtain ⟨code, heq, hcode⟩ := hsupp hne
  rw [heq] at h
  have hst := Option.some.inj h
  refine ⟨hne, ?_, ?_⟩
  · rw [← hst]
  · rw [← hst]
    show fourcc_code params.pixel_format = some code
    rw [hcode]
    cases hp : params.pixel_format with
    | Invalid => exact absurd hp hne
    | YUYV422 => exact fourcc_code_of_lookup _ 'Y' 'U' 'Y' 'V' rfl
    | YUV422P => exact fourcc_code_of_lookup _ '4' '2' '2' 'P' rfl
    | NV12 => exact fourcc_code_of_lookup _ 'N' 'V' '1' '2' rfl
    | NV12sp => exact fourcc_code_of_lookup _ 'N' 'M' '1' '2' rfl
    | MJPEG => exact fourcc_code_of_lookup _ 'M' 'J' 'P' 'G' rfl
    | BGR24 => exact fourcc_code_of_lookup _ 'B' 'G' 'R' '3' rfl
    | RGB24 => exact fourcc_code_of_lookup _ 'R' 'G' 'B' '3' rfl

theorem construct_ok_spec (params : Stream_Configuration) (D : Device) (st : V4L2_Backend)
    (log : List Setup_Event) (h : construct params D = (Outcome.ok st, log)) :
    ∃ st0 written, init_members params = some st0
      ∧ D.s_fmt (s_fmt_payload st0) = some written
      ∧ st._v4l2_capture_format_ = written
      ∧ st._configuration_ = params
      ∧ st._pixel_format_ = st0._pixel_format_
      ∧ st._buffer_plane_type_ = get_buffer_type_v4l2 st
      ∧ st._limit_range_ = false
      ∧ st._frame_order_ = 0
      ∧ st._buffer_of_buffers = [] := by
  cases h0 : init_members params with
  | none =>
      unfold construct at h
      rw [h0] at h
      simp at h
  | some st0 =>
      obtain ⟨o, ext, hrun, _, _, _, hinv⟩ := construct_spec params D st0 h0
      rw [h] at hrun
      have ho : o = Outcome.ok st := (congrArg Prod.fst hrun).symm
      obtain ⟨written, hw, hstable⟩ := hinv st ho
      obtain ⟨_, hshape, _⟩ := init_members_some params st0 h0
      obtain ⟨s1, s2, s3, s4, _, s6, s7, s8⟩ := hstable
      simp only [] at s1 s2 s3 s4 s6 s7 s8
      refine ⟨st0, written, rfl, hw, s3, ?_, s4, ?_, ?_, ?_, ?_⟩
      · rw [s1, hshape]
      · rw [s6, hshape]
        show get_buffer_type_v4l2 { _configuration_ := params } = get_buffer_type_v4l2 st
        unfold get_buffer_type_v4l2
        rw [s1, hshape]
      · rw [s7, hshape]
      · rw [s2, hshape]
      · rw [s8, hshape]

theorem fourcc_code_invalid : fourcc_code Pixel_Format.Invalid = none := by
  unfold fourcc_code
  rw [(init_members_spec { pixel_format := Pixel_Format.Invalid }).1 rfl]
  rfl

theorem is_mjpeg_iff (pixel_format : Pixel_Format) (st : V4L2_Backend)
    (hcode : fourcc_code pixel_format = some st._pixel_format_) :
    is_mjpeg st = true ↔ pixel_format = Pixel_Format.MJPEG := by
  unfold is_mjpeg
  cases pixel_format with
  | Invalid =>
      rw [fourcc_code_invalid] at hcode
      exact absurd hcode (Option.some_ne_none _).symm
  | YUYV422 =>
      rw [fourcc_code_of_lookup Pixel_Format.YUYV422 'Y' 'U' 'Y' 'V' rfl] at hcode
      rw [← Option.some.inj hcode]; decide
  | YUV422P =>
      rw [fourcc_code_of_lookup Pixel_Format.YUV422P '4' '2' '2' 'P' rfl] at hcode
      rw [← Option.some.inj hcode]; decide
  | NV12 =>
      rw [fourcc_code_of_lookup Pixel_Format.NV12 'N' 'V' '1' '2' rfl] at hcode
      rw [← Option.some.inj hcode]; decide
  | NV12sp =>
      rw [fourcc_code_of_lookup Pixel_Format.NV12sp 'N' 'M' '1' '2' rfl] at hcode
      rw [← Option.some.inj hcode]; decide
  | MJPEG =>
      rw [fourcc_code_of_lookup Pixel_Format.MJPEG 'M' 'J' 'P' 'G' rfl] at hcode
      rw [← Option.some.inj hcode]; decide
  | BGR24 =>
      rw [fourcc_code_of_lookup Pixel_Format.BGR24 'B' 'G' 'R' '3' rfl] at hcode
      rw [← Option.some.inj hcode]; decide
  | RGB24 =>
      rw [fourcc_code_of_lookup Pixel_Format.RGB24 'R' 'G' 'B' '3' rfl] at hcode
      rw [← Option.some.inj hcode]; decide

theorem s_fmt_payload_spec (st : V4L2_Backend) :
    (s_fmt_payload st).type = st._buffer_plane_type_
    ∧ (s_fmt_payload st).width = st._configuration_.width
    ∧ (s_fmt_payload st).height = st._configuration_.height
    ∧ (s_fmt_payload st).pixelformat = st._pixel_format_
    ∧ (s_fmt_payload st).field
        = (if is_mjpeg st = true then V4L2_FIELD_NONE else V4L2_FIELD_INTERLACED)
    ∧ (s_fmt_payload st).quantization
        = (if st._limit_range_ = true then V4L2_QUANTIZATION_LIM_RANGE
            else V4L2_QUANTIZATION_FULL_RANGE) := by
  unfold s_fmt_payload
  split <;> exact ⟨rfl, rfl, rfl, rfl, rfl, rfl⟩

theorem init_members_fields (params : Stream_Configuration) (st0 : V4L2_Backend)
    (h : init_members params = some st0) :
    st0._configuration_ = params
    ∧ st0._buffer_plane_type_
        = (if params.v4l2.contiguous = true then v4l2_buf_type.V4L2_BUF_TYPE_VIDEO_CAPTURE
            else v4l2_buf_type.V4L2_BUF_TYPE_VIDEO_CAPTURE_MPLANE)
    ∧ st0._limit_range_ = false
    ∧ fourcc_code params.pixel_format = some st0._pixel_format_
    ∧ params.pixel_format ≠ Pixel_Format.Invalid := by
  obtain ⟨hne, hshape, hcode⟩ := init_members_some params st0 h
  refine ⟨?_, ?_, ?_, hcode, hne⟩
  · rw [hshape]
  · rw [hshape]
    rfl
  · rw [hshape]

theorem construct_invalid (params : Stream_Configuration) (D : Device)
    (h : params.pixel_format = Pixel_Format.Invalid) :
    construct params D = (Outcome.raised Construction_Error.pixel_format_not_supported, []) := by
  unfold construct
  rw [(init_members_spec params).1 h]

theorem init_members_supported (params : Stream_Configuration)
    (h : params.pixel_format ≠ Pixel_Format.Invalid) :
    ∃ st0, init_members params = some st0 := by
  obtain ⟨code, h0, _⟩ := (init_members_spec params).2 h
  exact ⟨_, h0⟩

/-! ## Claims C11 to C20 -/

/-- C11 (counterexample to the claim as stated). USERPTR mode, one caller buffer: its QBUF
succeeds, the device is ready and the one DQBUF fails with EIO.  `put_frame_data` returns
with one buffer queued and none dequeued: the failed DQBUF uses up the loop iteration. -/
theorem userptr_eio_leaves_buffer_queued :
    (put_frame_data 1 (scripted_kernel [dqbuf_result.error Errno.EIO]) (userptr_single 1)
        [[{ data := 65536, size := 4096 }]] {}).map
      (fun r => (r.1, queued_count r.2.2.trace, dequeued_count r.2.2.trace, r.2.2.trace))
    = some ([[0]], 1, 0,
        [Event.QBUF { index := 0, type := v4l2_buf_type.V4L2_BUF_TYPE_VIDEO_CAPTURE,
                      memory := v4l2_memory.V4L2_MEMORY_USERPTR, m_userptr := 65536,
                      length := 4096 } true,
         Event.SELECT { r := 1 },
         Event.DQBUF (dqbuf_result.error Errno.EIO)]) := by
  decide

/-- C11 (amended). USERPTR accounting: in USERPTR mode, whenever `put_frame_data` returns,
the DQBUFs of the call that succeeded plus those that failed with an `errno` other than
EAGAIN are as many as the QBUFs of the call that succeeded (counted in the `ushort`
`num_queued_buffers`, so modulo `2^16`).  Hence when no DQBUF of the call failed with such
an `errno` and the caller passed fewer than `2^16` buffers, as many buffers were dequeued
as were queued. -/
theorem userptr_dequeue_attempts_match_queued (fuel : Nat) (K : Kernel) (st : V4L2_Backend)
    (frames : List Multiplanar_Buffer_View) (sys : Syscalls)
    (out : List (List Nat) × V4L2_Backend × Syscalls)
    (hmode : st._configuration_.buffering ≠ Buffering.Internal)
    (h : put_frame_data fuel K st frames sys = some out) :
    ∃ log, out.2.2.trace = sys.trace ++ log
      ∧ queued_count log ≤ frames.length
      ∧ dequeued_count log + dqbuf_hard_errors log = queued_count log % 2 ^ 16
      ∧ (dqbuf_hard_errors log = 0 → frames.length < 2 ^ 16 →
          dequeued_count log = queued_count log) := by
  have hmem : ¬ (get_memory_mapping_type_v4l2 st = v4l2_memory.V4L2_MEMORY_MMAP
      ∨ get_memory_mapping_type_v4l2 st = v4l2_memory.V4L2_MEMORY_DMABUF) := by
    simp [get_memory_mapping_type_v4l2, hmode]
  unfold put_frame_data at h
  simp only [hmem, if_false] at h
  cases hq : userptr_queue_loop K frames 0 st 0
      (List.replicate frames.length (List.replicate (num_planes st) 0)) sys with
  | none => rw [hq] at h; simp at h
  | some outq =>
      obtain ⟨st1, nq1, sizes1, sys1⟩ := outq
      rw [hq] at h
      simp only [] at h
      cases hd : userptr_dequeue_loop K st1 fuel 0 nq1 sizes1 (try_device K sys1).2 with
      | none => rw [hd] at h; simp at h
      | some outd =>
          rw [hd] at h
          simp only [] at h
          rw [← Option.some.inj h]
          obtain ⟨logq, hq1, hq2, hq3, hq4, hq5⟩ :=
            userptr_queue_loop_counts K frames 0 st 0 _ sys _ hq (by norm_num)
          obtain ⟨logd, hd1, hd2, hd3⟩ := userptr_dequeue_loop_counts K st1 fuel 0 nq1 _ _ _ hd
          simp only [] at hq1 hq5
          rw [try_device_snd] at hd1
          simp only [] at hd1
          have hmax : max 0 nq1 = nq1 := Nat.max_eq_right (Nat.zero_le _)
          rw [hmax, hq5, Nat.zero_add, Nat.zero_add] at hd3
          have hcount : dequeued_count (logq ++ [Event.SELECT (K.select sys1.ns)] ++ logd)
                + dqbuf_hard_errors (logq ++ [Event.SELECT (K.select sys1.ns)] ++ logd)
              = queued_count (logq ++ [Event.SELECT (K.select sys1.ns)] ++ logd) % 2 ^ 16 := by
            rw [dequeued_count_append, dequeued_count_append, dqbuf_hard_errors_append,
              dqbuf_hard_errors_append, queued_count_append, queued_count_append, hq2, hq3, hd2]
            have e1 : dequeued_count [Event.SELECT (K.select sys1.ns)] = 0 := rfl
            have e2 : dqbuf_hard_errors [Event.SELECT (K.select sys1.ns)] = 0 := rfl
            have e3 : queued_count [Event.SELECT (K.select sys1.ns)] = 0 := rfl
            rw [e1, e2, e3]
            simpa using hd3
          have hle : queued_count (logq ++ [Event.SELECT (K.select sys1.ns)] ++ logd)
              ≤ frames.length := by
            rw [queued_count_append, queued_count_append, hd2]
            have e3 : queued_count [Event.SELECT (K.select sys1.ns)] = 0 := rfl
            rw [e3]; simpa using hq4
          refine ⟨logq ++ [Event.SELECT (K.select sys1.ns)] ++ logd, ?_, hle, hcount, ?_⟩
          · rw [hd1, hq1]; simp
          · intro hhard hlen
            rw [hhard, Nat.add_zero] at hcount
            rw [hcount]
            exact Nat.mod_eq_of_lt (lt_of_le_of_lt hle hlen)

/-- C11 (witness). Instance: three caller buffers, the QBUF of the second fails, the DQBUFs
answer EAGAIN once and then hand back two buffers: two queued, two dequeued. -/
theorem userptr_dequeue_attempts_match_queued_witness :
    ∃ out log,
      put_frame_data 3 userptr_kernel (userptr_mplane 3) caller_views {} = some out
      ∧ out.2.2.trace = log
      ∧ queued_count log = 2 ∧ dequeued_count log = 2 ∧ dqbuf_hard_errors log = 0 := by
  obtain ⟨out, hrun⟩ :
      ∃ out, put_frame_data 3 userptr_kernel (userptr_mplane 3) caller_views {} = some out :=
    ⟨_, rfl⟩
  obtain ⟨log, htr, _, hcount, heq⟩ :=
    userptr_dequeue_attempts_match_queued 3 userptr_kernel (userptr_mplane 3) caller_views {}
      out (by decide) hrun
  have hlog : out.2.2.trace = log := by simpa using htr
  have hq : (put_frame_data 3 userptr_kernel (userptr_mplane 3) caller_views {}).map
      (fun r => (queued_count r.2.2.trace, dqbuf_hard_errors r.2.2.trace)) = some (2, 0) := by
    decide
  rw [hrun, Option.map_some', hlog] at hq
  have hq2 : queued_count log = 2 := congrArg Prod.fst (Option.some.inj hq)
  have hh0 : dqbuf_hard_errors log = 0 := congrArg Prod.snd (Option.some.inj hq)
  exact ⟨out, log, hrun, hlog, hq2, (heq hh0 (by decide)).trans hq2, hh0⟩
/-- C12. Frame counter counts dequeue attempts: in MMAP mode every `get_frame_data` call on
a constructed backend returns, and `get_frame_order()` grows (as a `uintmax_t`, modulo
`2^64`) by exactly the number of DQBUF ioctls the call logged, successful or not: none
when the readiness wait reports not-ready, else 1 under Oldest and the ring size
`_num_buffers_` under Only_Newest.  As long as the counter is more than a ring size away
from `2^64` the growth is exact and the counter does not decrease. -/
theorem frame_order_counts_dqbuf_attempts (fuel : Nat) (K : Kernel) (st : V4L2_Backend)
    (sys : Syscalls) (hmode : st._configuration_.buffering = Buffering.Internal)
    (hwf : WellFormed st) (hfo : st._frame_order_ < 2 ^ 64) :
    ∃ view st1 sys1 log,
      get_frame_data fuel K st sys = some (view, st1, sys1)
      ∧ sys1.trace = sys.trace ++ log
      ∧ sys1.nd = sys.nd + dqbuf_attempts log
      ∧ dqbuf_attempts log =
          (if (try_device K (drain_pending K st._buffer_of_buffers sys)).1 = true then
            (match st._configuration_.v4l2.buffer_usage_policy with
              | Internal_Buffering_Strategy.Oldest => 1
              | Internal_Buffering_Strategy.Only_Newest => st._num_buffers_)
           else 0)
      ∧ get_frame_order st1 = (get_frame_order st + dqbuf_attempts log) % 2 ^ 64
      ∧ (get_frame_order st + st._num_buffers_ < 2 ^ 64 →
          get_frame_order st1 = get_frame_order st + dqbuf_attempts log
            ∧ get_frame_order st ≤ get_frame_order st1) := by
  have hN : 1 ≤ st._num_buffers_ := hwf.2.2.1
  have key : ∀ view st1 sys1 log (n : Nat),
      get_frame_data_mmap K st sys = some (view, st1, sys1) →
      sys1.trace = sys.trace ++ log → sys1.nd = sys.nd + n → dqbuf_attempts log = n →
      n = (if (try_device K (drain_pending K st._buffer_of_buffers sys)).1 = true then
            (match st._configuration_.v4l2.buffer_usage_policy with
              | Internal_Buffering_Strategy.Oldest => 1
              | Internal_Buffering_Strategy.Only_Newest => st._num_buffers_)
           else 0) →
      n ≤ st._num_buffers_ →
      st1._frame_order_ = (st._frame_order_ + n) % 2 ^ 64 →
      ∃ view st1 sys1 log,
        get_frame_data fuel K st sys = some (view, st1, sys1)
        ∧ sys1.trace = sys.trace ++ log
        ∧ sys1.nd = sys.nd + dqbuf_attempts log
        ∧ dqbuf_attempts log =
            (if (try_device K (drain_pending K st._buffer_of_buffers sys)).1 = true then
              (match st._configuration_.v4l2.buffer_usage_policy with
                | Internal_Buffering_Strategy.Oldest => 1
                | Internal_Buffering_Strategy.Only_Newest => st._num_buffers_)
             else 0)
        ∧ get_frame_order st1 = (get_frame_order st + dqbuf_attempts log) % 2 ^ 64
        ∧ (get_frame_order st + st._num_buffers_ < 2 ^ 64 →
            get_frame_order st1 = get_frame_order st + dqbuf_attempts log
              ∧ get_frame_order st ≤ get_frame_order st1) := by
    intro view st1 sys1 log n hrun htr hnd hcount hn hle hfo1
    refine ⟨view, st1, sys1, log, ?_, htr, ?_, ?_, ?_, ?_⟩
    · rw [get_frame_data_internal fuel K st sys hmode]; exact hrun
    · rw [hcount]; exact hnd
    · rw [hcount]; exact hn
    · rw [hcount]; exact hfo1
    · intro hno
      rw [hcount]
      have h1 : get_frame_order st1 = get_frame_order st + n := by
        unfold get_frame_order at hno ⊢
        rw [hfo1]
        exact Nat.mod_eq_of_lt (by omega)
      exact ⟨h1, by omega⟩
  by_cases hready : (try_device K (drain_pending K st._buffer_of_buffers sys)).1 = true
  · have hcases : st._configuration_.v4l2.buffer_usage_policy = Internal_Buffering_Strategy.Oldest
        ∨ st._configuration_.v4l2.buffer_usage_policy
          = Internal_Buffering_Strategy.Only_Newest := by
      cases st._configuration_.v4l2.buffer_usage_policy <;> simp
    rcases hcases with hpol | hpol
    ·
        refine key _ _ _
          (qbuf_events K sys.nq st._buffer_of_buffers ++ [Event.SELECT (K.select sys.ns)]
            ++ [Event.DQBUF (K.dqbuf sys.nd)]) 1
          (get_frame_data_mmap_oldest K st sys hwf hpol hready) ?_ rfl ?_ ?_ hN rfl
        · simp [entry_syscalls, List.append_assoc]
        · rw [dqbuf_attempts_append, dqbuf_attempts_append, dqbuf_attempts_qbuf_events]
          rfl
        · rw [if_pos hready, hpol]
    ·
        have hnf := get_frame_data_mmap_only_newest K st sys hwf hpol hready
        cases hlast : (store_all st
            (stored_buffers K st._num_buffers_ st._num_buffers_ sys.nd) []).getLast? with
        | none =>
            rw [hlast] at hnf
            refine key _ _ _
              (qbuf_events K sys.nq st._buffer_of_buffers ++ [Event.SELECT (K.select sys.ns)]
                ++ dqbuf_events K st._num_buffers_ sys.nd) st._num_buffers_
              hnf ?_ rfl ?_ ?_ (le_refl _) (bump_eq _ _ hfo)
            · simp [entry_syscalls, List.append_assoc]
            · rw [dqbuf_attempts_append, dqbuf_attempts_append, dqbuf_attempts_qbuf_events,
                dqbuf_attempts_dqbuf_events]
              simp [dqbuf_attempts]
            · rw [if_pos hready, hpol]
        | some last =>
            rw [hlast] at hnf
            refine key _ _ _
              (qbuf_events K sys.nq st._buffer_of_buffers ++ [Event.SELECT (K.select sys.ns)]
                ++ dqbuf_events K st._num_buffers_ sys.nd
                ++ qbuf_events K (entry_syscalls K st sys).nq
                    ((store_all st (stored_buffers K st._num_buffers_ st._num_buffers_ sys.nd)
                      []).dropLast.map (fun e => e.2.2))) st._num_buffers_
              hnf ?_ rfl ?_ ?_ (le_refl _) (bump_eq _ _ hfo)
            · simp [entry_syscalls, List.append_assoc]
            · rw [dqbuf_attempts_append, dqbuf_attempts_append, dqbuf_attempts_append,
                dqbuf_attempts_qbuf_events, dqbuf_attempts_dqbuf_events,
                dqbuf_attempts_qbuf_events]
              simp [dqbuf_attempts]
            · rw [if_pos hready, hpol]
  · have hwait : (try_device K (drain_pending K st._buffer_of_buffers sys)).1 = false := by
      simpa using hready
    refine key _ _ _
      (qbuf_events K sys.nq st._buffer_of_buffers ++ [Event.SELECT (K.select sys.ns)]) 0
      (get_frame_data_mmap_not_ready K st sys hwait) ?_ rfl ?_ ?_ (Nat.zero_le _) ?_
    · simp [entry_syscalls, List.append_assoc]
    · rw [dqbuf_attempts_append, dqbuf_attempts_qbuf_events]
      rfl
    · rw [if_neg hready]
    · show st._frame_order_ = (st._frame_order_ + 0) % 2 ^ 64
      rw [Nat.add_zero, Nat.mod_eq_of_lt hfo]

/-- C12 (witness). Instance: three slots, Only_Newest, the device is ready and the three
DQBUFs answer a frame, EAGAIN and EIO; the call logs three DQBUFs and the counter goes
from 0 to 3.  Under Oldest the same call logs one DQBUF and the counter goes to 1. -/
theorem frame_order_counts_dqbuf_attempts_witness :
    WellFormed (ring_single Internal_Buffering_Strategy.Only_Newest 3)
    ∧ (∃ view st1 sys1 log,
        get_frame_data 0
            (scripted_kernel [dqbuf_result.ok (frame 1 1 500 100),
              dqbuf_result.error Errno.EAGAIN, dqbuf_result.error Errno.EIO])
            (ring_single Internal_Buffering_Strategy.Only_Newest 3) {}
          = some (view, st1, sys1)
        ∧ sys1.trace = log ∧ dqbuf_attempts log = 3 ∧ get_frame_order st1 = 3)
    ∧ (get_frame_data 0
          (scripted_kernel [dqbuf_result.ok (frame 1 1 500 100),
            dqbuf_result.error Errno.EAGAIN, dqbuf_result.error Errno.EIO])
          (ring_single Internal_Buffering_Strategy.Oldest 3) {}).map
        (fun r => (get_frame_order r.2.1, dqbuf_attempts r.2.2.trace)) = some (1, 1) := by
  refine ⟨by decide, ?_, by decide⟩
  obtain ⟨view, st1, sys1, log, hrun, htr, _, hcount, hfo, _⟩ :=
    frame_order_counts_dqbuf_attempts 0
      (scripted_kernel [dqbuf_result.ok (frame 1 1 500 100),
        dqbuf_result.error Errno.EAGAIN, dqbuf_result.error Errno.EIO])
      (ring_single Internal_Buffering_Strategy.Only_Newest 3) {} rfl (by decide) (by decide)
  have h3 : dqbuf_attempts log = 3 := hcount.trans (by decide)
  refine ⟨view, st1, sys1, log, hrun, by simpa using htr, h3, ?_⟩
  rw [hfo, h3]
  decide

/-- C13 (counterexample to the claim as stated). MMAP mode, Oldest policy, two slots, the
counter stands at 41 and the `select` of the readiness wait times out: the call returns
the empty view, logs the `select` only and leaves `get_frame_order()` at 41, not 42. -/
theorem timeout_leaves_frame_order :
    (get_frame_data 0 stalled_kernel
        { ring_single Internal_Buffering_Strategy.Oldest 2 with _frame_order_ := 41 } {}).map
      (fun r => (r.1, get_frame_order r.2.1, r.2.2.trace))
    = some ([], 41, [Event.SELECT { r := 0 }]) := by
  decide

/-- C13 (amended). In MMAP mode a `get_frame_data` call whose readiness wait times out
(`select` returns 0) returns the empty view, attempts no DQBUF and leaves
`get_frame_order()` unchanged: the counter is incremented only next to a DQBUF. -/
theorem frame_order_unchanged_on_timeout (fuel : Nat) (K : Kernel) (st : V4L2_Backend)
    (sys : Syscalls) (hmode : st._configuration_.buffering = Buffering.Internal)
    (htimeout : (K.select sys.ns).r = 0) :
    ∃ st1 sys1 log,
      get_frame_data fuel K st sys = some ([], st1, sys1)
      ∧ sys1.trace = sys.trace ++ log
      ∧ dqbuf_attempts log = 0
      ∧ sys1.nd = sys.nd
      ∧ get_frame_order st1 = get_frame_order st := by
  have hwait := try_device_timeout K st._buffer_of_buffers sys htimeout
  refine ⟨_, _, qbuf_events K sys.nq st._buffer_of_buffers ++ [Event.SELECT (K.select sys.ns)],
    (get_frame_data_internal fuel K st sys hmode).trans
      (get_frame_data_mmap_not_ready K st sys hwait), ?_, ?_, rfl, rfl⟩
  · simp [entry_syscalls, List.append_assoc]
  · rw [dqbuf_attempts_append, dqbuf_attempts_qbuf_events]
    rfl

/-- C13 (witness). Instance: two pending descriptors, counter at 0, `select` times out; the
counter is still 0 after the call. -/
theorem frame_order_unchanged_on_timeout_witness :
    (stalled_kernel.select 0).r = 0
    ∧ ∃ st1 sys1 log,
      get_frame_data 0 stalled_kernel ring_with_pending {} = some ([], st1, sys1)
      ∧ sys1.trace = ({} : Syscalls).trace ++ log
      ∧ dqbuf_attempts log = 0
      ∧ sys1.nd = 0
      ∧ get_frame_order st1 = get_frame_order ring_with_pending :=
  ⟨rfl, frame_order_unchanged_on_timeout 0 stalled_kernel ring_with_pending {} rfl rfl⟩

/-- C14 (counterexample to the claim as stated). On a device that accepts every call and
reports two planes for the multi-plane type: NV12sp with `contiguous` is constructed with
`num_planes() = 1` where the table says 2, and YUV422P without `contiguous` is
constructed with `num_planes() = 2`, the count the driver wrote, where the table says 3. -/
theorem num_planes_differs_from_table :
    (∃ st log,
        construct (demo_configuration Pixel_Format.NV12sp Buffering.Internal true) good_device
          = (Outcome.ok st, log)
        ∧ num_planes st = 1 ∧ get_num_planes Pixel_Format.NV12sp = 2)
    ∧ (∃ st log,
        construct (demo_configuration Pixel_Format.YUV422P Buffering.Internal false) good_device
          = (Outcome.ok st, log)
        ∧ num_planes st = 2 ∧ get_num_planes Pixel_Format.YUV422P = 3) :=
  ⟨⟨_, _, rfl, rfl, rfl⟩, ⟨_, _, rfl, rfl, rfl⟩⟩

/-- C14 (amended). Plane count of a constructed backend: `num_planes()` is computed from
the format the driver wrote back at S_FMT, not from the pixel format: it is 1 when the
type written back is the single-plane capture type and the driver's
`fmt.pix_mp.num_planes` otherwise.  When the driver keeps the type of the payload this is
1 with `contiguous`, whatever the pixel format (so it equals `get_num_planes` for
YUYV422, MJPEG, BGR24, RGB24 and NV12, and differs for NV12sp and YUV422P), and the
driver's plane count without `contiguous`. -/
theorem num_planes_of_constructed (params : Stream_Configuration) (D : Device)
    (st : V4L2_Backend) (log : List Setup_Event)
    (h : construct params D = (Outcome.ok st, log)) :
    ∃ st0 written, init_members params = some st0
      ∧ D.s_fmt (s_fmt_payload st0) = some written
      ∧ num_planes st = (if written.type = v4l2_buf_type.V4L2_BUF_TYPE_VIDEO_CAPTURE then 1
          else written.num_planes)
      ∧ (written.type = (s_fmt_payload st0).type → params.v4l2.contiguous = true →
          num_planes st = 1
          ∧ (num_planes st = get_num_planes params.pixel_format
              ↔ params.pixel_format ≠ Pixel_Format.NV12sp
                ∧ params.pixel_format ≠ Pixel_Format.YUV422P))
      ∧ (written.type = (s_fmt_payload st0).type → params.v4l2.contiguous = false →
          num_planes st = written.num_planes) := by
  obtain ⟨st0, written, h0, hw, hfmt, _⟩ := construct_ok_spec params D st log h
  obtain ⟨_, htype, _, _, hne⟩ := init_members_fields params st0 h0
  have hnum : num_planes st = (if written.type = v4l2_buf_type.V4L2_BUF_TYPE_VIDEO_CAPTURE
      then 1 else written.num_planes) := by
    unfold num_planes
    rw [hfmt]
  refine ⟨st0, written, h0, hw, hnum, ?_, ?_⟩
  · intro hkeep hc
    rw [(s_fmt_payload_spec st0).1, htype, if_pos hc] at hkeep
    rw [hnum, if_pos hkeep]
    refine ⟨rfl, ?_⟩
    cases hp : params.pixel_format with
    | Invalid => exact absurd hp hne
    | YUYV422 => decide
    | YUV422P => decide
    | NV12 => decide
    | NV12sp => decide
    | MJPEG => decide
    | BGR24 => decide
    | RGB24 => decide
  · intro hkeep hc
    have hc2 : ¬ params.v4l2.contiguous = true := by rw [hc]; decide
    rw [(s_fmt_payload_spec st0).1, htype, if_neg hc2] at hkeep
    rw [hnum, hkeep]
    rfl

/-- C14 (witness). Instance: NV12sp without `contiguous` on a device that accepts every
call and reports two planes. -/
theorem num_planes_of_constructed_witness :
    ∃ st log,
      construct (demo_configuration Pixel_Format.NV12sp Buffering.Internal false) good_device
        = (Outcome.ok st, log)
      ∧ ∃ st0 written,
          init_members (demo_configuration Pixel_Format.NV12sp Buffering.Internal false)
            = some st0
          ∧ good_device.s_fmt (s_fmt_payload st0) = some written
          ∧ num_planes st = (if written.type = v4l2_buf_type.V4L2_BUF_TYPE_VIDEO_CAPTURE
              then 1 else written.num_planes)
          ∧ num_planes st = 2 := by
  obtain ⟨st, log, h⟩ : ∃ st log,
      construct (demo_configuration Pixel_Format.NV12sp Buffering.Internal false) good_device
        = (Outcome.ok st, log) := ⟨_, _, rfl⟩
  obtain ⟨st0, written, h0, hw, hnum, _, _⟩ := num_planes_of_constructed
    (demo_configuration Pixel_Format.NV12sp Buffering.Internal false) good_device st log h
  have h2 : num_planes st = 2 := by
    have hst := congrArg Prod.fst h
    have hok : Outcome.ok st
        = (construct (demo_configuration Pixel_Format.NV12sp Buffering.Internal false)
            good_device).1 := hst.symm
    have hst2 := Outcome.ok.inj hok
    rw [hst2]
    rfl
  exact ⟨st, log, h, st0, written, h0, hw, hnum, h2⟩

/-- C15. Fourcc table: the 32-bit code the constructor computes for each of the seven
supported tags is `c0 | c1<<8 | c2<<16 | c3<<24` over the table's four characters, i.e. the
fourcc of "YUYV", "422P", "NV12", "NM12", "MJPG", "BGR3", "RGB3" (numeric values given);
no code is computed for `Invalid`; distinct tags give distinct codes; the members
initialised by the constructor, and the backend it returns on any device, carry that
code, and `is_mjpeg()` holds for them exactly when the tag is MJPEG. -/
theorem fourcc_table (params : Stream_Configuration) (D : Device) :
    (fourcc_code Pixel_Format.YUYV422 = some (v4l2_fourcc 'Y' 'U' 'Y' 'V')
      ∧ fourcc_code Pixel_Format.YUV422P = some (v4l2_fourcc '4' '2' '2' 'P')
      ∧ fourcc_code Pixel_Format.NV12 = some (v4l2_fourcc 'N' 'V' '1' '2')
      ∧ fourcc_code Pixel_Format.NV12sp = some (v4l2_fourcc 'N' 'M' '1' '2')
      ∧ fourcc_code Pixel_Format.MJPEG = some (v4l2_fourcc 'M' 'J' 'P' 'G')
      ∧ fourcc_code Pixel_Format.BGR24 = some (v4l2_fourcc 'B' 'G' 'R' '3')
      ∧ fourcc_code Pixel_Format.RGB24 = some (v4l2_fourcc 'R' 'G' 'B' '3')
      ∧ fourcc_code Pixel_Format.Invalid = none)
    ∧ (v4l2_fourcc 'Y' 'U' 'Y' 'V' = 0x56595559 ∧ v4l2_fourcc '4' '2' '2' 'P' = 0x50323234
      ∧ v4l2_fourcc 'N' 'V' '1' '2' = 0x3231564E ∧ v4l2_fourcc 'N' 'M' '1' '2' = 0x32314D4E
      ∧ v4l2_fourcc 'M' 'J' 'P' 'G' = 0x47504A4D ∧ v4l2_fourcc 'B' 'G' 'R' '3' = 0x33524742
      ∧ v4l2_fourcc 'R' 'G' 'B' '3' = 0x33424752)
    ∧ (∀ p q : Pixel_Format, fourcc_code p = fourcc_code q → p = q)
    ∧ (∀ st0, init_members params = some st0 →
        fourcc_code params.pixel_format = some st0._pixel_format_
        ∧ (is_mjpeg st0 = true ↔ params.pixel_format = Pixel_Format.MJPEG))
    ∧ (∀ st log, construct params D = (Outcome.ok st, log) →
        fourcc_code params.pixel_format = some st._pixel_format_
        ∧ (is_mjpeg st = true ↔ params.pixel_format = Pixel_Format.MJPEG)) := by
  refine ⟨⟨fourcc_code_of_lookup _ 'Y' 'U' 'Y' 'V' rfl, fourcc_code_of_lookup _ '4' '2' '2' 'P' rfl,
    fourcc_code_of_lookup _ 'N' 'V' '1' '2' rfl, fourcc_code_of_lookup _ 'N' 'M' '1' '2' rfl,
    fourcc_code_of_lookup _ 'M' 'J' 'P' 'G' rfl, fourcc_code_of_lookup _ 'B' 'G' 'R' '3' rfl,
    fourcc_code_of_lookup _ 'R' 'G' 'B' '3' rfl, fourcc_code_invalid⟩, by decide, ?_, ?_, ?_⟩
  · intro p q h
    have h1 := fourcc_code_of_lookup Pixel_Format.YUYV422 'Y' 'U' 'Y' 'V' rfl
    have h2 := fourcc_code_of_lookup Pixel_Format.YUV422P '4' '2' '2' 'P' rfl
    have h3 := fourcc_code_of_lookup Pixel_Format.NV12 'N' 'V' '1' '2' rfl
    have h4 := fourcc_code_of_lookup Pixel_Format.NV12sp 'N' 'M' '1' '2' rfl
    have h5 := fourcc_code_of_lookup Pixel_Format.MJPEG 'M' 'J' 'P' 'G' rfl
    have h6 := fourcc_code_of_lookup Pixel_Format.BGR24 'B' 'G' 'R' '3' rfl
    have h7 := fourcc_code_of_lookup Pixel_Format.RGB24 'R' 'G' 'B' '3' rfl
    have h8 := fourcc_code_invalid
    cases p <;> cases q <;>
      first
      | rfl
      | (simp only [h1, h2, h3, h4, h5, h6, h7, h8] at h; exact absurd h (by decide))
  · intro st0 h0
    obtain ⟨_, _, hcode⟩ := init_members_some params st0 h0
    exact ⟨hcode, is_mjpeg_iff _ st0 hcode⟩
  · intro st log h
    obtain ⟨st0, written, h0, _, _, _, hpix, _⟩ := construct_ok_spec params D st log h
    obtain ⟨_, _, hcode⟩ := init_members_some params st0 h0
    rw [← hpix] at hcode
    exact ⟨hcode, is_mjpeg_iff _ st hcode⟩

/-- C15 (witness). Instance: the backend constructed for MJPEG on a device that accepts
every call carries the code 0x47504A4D and is MJPEG; the one constructed for NV12 carries
0x3231564E and is not. -/
theorem fourcc_table_witness :
    (∃ st log, construct (demo_configuration Pixel_Format.MJPEG Buffering.Internal true)
          good_device = (Outcome.ok st, log)
        ∧ st._pixel_format_ = 0x47504A4D ∧ is_mjpeg st = true)
    ∧ (∃ st log, construct (demo_configuration Pixel_Format.NV12 Buffering.Internal true)
          good_device = (Outcome.ok st, log)
        ∧ st._pixel_format_ = 0x3231564E ∧ is_mjpeg st = false) := by
  constructor
  · obtain ⟨st, log, h⟩ : ∃ st log,
        construct (demo_configuration Pixel_Format.MJPEG Buffering.Internal true) good_device
          = (Outcome.ok st, log) := ⟨_, _, rfl⟩
    obtain ⟨hcode, hmj⟩ := (fourcc_table
      (demo_configuration Pixel_Format.MJPEG Buffering.Internal true) good_device).2.2.2.2
      st log h
    have hc : fourcc_code Pixel_Format.MJPEG = some 0x47504A4D :=
      fourcc_code_of_lookup _ 'M' 'J' 'P' 'G' rfl
    have hcode2 : fourcc_code Pixel_Format.MJPEG = some st._pixel_format_ := hcode
    rw [hc] at hcode2
    exact ⟨st, log, h, (Option.some.inj hcode2).symm, hmj.2 rfl⟩
  · obtain ⟨st, log, h⟩ : ∃ st log,
        construct (demo_configuration Pixel_Format.NV12 Buffering.Internal true) good_device
          = (Outcome.ok st, log) := ⟨_, _, rfl⟩
    obtain ⟨hcode, hmj⟩ := (fourcc_table
      (demo_configuration Pixel_Format.NV12 Buffering.Internal true) good_device).2.2.2.2
      st log h
    have hc : fourcc_code Pixel_Format.NV12 = some 0x3231564E :=
      fourcc_code_of_lookup _ 'N' 'V' '1' '2' rfl
    have hcode2 : fourcc_code Pixel_Format.NV12 = some st._pixel_format_ := hcode
    rw [hc] at hcode2
    refine ⟨st, log, h, (Option.some.inj hcode2).symm, ?_⟩
    cases hm : is_mjpeg st with
    | false => rfl
    | true => exact absurd (hmj.1 hm) (by decide)

/-- C16. Unsupported format is rejected before the device is touched: with `pixel_format`
`Invalid` (the one tag outside the seven-entry table) the constructor throws "Pixel
format not supported" with an empty log, whatever the device; with any of the seven
table entries the lookup succeeds, the first call logged is the `stat` of the device
path, and the construction does not end in that `throw`. -/
theorem unsupported_format_rejected_before_device (params : Stream_Configuration)
    (D : Device) :
    (pixel_formats_fourcc.lookup params.pixel_format = none
        ↔ params.pixel_format = Pixel_Format.Invalid)
    ∧ (params.pixel_format = Pixel_Format.Invalid →
        construct params D
          = (Outcome.raised Construction_Error.pixel_format_not_supported, []))
    ∧ (params.pixel_format ≠ Pixel_Format.Invalid →
        ∃ o ext, construct params D
            = (o, Setup_Event.STAT params.device_index (D.stat params.device_index) :: ext)
          ∧ o ≠ Outcome.raised Construction_Error.pixel_format_not_supported) := by
  refine ⟨?_, ?_, ?_⟩
  · cases params.pixel_format <;> decide
  · intro h
    unfold construct
    rw [(init_members_spec params).1 h]
  · intro h
    obtain ⟨code, h0, _⟩ := (init_members_spec params).2 h
    obtain ⟨o, ext, hrun, hnot, _⟩ := construct_spec params D _ h0
    exact ⟨o, ext, hrun, hnot⟩

/-- C16 (witness). Instances on a device that accepts every call: `Invalid` is rejected
with an empty log; NV12 is constructed and its log starts with the `stat` call. -/
theorem unsupported_format_rejected_before_device_witness :
    construct (demo_configuration Pixel_Format.Invalid Buffering.Internal true) good_device
      = (Outcome.raised Construction_Error.pixel_format_not_supported, [])
    ∧ ∃ o ext, construct (demo_configuration Pixel_Format.NV12 Buffering.Internal true)
          good_device = (o, Setup_Event.STAT 0 stat_result.chr :: ext)
        ∧ o ≠ Outcome.raised Construction_Error.pixel_format_not_supported :=
  ⟨(unsupported_format_rejected_before_device
      (demo_configuration Pixel_Format.Invalid Buffering.Internal true) good_device).2.1 rfl,
   (unsupported_format_rejected_before_device
      (demo_configuration Pixel_Format.NV12 Buffering.Internal true) good_device).2.2
      (by decide)⟩

/-- C17 (counterexample to the claim as stated). NV12 on a device that accepts every
call: the one S_FMT payload of the construction has quantization FULL_RANGE (1), not
LIM_RANGE (2), in the single-plane layout (`contiguous`) and in the multi-plane layout
alike; the field is INTERLACED as claimed. -/
theorem s_fmt_payload_nv12_is_full_range :
    s_fmt_payloads
        (construct (demo_configuration Pixel_Format.NV12 Buffering.Internal true) good_device).2
      = [{ type := v4l2_buf_type.V4L2_BUF_TYPE_VIDEO_CAPTURE, width := 640, height := 480,
           pixelformat := 0x3231564E, field := V4L2_FIELD_INTERLACED,
           quantization := V4L2_QUANTIZATION_FULL_RANGE }]
    ∧ s_fmt_payloads
        (construct (demo_configuration Pixel_Format.NV12 Buffering.Internal false)
          good_device).2
      = [{ type := v4l2_buf_type.V4L2_BUF_TYPE_VIDEO_CAPTURE_MPLANE, width := 640,
           height := 480, pixelformat := 0x3231564E, field := V4L2_FIELD_INTERLACED,
           quantization := V4L2_QUANTIZATION_FULL_RANGE }]
    ∧ V4L2_QUANTIZATION_FULL_RANGE ≠ V4L2_QUANTIZATION_LIM_RANGE := by
  refine ⟨rfl, rfl, by decide⟩

/-- C17 (amended). Quantization and field by format: every S_FMT payload built during
construction has quantization FULL_RANGE, for MJPEG and for each of the other six
formats (`_limit_range_` is false from its initialiser and is only ever assigned false),
and field NONE when the pixel format is MJPEG, INTERLACED otherwise, in the single-plane
and in the multi-plane layout; it carries the configured width and height and the fourcc
of the format.  There is exactly one such payload when the format is supported and the
device passes `stat`, `open` and QUERYCAP, and none otherwise. -/
theorem s_fmt_payload_quantization_and_field (params : Stream_Configuration) (D : Device) :
    (∀ payload ∈ s_fmt_payloads (construct params D).2,
        payload.quantization = V4L2_QUANTIZATION_FULL_RANGE
        ∧ payload.field = (if params.pixel_format = Pixel_Format.MJPEG then V4L2_FIELD_NONE
            else V4L2_FIELD_INTERLACED)
        ∧ payload.type = (if params.v4l2.contiguous = true
            then v4l2_buf_type.V4L2_BUF_TYPE_VIDEO_CAPTURE
            else v4l2_buf_type.V4L2_BUF_TYPE_VIDEO_CAPTURE_MPLANE)
        ∧ payload.width = params.width ∧ payload.height = params.height
        ∧ fourcc_code params.pixel_format = some payload.pixelformat)
    ∧ (params.pixel_format ≠ Pixel_Format.Invalid → Device_Opens D params.device_index →
        (s_fmt_payloads (construct params D).2).length = 1)
    ∧ (params.pixel_format = Pixel_Format.Invalid ∨ ¬ Device_Opens D params.device_index →
        s_fmt_payloads (construct params D).2 = []) := by
  by_cases hpf : params.pixel_format = Pixel_Format.Invalid
  · have hnil : s_fmt_payloads (construct params D).2 = [] := by
      rw [construct_invalid params D hpf]
      rfl
    refine ⟨?_, fun h => absurd hpf h, fun _ => hnil⟩
    intro payload hmem
    rw [hnil] at hmem
    exact absurd hmem (List.not_mem_nil _)
  · obtain ⟨st0, h0⟩ := init_members_supported params hpf
    obtain ⟨hcfg, htype, hlim, hcode, _⟩ := init_members_fields params st0 h0
    obtain ⟨o, ext, hrun, _, hclosed, hopen, _⟩ := construct_spec params D st0 h0
    rw [hcfg] at hrun hclosed hopen
    rw [hrun]
    obtain ⟨ptype, pwidth, pheight, ppix, pfield, pquant⟩ := s_fmt_payload_spec st0
    refine ⟨?_, fun _ ho => ?_, fun hc => ?_⟩
    · intro payload hmem
      by_cases ho : Device_Opens D params.device_index
      · have hpay := (hopen ho).1
        simp only [] at hmem
        rw [hpay] at hmem
        have hp : payload = s_fmt_payload st0 := List.mem_singleton.mp hmem
        rw [hp, pquant, pfield, ptype, pwidth, pheight, ppix, hlim, htype, hcfg]
        refine ⟨by simp, ?_, rfl, rfl, rfl, hcode⟩
        have hiff := is_mjpeg_iff params.pixel_format st0 hcode
        by_cases hm : params.pixel_format = Pixel_Format.MJPEG
        · rw [if_pos hm, if_pos (hiff.2 hm)]
        · rw [if_neg hm, if_neg (fun hc => hm (hiff.1 hc))]
      · have hpay := (hclosed ho).2
        simp only [] at hmem
        rw [hpay] at hmem
        exact absurd hmem (List.not_mem_nil _)
    · have hpay := (hopen ho).1
      simp only []
      rw [hpay]
      rfl
    · rcases hc with hc | hc
      · exact absurd hc hpf
      · exact (hclosed hc).2

/-- C17 (witness). Instance: MJPEG without `contiguous` on a device that accepts every
call; the device opens, so there is one payload, with quantization FULL_RANGE and field
NONE, in the multi-plane layout. -/
theorem s_fmt_payload_quantization_and_field_witness :
    (∀ payload ∈ s_fmt_payloads
          (construct (demo_configuration Pixel_Format.MJPEG Buffering.Internal false)
            good_device).2,
        payload.quantization = V4L2_QUANTIZATION_FULL_RANGE
        ∧ payload.field = V4L2_FIELD_NONE
        ∧ payload.type = v4l2_buf_type.V4L2_BUF_TYPE_VIDEO_CAPTURE_MPLANE)
    ∧ (s_fmt_payloads
          (construct (demo_configuration Pixel_Format.MJPEG Buffering.Internal false)
            good_device).2).length = 1 :=
  ⟨fun payload hmem =>
      have h := (s_fmt_payload_quantization_and_field
        (demo_configuration Pixel_Format.MJPEG Buffering.Internal false) good_device).1
        payload hmem
      ⟨h.1, h.2.1, h.2.2.1⟩,
    (s_fmt_payload_quantization_and_field
        (demo_configuration Pixel_Format.MJPEG Buffering.Internal false) good_device).2.1
      (by decide) ⟨rfl, by decide, 0x04001001, rfl, by decide, by decide⟩⟩

/-- C18 (evaluation at the failing input). `set_fps(30)` on a device whose S_PARM succeeds
and reads back `timeperframe = 1/30`: `are_floats_equal(30, 30)` is false, since
`|30 - 30| = 0` is not equal to epsilon, and `set_fps` returns the rate 30, not 0.  (It
does return the rate read back when that differs, here 15, and 0 when S_PARM fails.) -/
theorem set_fps_honoured_rate_returns_rate :
    are_floats_equal 30 30 = false
    ∧ (set_fps good_device (ring_single Internal_Buffering_Strategy.Oldest 2) 30).map Prod.fst
        = some 30
    ∧ (set_fps good_device (ring_single Internal_Buffering_Strategy.Oldest 2) 30).map Prod.snd
        = some (Setup_Event.S_PARM v4l2_buf_type.V4L2_BUF_TYPE_VIDEO_CAPTURE 1 30 (some (1, 30)))
    ∧ (set_fps { good_device with s_parm := fun _ _ _ => some (1, 15) }
          (ring_single Internal_Buffering_Strategy.Oldest 2) 30).map Prod.fst = some 15
    ∧ (set_fps lenient_device (ring_single Internal_Buffering_Strategy.Oldest 2) 30).map Prod.fst
        = some 0 := by
  have h30 : double_to_uint 30 = some 30 := by decide
  refine ⟨?_, ?_, ?_, ?_, ?_⟩
  · norm_num [are_floats_equal, epsilon]
  · simp only [set_fps, h30]
    norm_num [good_device, are_floats_equal, epsilon]
  · simp only [set_fps, h30]
    rfl
  · simp only [set_fps, h30]
    norm_num [good_device, are_floats_equal, epsilon]
  · simp only [set_fps, h30]
    simp [lenient_device]

/-- C19 (counterexample to the claim as stated). On a device where every `VIDIOC_G_CTRL`
fails, `get_auto_exposure_current_value` returns `-1`, not 0. -/
theorem get_auto_exposure_current_value_on_failure :
    no_controls_device.g_ctrl v4l2_cid.V4L2_CID_EXPOSURE_AUTO = none
    ∧ get_auto_exposure_current_value no_controls_device = -1 := by
  decide

/-- C19 (amended). Getters on failure: when the `VIDIOC_G_CTRL` of its control fails and
leaves the payload untouched, each of the fourteen getters that return `ctrl.value`
returns 0 (false for the three boolean getters), and `get_auto_exposure_current_value`
returns `-1`. -/
theorem getters_on_failure (D : Device) :
    (D.g_ctrl v4l2_cid.V4L2_CID_ZOOM_ABSOLUTE = none → get_zoom D = 0)
    ∧ (D.g_ctrl v4l2_cid.V4L2_CID_FOCUS_ABSOLUTE = none → get_focus D = 0)
    ∧ (D.g_ctrl v4l2_cid.V4L2_CID_FOCUS_AUTO = none → get_auto_focus D = false)
    ∧ (D.g_ctrl v4l2_cid.V4L2_CID_SHARPNESS = none → get_sharpness D = 0)
    ∧ (D.g_ctrl v4l2_cid.V4L2_CID_BRIGHTNESS = none → get_brightness D = 0)
    ∧ (D.g_ctrl v4l2_cid.V4L2_CID_CONTRAST = none → get_contrast D = 0)
    ∧ (D.g_ctrl v4l2_cid.V4L2_CID_SATURATION = none → get_saturation D = 0)
    ∧ (D.g_ctrl v4l2_cid.V4L2_CID_HUE = none → get_hue D = 0)
    ∧ (D.g_ctrl v4l2_cid.V4L2_CID_GAIN = none → get_gain D = 0)
    ∧ (D.g_ctrl v4l2_cid.V4L2_CID_EXPOSURE_ABSOLUTE = none →
        get_exposure D = 0 ∧ get_manual_exposure_value D = 0)
    ∧ (D.g_ctrl v4l2_cid.V4L2_CID_WHITE_BALANCE_TEMPERATURE = none →
        get_white_balance_temperature D = 0)
    ∧ (D.g_ctrl v4l2_cid.V4L2_CID_AUTO_WHITE_BALANCE = none →
        get_auto_white_balance_val D = false)
    ∧ (D.g_ctrl v4l2_cid.V4L2_CID_EXPOSURE_AUTO_PRIORITY = none →
        is_auto_exposure_auto_priority_enabled D = false)
    ∧ (D.g_ctrl v4l2_cid.V4L2_CID_EXPOSURE_AUTO = none →
        get_auto_exposure_current_value D = -1) := by
  refine ⟨?_, ?_, ?_, ?_, ?_, ?_, ?_, ?_, ?_, ?_, ?_, ?_, ?_, ?_⟩ <;> intro h <;>
    simp [get_zoom, get_focus, get_auto_focus, get_sharpness, get_brightness, get_contrast,
      get_saturation, get_hue, get_gain, get_exposure, get_manual_exposure_value,
      get_white_balance_temperature, get_auto_white_balance_val,
      is_auto_exposure_auto_priority_enabled, get_auto_exposure_current_value, g_ctrl, h]

/-- C19 (witness). Instance: on the device where every `VIDIOC_G_CTRL` fails the fourteen
getters return 0 or false; on a device that answers 7 they return 7 or true. -/
theorem getters_on_failure_witness :
    (get_zoom no_controls_device = 0 ∧ get_focus no_controls_device = 0
      ∧ get_auto_focus no_controls_device = false ∧ get_sharpness no_controls_device = 0
      ∧ get_brightness no_controls_device = 0 ∧ get_contrast no_controls_device = 0
      ∧ get_saturation no_controls_device = 0 ∧ get_hue no_controls_device = 0
      ∧ get_gain no_controls_device = 0
      ∧ (get_exposure no_controls_device = 0 ∧ get_manual_exposure_value no_controls_device = 0)
      ∧ get_white_balance_temperature no_controls_device = 0
      ∧ get_auto_white_balance_val no_controls_device = false
      ∧ is_auto_exposure_auto_priority_enabled no_controls_device = false
      ∧ get_auto_exposure_current_value no_controls_device = -1)
    ∧ get_zoom good_device = 7 ∧ get_auto_focus good_device = true
    ∧ get_auto_exposure_current_value good_device = 7 := by
  obtain ⟨h1, h2, h3, h4, h5, h6, h7, h8, h9, h10, h11, h12, h13, h14⟩ :=
    getters_on_failure no_controls_device
  exact ⟨⟨h1 rfl, h2 rfl, h3 rfl, h4 rfl, h5 rfl, h6 rfl, h7 rfl, h8 rfl, h9 rfl, h10 rfl,
    h11 rfl, h12 rfl, h13 rfl, h14 rfl⟩, by decide, by decide, by decide⟩

/-- C20 (counterexample to the claim as stated). NV12 with a non-zero crop rectangle on a
device whose CROPCAP succeeds and whose S_CROP, S_PARM and S_CTRL all fail, and NV12 on
a device whose CROPCAP, S_PARM and S_CTRL fail: the failing calls are in the log, and
the construction produces a backend. -/
theorem construct_ignores_crop_parm_ctrl_errors :
    (∃ st log,
        construct
          { demo_configuration Pixel_Format.NV12 Buffering.Internal true with
              v4l2 := { contiguous := true, crop_rect := [0, 0, 320, 240] } }
          no_crop_device = (Outcome.ok st, log)
        ∧ Setup_Event.S_CROP v4l2_buf_type.V4L2_BUF_TYPE_VIDEO_CAPTURE 0 0 320 240 false ∈ log
        ∧ Setup_Event.S_PARM v4l2_buf_type.V4L2_BUF_TYPE_VIDEO_CAPTURE 1 30 none ∈ log
        ∧ Setup_Event.S_CTRL v4l2_cid.V4L2_CID_EXPOSURE_AUTO V4L2_EXPOSURE_APERTURE_PRIORITY
            false ∈ log
        ∧ Setup_Event.S_CTRL v4l2_cid.V4L2_CID_EXPOSURE_AUTO_PRIORITY 0 false ∈ log)
    ∧ (∃ st log,
        construct (demo_configuration Pixel_Format.NV12 Buffering.Internal true) lenient_device
          = (Outcome.ok st, log)
        ∧ Setup_Event.CROPCAP v4l2_buf_type.V4L2_BUF_TYPE_VIDEO_CAPTURE false ∈ log) :=
  ⟨⟨_, _, rfl, by decide, by decide, by decide, by decide⟩, ⟨_, _, rfl, by decide⟩⟩

/-- C20 (amended). Construction fails on the early errors that are checked: for every
configuration with a supported pixel format, if `stat` fails or finds no character
device, `open` fails, QUERYCAP fails or reports neither capture capability or no
streaming capability, or S_FMT fails, the construction raises an error and produces no
backend.  Errors of CROPCAP, S_CROP, S_PARM and S_CTRL are logged and ignored: when the
device passes `stat`, `open` and QUERYCAP and S_FMT succeeds (and the rate fits an
`unsigned int`), `setup_device` returns normally whatever those four calls answer, with
the descriptor of `open` and the format written back by S_FMT stored. -/
theorem construct_fails_on_checked_errors (params : Stream_Configuration) (D : Device)
    (hsupp : params.pixel_format ≠ Pixel_Format.Invalid) :
    ∃ st0, init_members params = some st0
      ∧ (D.stat params.device_index ≠ stat_result.chr
          ∨ D.open_fd params.device_index = -1
          ∨ D.querycap = none
          ∨ ¬ Device_Opens D params.device_index
          ∨ D.s_fmt (s_fmt_payload st0) = none →
          ∃ e log, construct params D = (Outcome.raised e, log))
      ∧ (Device_Opens D params.device_index →
          ∀ written, D.s_fmt (s_fmt_payload st0) = some written → params.fps < 2 ^ 32 →
          ∃ log, setup_device D st0 []
            = (Outcome.ok
                { st0 with _device_file_descriptor_ := D.open_fd params.device_index,
                           _v4l2_capture_format_ := written }, log)) := by
  obtain ⟨st0, h0⟩ := init_members_supported params hsupp
  obtain ⟨hcfg, _⟩ := init_members_fields params st0 h0
  refine ⟨st0, h0, ?_, ?_⟩
  · intro herr
    obtain ⟨o, ext, hrun, _, hclosed, hopen, _⟩ := construct_spec params D st0 h0
    rw [hcfg] at hrun hclosed hopen
    rw [hrun]
    by_cases ho : Device_Opens D params.device_index
    · obtain ⟨hstat, hfd, capabilities, hcap, _⟩ := ho
      have hnone : D.s_fmt (s_fmt_payload st0) = none := by
        rcases herr with h | h | h | h | h
        · exact absurd hstat h
        · exact absurd h hfd
        · rw [hcap] at h
          exact absurd h (Option.some_ne_none _)
        · exact absurd ⟨hstat, hfd, capabilities, hcap, by assumption⟩ h
        · exact h
      have ho2 : Device_Opens D params.device_index :=
        ⟨hstat, hfd, capabilities, hcap, by assumption⟩
      exact ⟨_, _, by rw [(hopen ho2).2 hnone]⟩
    · obtain ⟨⟨e, he⟩, _⟩ := hclosed ho
      exact ⟨e, _, by rw [he]⟩
  · rw [← hcfg]
    intro ho written hw hfps
    obtain ⟨o, l, hrun, _, _, hopen, _⟩ := setup_device_spec D st0 []
    have hok := (hopen ho).2.2 written hw hfps
    rw [hok] at hrun
    exact ⟨l, hrun⟩

/-- C20 (witness). Instances with NV12: on a device whose S_FMT fails the construction
raises an error; on the device whose CROPCAP, S_CROP, S_PARM and S_CTRL fail,
`setup_device` returns normally. -/
theorem construct_fails_on_checked_errors_witness :
    ∃ st0, init_members (demo_configuration Pixel_Format.NV12 Buffering.Internal true)
        = some st0
      ∧ (∃ e log, construct (demo_configuration Pixel_Format.NV12 Buffering.Internal true)
          { good_device with s_fmt := fun _ => none } = (Outcome.raised e, log))
      ∧ (∃ written log, setup_device lenient_device st0 []
          = (Outcome.ok { st0 with _device_file_descriptor_ := 3,
                                   _v4l2_capture_format_ := written }, log)) := by
  obtain ⟨st0, h0, herr, _⟩ := construct_fails_on_checked_errors
    (demo_configuration Pixel_Format.NV12 Buffering.Internal true)
    { good_device with s_fmt := fun _ => none } (by decide)
  obtain ⟨st1, h1, _, hok⟩ := construct_fails_on_checked_errors
    (demo_configuration Pixel_Format.NV12 Buffering.Internal true) lenient_device (by decide)
  have hst : st1 = st0 := Option.some.inj (h1.symm.trans h0)
  rw [hst] at hok
  refine ⟨st0, h0, herr (Or.inr (Or.inr (Or.inr (Or.inr rfl)))), ?_⟩
  have hinit : init_members (demo_configuration Pixel_Format.NV12 Buffering.Internal true)
      = some { _configuration_ := demo_configuration Pixel_Format.NV12 Buffering.Internal true,
               _buffer_plane_type_ := v4l2_buf_type.V4L2_BUF_TYPE_VIDEO_CAPTURE,
               _pixel_format_ := 0x3231564E } := rfl
  have hst0 := Option.some.inj (h0.symm.trans hinit)
  subst hst0
  obtain ⟨log, hlog⟩ := hok ⟨rfl, by decide, 0x04001001, rfl, by decide, by decide⟩
    _ rfl (by decide)
  exact ⟨_, log, hlog⟩

/-! ## Helper lemmas: plane sizes of the demo, the USERPTR exchange, ring lookups -/
theorem round_to_double_exact (x : Nat) (h : x < 2 ^ 53) : round_to_double x = x := by
  unfold round_to_double
  rw [if_pos h]

theorem times_one_and_a_half_exact (area : Nat) (h : 3 * area < 2 ^ 53) :
    times_one_and_a_half area = some (3 * area / 2) := by
  unfold times_one_and_a_half
  have ha : area < 2 ^ 53 := by omega
  rw [round_to_double_exact area ha, round_to_double_exact (3 * area) h]
  have hlt : 3 * area / 2 < 2 ^ 64 := by omega
  simp only [hlt, if_true]

theorem plane_size_write_length (sizes sizes1 : List Nat) (i v : Nat)
    (h : plane_size_write sizes i v = some sizes1) : sizes1.length = sizes.length := by
  unfold plane_size_write at h
  split at h
  · have := Option.some.inj h
    rw [← this, List.length_set]
  · exact absurd h (by simp)

theorem get_plane_dimensions_length (px_format : Pixel_Format) (width height : Nat)
    (sizes : List Nat) (h : get_plane_dimensions px_format width height = some sizes) :
    sizes.length = get_num_planes px_format := by
  have hrep : ∀ n, (List.replicate n 0 : List Nat).length = n := fun n => List.length_replicate n 0
  cases px_format <;> unfold get_plane_dimensions at h <;> simp only [] at h
  · rw [← Option.some.inj h, hrep]
  · rw [plane_size_write_length _ _ _ _ h, hrep]
  · cases ht : times_one_and_a_half (width * height % 2 ^ 64) with
    | none => rw [ht] at h; exact absurd h (by simp)
    | some v =>
        rw [ht] at h
        rw [plane_size_write_length _ _ _ _ h, hrep]
  · cases h0 : plane_size_write (List.replicate (get_num_planes Pixel_Format.NV12sp) 0) 0
        (width * height % 2 ^ 64) with
    | none => rw [h0] at h; exact absurd h (by simp)
    | some s0 =>
        rw [h0] at h
        rw [plane_size_write_length _ _ _ _ h, plane_size_write_length _ _ _ _ h0, hrep]
  · cases h0 : plane_size_write (List.replicate (get_num_planes Pixel_Format.YUV422P) 0) 0
        (width * height % 2 ^ 64) with
    | none => rw [h0] at h; exact absurd h (by simp)
    | some s0 =>
        rw [h0] at h
        cases h1 : plane_size_write s0 1 (width * height % 2 ^ 64 / 2) with
        | none => rw [Option.some_bind, h1] at h; exact absurd h (by simp)
        | some s1 =>
            rw [Option.some_bind, h1] at h
            rw [plane_size_write_length _ _ _ _ h, plane_size_write_length _ _ _ _ h1,
              plane_size_write_length _ _ _ _ h0, hrep]
  · rw [plane_size_write_length _ _ _ _ h, hrep]
  · rw [plane_size_write_length _ _ _ _ h, hrep]
  · rw [plane_size_write_length _ _ _ _ h, hrep]

theorem userptr_queue_loop_attempts (K : Kernel) (frames : List Multiplanar_Buffer_View)
    (idx : Nat) (st : V4L2_Backend) (nq : Nat) (sizes : List (List Nat)) (sys : Syscalls)
    (out : V4L2_Backend × Nat × List (List Nat) × Syscalls)
    (h : userptr_queue_loop K frames idx st nq sizes sys = some out) :
    ∃ log, out.2.2.2.trace = sys.trace ++ log
      ∧ dqbuf_attempts log = 0
      ∧ out.2.2.2.nd = sys.nd
      ∧ out.2.1 ≤ nq + frames.length := by
  induction frames generalizing idx st nq sizes sys with
  | nil =>
      simp only [userptr_queue_loop] at h
      rw [← Option.some.inj h]
      exact ⟨[], by simp, rfl, rfl, Nat.le_refl _⟩
  | cons frame rest ih =>
      simp only [userptr_queue_loop] at h
      cases hb : userptr_buf st frame idx with
      | none => rw [hb] at h; simp at h
      | some buf =>
          rw [hb] at h
          simp only [queue_buf] at h
          cases hq : K.qbuf sys.nq with
          | false =>
              rw [hq] at h
              simp only [] at h
              cases hw : (if st._buffer_plane_type_
                    = v4l2_buf_type.V4L2_BUF_TYPE_VIDEO_CAPTURE_MPLANE
                  then sizes_write_planes (fun _ => 0) idx buf.length 0 sizes
                  else sizes_write sizes idx 0 0) with
              | none => rw [hw] at h; simp at h
              | some s1 =>
                  rw [hw] at h
                  simp only [] at h
                  obtain ⟨log, h1, h2, h3, h4⟩ := ih _ _ _ _ _ h
                  refine ⟨Event.QBUF buf false :: log, ?_, ?_, ?_, ?_⟩
                  · rw [h1]; simp
                  · simpa [dqbuf_attempts] using h2
                  · rw [h3]
                  · rw [List.length_cons]; omega
          | true =>
              rw [hq] at h
              simp only [] at h
              obtain ⟨log, h1, h2, h3, h4⟩ := ih _ _ _ _ _ h
              refine ⟨Event.QBUF buf true :: log, ?_, ?_, ?_, ?_⟩
              · rw [h1]; simp
              · simpa [dqbuf_attempts] using h2
              · rw [h3]
              · rw [List.length_cons]
                have : (nq + 1) % 2 ^ 16 ≤ nq + 1 := Nat.mod_le _ _
                omega

theorem userptr_dequeue_loop_attempts (K : Kernel) (st : V4L2_Backend) (B : Nat)
    (hB : ∀ k, B ≤ k → K.dqbuf k ≠ dqbuf_result.error Errno.EAGAIN)
    (fuel r nq : Nat) (sizes : List (List Nat)) (sys : Syscalls)
    (out : List (List Nat) × Syscalls)
    (h : userptr_dequeue_loop K st fuel r nq sizes sys = some out) :
    ∃ late, out.2.trace = sys.trace ++ late
      ∧ dqbuf_attempts late ≤ (nq - r) + (B - sys.nd) := by
  induction fuel generalizing r sizes sys with
  | zero =>
      simp only [userptr_dequeue_loop] at h
      split_ifs at h with hlt
      rw [← Option.some.inj h]
      exact ⟨[], by simp, by simp [dqbuf_attempts]⟩
  | succ fuel ih =>
      simp only [userptr_dequeue_loop] at h
      by_cases hlt : r < nq
      · simp only [hlt, if_true] at h
        cases hres : K.dqbuf sys.nd with
        | ok b =>
            rw [hres] at h
            simp only [] at h
            cases hw : (if st._buffer_plane_type_
                  = v4l2_buf_type.V4L2_BUF_TYPE_VIDEO_CAPTURE_MPLANE
                then sizes_write_planes (plane_bytesused b) b.index b.length 0 sizes
                else sizes_write sizes b.index 0 b.bytesused) with
            | none => rw [hw] at h; simp at h
            | some s1 =>
                rw [hw] at h
                simp only [] at h
                obtain ⟨late, h1, h2⟩ := ih _ _ _ h
                simp only [] at h1 h2
                refine ⟨Event.DQBUF (dqbuf_result.ok b) :: late, ?_, ?_⟩
                · rw [h1]; simp
                · have hc : dqbuf_attempts (Event.DQBUF (dqbuf_result.ok b) :: late)
                      = dqbuf_attempts late + 1 := by simp [dqbuf_attempts]
                  rw [hc]; omega
        | error e =>
            rw [hres] at h
            cases e with
            | EAGAIN =>
                simp only [] at h
                rw [try_device_snd] at h
                obtain ⟨late, h1, h2⟩ := ih _ _ _ h
                simp only [] at h1 h2
                have hnd : sys.nd < B := by
                  by_contra hc
                  exact hB sys.nd (Nat.le_of_not_lt hc) hres
                refine ⟨Event.DQBUF (dqbuf_result.error Errno.EAGAIN)
                  :: Event.SELECT (K.select sys.ns) :: late, ?_, ?_⟩
                · rw [h1]; simp
                · have hc : dqbuf_attempts (Event.DQBUF (dqbuf_result.error Errno.EAGAIN)
                      :: Event.SELECT (K.select sys.ns) :: late)
                      = dqbuf_attempts late + 1 := by simp [dqbuf_attempts]
                  rw [hc]; omega
            | _ =>
                simp only [] at h
                obtain ⟨late, h1, h2⟩ := ih _ _ _ h
                simp only [] at h1 h2
                refine ⟨Event.DQBUF (K.dqbuf sys.nd) :: late, ?_, ?_⟩
                · rw [h1, hres]; simp
                · have hc : dqbuf_attempts (Event.DQBUF (K.dqbuf sys.nd) :: late)
                      = dqbuf_attempts late + 1 := by simp [dqbuf_attempts]
                  rw [hc]; omega
      · simp only [hlt, if_false] at h
        rw [← Option.some.inj h]
        exact ⟨[], by simp, by simp [dqbuf_attempts]⟩

theorem userptr_dequeue_loop_eagain (K : Kernel)
    (hK : ∀ k, K.dqbuf k = dqbuf_result.error Errno.EAGAIN) (st : V4L2_Backend)
    (fuel r nq : Nat) (sizes : List (List Nat)) (sys : Syscalls) (h : r < nq) :
    userptr_dequeue_loop K st fuel r nq sizes sys = none := by
  induction fuel generalizing sys with
  | zero => simp [userptr_dequeue_loop, h]
  | succ fuel ih =>
      simp only [userptr_dequeue_loop, h, if_true, hK]
      exact ih _

theorem put_frame_data_userptr_attempts (fuel : Nat) (K : Kernel) (st : V4L2_Backend)
    (frames : List Multiplanar_Buffer_View) (sys : Syscalls) (B : Nat)
    (out : List (List Nat) × V4L2_Backend × Syscalls)
    (hmode : st._configuration_.buffering ≠ Buffering.Internal)
    (hB : ∀ k, B ≤ k → K.dqbuf k ≠ dqbuf_result.error Errno.EAGAIN)
    (h : put_frame_data fuel K st frames sys = some out) :
    ∃ log, out.2.2.trace = sys.trace ++ log
      ∧ dqbuf_attempts log ≤ frames.length + (B - sys.nd) := by
  have hmem : ¬ (get_memory_mapping_type_v4l2 st = v4l2_memory.V4L2_MEMORY_MMAP
      ∨ get_memory_mapping_type_v4l2 st = v4l2_memory.V4L2_MEMORY_DMABUF) := by
    simp [get_memory_mapping_type_v4l2, hmode]
  unfold put_frame_data at h
  simp only [hmem, if_false] at h
  cases hq : userptr_queue_loop K frames 0 st 0
      (List.replicate frames.length (List.replicate (num_planes st) 0)) sys with
  | none => rw [hq] at h; simp at h
  | some outq =>
      obtain ⟨st1, nq1, sizes1, sys1⟩ := outq
      rw [hq] at h
      simp only [] at h
      cases hd : userptr_dequeue_loop K st1 fuel 0 nq1 sizes1 (try_device K sys1).2 with
      | none => rw [hd] at h; simp at h
      | some outd =>
          rw [hd] at h
          simp only [] at h
          rw [← Option.some.inj h]
          obtain ⟨logq, hq1, hq2, hq3, hq4⟩ := userptr_queue_loop_attempts K frames 0 st 0 _ sys _ hq
          obtain ⟨logd, hd1, hd2⟩ := userptr_dequeue_loop_attempts K st1 B hB fuel 0 nq1 _ _ _ hd
          simp only [] at hq1 hq3 hq4
          rw [try_device_snd] at hd1 hd2
          simp only [] at hd1 hd2
          refine ⟨logq ++ [Event.SELECT (K.select sys1.ns)] ++ logd, ?_, ?_⟩
          · rw [hd1, hq1]; simp
          · rw [dqbuf_attempts_append, dqbuf_attempts_append, hq2]
            have e1 : dqbuf_attempts [Event.SELECT (K.select sys1.ns)] = 0 := rfl
            rw [e1, hq3] at *
            omega

theorem mem_store_pure_buf (st : V4L2_Backend) (buf : v4l2_buffer) (m : Ordered_Buffers)
    (e : Int × (Multiplanar_Buffer_View × v4l2_buffer)) (he : e ∈ store_pure st buf m) :
    e.2.2 = buf ∨ e ∈ m := by
  induction m with
  | nil =>
      simp only [store_pure, List.mem_singleton] at he
      left; rw [he]
  | cons a rest ih =>
      obtain ⟨k, v⟩ := a
      simp only [store_pure] at he
      split_ifs at he with h1 h2
      · rcases List.mem_cons.mp he with h | h
        · left; rw [h]
        · right; exact h
      · rcases List.mem_cons.mp he with h | h
        · left; rw [h]
        · right; exact List.mem_cons_of_mem _ h
      · rcases List.mem_cons.mp he with h | h
        · right; rw [h]; exact List.mem_cons_self _ _
        · rcases ih h with h3 | h3
          · left; exact h3
          · right; exact List.mem_cons_of_mem _ h3

theorem mem_store_all_buf (st : V4L2_Backend) (bufs : List v4l2_buffer) (m : Ordered_Buffers)
    (e : Int × (Multiplanar_Buffer_View × v4l2_buffer)) (he : e ∈ store_all st bufs m) :
    e.2.2 ∈ bufs ∨ e ∈ m := by
  induction bufs generalizing m with
  | nil => right; exact he
  | cons b rest ih =>
      have he2 : e ∈ store_all st rest (store_pure st b m) := he
      rcases ih _ he2 with h | h
      · left; exact List.mem_cons_of_mem _ h
      · rcases mem_store_pure_buf st b m e h with h3 | h3
        · left; rw [h3]; exact List.mem_cons_self _ _
        · right; exact h3

theorem stored_buffers_nil (K : Kernel) (num_buffers n lo : Nat)
    (h : ∀ k b, lo ≤ k → k < lo + n → K.dqbuf k = dqbuf_result.ok b → num_buffers ≤ b.index) :
    stored_buffers K num_buffers n lo = [] := by
  induction n generalizing lo with
  | zero => rfl
  | succ n ih =>
      have hrest : stored_buffers K num_buffers n (lo + 1) = [] :=
        ih (lo + 1) (fun k b h1 h2 hk => h k b (by omega) (by omega) hk)
      simp only [stored_buffers]
      cases hres : K.dqbuf lo with
      | ok buf =>
          have hidx := h lo buf (Nat.le_refl _) (by omega) hres
          simp only []
          rw [if_neg (fun hc => absurd hc.1 (by omega)), hrest]
      | error e =>
          simp only []
          exact hrest

theorem deque_buf_index (K : Kernel) (st : V4L2_Backend) (buf : v4l2_buffer) (sys : Syscalls)
    (h : (deque_buf K st buf sys).1 = true) :
    (deque_buf K st buf sys).2.1.index < st._num_buffers_ := by
  unfold deque_buf at h ⊢
  simp only [] at h ⊢
  cases hres : K.dqbuf sys.nd with
  | ok written =>
      rw [hres] at h
      simp only [] at h ⊢
      by_cases hi : written.index ≥ st._num_buffers_
      · rw [if_pos hi] at h; exact absurd h (by simp)
      · rw [if_neg hi]; exact Nat.lt_of_not_le hi
  | error e =>
      rw [hres] at h
      cases e with
      | EIO =>
          simp only [] at h ⊢
          by_cases hi : buf.index ≥ st._num_buffers_
          · rw [if_pos hi] at h; exact absurd h (by simp)
          · rw [if_neg hi]; exact Nat.lt_of_not_le hi
      | _ => exact absurd h (by simp)

theorem instantiate_buf_index (st : V4L2_Backend) : (instantiate_buf st).index = 0 := by
  unfold instantiate_buf
  split <;> rfl

/-! ## Helper lemmas: the log of a construction -/
theorem appends_done (P : Setup_Event → Bool) (st : V4L2_Backend) (log : List Setup_Event)
    (o : Outcome V4L2_Backend)
    (h : ∀ st1, o = Outcome.ok st1 → st1._num_buffers_ = st._num_buffers_) :
    Appends P st log (o, log) :=
  ⟨⟨[], by simp, by simp⟩, h⟩

theorem appends_step (P : Setup_Event → Bool) (st st0 : V4L2_Backend) (log : List Setup_Event)
    (e : Setup_Event) (r : Outcome V4L2_Backend × List Setup_Event)
    (hs : st0._num_buffers_ = st._num_buffers_) (h : Appends P st0 (log ++ [e]) r)
    (he : P e = true) : Appends P st log r := by
  obtain ⟨⟨ext, e1, p1⟩, s1⟩ := h
  refine ⟨⟨e :: ext, ?_, ?_⟩, fun st1 h1 => (s1 st1 h1).trans hs⟩
  · rw [e1]; simp
  · intro x hx
    rcases List.mem_cons.1 hx with h | h
    · rw [h]; exact he
    · exact p1 x h

theorem appends_trans (P : Setup_Event → Bool) (st st1 : V4L2_Backend)
    (log log1 : List Setup_Event) (r : Outcome V4L2_Backend × List Setup_Event)
    (h1 : Appends P st log (Outcome.ok st1, log1)) (h2 : Appends P st1 log1 r) :
    Appends P st log r := by
  obtain ⟨⟨ext1, e1, p1⟩, s1⟩ := h1
  obtain ⟨⟨ext2, e2, p2⟩, s2⟩ := h2
  refine ⟨⟨ext1 ++ ext2, ?_, ?_⟩, fun st2 h => (s2 st2 h).trans (s1 st1 rfl)⟩
  · rw [e2]
    simp only [] at e1
    rw [e1, List.append_assoc]
  · intro e he
    rcases List.mem_append.1 he with h | h
    · exact p1 e h
    · exact p2 e h

theorem appends_mono (P Q : Setup_Event → Bool) (hPQ : ∀ e, P e = true → Q e = true)
    (st : V4L2_Backend) (log : List Setup_Event) (r : Outcome V4L2_Backend × List Setup_Event)
    (h : Appends P st log r) : Appends Q st log r := by
  obtain ⟨⟨ext, e1, p1⟩, s1⟩ := h
  exact ⟨⟨ext, e1, fun e he => hPQ e (p1 e he)⟩, s1⟩

theorem mapped_write_num_buffers (st st1 : V4L2_Backend) (i j : Nat) (sp : Span)
    (h : mapped_write st i j sp = some st1) : st1._num_buffers_ = st._num_buffers_ := by
  unfold mapped_write at h
  cases hrow : st._mapped_buffers_[i]? with
  | none => rw [hrow] at h; simp at h
  | some row =>
      rw [hrow] at h
      simp only [] at h
      split_ifs at h
      rw [← Option.some.inj h]

theorem map_plane_appends (D : Device) (st : V4L2_Backend)
    (buffer_index plane_index length : Nat) (fd : Int) (offset : Nat) (log : List Setup_Event) :
    Appends is_plane_mapping st log (map_plane D st buffer_index plane_index length fd offset log) := by
  unfold map_plane
  cases hw : mapped_write st buffer_index plane_index
      { data := D.mmap length fd offset, size := length } with
  | none =>
      exact appends_step _ _ _ _ _ _ rfl (appends_done _ _ _ _ (fun _ h => by simp at h)) rfl
  | some st1 =>
      simp only []
      split_ifs
      · exact appends_step _ _ _ _ _ _ rfl (appends_done _ _ _ _ (fun _ h => by simp at h)) rfl
      · refine appends_step _ _ _ _ _ _ rfl (appends_done _ _ _ _ (fun st2 h => ?_)) rfl
        have hst : st1 = st2 := Outcome.ok.inj h
        rw [← hst]
        exact mapped_write_num_buffers _ _ _ _ _ hw

theorem export_and_map_appends (D : Device) (st : V4L2_Backend)
    (buffer_index plane_index : Nat) (dmabuf : Bool) (buf_length length offset : Nat)
    (log : List Setup_Event) :
    Appends is_plane_mapping st log
      (export_and_map D st buffer_index plane_index dmabuf buf_length length offset log).1 := by
  unfold export_and_map
  split_ifs
  · cases hx : D.expbuf buffer_index plane_index with
    | none =>
        exact appends_step _ _ _ _ _ _ rfl (map_plane_appends _ _ _ _ _ _ _ _) rfl
    | some fd =>
        exact appends_step _ _ _ _ _ _ rfl (map_plane_appends _ _ _ _ _ _ _ _) rfl
  · exact map_plane_appends _ _ _ _ _ _ _ _

theorem map_planes_appends (D : Device) (buffer_index : Nat) (buf : v4l2_buffer) (n : Nat) :
    ∀ (plane_index : Nat) (dmabuf : Bool) (st : V4L2_Backend) (log : List Setup_Event),
      Appends is_plane_mapping st log (map_planes D buffer_index buf n plane_index dmabuf st log) := by
  induction n with
  | zero =>
      intro plane_index dmabuf st log
      exact appends_done _ _ _ _ (fun st1 h => by rw [← Outcome.ok.inj h])
  | succ n ih =>
      intro plane_index dmabuf st log
      simp only [map_planes]
      have h1 := export_and_map_appends D st buffer_index plane_index dmabuf buf.length
        (buf.planes.getD plane_index {}).length (buf.planes.getD plane_index {}).m_mem_offset log
      rcases hr : export_and_map D st buffer_index plane_index dmabuf buf.length
        (buf.planes.getD plane_index {}).length (buf.planes.getD plane_index {}).m_mem_offset log
        with ⟨⟨o, l⟩, d⟩
      rw [hr] at h1
      cases o with
      | ok st1 => exact appends_trans _ _ _ _ _ _ h1 (ih _ _ _ _)
      | raised e => exact h1
      | undefined => exact h1

theorem is_plane_mapping_is_mapping (e : Setup_Event) (h : is_plane_mapping e = true) :
    is_mapping e = true := by
  cases e <;> first | rfl | (simp [is_plane_mapping] at h)

theorem querybuf_slots_append (a b : List Setup_Event) :
    querybuf_slots (a ++ b) = querybuf_slots a ++ querybuf_slots b := by
  simp [querybuf_slots, List.filterMap_append]

theorem qbuf_slots_append (a b : List Setup_Event) :
    qbuf_slots (a ++ b) = qbuf_slots a ++ qbuf_slots b := by
  simp [qbuf_slots, List.filterMap_append]

theorem querybuf_slots_plane_mapping (ext : List Setup_Event)
    (h : ∀ e ∈ ext, is_plane_mapping e = true) : querybuf_slots ext = [] := by
  induction ext with
  | nil => rfl
  | cons a rest ih =>
      have ha := h a (List.mem_cons_self _ _)
      have hrest := ih (fun e he => h e (List.mem_cons_of_mem _ he))
      cases a <;> first | (simpa [querybuf_slots] using hrest) | (simp [is_plane_mapping] at ha)

theorem qbuf_slots_of_not_qbuf (ext : List Setup_Event)
    (h : ∀ e ∈ ext, is_setup_qbuf e = false) : qbuf_slots ext = [] := by
  induction ext with
  | nil => rfl
  | cons a rest ih =>
      have ha := h a (List.mem_cons_self _ _)
      have hrest := ih (fun e he => h e (List.mem_cons_of_mem _ he))
      cases a <;> first | (simpa [qbuf_slots] using hrest) | (simp [is_setup_qbuf] at ha)

theorem querybuf_payload_index (st : V4L2_Backend) (buffer_index : Nat) :
    (querybuf_payload st buffer_index).index = buffer_index := by
  unfold querybuf_payload
  split <;> rfl

theorem initial_qbuf_payload_index (st : V4L2_Backend) (i : Nat) :
    (initial_qbuf_payload st i).index = i := by
  unfold initial_qbuf_payload
  split <;> rfl

theorem qbuf_slots_initial (st : V4L2_Backend) (n i : Nat) :
    qbuf_slots (initial_qbuf_events st n i) = List.range' i n := by
  induction n generalizing i with
  | zero => rfl
  | succ n ih =>
      have h := ih (i + 1)
      simp only [initial_qbuf_events, List.range'_succ, List.map_cons, qbuf_slots,
        List.filterMap_cons, initial_qbuf_payload_index] at h ⊢
      rw [h]

/-- The log of one iteration of the mapping loop: one QUERYBUF for the slot, then entries
of the plane loop. -/
theorem map_buffer_log (D : Device) (st : V4L2_Backend) (buffer_index : Nat)
    (log : List Setup_Event) :
    ∃ res planes, (map_buffer D st buffer_index log).2
        = log ++ Setup_Event.QUERYBUF (querybuf_payload st buffer_index) res :: planes
      ∧ ∀ e ∈ planes, is_plane_mapping e = true := by
  unfold map_buffer
  cases hq : D.querybuf (querybuf_payload st buffer_index) with
  | none => exact ⟨none, [], rfl, by simp⟩
  | some buf =>
      simp only []
      split_ifs
      · obtain ⟨⟨ext, h1, p1⟩, _⟩ := export_and_map_appends D
          (mapped_resize st buffer_index (num_planes st)) buffer_index 0 true buf.length
          buf.length buf.m_offset
          (log ++ [Setup_Event.QUERYBUF (querybuf_payload st buffer_index) (some buf)])
        exact ⟨some buf, ext, by rw [h1]; simp, p1⟩
      · obtain ⟨⟨ext, h1, p1⟩, _⟩ := map_planes_appends D buffer_index buf (num_planes st) 0
          true (mapped_resize st buffer_index (num_planes st))
          (log ++ [Setup_Event.QUERYBUF (querybuf_payload st buffer_index) (some buf)])
        exact ⟨some buf, ext, by rw [h1]; simp, p1⟩

theorem map_buffer_appends (D : Device) (st : V4L2_Backend) (buffer_index : Nat)
    (log : List Setup_Event) : Appends is_mapping st log (map_buffer D st buffer_index log) := by
  unfold map_buffer
  cases hq : D.querybuf (querybuf_payload st buffer_index) with
  | none =>
      exact appends_step _ _ _ _ _ _ rfl (appends_done _ _ _ _ (fun _ h => by simp at h)) rfl
  | some buf =>
      simp only []
      split_ifs
      · exact appends_step _ _ _ _ _ _ rfl (appends_mono _ _ is_plane_mapping_is_mapping _ _ _
          (export_and_map_appends _ _ _ _ _ _ _ _ _)) rfl
      · exact appends_step _ _ _ _ _ _ rfl (appends_mono _ _ is_plane_mapping_is_mapping _ _ _
          (map_planes_appends _ _ _ _ _ _ _ _)) rfl

theorem map_buffers_appends (D : Device) (n : Nat) :
    ∀ (buffer_index : Nat) (st : V4L2_Backend) (log : List Setup_Event),
      Appends is_mapping st log (map_buffers D n buffer_index st log) := by
  induction n with
  | zero =>
      intro buffer_index st log
      exact appends_done _ _ _ _ (fun st1 h => by rw [← Outcome.ok.inj h])
  | succ n ih =>
      intro buffer_index st log
      simp only [map_buffers]
      have h1 := map_buffer_appends D st buffer_index log
      rcases hr : map_buffer D st buffer_index log with ⟨o, l⟩
      rw [hr] at h1
      cases o with
      | ok st1 => exact appends_trans _ _ _ _ _ _ h1 (ih _ _ _)
      | raised e => exact h1
      | undefined => exact h1

theorem map_buffers_slots (D : Device) (n : Nat) :
    ∀ (buffer_index : Nat) (st st1 : V4L2_Backend) (log log1 : List Setup_Event),
      map_buffers D n buffer_index st log = (Outcome.ok st1, log1) →
      ∃ ext, log1 = log ++ ext ∧ querybuf_slots ext = List.range' buffer_index n := by
  induction n with
  | zero =>
      intro buffer_index st st1 log log1 h
      simp only [map_buffers] at h
      have h2 : log = log1 := congrArg Prod.snd h
      exact ⟨[], by rw [← h2]; simp, rfl⟩
  | succ n ih =>
      intro buffer_index st st1 log log1 h
      simp only [map_buffers] at h
      obtain ⟨res, planes, hlog, hp⟩ := map_buffer_log D st buffer_index log
      rcases hr : map_buffer D st buffer_index log with ⟨o, l⟩
      rw [hr] at h hlog
      simp only [] at hlog
      cases o with
      | ok st2 =>
          simp only [] at h
          obtain ⟨ext, hext, hslots⟩ := ih _ _ _ _ _ h
          refine ⟨Setup_Event.QUERYBUF (querybuf_payload st buffer_index) res :: planes ++ ext,
            ?_, ?_⟩
          · rw [hext, hlog]; simp
          · have hq : querybuf_slots
                (Setup_Event.QUERYBUF (querybuf_payload st buffer_index) res :: planes ++ ext)
                = buffer_index :: (querybuf_slots planes ++ querybuf_slots ext) := by
              rw [List.cons_append]
              simp only [querybuf_slots, List.filterMap_cons, List.filterMap_append,
                querybuf_payload_index]
            rw [hq, querybuf_slots_plane_mapping planes hp, hslots, List.nil_append,
              List.range'_succ]
      | raised e =>
          simp only [] at h
          have := congrArg Prod.fst h
          simp at this
      | undefined =>
          simp only [] at h
          have := congrArg Prod.fst h
          simp at this

theorem initial_qbufs_ok (D : Device) (st : V4L2_Backend) (n : Nat) :
    ∀ (i : Nat) (log log1 : List Setup_Event) (st1 : V4L2_Backend),
      initial_qbufs D st n i log = (Outcome.ok st1, log1) →
      st1 = st ∧ log1 = log ++ initial_qbuf_events st n i := by
  induction n with
  | zero =>
      intro i log log1 st1 h
      simp only [initial_qbufs] at h
      have h1 := congrArg Prod.fst h
      have h2 := congrArg Prod.snd h
      simp only [] at h1 h2
      exact ⟨(Outcome.ok.inj h1).symm, by rw [← h2]; simp [initial_qbuf_events]⟩
  | succ n ih =>
      intro i log log1 st1 h
      simp only [initial_qbufs] at h
      split_ifs at h with hq
      · have h1 := congrArg Prod.fst h
        simp at h1
      · obtain ⟨hst, hlog⟩ := ih _ _ _ _ h
        refine ⟨hst, ?_⟩
        rw [hlog]
        simp [initial_qbuf_events, List.range'_succ]

theorem initial_qbufs_appends (D : Device) (st : V4L2_Backend) (n : Nat) :
    ∀ (i : Nat) (log : List Setup_Event),
      Appends is_setup_qbuf st log (initial_qbufs D st n i log) := by
  induction n with
  | zero =>
      intro i log
      exact appends_done _ _ _ _ (fun st1 h => by rw [← Outcome.ok.inj h])
  | succ n ih =>
      intro i log
      simp only [initial_qbufs]
      split_ifs
      · exact appends_step _ _ _ _ _ _ rfl (appends_done _ _ _ _ (fun _ h => by simp at h)) rfl
      · exact appends_step _ _ _ _ _ _ rfl (ih _ _) rfl

theorem mem_initial_qbuf_events (st : V4L2_Backend) (n i : Nat) (e : Setup_Event)
    (h : e ∈ initial_qbuf_events st n i) : is_setup_qbuf e = true := by
  unfold initial_qbuf_events at h
  obtain ⟨slot, _, hs⟩ := List.mem_map.1 h
  rw [← hs]
  rfl

theorem setup_buffers_mmap_ok (D : Device) (st st1 : V4L2_Backend) (count : Nat)
    (log log1 : List Setup_Event)
    (hmem : st._configuration_.buffering = Buffering.Internal)
    (h : setup_buffers D st count log = (Outcome.ok st1, log1)) :
    st1._num_buffers_ = count
    ∧ ∃ maps, log1 = log ++ maps ++ initial_qbuf_events st1 count 0
        ∧ (∀ e ∈ maps, is_mapping e = true)
        ∧ querybuf_slots maps = List.range' 0 count := by
  have hm : get_memory_mapping_type_v4l2 st = v4l2_memory.V4L2_MEMORY_MMAP := by
    simp [get_memory_mapping_type_v4l2, hmem]
  unfold setup_buffers at h
  rw [if_pos (Or.inl hm)] at h
  have hmaps := map_buffers_appends D count 0
    { st with _num_buffers_ := count,
              _buffer_dma_fds_ := List.replicate count [],
              _mapped_buffers_ := List.replicate count [] } log
  rcases hr : map_buffers D count 0
    { st with _num_buffers_ := count,
              _buffer_dma_fds_ := List.replicate count [],
              _mapped_buffers_ := List.replicate count [] } log with ⟨o, l⟩
  rw [hr] at h hmaps
  cases o with
  | ok st2 =>
      simp only [] at h
      obtain ⟨⟨maps, hl, hp⟩, hn⟩ := hmaps
      simp only [] at hl
      have hn2 : st2._num_buffers_ = count := hn st2 rfl
      rw [hn2] at h
      obtain ⟨hst, hlog⟩ := initial_qbufs_ok D st2 count 0 l log1 st1 h
      obtain ⟨ext, hext, hslots⟩ := map_buffers_slots D count 0 _ _ _ _ hr
      have hsame : maps = ext := List.append_cancel_left (hl.symm.trans hext)
      rw [hst]
      exact ⟨hn2, maps, by rw [hlog, hl], hp, by rw [hsame]; exact hslots⟩
  | raised e =>
      simp only [] at h
      have := congrArg Prod.fst h
      simp at this
  | undefined =>
      simp only [] at h
      have := congrArg Prod.fst h
      simp at this

theorem setup_buffers_userptr_log (D : Device) (st : V4L2_Backend) (count : Nat)
    (log : List Setup_Event) (hmem : st._configuration_.buffering ≠ Buffering.Internal) :
    (setup_buffers D st count log).2 = log := by
  have hm : get_memory_mapping_type_v4l2 st = v4l2_memory.V4L2_MEMORY_USERPTR := by
    simp [get_memory_mapping_type_v4l2, hmem]
  unfold setup_buffers
  rw [hm]
  simp only [if_true, reduceCtorEq, or_self, if_false]
  cases allocate_buffers D count 0
      { st with _num_buffers_ := count, _allocated_buffers_ := List.replicate count [] } <;> rfl

theorem setup_buffering_mmap_ok (D : Device) (st st1 : V4L2_Backend)
    (log log1 : List Setup_Event)
    (hmem : st._configuration_.buffering = Buffering.Internal)
    (h : setup_buffering D st log = (Outcome.ok st1, log1)) :
    ∃ count maps,
      D.reqbufs st._configuration_.num_buffers st._buffer_plane_type_
          v4l2_memory.V4L2_MEMORY_MMAP = some count
      ∧ 1 ≤ count
      ∧ st1._num_buffers_ = count
      ∧ log1 = log ++ [Setup_Event.REQBUFS st._configuration_.num_buffers
            st._buffer_plane_type_ v4l2_memory.V4L2_MEMORY_MMAP (some count)]
          ++ maps ++ initial_qbuf_events st1 count 0
      ∧ (∀ e ∈ maps, is_mapping e = true)
      ∧ querybuf_slots maps = List.range' 0 count := by
  have hm : get_memory_mapping_type_v4l2 st = v4l2_memory.V4L2_MEMORY_MMAP := by
    simp [get_memory_mapping_type_v4l2, hmem]
  unfold setup_buffering at h
  rw [hm] at h
  cases hr : D.reqbufs st._configuration_.num_buffers st._buffer_plane_type_
      v4l2_memory.V4L2_MEMORY_MMAP with
  | none =>
      rw [hr] at h
      have := congrArg Prod.fst h
      simp at this
  | some count =>
      rw [hr] at h
      simp only [] at h
      split_ifs at h with hc
      · have := congrArg Prod.fst h
        simp at this
      · obtain ⟨hn, maps, hlog, hp, hs⟩ := setup_buffers_mmap_ok D st st1 count _ log1 hmem h
        exact ⟨count, maps, rfl, by omega, hn, hlog, hp, hs⟩

theorem setup_buffering_userptr_log (D : Device) (st : V4L2_Backend) (log : List Setup_Event)
    (hmem : st._configuration_.buffering ≠ Buffering.Internal) :
    ∃ res, (setup_buffering D st log).2
      = log ++ [Setup_Event.REQBUFS st._configuration_.num_buffers st._buffer_plane_type_
          v4l2_memory.V4L2_MEMORY_USERPTR res] := by
  have hm : get_memory_mapping_type_v4l2 st = v4l2_memory.V4L2_MEMORY_USERPTR := by
    simp [get_memory_mapping_type_v4l2, hmem]
  unfold setup_buffering
  rw [hm]
  cases hr : D.reqbufs st._configuration_.num_buffers st._buffer_plane_type_
      v4l2_memory.V4L2_MEMORY_USERPTR with
  | none => exact ⟨none, rfl⟩
  | some count =>
      simp only []
      split_ifs
      · exact ⟨some count, rfl⟩
      · exact ⟨some count, setup_buffers_userptr_log D st count _ hmem⟩

theorem setup_crop_device_log (D : Device) (st : V4L2_Backend) (log : List Setup_Event) :
    ∃ ext, setup_crop D st log = log ++ ext ∧ ∀ e ∈ ext, is_device_setup e = true := by
  unfold setup_crop
  split_ifs
  · refine ⟨_, List.append_assoc _ _ _, ?_⟩
    intro e he
    simp only [List.singleton_append, List.mem_cons, List.mem_singleton, List.not_mem_nil,
      or_false] at he
    rcases he with h | h <;> rw [h] <;> rfl
  · exact ⟨[_], rfl, fun e he => by rw [List.mem_singleton.1 he]; rfl⟩
  · exact ⟨[_], rfl, fun e he => by rw [List.mem_singleton.1 he]; rfl⟩

theorem s_ctrl_event (D : Device) (id : v4l2_cid) (value : Int) :
    is_device_setup (s_ctrl D id value).2 = true := by
  unfold s_ctrl
  split_ifs <;> rfl

theorem setup_controls_device_log (D : Device) (st : V4L2_Backend) (log : List Setup_Event)
    (fps_set : Option (ℚ × Setup_Event))
    (hf : ∀ r, fps_set = some r → is_device_setup r.2 = true) :
    ∃ ext, (setup_controls D st log fps_set).2 = log ++ ext
      ∧ ∀ e ∈ ext, is_device_setup e = true := by
  cases fps_set with
  | none => exact ⟨[], by simp [setup_controls], by simp⟩
  | some r =>
      refine ⟨[r.2, (set_auto_exposure_mode D V4L2_EXPOSURE_APERTURE_PRIORITY).2,
          (enable_auto_exposure_auto_priority_mode D false).2], by simp [setup_controls], ?_⟩
      intro e he
      simp only [List.mem_cons, List.mem_singleton, List.not_mem_nil, or_false] at he
      rcases he with h | h | h
      · rw [h]; exact hf r rfl
      · rw [h]; exact s_ctrl_event _ _ _
      · rw [h]; exact s_ctrl_event _ _ _

theorem set_fps_event (D : Device) (st : V4L2_Backend) (fps : ℚ) (r : ℚ × Setup_Event)
    (h : set_fps D st fps = some r) : is_device_setup r.2 = true := by
  rcases set_fps_eq D st fps with h1 | ⟨value, den, h1⟩
  · rw [h1] at h; exact absurd h (by simp)
  · rw [h1] at h
    rw [← Option.some.inj h]
    rfl

theorem setup_format_device_log (D : Device) (st : V4L2_Backend) (log : List Setup_Event) :
    ∃ ext, (setup_format D st log).2 = log ++ ext ∧ ∀ e ∈ ext, is_device_setup e = true := by
  unfold setup_format
  cases hf : D.s_fmt (s_fmt_payload st) with
  | none => exact ⟨[_], rfl, fun e he => by rw [List.mem_singleton.1 he]; rfl⟩
  | some written =>
      obtain ⟨ext, h, hp⟩ := setup_controls_device_log D
        { st with _v4l2_capture_format_ := written }
        (log ++ [Setup_Event.S_FMT (s_fmt_payload st) (some written)])
        (set_fps D { st with _v4l2_capture_format_ := written } (st._configuration_.fps : ℚ))
        (fun r hr => set_fps_event _ _ _ r hr)
      refine ⟨Setup_Event.S_FMT (s_fmt_payload st) (some written) :: ext, ?_, ?_⟩
      · simp only []
        rw [h]; simp
      · intro e he
        rcases List.mem_cons.1 he with h1 | h1
        · rw [h1]; rfl
        · exact hp e h1

theorem setup_device_device_log (D : Device) (st : V4L2_Backend) (log : List Setup_Event) :
    ∃ ext, (setup_device D st log).2 = log ++ ext ∧ ∀ e ∈ ext, is_device_setup e = true := by
  have one : ∀ (a : Setup_Event), is_device_setup a = true →
      ∃ ext, log ++ [a] = log ++ ext ∧ ∀ e ∈ ext, is_device_setup e = true :=
    fun a ha => ⟨[a], rfl, fun e he => by rw [List.mem_singleton.1 he]; exact ha⟩
  have two : ∀ (a b : Setup_Event), is_device_setup a = true → is_device_setup b = true →
      ∃ ext, log ++ [a] ++ [b] = log ++ ext ∧ ∀ e ∈ ext, is_device_setup e = true := by
    intro a b ha hb
    refine ⟨[a, b], by simp, ?_⟩
    intro e he
    simp only [List.mem_cons, List.mem_singleton, List.not_mem_nil, or_false] at he
    rcases he with h | h
    · rw [h]; exact ha
    · rw [h]; exact hb
  have three : ∀ (a b c : Setup_Event) (rest : List Setup_Event),
      is_device_setup a = true → is_device_setup b = true → is_device_setup c = true →
      (∀ e ∈ rest, is_device_setup e = true) →
      ∃ ext, log ++ [a] ++ [b] ++ [c] ++ rest = log ++ ext
        ∧ ∀ e ∈ ext, is_device_setup e = true := by
    intro a b c rest ha hb hc hrest
    refine ⟨a :: b :: c :: rest, by simp, ?_⟩
    intro e he
    simp only [List.mem_cons] at he
    rcases he with h | h | h | h
    · rw [h]; exact ha
    · rw [h]; exact hb
    · rw [h]; exact hc
    · exact hrest e h
  unfold setup_device
  cases hstat : D.stat st._configuration_.device_index with
  | error => exact one _ rfl
  | not_chr => exact one _ rfl
  | chr =>
      simp only []
      split_ifs
      · exact two _ _ rfl rfl
      · cases hcap : D.querycap with
        | none =>
            simp only []
            have := three (Setup_Event.STAT st._configuration_.device_index stat_result.chr)
              (Setup_Event.OPEN st._configuration_.device_index
                (D.open_fd st._configuration_.device_index))
              (Setup_Event.QUERYCAP none) [] rfl rfl rfl (by simp)
            simpa using this
        | some capabilities =>
            simp only []
            have hthree := three
              (Setup_Event.STAT st._configuration_.device_index stat_result.chr)
              (Setup_Event.OPEN st._configuration_.device_index
                (D.open_fd st._configuration_.device_index))
              (Setup_Event.QUERYCAP (some capabilities))
            split_ifs
            · simpa using hthree [] rfl rfl rfl (by simp)
            · simpa using hthree [] rfl rfl rfl (by simp)
            · obtain ⟨ext1, h1, p1⟩ := setup_crop_device_log D
                { st with _device_file_descriptor_ := D.open_fd st._configuration_.device_index }
                (log ++ [Setup_Event.STAT st._configuration_.device_index stat_result.chr]
                  ++ [Setup_Event.OPEN st._configuration_.device_index
                    (D.open_fd st._configuration_.device_index)]
                  ++ [Setup_Event.QUERYCAP (some capabilities)])
              rw [h1]
              obtain ⟨ext2, h2, p2⟩ := setup_format_device_log D
                { st with _device_file_descriptor_ := D.open_fd st._configuration_.device_index }
                (log ++ [Setup_Event.STAT st._configuration_.device_index stat_result.chr]
                  ++ [Setup_Event.OPEN st._configuration_.device_index
                    (D.open_fd st._configuration_.device_index)]
                  ++ [Setup_Event.QUERYCAP (some capabilities)] ++ ext1)
              rw [h2]
              obtain ⟨ext, he, hp⟩ := hthree (ext1 ++ ext2) rfl rfl rfl (by
                intro e he
                rcases List.mem_append.1 he with h | h
                · exact p1 e h
                · exact p2 e h)
              refine ⟨ext, ?_, hp⟩
              rw [← he]; simp

theorem construct_ok_steps (params : Stream_Configuration) (D : Device) (st : V4L2_Backend)
    (log : List Setup_Event) (h : construct params D = (Outcome.ok st, log)) :
    ∃ st0 st1 l1 l2, init_members params = some st0
      ∧ setup_device D st0 [] = (Outcome.ok st1, l1)
      ∧ setup_buffering D st1 l1 = (Outcome.ok st, l2)
      ∧ log = l2 ++ [Setup_Event.STREAMON st._buffer_plane_type_ true]
      ∧ st1._configuration_ = params := by
  unfold construct at h
  cases h0 : init_members params with
  | none =>
      rw [h0] at h
      have := congrArg Prod.fst h
      simp at this
  | some st0 =>
      rw [h0] at h
      simp only [] at h
      obtain ⟨hcfg, _⟩ := init_members_fields params st0 h0
      obtain ⟨o, l, hrun, _, _, _, hinv⟩ := setup_device_spec D st0 []
      rw [hrun] at h
      cases o with
      | raised e =>
          simp only [] at h
          have := congrArg Prod.fst h
          simp at this
      | undefined =>
          simp only [] at h
          have := congrArg Prod.fst h
          simp at this
      | ok st1 =>
          simp only [] at h
          obtain ⟨written, _, hst1⟩ := hinv st1 rfl
          have hcfg1 : st1._configuration_ = params := by rw [hst1]; exact hcfg
          rcases hr2 : setup_buffering D st1 l with ⟨o2, l2⟩
          rw [hr2] at h
          cases o2 with
          | raised e =>
              simp only [] at h
              have := congrArg Prod.fst h
              simp at this
          | undefined =>
              simp only [] at h
              have := congrArg Prod.fst h
              simp at this
          | ok st2 =>
              simp only [] at h
              split_ifs at h with hon
              · have := congrArg Prod.fst h
                simp at this
              · have h1 := congrArg Prod.fst h
                have h2 := congrArg Prod.snd h
                simp only [] at h1 h2
                have hst : st2 = st := Outcome.ok.inj h1
                rw [hst] at h2
                exact ⟨st0, st1, l, l2, rfl, hrun, by rw [← hst]; exact hr2, h2.symm, hcfg1⟩

theorem construct_mmap_log (params : Stream_Configuration) (D : Device) (st : V4L2_Backend)
    (log : List Setup_Event) (hmode : params.buffering = Buffering.Internal)
    (h : construct params D = (Outcome.ok st, log)) :
    ∃ dev count maps,
      D.reqbufs params.num_buffers st._buffer_plane_type_ v4l2_memory.V4L2_MEMORY_MMAP
        = some count
      ∧ 1 ≤ count
      ∧ st._num_buffers_ = count
      ∧ log = dev ++ [Setup_Event.REQBUFS params.num_buffers st._buffer_plane_type_
            v4l2_memory.V4L2_MEMORY_MMAP (some count)]
          ++ maps ++ initial_qbuf_events st count 0
          ++ [Setup_Event.STREAMON st._buffer_plane_type_ true]
      ∧ (∀ e ∈ dev, is_device_setup e = true)
      ∧ (∀ e ∈ maps, is_mapping e = true)
      ∧ querybuf_slots maps = List.range' 0 count := by
  obtain ⟨st0, st1, l1, l2, _, hdev, hbuf, hlog, hcfg⟩ := construct_ok_steps params D st log h
  obtain ⟨dev, hl1, hpdev⟩ := setup_device_device_log D st0 []
  rw [hdev] at hl1
  simp only [List.nil_append] at hl1
  have hstable := (setup_buffering_extends D st1 l1).2.2
  rw [hbuf] at hstable
  have htype : st._buffer_plane_type_ = st1._buffer_plane_type_ := (hstable st rfl).2.2.2.2.2.1
  obtain ⟨count, maps, hreq, hcount, hn, hl2, hpmaps, hslots⟩ :=
    setup_buffering_mmap_ok D st1 st l1 l2 (by rw [hcfg]; exact hmode) hbuf
  rw [hcfg, ← htype] at hreq hl2
  refine ⟨dev, count, maps, hreq, hcount, hn, ?_, hpdev, hpmaps, hslots⟩
  rw [hlog, hl2, hl1]

theorem construct_userptr_log (params : Stream_Configuration) (D : Device)
    (hmode : params.buffering ≠ Buffering.Internal) :
    ∀ e ∈ (construct params D).2, is_setup_qbuf e = false := by
  have hdevq : ∀ e, is_device_setup e = true → is_setup_qbuf e = false := by
    intro e he
    cases e <;> first | rfl | (simp [is_device_setup] at he)
  unfold construct
  cases h0 : init_members params with
  | none => intro e he; exact absurd he (List.not_mem_nil _)
  | some st0 =>
      simp only []
      obtain ⟨hcfg, _⟩ := init_members_fields params st0 h0
      obtain ⟨o, l, hrun, _, _, _, hinv⟩ := setup_device_spec D st0 []
      obtain ⟨dev, hl1, hpdev⟩ := setup_device_device_log D st0 []
      rw [hrun] at hl1
      simp only [List.nil_append] at hl1
      rw [hrun]
      have hl : ∀ e ∈ l, is_setup_qbuf e = false := by
        intro e he
        rw [hl1] at he
        exact hdevq e (hpdev e he)
      cases o with
      | raised e => exact hl
      | undefined => exact hl
      | ok st1 =>
          simp only []
          obtain ⟨written, _, hst1⟩ := hinv st1 rfl
          have hcfg1 : st1._configuration_ = params := by rw [hst1]; exact hcfg
          obtain ⟨res, hlog2⟩ := setup_buffering_userptr_log D st1 l (by rw [hcfg1]; exact hmode)
          rcases hr2 : setup_buffering D st1 l with ⟨o2, l2⟩
          rw [hr2] at hlog2
          simp only [] at hlog2
          have hl2 : ∀ e ∈ l2, is_setup_qbuf e = false := by
            intro e he
            rw [hlog2] at he
            rcases List.mem_append.1 he with h | h
            · exact hl e h
            · rw [List.mem_singleton.1 h]; rfl
          cases o2 with
          | raised e => exact hl2
          | undefined => exact hl2
          | ok st2 =>
              simp only []
              split_ifs
              · intro e he
                rcases List.mem_append.1 he with h | h
                · exact hl2 e h
                · rw [List.mem_singleton.1 h]; rfl
              · intro e he
                rcases List.mem_append.1 he with h | h
                · exact hl2 e h
                · rw [List.mem_singleton.1 h]; rfl

theorem map_plane_log_eq (D : Device) (st : V4L2_Backend)
    (buffer_index plane_index length : Nat) (fd : Int) (offset : Nat) (log : List Setup_Event) :
    (map_plane D st buffer_index plane_index length fd offset log).2
      = log ++ [Setup_Event.MMAP length fd offset (D.mmap length fd offset)] := by
  unfold map_plane
  cases mapped_write st buffer_index plane_index
      { data := D.mmap length fd offset, size := length } with
  | none => rfl
  | some st1 =>
      simp only []
      split_ifs <;> rfl

theorem map_plane_fd (D : Device) (st st1 : V4L2_Backend)
    (buffer_index plane_index length : Nat) (fd : Int) (offset : Nat)
    (log log1 : List Setup_Event)
    (h : map_plane D st buffer_index plane_index length fd offset log = (Outcome.ok st1, log1)) :
    st1._device_file_descriptor_ = st._device_file_descriptor_ := by
  have hs := (map_plane_extends D st buffer_index plane_index length fd offset log).2.2
  rw [h] at hs
  exact (hs st1 rfl).2.2.2.2.1

theorem map_planes_no_dmabuf (D : Device) (buffer_index : Nat) (buf : v4l2_buffer) (n : Nat) :
    ∀ (plane_index : Nat) (st : V4L2_Backend) (log : List Setup_Event),
      ∃ k, k ≤ n
        ∧ (map_planes D buffer_index buf n plane_index false st log).2
            = log ++ device_mmap_events D st._device_file_descriptor_ buf plane_index k
        ∧ (∀ st1, (map_planes D buffer_index buf n plane_index false st log).1 = Outcome.ok st1 →
            k = n) := by
  induction n with
  | zero =>
      intro plane_index st log
      exact ⟨0, Nat.le_refl _, by simp [map_planes, device_mmap_events], fun _ _ => rfl⟩
  | succ n ih =>
      intro plane_index st log
      simp only [map_planes, export_and_map, Bool.false_eq_true, if_false]
      have hlog := map_plane_log_eq D st buffer_index plane_index
        (buf.planes.getD plane_index {}).length st._device_file_descriptor_
        (buf.planes.getD plane_index {}).m_mem_offset log
      rcases hr : map_plane D st buffer_index plane_index
        (buf.planes.getD plane_index {}).length st._device_file_descriptor_
        (buf.planes.getD plane_index {}).m_mem_offset log with ⟨o, l⟩
      rw [hr] at hlog
      simp only [] at hlog
      cases o with
      | ok st1 =>
          simp only []
          have hfd := map_plane_fd D st st1 _ _ _ _ _ _ _ hr
          obtain ⟨k, hk, hrun, hok⟩ := ih (plane_index + 1) st1 l
          refine ⟨k + 1, by omega, ?_, fun st2 h2 => by rw [hok st2 h2]⟩
          rw [hrun, hlog, hfd]
          simp [device_mmap_events, List.range'_succ]
      | raised e =>
          exact ⟨1, by omega, by rw [hlog]; simp [device_mmap_events, List.range'_succ],
            fun _ h => by simp at h⟩
      | undefined =>
          exact ⟨1, by omega, by rw [hlog]; simp [device_mmap_events, List.range'_succ],
            fun _ h => by simp at h⟩

theorem map_planes_expbuf_failed (D : Device) (buffer_index : Nat) (buf : v4l2_buffer)
    (n plane_index : Nat) (st : V4L2_Backend) (log : List Setup_Event)
    (hfail : D.expbuf buffer_index plane_index = none) :
    ∃ k, 1 ≤ k ∧ k ≤ n + 1
      ∧ (map_planes D buffer_index buf (n + 1) plane_index true st log).2
          = log ++ Setup_Event.EXPBUF buffer_index plane_index none
              :: device_mmap_events D st._device_file_descriptor_ buf plane_index k
      ∧ (∀ st1, (map_planes D buffer_index buf (n + 1) plane_index true st log).1
            = Outcome.ok st1 → k = n + 1) := by
  simp only [map_planes, export_and_map, if_true, hfail]
  have hlog := map_plane_log_eq D st buffer_index plane_index
    (buf.planes.getD plane_index {}).length st._device_file_descriptor_
    (buf.planes.getD plane_index {}).m_mem_offset
    (log ++ [Setup_Event.EXPBUF buffer_index plane_index none])
  rcases hr : map_plane D st buffer_index plane_index
    (buf.planes.getD plane_index {}).length st._device_file_descriptor_
    (buf.planes.getD plane_index {}).m_mem_offset
    (log ++ [Setup_Event.EXPBUF buffer_index plane_index none]) with ⟨o, l⟩
  rw [hr] at hlog
  simp only [] at hlog
  cases o with
  | ok st1 =>
      simp only []
      have hfd := map_plane_fd D st st1 _ _ _ _ _ _ _ hr
      obtain ⟨k, hk, hrun, hok⟩ := map_planes_no_dmabuf D buffer_index buf n (plane_index + 1)
        st1 l
      refine ⟨k + 1, by omega, by omega, ?_, fun st2 h2 => by rw [hok st2 h2]⟩
      rw [hrun, hlog, hfd]
      simp [device_mmap_events, List.range'_succ]
  | raised e =>
      exact ⟨1, by omega, by omega, by rw [hlog]; simp [device_mmap_events, List.range'_succ],
        fun _ h => by simp at h⟩
  | undefined =>
      exact ⟨1, by omega, by omega, by rw [hlog]; simp [device_mmap_events, List.range'_succ],
        fun _ h => by simp at h⟩

theorem map_buffer_starts_with_expbuf (D : Device) (st : V4L2_Backend) (buffer_index : Nat)
    (log : List Setup_Event) (buf : v4l2_buffer)
    (hq : D.querybuf (querybuf_payload st buffer_index) = some buf)
    (hplanes : st._buffer_plane_type_ = v4l2_buf_type.V4L2_BUF_TYPE_VIDEO_CAPTURE
      ∨ 1 ≤ num_planes st) :
    ∃ rest, (map_buffer D st buffer_index log).2
      = log ++ Setup_Event.QUERYBUF (querybuf_payload st buffer_index) (some buf)
          :: Setup_Event.EXPBUF buffer_index 0 (D.expbuf buffer_index 0) :: rest := by
  have shape1 : ∀ (a b c : Setup_Event),
      ∃ rest, log ++ [a] ++ [b] ++ [c] = log ++ a :: b :: rest := fun a b c => ⟨[c], by simp⟩
  have shape2 : ∀ (a b c : Setup_Event) (X : List Setup_Event),
      ∃ rest, log ++ [a] ++ [b] ++ [c] ++ X = log ++ a :: b :: rest :=
    fun a b c X => ⟨c :: X, by simp⟩
  unfold map_buffer
  rw [hq]
  simp only []
  by_cases hs : st._buffer_plane_type_ = v4l2_buf_type.V4L2_BUF_TYPE_VIDEO_CAPTURE
  · rw [if_pos hs]
    simp only [export_and_map, if_true]
    cases hx : D.expbuf buffer_index 0 with
    | none =>
        simp only []
        rw [map_plane_log_eq]
        exact shape1 _ _ _
    | some fd =>
        simp only []
        rw [map_plane_log_eq]
        exact shape1 _ _ _
  · rw [if_neg hs]
    have hp : 1 ≤ num_planes st := by
      rcases hplanes with h | h
      · exact absurd h hs
      · exact h
    obtain ⟨m, hm⟩ : ∃ m, num_planes st = m + 1 := ⟨num_planes st - 1, by omega⟩
    rw [hm]
    simp only [map_planes, export_and_map, if_true]
    cases hx : D.expbuf buffer_index 0 with
    | none =>
        simp only []
        have hlog := map_plane_log_eq D (mapped_resize st buffer_index (m + 1)) buffer_index 0
          (buf.planes.getD 0 {}).length
          (mapped_resize st buffer_index (m + 1))._device_file_descriptor_
          (buf.planes.getD 0 {}).m_mem_offset
          (log ++ [Setup_Event.QUERYBUF (querybuf_payload st buffer_index) (some buf)]
            ++ [Setup_Event.EXPBUF buffer_index 0 none])
        rcases hr : map_plane D (mapped_resize st buffer_index (m + 1)) buffer_index 0
          (buf.planes.getD 0 {}).length
          (mapped_resize st buffer_index (m + 1))._device_file_descriptor_
          (buf.planes.getD 0 {}).m_mem_offset
          (log ++ [Setup_Event.QUERYBUF (querybuf_payload st buffer_index) (some buf)]
            ++ [Setup_Event.EXPBUF buffer_index 0 none]) with ⟨o, l⟩
        rw [hr] at hlog
        simp only [] at hlog
        cases o with
        | ok st1 =>
            simp only []
            obtain ⟨⟨ext, hext, _⟩, _⟩ := map_planes_appends D buffer_index buf m (0 + 1) false
              st1 l
            rw [hext, hlog]
            exact shape2 _ _ _ _
        | raised e => rw [hlog]; exact shape1 _ _ _
        | undefined => rw [hlog]; exact shape1 _ _ _
    | some fd =>
        simp only []
        have hlog := map_plane_log_eq D
          (dma_fds_emplace_back (mapped_resize st buffer_index (m + 1)) buffer_index fd
            buf.length) buffer_index 0 (buf.planes.getD 0 {}).length fd 0
          (log ++ [Setup_Event.QUERYBUF (querybuf_payload st buffer_index) (some buf)]
            ++ [Setup_Event.EXPBUF buffer_index 0 (some fd)])
        rcases hr : map_plane D
          (dma_fds_emplace_back (mapped_resize st buffer_index (m + 1)) buffer_index fd
            buf.length) buffer_index 0 (buf.planes.getD 0 {}).length fd 0
          (log ++ [Setup_Event.QUERYBUF (querybuf_payload st buffer_index) (some buf)]
            ++ [Setup_Event.EXPBUF buffer_index 0 (some fd)]) with ⟨o, l⟩
        rw [hr] at hlog
        simp only [] at hlog
        cases o with
        | ok st1 =>
            simp only []
            obtain ⟨⟨ext, hext, _⟩, _⟩ := map_planes_appends D buffer_index buf m (0 + 1) true
              st1 l
            rw [hext, hlog]
            exact shape2 _ _ _ _
        | raised e => rw [hlog]; exact shape1 _ _ _
        | undefined => rw [hlog]; exact shape1 _ _ _

theorem map_buffer_single_expbuf_failed (D : Device) (st : V4L2_Backend) (buffer_index : Nat)
    (log : List Setup_Event) (buf : v4l2_buffer)
    (hq : D.querybuf (querybuf_payload st buffer_index) = some buf)
    (hs : st._buffer_plane_type_ = v4l2_buf_type.V4L2_BUF_TYPE_VIDEO_CAPTURE)
    (hfail : D.expbuf buffer_index 0 = none) :
    (map_buffer D st buffer_index log).2
      = log ++ [Setup_Event.QUERYBUF (querybuf_payload st buffer_index) (some buf),
          Setup_Event.EXPBUF buffer_index 0 none,
          Setup_Event.MMAP buf.length st._device_file_descriptor_ buf.m_offset
            (D.mmap buf.length st._device_file_descriptor_ buf.m_offset)] := by
  unfold map_buffer
  rw [hq]
  simp only []
  rw [if_pos hs]
  simp only [export_and_map, if_true, hfail]
  rw [map_plane_log_eq]
  simp [mapped_resize]

theorem map_buffer_single_expbuf_ok (D : Device) (st : V4L2_Backend) (buffer_index : Nat)
    (log : List Setup_Event) (buf : v4l2_buffer) (fd : Int)
    (hq : D.querybuf (querybuf_payload st buffer_index) = some buf)
    (hs : st._buffer_plane_type_ = v4l2_buf_type.V4L2_BUF_TYPE_VIDEO_CAPTURE)
    (hfd : D.expbuf buffer_index 0 = some fd) :
    (map_buffer D st buffer_index log).2
      = log ++ [Setup_Event.QUERYBUF (querybuf_payload st buffer_index) (some buf),
          Setup_Event.EXPBUF buffer_index 0 (some fd),
          Setup_Event.MMAP buf.length fd 0 (D.mmap buf.length fd 0)] := by
  unfold map_buffer
  rw [hq]
  simp only []
  rw [if_pos hs]
  simp only [export_and_map, if_true, hfd]
  rw [map_plane_log_eq]
  simp

theorem map_buffer_mplane_expbuf_failed (D : Device) (st : V4L2_Backend) (buffer_index : Nat)
    (log : List Setup_Event) (buf : v4l2_buffer)
    (hq : D.querybuf (querybuf_payload st buffer_index) = some buf)
    (hs : st._buffer_plane_type_ ≠ v4l2_buf_type.V4L2_BUF_TYPE_VIDEO_CAPTURE)
    (hp : 1 ≤ num_planes st)
    (hfail : D.expbuf buffer_index 0 = none) :
    ∃ k, 1 ≤ k ∧ k ≤ num_planes st
      ∧ (map_buffer D st buffer_index log).2
          = log ++ Setup_Event.QUERYBUF (querybuf_payload st buffer_index) (some buf)
              :: Setup_Event.EXPBUF buffer_index 0 none
              :: device_mmap_events D st._device_file_descriptor_ buf 0 k
      ∧ (∀ st2, (map_buffer D st buffer_index log).1 = Outcome.ok st2 → k = num_planes st) := by
  obtain ⟨m, hm⟩ : ∃ m, num_planes st = m + 1 := ⟨num_planes st - 1, by omega⟩
  obtain ⟨k, hk1, hk2, hlog, hall⟩ := map_planes_expbuf_failed D buffer_index buf m 0
    (mapped_resize st buffer_index (num_planes st))
    (log ++ [Setup_Event.QUERYBUF (querybuf_payload st buffer_index) (some buf)]) hfail
  have hmb : map_buffer D st buffer_index log
      = map_planes D buffer_index buf (m + 1) 0 true
          (mapped_resize st buffer_index (num_planes st))
          (log ++ [Setup_Event.QUERYBUF (querybuf_payload st buffer_index) (some buf)]) := by
    unfold map_buffer
    rw [hq]
    simp only []
    rw [if_neg hs, hm]
  refine ⟨k, hk1, by omega, ?_, ?_⟩
  · rw [hmb, hlog]
    simp [mapped_resize]
  · intro st2 h2
    rw [hmb] at h2
    rw [hm]
    exact hall st2 h2

theorem mmap_spans_append (a b : List Setup_Event) :
    mmap_spans (a ++ b) = mmap_spans a ++ mmap_spans b := by
  simp [mmap_spans, List.filterMap_append]

theorem map_plane_ok (D : Device) (st st1 : V4L2_Backend)
    (buffer_index plane_index length : Nat) (fd : Int) (offset : Nat)
    (log log1 : List Setup_Event)
    (h : map_plane D st buffer_index plane_index length fd offset log = (Outcome.ok st1, log1)) :
    log1 = log ++ [Setup_Event.MMAP length fd offset (D.mmap length fd offset)]
    ∧ D.mmap length fd offset ≠ MAP_FAILED
    ∧ ∃ row, st._mapped_buffers_[buffer_index]? = some row ∧ plane_index < row.length
        ∧ st1._mapped_buffers_ = st._mapped_buffers_.set buffer_index
            (row.set plane_index { data := D.mmap length fd offset, size := length }) := by
  unfold map_plane at h
  cases hw : mapped_write st buffer_index plane_index
      { data := D.mmap length fd offset, size := length } with
  | none =>
      rw [hw] at h
      have := congrArg Prod.fst h
      simp at this
  | some st2 =>
      rw [hw] at h
      simp only [] at h
      split_ifs at h with hf
      · have := congrArg Prod.fst h
        simp at this
      · have h1 := congrArg Prod.fst h
        have h2 := congrArg Prod.snd h
        simp only [] at h1 h2
        have hst : st2 = st1 := Outcome.ok.inj h1
        refine ⟨h2.symm, hf, ?_⟩
        unfold mapped_write at hw
        cases hrow : st._mapped_buffers_[buffer_index]? with
        | none => rw [hrow] at hw; simp at hw
        | some row =>
            rw [hrow] at hw
            simp only [] at hw
            split_ifs at hw with hj
            refine ⟨row, rfl, hj, ?_⟩
            rw [← hst, ← Option.some.inj hw]

theorem export_and_map_ok (D : Device) (st st1 : V4L2_Backend)
    (buffer_index plane_index : Nat) (dmabuf : Bool) (buf_length length offset : Nat)
    (log log1 : List Setup_Event)
    (h : (export_and_map D st buffer_index plane_index dmabuf buf_length length offset log).1
      = (Outcome.ok st1, log1)) :
    ∃ ext sp, log1 = log ++ ext
      ∧ (∀ e ∈ ext, is_plane_mapping e = true)
      ∧ mmap_spans ext = [sp]
      ∧ sp.data ≠ MAP_FAILED
      ∧ ∃ row, st._mapped_buffers_[buffer_index]? = some row ∧ plane_index < row.length
          ∧ st1._mapped_buffers_ = st._mapped_buffers_.set buffer_index
              (row.set plane_index sp) := by
  unfold export_and_map at h
  split_ifs at h with hd
  · cases hx : D.expbuf buffer_index plane_index with
    | none =>
        rw [hx] at h
        simp only [] at h
        obtain ⟨hl, hf, row, hrow, hj, hm⟩ := map_plane_ok _ _ _ _ _ _ _ _ _ _ h
        refine ⟨[Setup_Event.EXPBUF buffer_index plane_index none,
          Setup_Event.MMAP length st._device_file_descriptor_ offset
            (D.mmap length st._device_file_descriptor_ offset)], _, ?_, ?_, rfl, hf,
          row, hrow, hj, hm⟩
        · rw [hl]; simp
        · intro e he
          simp at he
          rcases he with he | he <;> rw [he] <;> rfl
    | some fd =>
        rw [hx] at h
        simp only [] at h
        obtain ⟨hl, hf, row, hrow, hj, hm⟩ := map_plane_ok _ _ _ _ _ _ _ _ _ _ h
        refine ⟨[Setup_Event.EXPBUF buffer_index plane_index (some fd),
          Setup_Event.MMAP length fd 0 (D.mmap length fd 0)], _, ?_, ?_, rfl, hf,
          row, hrow, hj, hm⟩
        · rw [hl]; simp
        · intro e he
          simp at he
          rcases he with he | he <;> rw [he] <;> rfl
  · obtain ⟨hl, hf, row, hrow, hj, hm⟩ := map_plane_ok _ _ _ _ _ _ _ _ _ _ h
    refine ⟨[Setup_Event.MMAP length st._device_file_descriptor_ offset
        (D.mmap length st._device_file_descriptor_ offset)], _, hl, ?_, rfl, hf,
      row, hrow, hj, hm⟩
    intro e he
    simp at he
    rw [he]; rfl

theorem row_set_split (row : List Span) (p : Nat) (sp : Span) (hp : p < row.length) :
    (row.set p sp).take (p + 1) = row.take p ++ [sp] := by
  induction row generalizing p with
  | nil => simp at hp
  | cons a rest ih =>
      cases p with
      | zero => simp
      | succ q =>
          simp only [List.set_cons_succ, List.take_succ_cons, List.cons_append, List.cons.injEq,
            true_and]
          exact ih q (by simpa using hp)

theorem row_set_drop (row : List Span) (p m : Nat) (sp : Span) (hpm : p < m) :
    (row.set p sp).drop m = row.drop m := by
  induction row generalizing p m with
  | nil => simp
  | cons a rest ih =>
      cases m with
      | zero => omega
      | succ m1 =>
          cases p with
          | zero => simp
          | succ q =>
              simp only [List.set_cons_succ, List.drop_succ_cons]
              exact ih q m1 (by omega)

theorem rows_set_same (M : List Multiplanar_Buffer_View) (i : Nat) (row : List Span)
    (h : M[i]? = some row) : M.set i row = M := by
  induction M generalizing i with
  | nil => simp at h
  | cons a rest ih =>
      cases i with
      | zero =>
          simp at h
          simp [h]
      | succ j =>
          simp at h
          simp [ih j h]

theorem map_planes_ok (D : Device) (buffer_index : Nat) (buf : v4l2_buffer) (n : Nat) :
    ∀ (plane_index : Nat) (dmabuf : Bool) (st st1 : V4L2_Backend) (log log1 : List Setup_Event)
      (row : List Span),
      map_planes D buffer_index buf n plane_index dmabuf st log = (Outcome.ok st1, log1) →
      st._mapped_buffers_[buffer_index]? = some row →
      ∃ ext, log1 = log ++ ext
        ∧ (∀ e ∈ ext, is_plane_mapping e = true)
        ∧ (mmap_spans ext).length = n
        ∧ (∀ sp ∈ mmap_spans ext, sp.data ≠ MAP_FAILED)
        ∧ st1._mapped_buffers_ = st._mapped_buffers_.set buffer_index
            (row.take plane_index ++ mmap_spans ext ++ row.drop (plane_index + n)) := by
  induction n with
  | zero =>
      intro plane_index dmabuf st st1 log log1 row h hrow
      simp only [map_planes] at h
      have h1 := congrArg Prod.fst h
      have h2 := congrArg Prod.snd h
      simp only [] at h1 h2
      have hst : st = st1 := Outcome.ok.inj h1
      refine ⟨[], by rw [← h2]; simp, by simp, rfl, by simp [mmap_spans], ?_⟩
      rw [← hst]
      simp [mmap_spans, rows_set_same _ _ _ hrow]
  | succ n ih =>
      intro plane_index dmabuf st st1 log log1 row h hrow
      simp only [map_planes] at h
      rcases hr : export_and_map D st buffer_index plane_index dmabuf buf.length
        (buf.planes.getD plane_index {}).length (buf.planes.getD plane_index {}).m_mem_offset log
        with ⟨⟨o, l⟩, d⟩
      rw [hr] at h
      cases o with
      | raised e =>
          simp only [] at h
          have := congrArg Prod.fst h
          simp at this
      | undefined =>
          simp only [] at h
          have := congrArg Prod.fst h
          simp at this
      | ok st2 =>
          simp only [] at h
          have hr1 : (export_and_map D st buffer_index plane_index dmabuf buf.length
              (buf.planes.getD plane_index {}).length
              (buf.planes.getD plane_index {}).m_mem_offset log).1 = (Outcome.ok st2, l) := by
            rw [hr]
          obtain ⟨ext1, sp, hl1, hp1, hs1, hf1, row0, hrow0, hj, hm1⟩ :=
            export_and_map_ok _ _ _ _ _ _ _ _ _ _ _ hr1
          have hrr : row0 = row := Option.some.inj (hrow0.symm.trans hrow)
          rw [hrr] at hj hm1
          have hi : buffer_index < st._mapped_buffers_.length := by
            rcases Nat.lt_or_ge buffer_index st._mapped_buffers_.length with hlt | hge
            · exact hlt
            · rw [List.getElem?_eq_none hge] at hrow
              simp at hrow
          have hrow2 : st2._mapped_buffers_[buffer_index]? = some (row.set plane_index sp) := by
            rw [hm1]
            simp [List.getElem?_set, hi]
          obtain ⟨ext2, hl2, hp2, hs2, hf2, hm2⟩ := ih _ _ _ _ _ _ _ h hrow2
          refine ⟨ext1 ++ ext2, ?_, ?_, ?_, ?_, ?_⟩
          · rw [hl2, hl1, List.append_assoc]
          · intro e he
            rcases List.mem_append.1 he with h1 | h1
            · exact hp1 e h1
            · exact hp2 e h1
          · rw [mmap_spans_append, hs1, List.length_append, hs2]
            simp
            omega
          · intro x hx
            rw [mmap_spans_append, hs1] at hx
            rcases List.mem_append.1 hx with h1 | h1
            · rw [List.mem_singleton.1 h1]; exact hf1
            · exact hf2 x h1
          · rw [hm2, hm1, List.set_set, row_set_split row plane_index sp hj,
              row_set_drop row plane_index (plane_index + 1 + n) sp (by omega),
              mmap_spans_append, hs1]
            have : plane_index + 1 + n = plane_index + (n + 1) := by omega
            rw [this]
            simp

theorem map_buffer_ok (D : Device) (st st1 : V4L2_Backend) (buffer_index : Nat)
    (log log1 : List Setup_Event)
    (h : map_buffer D st buffer_index log = (Outcome.ok st1, log1))
    (hi : buffer_index < st._mapped_buffers_.length) :
    ∃ buf planes row1,
      log1 = log ++ Setup_Event.QUERYBUF (querybuf_payload st buffer_index) (some buf) :: planes
      ∧ (∀ e ∈ planes, is_plane_mapping e = true)
      ∧ (mmap_spans planes).length = mapped_planes_count st
      ∧ (∀ sp ∈ mmap_spans planes, sp.data ≠ MAP_FAILED)
      ∧ st1._mapped_buffers_ = st._mapped_buffers_.set buffer_index row1
      ∧ ∀ plane, plane < mapped_planes_count st → row1[plane]? = (mmap_spans planes)[plane]? := by
  have hrow : (mapped_resize st buffer_index (num_planes st))._mapped_buffers_[buffer_index]?
      = some (List.replicate (num_planes st) { data := 0, size := 0 }) := by
    simp [mapped_resize, List.getElem?_set, hi]
  unfold map_buffer at h
  cases hq : D.querybuf (querybuf_payload st buffer_index) with
  | none =>
      rw [hq] at h
      have := congrArg Prod.fst h
      simp at this
  | some buf =>
      rw [hq] at h
      simp only [] at h
      split_ifs at h with hs
      · obtain ⟨ext, sp, hl, hp, hsp, hf, row0, hrow0, hj, hm⟩ :=
          export_and_map_ok _ _ _ _ _ _ _ _ _ _ _ h
        refine ⟨buf, ext, row0.set 0 sp, ?_, hp, ?_, ?_, ?_, ?_⟩
        · rw [hl]; simp
        · rw [hsp]; simp [mapped_planes_count, hs]
        · intro x hx
          rw [hsp] at hx
          rw [List.mem_singleton.1 hx]; exact hf
        · rw [hm]
          simp [mapped_resize, List.set_set]
        · intro plane hplane
          have h0 : plane = 0 := by
            simp [mapped_planes_count, hs] at hplane
            exact hplane
          rw [h0, hsp]
          simp [List.getElem?_set, hj]
      · obtain ⟨ext, hl, hp, hlen, hf, hm⟩ :=
          map_planes_ok D buffer_index buf (num_planes st) 0 true _ _ _ _ _ h hrow
        refine ⟨buf, ext, mmap_spans ext, ?_, hp, ?_, hf, ?_, fun _ _ => rfl⟩
        · rw [hl]; simp
        · rw [hlen]; simp [mapped_planes_count, hs]
        · rw [hm]
          simp [mapped_resize, List.set_set]

theorem querybuf_payload_stable (st st1 : V4L2_Backend) (hs : Stable st st1) (i : Nat) :
    querybuf_payload st1 i = querybuf_payload st i := by
  obtain ⟨h1, _, h3, _, _, h6, _, _⟩ := hs
  simp only [querybuf_payload, get_memory_mapping_type_v4l2, num_planes, h1, h3, h6]

theorem mapped_planes_count_stable (st st1 : V4L2_Backend) (hs : Stable st st1) :
    mapped_planes_count st1 = mapped_planes_count st := by
  obtain ⟨_, _, h3, _, _, h6, _, _⟩ := hs
  simp only [mapped_planes_count, num_planes, h3, h6]

theorem map_buffers_ok (D : Device) (n : Nat) :
    ∀ (b : Nat) (st st1 : V4L2_Backend) (log log1 : List Setup_Event),
      map_buffers D n b st log = (Outcome.ok st1, log1) →
      b + n ≤ st._mapped_buffers_.length →
      ∃ segs : List (List Setup_Event),
        log1 = log ++ segs.flatten
        ∧ segs.length = n
        ∧ st1._mapped_buffers_.length = st._mapped_buffers_.length
        ∧ (∀ k, k < b → st1._mapped_buffers_[k]? = st._mapped_buffers_[k]?)
        ∧ ∀ t, t < n → ∃ seg, segs[t]? = some seg ∧ Slot_Mapped st1 (b + t) seg := by
  induction n with
  | zero =>
      intro b st st1 log log1 h _
      simp only [map_buffers] at h
      have h1 := congrArg Prod.fst h
      have h2 := congrArg Prod.snd h
      simp only [] at h1 h2
      have hst : st = st1 := Outcome.ok.inj h1
      refine ⟨[], by rw [← h2]; simp, rfl, by rw [hst], fun k _ => by rw [hst], ?_⟩
      intro t ht
      omega
  | succ n ih =>
      intro b st st1 log log1 h hb
      have hstable : Stable st st1 := by
        have := (map_buffers_extends D (n + 1) b st log).2.2
        rw [h] at this
        exact this st1 rfl
      simp only [map_buffers] at h
      rcases hr : map_buffer D st b log with ⟨o, l⟩
      rw [hr] at h
      cases o with
      | raised e =>
          simp only [] at h
          have := congrArg Prod.fst h
          simp at this
      | undefined =>
          simp only [] at h
          have := congrArg Prod.fst h
          simp at this
      | ok st2 =>
          simp only [] at h
          obtain ⟨buf, planes, row1, hl, hp, hlen, hf, hm, hrowv⟩ :=
            map_buffer_ok D st st2 b log l hr (by omega)
          have hlen2 : st2._mapped_buffers_.length = st._mapped_buffers_.length := by
            rw [hm]; simp
          obtain ⟨segs, hlog, hsl, hml, hkeep, hslots⟩ :=
            ih (b + 1) st2 st1 l log1 h (by rw [hlen2]; omega)
          refine ⟨(Setup_Event.QUERYBUF (querybuf_payload st b) (some buf) :: planes) :: segs,
            ?_, by simp [hsl], hml.trans hlen2, ?_, ?_⟩
          · rw [hlog, hl]; simp
          · intro k hk
            rw [hkeep k (by omega), hm]
            simp [List.getElem?_set]
            intro hbk
            omega
          · intro t ht
            cases t with
            | zero =>
                refine ⟨Setup_Event.QUERYBUF (querybuf_payload st b) (some buf) :: planes,
                  by simp, buf, planes, ?_, hp, ?_, hf, ?_⟩
                · rw [querybuf_payload_stable st st1 hstable]
                  rfl
                · rw [mapped_planes_count_stable st st1 hstable]; exact hlen
                · intro plane hplane
                  rw [mapped_planes_count_stable st st1 hstable] at hplane
                  have hrowb : st1._mapped_buffers_[b]? = some row1 := by
                    rw [hkeep b (by omega), hm]
                    simp [List.getElem?_set]
                    omega
                  simp only [mapped_at, Nat.add_zero, hrowb]
                  exact hrowv plane hplane
            | succ t1 =>
                obtain ⟨seg, hseg, hsm⟩ := hslots t1 (by omega)
                refine ⟨seg, by simpa using hseg, ?_⟩
                have : b + (t1 + 1) = b + 1 + t1 := by omega
                rw [this]
                exact hsm

theorem setup_buffers_mmap_mapped (D : Device) (st st1 : V4L2_Backend) (count : Nat)
    (log log1 : List Setup_Event)
    (hmem : st._configuration_.buffering = Buffering.Internal)
    (h : setup_buffers D st count log = (Outcome.ok st1, log1)) :
    st1._num_buffers_ = count
    ∧ ∃ segs : List (List Setup_Event),
        log1 = log ++ segs.flatten ++ initial_qbuf_events st1 count 0
        ∧ (∀ e ∈ segs.flatten, is_mapping e = true)
        ∧ querybuf_slots segs.flatten = List.range' 0 count
        ∧ segs.length = count
        ∧ st1._mapped_buffers_.length = count
        ∧ ∀ slot, slot < count → ∃ seg, segs[slot]? = some seg ∧ Slot_Mapped st1 slot seg := by
  obtain ⟨hn, maps, hlog, hp, hs⟩ := setup_buffers_mmap_ok D st st1 count log log1 hmem h
  refine ⟨hn, ?_⟩
  have hm : get_memory_mapping_type_v4l2 st = v4l2_memory.V4L2_MEMORY_MMAP := by
    simp [get_memory_mapping_type_v4l2, hmem]
  unfold setup_buffers at h
  rw [if_pos (Or.inl hm)] at h
  have hmaps := map_buffers_appends D count 0
    { st with _num_buffers_ := count,
              _buffer_dma_fds_ := List.replicate count [],
              _mapped_buffers_ := List.replicate count [] } log
  rcases hr : map_buffers D count 0
    { st with _num_buffers_ := count,
              _buffer_dma_fds_ := List.replicate count [],
              _mapped_buffers_ := List.replicate count [] } log with ⟨o, l⟩
  rw [hr] at h hmaps
  cases o with
  | ok st2 =>
      simp only [] at h
      have hn2 : st2._num_buffers_ = count := hmaps.2 st2 rfl
      rw [hn2] at h
      obtain ⟨hst, hlog2⟩ := initial_qbufs_ok D st2 count 0 l log1 st1 h
      obtain ⟨segs, hl, hsl, hml, _, hslots⟩ := map_buffers_ok D count 0 _ _ _ _ hr (by simp)
      have hsame : maps = segs.flatten := by
        have h1 : log ++ maps ++ initial_qbuf_events st1 count 0
            = log ++ segs.flatten ++ initial_qbuf_events st1 count 0 := by
          rw [← hlog, hlog2, hl, hst]
        exact List.append_cancel_left (List.append_cancel_right h1)
      rw [hsame] at hlog hp hs
      refine ⟨segs, hlog, hp, hs, hsl, ?_, ?_⟩
      · rw [hst, hml]; simp
      · intro slot hslot
        obtain ⟨seg, hseg, hsm⟩ := hslots slot hslot
        rw [Nat.zero_add] at hsm
        rw [hst]
        exact ⟨seg, hseg, hsm⟩
  | raised e =>
      simp only [] at h
      have := congrArg Prod.fst h
      simp at this
  | undefined =>
      simp only [] at h
      have := congrArg Prod.fst h
      simp at this

theorem setup_buffering_mmap_mapped (D : Device) (st st1 : V4L2_Backend)
    (log log1 : List Setup_Event)
    (hmem : st._configuration_.buffering = Buffering.Internal)
    (h : setup_buffering D st log = (Outcome.ok st1, log1)) :
    ∃ count, ∃ segs : List (List Setup_Event),
      D.reqbufs st._configuration_.num_buffers st._buffer_plane_type_
          v4l2_memory.V4L2_MEMORY_MMAP = some count
      ∧ 1 ≤ count
      ∧ st1._num_buffers_ = count
      ∧ log1 = log ++ [Setup_Event.REQBUFS st._configuration_.num_buffers
            st._buffer_plane_type_ v4l2_memory.V4L2_MEMORY_MMAP (some count)]
          ++ segs.flatten ++ initial_qbuf_events st1 count 0
      ∧ (∀ e ∈ segs.flatten, is_mapping e = true)
      ∧ querybuf_slots segs.flatten = List.range' 0 count
      ∧ segs.length = count
      ∧ st1._mapped_buffers_.length = count
      ∧ ∀ slot, slot < count → ∃ seg, segs[slot]? = some seg ∧ Slot_Mapped st1 slot seg := by
  have hm : get_memory_mapping_type_v4l2 st = v4l2_memory.V4L2_MEMORY_MMAP := by
    simp [get_memory_mapping_type_v4l2, hmem]
  unfold setup_buffering at h
  rw [hm] at h
  cases hr : D.reqbufs st._configuration_.num_buffers st._buffer_plane_type_
      v4l2_memory.V4L2_MEMORY_MMAP with
  | none =>
      rw [hr] at h
      have := congrArg Prod.fst h
      simp at this
  | some count =>
      rw [hr] at h
      simp only [] at h
      split_ifs at h with hc
      · have := congrArg Prod.fst h
        simp at this
      · obtain ⟨hn, segs, hlog, hp, hs, hsl, hml, hslots⟩ :=
          setup_buffers_mmap_mapped D st st1 count _ log1 hmem h
        exact ⟨count, segs, rfl, by omega, hn, hlog, hp, hs, hsl, hml, hslots⟩

theorem construct_mmap_mapped (params : Stream_Configuration) (D : Device) (st : V4L2_Backend)
    (log : List Setup_Event) (hmode : params.buffering = Buffering.Internal)
    (h : construct params D = (Outcome.ok st, log)) :
    ∃ dev count, ∃ segs : List (List Setup_Event),
      D.reqbufs params.num_buffers st._buffer_plane_type_ v4l2_memory.V4L2_MEMORY_MMAP
        = some count
      ∧ 1 ≤ count
      ∧ st._num_buffers_ = count
      ∧ log = dev ++ [Setup_Event.REQBUFS params.num_buffers st._buffer_plane_type_
            v4l2_memory.V4L2_MEMORY_MMAP (some count)]
          ++ segs.flatten ++ initial_qbuf_events st count 0
          ++ [Setup_Event.STREAMON st._buffer_plane_type_ true]
      ∧ (∀ e ∈ dev, is_device_setup e = true)
      ∧ (∀ e ∈ segs.flatten, is_mapping e = true)
      ∧ querybuf_slots segs.flatten = List.range' 0 count
      ∧ segs.length = count
      ∧ st._mapped_buffers_.length = count
      ∧ ∀ slot, slot < count → ∃ seg, segs[slot]? = some seg ∧ Slot_Mapped st slot seg := by
  obtain ⟨st0, st1, l1, l2, _, hdev, hbuf, hlog, hcfg⟩ := construct_ok_steps params D st log h
  obtain ⟨dev, hl1, hpdev⟩ := setup_device_device_log D st0 []
  rw [hdev] at hl1
  simp only [List.nil_append] at hl1
  have hstable := (setup_buffering_extends D st1 l1).2.2
  rw [hbuf] at hstable
  have htype : st._buffer_plane_type_ = st1._buffer_plane_type_ := (hstable st rfl).2.2.2.2.2.1
  obtain ⟨count, segs, hreq, hcount, hn, hl2, hpmaps, hslots, hsl, hml, hsm⟩ :=
    setup_buffering_mmap_mapped D st1 st l1 l2 (by rw [hcfg]; exact hmode) hbuf
  rw [hcfg, ← htype] at hreq hl2
  refine ⟨dev, count, segs, hreq, hcount, hn, ?_, hpdev, hpmaps, hslots, hsl, hml, hsm⟩
  rw [hlog, hl2, hl1]

theorem take_span_loop_congr (st st0 : V4L2_Backend) (buf : v4l2_buffer) (n : Nat) :
    ∀ (p : Nat) (c : Multiplanar_Buffer_View),
      (∀ plane, p ≤ plane → plane < p + n →
        mapped_at st0 buf.index plane = mapped_at st buf.index plane) →
      take_span_loop st0 buf n p c = take_span_loop st buf n p c := by
  induction n with
  | zero => intro p c _; rfl
  | succ n ih =>
      intro p c h
      simp only [take_span_loop]
      rw [h p (Nat.le_refl _) (by omega)]
      cases mapped_at st buf.index p with
      | none => rfl
      | some sp =>
          simp only []
          exact ih (p + 1) _ (fun plane h1 h2 => h plane (by omega) (by omega))

theorem take_span_congr (st st0 : V4L2_Backend) (hwf : WellFormed st) (buf : v4l2_buffer)
    (c : Multiplanar_Buffer_View)
    (hcfg : st0._configuration_ = st._configuration_)
    (hfmt : st0._v4l2_capture_format_ = st._v4l2_capture_format_)
    (h : ∀ plane, plane < num_planes st →
      mapped_at st0 buf.index plane = mapped_at st buf.index plane) :
    take_span st0 buf c = take_span st buf c := by
  have hnp : num_planes st0 = num_planes st := by simp only [num_planes, hfmt]
  have hty : get_buffer_type_v4l2 st0 = get_buffer_type_v4l2 st := by
    simp only [get_buffer_type_v4l2, hcfg]
  unfold take_span
  rw [hty, hnp]
  split_ifs with hm
  · exact take_span_loop_congr st st0 buf (num_planes st) 0 c
      (fun plane _ h2 => h plane (by omega))
  · have h1 : num_planes st = 1 := num_planes_single st hwf hm
    rw [h 0 (by omega)]

theorem mapped_at_out_of_ring (st : V4L2_Backend) (hwf : WellFormed st) (slot plane : Nat)
    (hs : st._num_buffers_ ≤ slot) : mapped_at st slot plane = none := by
  have hlen : st._mapped_buffers_.length = st._num_buffers_ := hwf.2.2.2.2.1
  have hnone : st._mapped_buffers_[slot]? = none :=
    List.getElem?_eq_none (by rw [hlen]; exact hs)
  simp only [mapped_at, hnone]

theorem take_span_single (st : V4L2_Backend) (hwf : WellFormed st) (buf : v4l2_buffer)
    (c : Multiplanar_Buffer_View)
    (hs : get_buffer_type_v4l2 st = v4l2_buf_type.V4L2_BUF_TYPE_VIDEO_CAPTURE) :
    (buf.index < st._num_buffers_ →
      ∃ sp, mapped_at st buf.index 0 = some sp
        ∧ take_span st buf c = some (c ++ [{ data := sp.data, size := buf.bytesused }]))
    ∧ (st._num_buffers_ ≤ buf.index → take_span st buf c = none) := by
  have hm : get_buffer_type_v4l2 st ≠ v4l2_buf_type.V4L2_BUF_TYPE_VIDEO_CAPTURE_MPLANE := by
    rw [hs]; decide
  constructor
  · intro hidx
    have h1 : num_planes st = 1 := num_planes_single st hwf hm
    obtain ⟨sp, hsp⟩ := mapped_at_some st hwf buf.index 0 hidx (by omega)
    refine ⟨sp, hsp, ?_⟩
    unfold take_span
    rw [if_neg hm, hsp]
  · intro hidx
    unfold take_span
    rw [if_neg hm, mapped_at_out_of_ring st hwf buf.index 0 hidx]

theorem get_frame_data_ring_facts (fuel : Nat) (K : Kernel) (st : V4L2_Backend)
    (sys : Syscalls)
    (hmode : st._configuration_.buffering = Buffering.Internal) (hwf : WellFormed st) :
    ∃ view st1 sys1, get_frame_data fuel K st sys = some (view, st1, sys1)
      ∧ (view ≠ [] → ∃ buf, st1._buffer_of_buffers = [buf] ∧ buf.index < st._num_buffers_)
      ∧ (st._configuration_.v4l2.buffer_usage_policy = Internal_Buffering_Strategy.Oldest →
          ∀ b, K.dqbuf sys.nd = dqbuf_result.ok b → st._num_buffers_ ≤ b.index → view = [])
      ∧ (st._configuration_.v4l2.buffer_usage_policy
            = Internal_Buffering_Strategy.Only_Newest →
          (∀ k b, sys.nd ≤ k → k < sys.nd + st._num_buffers_ →
            K.dqbuf k = dqbuf_result.ok b → st._num_buffers_ ≤ b.index) → view = []) := by
  rw [get_frame_data_internal fuel K st sys hmode]
  have hn : 1 ≤ st._num_buffers_ := hwf.2.2.1
  by_cases hready : (try_device K (drain_pending K st._buffer_of_buffers sys)).1 = true
  · cases hpol : st._configuration_.v4l2.buffer_usage_policy with
    | Oldest =>
        rw [get_frame_data_mmap_oldest K st sys hwf hpol hready]
        refine ⟨_, _, _, rfl, ?_, ?_, fun hc => absurd hc (by simp)⟩
        · intro hview
          refine ⟨oldest_buf st (K.dqbuf sys.nd), rfl, ?_⟩
          cases hres : K.dqbuf sys.nd with
          | ok b =>
              rw [hres] at hview
              simp only [oldest_view] at hview
              simp only [oldest_buf]
              by_contra hc
              rw [if_neg hc] at hview
              exact hview rfl
          | error e =>
              simp only [oldest_buf]
              rw [instantiate_buf_index]
              omega
        · intro _ b hb hidx
          rw [hb]
          simp only [oldest_view]
          rw [if_neg (by omega)]
    | Only_Newest =>
        rw [get_frame_data_mmap_only_newest K st sys hwf hpol hready]
        cases hlast : (store_all st
            (stored_buffers K st._num_buffers_ st._num_buffers_ sys.nd) []).getLast? with
        | none =>
            exact ⟨_, _, _, rfl, fun hview => absurd rfl hview, fun hc => absurd hc (by simp),
              fun _ _ => rfl⟩
        | some last =>
            have hmem := List.mem_of_getLast?_eq_some hlast
            have hbuf : last.2.2 ∈ stored_buffers K st._num_buffers_ st._num_buffers_ sys.nd := by
              rcases mem_store_all_buf st _ [] last hmem with h | h
              · exact h
              · exact absurd h (List.not_mem_nil _)
            refine ⟨_, _, _, rfl, fun _ => ⟨last.2.2, rfl, ?_⟩, fun hc => absurd hc (by simp),
              fun _ hall => ?_⟩
            · exact (stored_buffers_index K _ _ _ _ hbuf).1
            · rw [stored_buffers_nil K _ _ _ hall] at hbuf
              exact absurd hbuf (List.not_mem_nil _)
  · have hfalse : (try_device K (drain_pending K st._buffer_of_buffers sys)).1 = false := by
      cases h : (try_device K (drain_pending K st._buffer_of_buffers sys)).1 with
      | true => exact absurd h hready
      | false => rfl
    rw [get_frame_data_mmap_not_ready K st sys hfalse]
    exact ⟨_, _, _, rfl, fun hview => absurd rfl hview, fun _ _ _ _ => rfl, fun _ _ => rfl⟩

/-! ## Claims C21 to C30 -/

/-- C21 (evaluation at the failing input). MMAP mode, Oldest policy, two slots, the
device is ready and every DQBUF answers EAGAIN.  The first `get_frame_data` call returns
the empty view and leaves the zeroed descriptor (index 0) on the pending queue although
its DQBUF failed; the second call starts with a QBUF of slot 0, a slot no DQBUF has
returned. -/
theorem oldest_eagain_requeues_undequeued_slot :
    (get_frame_data 0 (scripted_kernel []) (ring_single Internal_Buffering_Strategy.Oldest 2)
        {}).map (fun r => (r.1, r.2.1._buffer_of_buffers, r.2.2.trace))
      = some ([],
          [{ index := 0, type := v4l2_buf_type.V4L2_BUF_TYPE_VIDEO_CAPTURE,
             memory := v4l2_memory.V4L2_MEMORY_MMAP }],
          [Event.SELECT { r := 1 }, Event.DQBUF (dqbuf_result.error Errno.EAGAIN)])
    ∧ ((get_frame_data 0 (scripted_kernel [])
          (ring_single Internal_Buffering_Strategy.Oldest 2) {}).bind
        (fun r => get_frame_data 0 (scripted_kernel []) r.2.1 r.2.2)).map
          (fun r => r.2.2.trace)
      = some [Event.SELECT { r := 1 }, Event.DQBUF (dqbuf_result.error Errno.EAGAIN),
          Event.QBUF { index := 0, type := v4l2_buf_type.V4L2_BUF_TYPE_VIDEO_CAPTURE,
                       memory := v4l2_memory.V4L2_MEMORY_MMAP } true,
          Event.SELECT { r := 1 }, Event.DQBUF (dqbuf_result.error Errno.EAGAIN)] := by
  decide

/-- C22. Ring lookups are in range: in MMAP mode, on a constructed backend and for every
kernel (any index written back by DQBUF, any `errno`).  (1) `deque_buf` accepts a buffer
only with an index below the ring size.  (2) The ring `_mapped_buffers_` has an entry at
every slot below the ring size and plane below `num_planes()`, and (3) none at a slot at or
above the ring size.  (4) `take_span` reads the ring at the slot `buf.index` and at planes
below `num_planes()` only: its result is the same on every ring that agrees with the
backend's at these entries.  (5) Whenever the call returns: when the view is not empty the
one pending descriptor has an index below the ring size, and a DQBUF that reports an index
at or above the ring size yields no view (under Oldest the view is empty, under
Only_Newest it is when every successful DQBUF of the call reports such an index).  (6) For
single-plane capture the call returns, and `take_span` on an accepted buffer finds plane 0
of its slot and appends the span of `buf.bytesused` bytes over it, while on an index at or
above the ring size the lookup is out of range.  For multi-plane capture nothing is stated
about the span lengths or about the call being free of undefined reads: the source reads
the lengths through `buf.m.planes`, which `instantiate_buf` leaves pointing at an array
whose lifetime has ended. -/
theorem ring_lookups_in_range (fuel : Nat) (K : Kernel) (st : V4L2_Backend) (sys : Syscalls)
    (hmode : st._configuration_.buffering = Buffering.Internal) (hwf : WellFormed st) :
    (∀ buf sys0, (deque_buf K st buf sys0).1 = true →
        (deque_buf K st buf sys0).2.1.index < st._num_buffers_)
    ∧ (∀ slot plane, slot < st._num_buffers_ → plane < num_planes st →
        ∃ sp, mapped_at st slot plane = some sp)
    ∧ (∀ slot plane, st._num_buffers_ ≤ slot → mapped_at st slot plane = none)
    ∧ (∀ (st0 : V4L2_Backend) buf collected_planes,
        st0._configuration_ = st._configuration_ →
        st0._v4l2_capture_format_ = st._v4l2_capture_format_ →
        (∀ plane, plane < num_planes st →
          mapped_at st0 buf.index plane = mapped_at st buf.index plane) →
        take_span st0 buf collected_planes = take_span st buf collected_planes)
    ∧ (∀ view st1 sys1, get_frame_data fuel K st sys = some (view, st1, sys1) →
        (view ≠ [] → ∃ buf, st1._buffer_of_buffers = [buf] ∧ buf.index < st._num_buffers_)
        ∧ (st._configuration_.v4l2.buffer_usage_policy = Internal_Buffering_Strategy.Oldest →
            ∀ b, K.dqbuf sys.nd = dqbuf_result.ok b → st._num_buffers_ ≤ b.index → view = [])
        ∧ (st._configuration_.v4l2.buffer_usage_policy
              = Internal_Buffering_Strategy.Only_Newest →
            (∀ k b, sys.nd ≤ k → k < sys.nd + st._num_buffers_ →
              K.dqbuf k = dqbuf_result.ok b → st._num_buffers_ ≤ b.index) → view = []))
    ∧ (get_buffer_type_v4l2 st = v4l2_buf_type.V4L2_BUF_TYPE_VIDEO_CAPTURE →
        (∃ view st1 sys1, get_frame_data fuel K st sys = some (view, st1, sys1))
        ∧ ∀ buf collected_planes,
            (buf.index < st._num_buffers_ →
              ∃ sp, mapped_at st buf.index 0 = some sp
                ∧ take_span st buf collected_planes
                    = some (collected_planes ++ [{ data := sp.data, size := buf.bytesused }]))
            ∧ (st._num_buffers_ ≤ buf.index → take_span st buf collected_planes = none)) := by
  obtain ⟨view0, st10, sys10, hrun, hfacts⟩ := get_frame_data_ring_facts fuel K st sys hmode hwf
  refine ⟨fun buf sys0 h => deque_buf_index K st buf sys0 h,
    fun slot plane hs hp => mapped_at_some st hwf slot plane hs hp,
    fun slot plane hs => mapped_at_out_of_ring st hwf slot plane hs,
    fun st0 buf c hcfg hfmt h => take_span_congr st st0 hwf buf c hcfg hfmt h,
    ?_, fun hs => ⟨⟨view0, st10, sys10, hrun⟩, fun buf c => take_span_single st hwf buf c hs⟩⟩
  intro view st1 sys1 h
  have heq : (view0, st10, sys10) = (view, st1, sys1) := Option.some.inj (hrun.symm.trans h)
  have hv : view0 = view := congrArg Prod.fst heq
  have hs1 : st10 = st1 := congrArg (fun r => r.2.1) heq
  rw [hv, hs1] at hfacts
  exact hfacts

/-- C22 (witness). Instances: two slots, single-plane capture, Oldest, the device is ready.
When the DQBUF writes back index 7 the call returns the empty view.  When it writes back
index 1 the call returns the span over the mapping of slot 1 and keeps that descriptor
pending; `take_span` on that buffer finds plane 0 of slot 1. -/
theorem ring_lookups_in_range_witness :
    (∃ st1 sys1, get_frame_data 0 (scripted_kernel [dqbuf_result.ok (frame 7 1 500 100)])
        (ring_single Internal_Buffering_Strategy.Oldest 2) {} = some ([], st1, sys1))
    ∧ (∃ view st1 sys1, get_frame_data 0 (scripted_kernel [dqbuf_result.ok (frame 1 1 500 100)])
        (ring_single Internal_Buffering_Strategy.Oldest 2) {} = some (view, st1, sys1)
        ∧ view = [{ data := 8192, size := 100 }]
        ∧ ∃ buf, st1._buffer_of_buffers = [buf] ∧ buf.index < 2)
    ∧ (∃ sp, mapped_at (ring_single Internal_Buffering_Strategy.Oldest 2) 1 0 = some sp
        ∧ take_span (ring_single Internal_Buffering_Strategy.Oldest 2) (frame 1 1 500 100) []
            = some [{ data := sp.data, size := 100 }])
    ∧ take_span (ring_single Internal_Buffering_Strategy.Oldest 2) (frame 7 1 500 100) []
        = none := by
  refine ⟨?_, ?_, ?_, ?_⟩
  · obtain ⟨_, _, _, _, hfacts, hsingle⟩ := ring_lookups_in_range 0
      (scripted_kernel [dqbuf_result.ok (frame 7 1 500 100)])
      (ring_single Internal_Buffering_Strategy.Oldest 2) {} rfl (by decide)
    obtain ⟨⟨view, st1, sys1, hrun⟩, _⟩ := hsingle rfl
    have hview := (hfacts view st1 sys1 hrun).2.1 rfl (frame 7 1 500 100) rfl (by decide)
    rw [hview] at hrun
    exact ⟨st1, sys1, hrun⟩
  · obtain ⟨_, _, _, _, hfacts, hsingle⟩ := ring_lookups_in_range 0
      (scripted_kernel [dqbuf_result.ok (frame 1 1 500 100)])
      (ring_single Internal_Buffering_Strategy.Oldest 2) {} rfl (by decide)
    obtain ⟨⟨view, st1, sys1, hrun⟩, _⟩ := hsingle rfl
    have hv : view = [{ data := 8192, size := 100 }] := by
      have hfst := congrArg (Option.map (fun r => r.1)) hrun
      have hval : Option.map (fun r => r.1)
          (get_frame_data 0 (scripted_kernel [dqbuf_result.ok (frame 1 1 500 100)])
            (ring_single Internal_Buffering_Strategy.Oldest 2) {})
          = some [{ data := 8192, size := 100 }] := by decide
      rw [hval] at hfst
      exact (Option.some.inj hfst).symm
    exact ⟨view, st1, sys1, hrun, hv, (hfacts view st1 sys1 hrun).1 (by rw [hv]; simp)⟩
  · obtain ⟨_, _, _, _, _, hsingle⟩ := ring_lookups_in_range 0
      (scripted_kernel [dqbuf_result.ok (frame 1 1 500 100)])
      (ring_single Internal_Buffering_Strategy.Oldest 2) {} rfl (by decide)
    exact ((hsingle rfl).2 (frame 1 1 500 100) []).1 (by decide)
  · obtain ⟨_, _, _, _, _, hsingle⟩ := ring_lookups_in_range 0
      (scripted_kernel [dqbuf_result.ok (frame 1 1 500 100)])
      (ring_single Internal_Buffering_Strategy.Oldest 2) {} rfl (by decide)
    exact ((hsingle rfl).2 (frame 7 1 500 100) []).2 (by decide)

/-- C23 (evaluation at the failing input). `select` returns `-1` with an `errno` other
than EINTR: `try_device` returns true, and the `get_frame_data` call that made the wait
goes on to its DQBUF.  The other three cases are as claimed: false on a timeout, false on
EINTR, true when the fd is ready. -/
theorem try_device_true_on_select_error :
    (try_device failing_select_kernel {}).1 = true
    ∧ (get_frame_data 0 failing_select_kernel
          (ring_single Internal_Buffering_Strategy.Oldest 2) {}).map (fun r => r.2.2.trace)
        = some [Event.SELECT { r := -1, errno := Errno.OTHER },
                Event.DQBUF (dqbuf_result.error Errno.EAGAIN)]
    ∧ (try_device stalled_kernel {}).1 = false
    ∧ (try_device interrupted_kernel {}).1 = false
    ∧ (try_device (scripted_kernel []) {}).1 = true := by
  decide

/-- C24 (evaluation at the failing input). MMAP mode, single-plane capture, Oldest
policy, one slot; the DQBUF hands back slot 0 with `bytesused = 100`.  With a caller
buffer of one plane of 10 bytes, shorter than the frame, `put_frame_data` returns the
row `[100]`, not zeros.  The other two cases are as claimed: a caller buffer with no
plane gets the row `[0]`, a caller buffer of 4096 bytes gets `[100]`. -/
theorem put_frame_data_short_plane_reports_bytesused :
    (put_frame_data 0 (scripted_kernel [dqbuf_result.ok (frame 0 1 500 100)])
        (ring_single Internal_Buffering_Strategy.Oldest 1)
        [[{ data := 65536, size := 10 }]] {}).map (fun r => r.1) = some [[100]]
    ∧ (put_frame_data 0 (scripted_kernel [dqbuf_result.ok (frame 0 1 500 100)])
        (ring_single Internal_Buffering_Strategy.Oldest 1) [[]] {}).map (fun r => r.1)
      = some [[0]]
    ∧ (put_frame_data 0 (scripted_kernel [dqbuf_result.ok (frame 0 1 500 100)])
        (ring_single Internal_Buffering_Strategy.Oldest 1)
        [[{ data := 65536, size := 4096 }]] {}).map (fun r => r.1) = some [[100]] := by
  decide

/-- C25. Initial priming: the log of a successful construction in MMAP mode is the calls
of `setup_device`, the REQBUFS that grants `N` buffers (at least one; `N` is the count the
driver wrote back, stored in `_num_buffers_`, not the configured count), the mapping calls,
then one successful QBUF for each slot 0, ..., N-1 in increasing order, then STREAMON.
These are the only QBUFs of the log.  The mapping calls are `N` segments, one for each slot
0, ..., N-1 in order, and the segment of a slot is its mapping (`Slot_Mapped`): the
successful QUERYBUF of the slot, then EXPBUF and `mmap` entries only, with one `mmap` that
did not fail for each plane the loop maps, whose address and length the row
`_mapped_buffers_[slot]` of the constructed backend holds; so every slot is mapped before
the first QBUF.  In USERPTR mode the log of a construction holds no QBUF, whatever its
outcome. -/
theorem initial_priming (params : Stream_Configuration) (D : Device) :
    (params.buffering = Buffering.Internal →
      ∀ st log, construct params D = (Outcome.ok st, log) →
        ∃ dev N maps,
          D.reqbufs params.num_buffers st._buffer_plane_type_ v4l2_memory.V4L2_MEMORY_MMAP
            = some N
          ∧ 1 ≤ N
          ∧ st._num_buffers_ = N
          ∧ log = dev ++ [Setup_Event.REQBUFS params.num_buffers st._buffer_plane_type_
                v4l2_memory.V4L2_MEMORY_MMAP (some N)]
              ++ maps ++ initial_qbuf_events st N 0
              ++ [Setup_Event.STREAMON st._buffer_plane_type_ true]
          ∧ (∀ e ∈ dev, is_device_setup e = true)
          ∧ (∀ e ∈ maps, is_mapping e = true)
          ∧ querybuf_slots maps = List.range N
          ∧ qbuf_slots (initial_qbuf_events st N 0) = List.range N
          ∧ qbuf_slots log = List.range N
          ∧ ∃ segs : List (List Setup_Event),
              maps = segs.flatten
              ∧ segs.length = N
              ∧ st._mapped_buffers_.length = N
              ∧ ∀ slot, slot < N → ∃ seg, segs[slot]? = some seg ∧ Slot_Mapped st slot seg)
    ∧ (params.buffering ≠ Buffering.Internal →
        ∀ e ∈ (construct params D).2, is_setup_qbuf e = false) := by
  refine ⟨fun hmode st log h => ?_, fun hmode => construct_userptr_log params D hmode⟩
  obtain ⟨dev, N, segs, hreq, hN, hn, hlog, hdev, hmaps, hslots, hsl, hml, hsm⟩ :=
    construct_mmap_mapped params D st log hmode h
  have hrange : List.range' 0 N = List.range N := (List.range_eq_range' (n := N)).symm
  have hq := qbuf_slots_initial st N 0
  rw [hrange] at hslots hq
  refine ⟨dev, N, segs.flatten, hreq, hN, hn, hlog, hdev, hmaps, hslots, hq, ?_,
    segs, rfl, hsl, hml, hsm⟩
  have hdevq : qbuf_slots dev = [] := qbuf_slots_of_not_qbuf dev (fun e he => by
    have := hdev e he
    cases e <;> first | rfl | (simp [is_device_setup] at this))
  have hmapq : qbuf_slots segs.flatten = [] := qbuf_slots_of_not_qbuf segs.flatten
    (fun e he => by
      have := hmaps e he
      cases e <;> first | rfl | (simp [is_mapping] at this))
  have hreqq : qbuf_slots [Setup_Event.REQBUFS params.num_buffers st._buffer_plane_type_
      v4l2_memory.V4L2_MEMORY_MMAP (some N)] = [] := rfl
  have hstreamq : qbuf_slots [Setup_Event.STREAMON st._buffer_plane_type_ true] = [] := rfl
  rw [hlog, qbuf_slots_append, qbuf_slots_append, qbuf_slots_append, qbuf_slots_append, hdevq,
    hmapq, hq, hreqq, hstreamq]
  simp

/-- C25 (witness). Instance: NV12, three buffers configured, on a device that grants one
buffer less than requested: the construction succeeds with two slots, both slots are
mapped (QUERYBUF, EXPBUF and `mmap` of slot 0, then of slot 1, the two addresses being the
rows of `_mapped_buffers_`), then the log holds one QBUF for slot 0 and one for slot 1, in
that order, and then STREAMON. -/
theorem initial_priming_witness :
    ∃ st log,
      construct { demo_configuration Pixel_Format.NV12 Buffering.Internal true with
          num_buffers := 3 } frugal_device
        = (Outcome.ok st, log)
      ∧ st._num_buffers_ = 2
      ∧ qbuf_slots log = [0, 1]
      ∧ (∃ seg0 seg1, Slot_Mapped st 0 seg0 ∧ Slot_Mapped st 1 seg1)
      ∧ st._mapped_buffers_
          = [[{ data := 659456, size := 4096 }], [{ data := 790528, size := 4096 }]]
      ∧ log.drop 8 = [Setup_Event.REQBUFS 3 v4l2_buf_type.V4L2_BUF_TYPE_VIDEO_CAPTURE
            v4l2_memory.V4L2_MEMORY_MMAP (some 2),
          Setup_Event.QUERYBUF
            { index := 0, type := v4l2_buf_type.V4L2_BUF_TYPE_VIDEO_CAPTURE,
              memory := v4l2_memory.V4L2_MEMORY_MMAP, length := 4096 }
            (some { index := 0, type := v4l2_buf_type.V4L2_BUF_TYPE_VIDEO_CAPTURE,
                    memory := v4l2_memory.V4L2_MEMORY_MMAP, length := 4096 }),
          Setup_Event.EXPBUF 0 0 (some 10),
          Setup_Event.MMAP 4096 10 0 659456,
          Setup_Event.QUERYBUF
            { index := 1, type := v4l2_buf_type.V4L2_BUF_TYPE_VIDEO_CAPTURE,
              memory := v4l2_memory.V4L2_MEMORY_MMAP, length := 4096 }
            (some { index := 1, type := v4l2_buf_type.V4L2_BUF_TYPE_VIDEO_CAPTURE,
                    memory := v4l2_memory.V4L2_MEMORY_MMAP, length := 4096,
                    m_offset := 4096 }),
          Setup_Event.EXPBUF 1 0 (some 12),
          Setup_Event.MMAP 4096 12 0 790528,
          Setup_Event.QBUF { index := 0, type := v4l2_buf_type.V4L2_BUF_TYPE_VIDEO_CAPTURE,
                             memory := v4l2_memory.V4L2_MEMORY_MMAP } true,
          Setup_Event.QBUF { index := 1, type := v4l2_buf_type.V4L2_BUF_TYPE_VIDEO_CAPTURE,
                             memory := v4l2_memory.V4L2_MEMORY_MMAP } true,
          Setup_Event.STREAMON v4l2_buf_type.V4L2_BUF_TYPE_VIDEO_CAPTURE true] := by
  obtain ⟨st, log, h, hrows, hdrop⟩ : ∃ st log,
      construct { demo_configuration Pixel_Format.NV12 Buffering.Internal true with
          num_buffers := 3 } frugal_device
        = (Outcome.ok st, log)
      ∧ st._mapped_buffers_
          = [[{ data := 659456, size := 4096 }], [{ data := 790528, size := 4096 }]]
      ∧ log.drop 8 = [Setup_Event.REQBUFS 3 v4l2_buf_type.V4L2_BUF_TYPE_VIDEO_CAPTURE
            v4l2_memory.V4L2_MEMORY_MMAP (some 2),
          Setup_Event.QUERYBUF
            { index := 0, type := v4l2_buf_type.V4L2_BUF_TYPE_VIDEO_CAPTURE,
              memory := v4l2_memory.V4L2_MEMORY_MMAP, length := 4096 }
            (some { index := 0, type := v4l2_buf_type.V4L2_BUF_TYPE_VIDEO_CAPTURE,
                    memory := v4l2_memory.V4L2_MEMORY_MMAP, length := 4096 }),
          Setup_Event.EXPBUF 0 0 (some 10),
          Setup_Event.MMAP 4096 10 0 659456,
          Setup_Event.QUERYBUF
            { index := 1, type := v4l2_buf_type.V4L2_BUF_TYPE_VIDEO_CAPTURE,
              memory := v4l2_memory.V4L2_MEMORY_MMAP, length := 4096 }
            (some { index := 1, type := v4l2_buf_type.V4L2_BUF_TYPE_VIDEO_CAPTURE,
                    memory := v4l2_memory.V4L2_MEMORY_MMAP, length := 4096,
                    m_offset := 4096 }),
          Setup_Event.EXPBUF 1 0 (some 12),
          Setup_Event.MMAP 4096 12 0 790528,
          Setup_Event.QBUF { index := 0, type := v4l2_buf_type.V4L2_BUF_TYPE_VIDEO_CAPTURE,
                             memory := v4l2_memory.V4L2_MEMORY_MMAP } true,
          Setup_Event.QBUF { index := 1, type := v4l2_buf_type.V4L2_BUF_TYPE_VIDEO_CAPTURE,
                             memory := v4l2_memory.V4L2_MEMORY_MMAP } true,
          Setup_Event.STREAMON v4l2_buf_type.V4L2_BUF_TYPE_VIDEO_CAPTURE true] :=
    ⟨_, _, rfl, by decide, by decide⟩
  obtain ⟨dev, N, maps, hreq, _, hn, _, _, _, _, _, hq, segs, _, _, _, hsm⟩ :=
    (initial_priming { demo_configuration Pixel_Format.NV12 Buffering.Internal true with
      num_buffers := 3 } frugal_device).1 rfl st log h
  have hN : N = 2 := by
    have h1 : some (3 - 1) = some N := hreq
    exact (Option.some.inj h1).symm
  rw [hN] at hn hq hsm
  obtain ⟨seg0, _, hs0⟩ := hsm 0 (by decide)
  obtain ⟨seg1, _, hs1⟩ := hsm 1 (by decide)
  exact ⟨st, log, h, hn, hq, ⟨seg0, seg1, hs0, hs1⟩, hrows, hdrop⟩

/-- C26 (counterexample to the claim as stated). NV12 without `contiguous`, two buffers,
on a device whose every EXPBUF fails: the EXPBUF of slot 0, plane 0 fails, plane 1 of
slot 0 is mapped without an EXPBUF, and slot 1 starts with an EXPBUF again (`dmabuf` is a
local of the loop body, set to true for each slot).  All four planes are mapped over the
device fd 3 at their queried offsets. -/
theorem expbuf_retried_for_next_slot :
    (construct (demo_configuration Pixel_Format.NV12 Buffering.Internal false)
        no_dmabuf_device).2.filter is_plane_mapping
      = [Setup_Event.EXPBUF 0 0 none,
         Setup_Event.MMAP 4096 3 0 200704,
         Setup_Event.MMAP 2048 3 4096 204800,
         Setup_Event.EXPBUF 1 0 none,
         Setup_Event.MMAP 4096 3 8192 208896,
         Setup_Event.MMAP 2048 3 12288 212992] := by
  decide

/-- C26 (amended). EXPBUF failure is sticky within a slot: in the mapping of a slot whose
QUERYBUF succeeded, the first call after the QUERYBUF is an EXPBUF for plane 0, whatever
happened for earlier slots; once an EXPBUF has failed for a plane of the slot, no further
EXPBUF is issued for the later planes of that slot, and that plane and every later plane
of the slot is mapped over the device fd at its queried offset (`k` planes are mapped:
all the remaining ones when the mapping of the slot succeeds).  For single-plane capture
the slot has the one plane 0: when its EXPBUF fails, the calls of the slot are exactly the
QUERYBUF, the failed EXPBUF and the `mmap` of `buf.length` bytes over the device fd at
`buf.m.offset`.  For multi-plane capture the same is stated for the slot as a whole when
the EXPBUF of plane 0 fails, and for the rest of the plane loop when the EXPBUF of any
plane fails. -/
theorem expbuf_failure_sticky_within_slot (D : Device) (st : V4L2_Backend)
    (buffer_index : Nat) (log : List Setup_Event) (buf : v4l2_buffer)
    (hq : D.querybuf (querybuf_payload st buffer_index) = some buf)
    (hplanes : st._buffer_plane_type_ = v4l2_buf_type.V4L2_BUF_TYPE_VIDEO_CAPTURE
      ∨ 1 ≤ num_planes st) :
    (∃ rest, (map_buffer D st buffer_index log).2
        = log ++ Setup_Event.QUERYBUF (querybuf_payload st buffer_index) (some buf)
            :: Setup_Event.EXPBUF buffer_index 0 (D.expbuf buffer_index 0) :: rest)
    ∧ (∀ (n plane_index : Nat) (st1 : V4L2_Backend) (log1 : List Setup_Event),
        D.expbuf buffer_index plane_index = none →
        ∃ k, 1 ≤ k ∧ k ≤ n + 1
          ∧ (map_planes D buffer_index buf (n + 1) plane_index true st1 log1).2
              = log1 ++ Setup_Event.EXPBUF buffer_index plane_index none
                  :: device_mmap_events D st1._device_file_descriptor_ buf plane_index k
          ∧ (∀ st2, (map_planes D buffer_index buf (n + 1) plane_index true st1 log1).1
                = Outcome.ok st2 → k = n + 1))
    ∧ (st._buffer_plane_type_ = v4l2_buf_type.V4L2_BUF_TYPE_VIDEO_CAPTURE →
        D.expbuf buffer_index 0 = none →
        (map_buffer D st buffer_index log).2
          = log ++ [Setup_Event.QUERYBUF (querybuf_payload st buffer_index) (some buf),
              Setup_Event.EXPBUF buffer_index 0 none,
              Setup_Event.MMAP buf.length st._device_file_descriptor_ buf.m_offset
                (D.mmap buf.length st._device_file_descriptor_ buf.m_offset)])
    ∧ (st._buffer_plane_type_ ≠ v4l2_buf_type.V4L2_BUF_TYPE_VIDEO_CAPTURE →
        D.expbuf buffer_index 0 = none →
        ∃ k, 1 ≤ k ∧ k ≤ num_planes st
          ∧ (map_buffer D st buffer_index log).2
              = log ++ Setup_Event.QUERYBUF (querybuf_payload st buffer_index) (some buf)
                  :: Setup_Event.EXPBUF buffer_index 0 none
                  :: device_mmap_events D st._device_file_descriptor_ buf 0 k
          ∧ (∀ st2, (map_buffer D st buffer_index log).1 = Outcome.ok st2 →
              k = num_planes st)) :=
  ⟨map_buffer_starts_with_expbuf D st buffer_index log buf hq hplanes,
    fun n plane_index st1 log1 hfail =>
      map_planes_expbuf_failed D buffer_index buf n plane_index st1 log1 hfail,
    fun hs hfail => map_buffer_single_expbuf_failed D st buffer_index log buf hq hs hfail,
    fun hs hfail =>
      map_buffer_mplane_expbuf_failed D st buffer_index log buf hq hs
        (hplanes.resolve_left hs) hfail⟩

/-- C26 (witness). Two instances on the device whose every EXPBUF fails.  Slot 1 of a
single-plane backend: the calls of the slot are the QUERYBUF, the failed EXPBUF of plane 0
and the `mmap` of 4096 bytes over the device fd 3 at the queried offset 4096.  Slot 1 of a
two-plane backend: after the QUERYBUF comes the EXPBUF of plane 0, which fails, and both
planes are then mapped over the device fd 3 at their queried offsets, with no further
EXPBUF. -/
theorem expbuf_failure_sticky_within_slot_witness :
    ((map_buffer no_dmabuf_device (ring_single Internal_Buffering_Strategy.Oldest 2) 1 []).2
      = [Setup_Event.QUERYBUF
            { index := 1, type := v4l2_buf_type.V4L2_BUF_TYPE_VIDEO_CAPTURE,
              memory := v4l2_memory.V4L2_MEMORY_MMAP, length := 4096 }
            (some { index := 1, type := v4l2_buf_type.V4L2_BUF_TYPE_VIDEO_CAPTURE,
                    memory := v4l2_memory.V4L2_MEMORY_MMAP, length := 4096,
                    m_offset := 4096 }),
          Setup_Event.EXPBUF 1 0 none,
          Setup_Event.MMAP 4096 3 4096 204800])
    ∧ ((map_buffer no_dmabuf_device (ring_mplane Internal_Buffering_Strategy.Oldest 2) 1 []).2
        = [Setup_Event.QUERYBUF
            (querybuf_payload (ring_mplane Internal_Buffering_Strategy.Oldest 2) 1)
            (some { index := 1, type := v4l2_buf_type.V4L2_BUF_TYPE_VIDEO_CAPTURE_MPLANE,
                    memory := v4l2_memory.V4L2_MEMORY_MMAP,
                    planes := [{ length := 4096, m_mem_offset := 8192 },
                               { length := 2048, m_mem_offset := 12288 }],
                    length := 2 }),
          Setup_Event.EXPBUF 1 0 none,
          Setup_Event.MMAP 4096 3 8192 208896,
          Setup_Event.MMAP 2048 3 12288 212992])
    ∧ no_dmabuf_device.expbuf 1 0 = none
    ∧ ∃ k, 1 ≤ k ∧ k ≤ 1 + 1
        ∧ (map_planes no_dmabuf_device 1
            { index := 1, type := v4l2_buf_type.V4L2_BUF_TYPE_VIDEO_CAPTURE_MPLANE,
              memory := v4l2_memory.V4L2_MEMORY_MMAP,
              planes := [{ length := 4096, m_mem_offset := 8192 },
                         { length := 2048, m_mem_offset := 12288 }],
              length := 2 }
            (1 + 1) 0 true (ring_mplane Internal_Buffering_Strategy.Oldest 2) []).2
          = [] ++ Setup_Event.EXPBUF 1 0 none
              :: device_mmap_events no_dmabuf_device
                  (ring_mplane Internal_Buffering_Strategy.Oldest 2)._device_file_descriptor_
                  { index := 1, type := v4l2_buf_type.V4L2_BUF_TYPE_VIDEO_CAPTURE_MPLANE,
                    memory := v4l2_memory.V4L2_MEMORY_MMAP,
                    planes := [{ length := 4096, m_mem_offset := 8192 },
                               { length := 2048, m_mem_offset := 12288 }],
                    length := 2 } 0 k
        ∧ (∀ st2, (map_planes no_dmabuf_device 1
            { index := 1, type := v4l2_buf_type.V4L2_BUF_TYPE_VIDEO_CAPTURE_MPLANE,
              memory := v4l2_memory.V4L2_MEMORY_MMAP,
              planes := [{ length := 4096, m_mem_offset := 8192 },
                         { length := 2048, m_mem_offset := 12288 }],
              length := 2 }
            (1 + 1) 0 true (ring_mplane Internal_Buffering_Strategy.Oldest 2) []).1
              = Outcome.ok st2 → k = 1 + 1) :=
  ⟨(expbuf_failure_sticky_within_slot no_dmabuf_device
      (ring_single Internal_Buffering_Strategy.Oldest 2) 1 [] _ rfl (Or.inl rfl)).2.2.1 rfl rfl,
    (by
      obtain ⟨k, _, _, h3, h4⟩ := (expbuf_failure_sticky_within_slot no_dmabuf_device
        (ring_mplane Internal_Buffering_Strategy.Oldest 2) 1 [] _ rfl
        (Or.inr (by decide))).2.2.2 (by decide) rfl
      have hk : k = 2 := h4 _ rfl
      subst hk
      exact h3),
    rfl,
    (expbuf_failure_sticky_within_slot no_dmabuf_device
      (ring_mplane Internal_Buffering_Strategy.Oldest 2) 1 [] _ rfl (Or.inr (by decide))).2.1
      1 0 (ring_mplane Internal_Buffering_Strategy.Oldest 2) [] rfl⟩

/-- C27 (counterexample to the claim as stated). USERPTR mode, multi-plane capture, three
caller views; every QBUF succeeds, every `select` reports the device ready and the kernel
answers EAGAIN to every DQBUF.  Whatever the fuel, the dequeue loop of `put_frame_data`
is still running: each EAGAIN gives the iteration back, so the call makes DQBUF attempts
without end and does not return. -/
theorem userptr_exchange_spins_on_eagain :
    ¬ ∃ fuel, (put_frame_data fuel (scripted_kernel []) (userptr_mplane 3) caller_views
        {}).isSome = true := by
  rintro ⟨fuel, h⟩
  have hq : ∃ stq sizesq sysq,
      userptr_queue_loop (scripted_kernel []) caller_views 0 (userptr_mplane 3) 0
        (List.replicate caller_views.length
          (List.replicate (num_planes (userptr_mplane 3)) 0)) {}
      = some (stq, 3, sizesq, sysq) := ⟨_, _, _, rfl⟩
  obtain ⟨stq, sizesq, sysq, hq⟩ := hq
  have hmem : ¬ (get_memory_mapping_type_v4l2 (userptr_mplane 3) = v4l2_memory.V4L2_MEMORY_MMAP
      ∨ get_memory_mapping_type_v4l2 (userptr_mplane 3) = v4l2_memory.V4L2_MEMORY_DMABUF) := by
    decide
  have hloop := userptr_dequeue_loop_eagain (scripted_kernel []) (fun _ => rfl) stq fuel 0 3
    sizesq (try_device (scripted_kernel []) sysq).2 (by decide)
  unfold put_frame_data at h
  simp only [hmem, if_false, hq, hloop] at h
  exact absurd h (by simp)

/-- C27 (amended). USERPTR exchange terminates once the kernel stops answering EAGAIN: in
USERPTR mode, when the caller views have `num_planes()` planes, the kernel writes back
indices and plane counts in range, and no DQBUF from the `B`-th on answers EAGAIN,
`put_frame_data` returns (given fuel for one iteration per caller view and per EAGAIN),
and the DQBUF attempts of the call are at most the number of caller views plus the
number of DQBUFs before the `B`-th. -/
theorem userptr_exchange_returns_after_last_eagain (fuel : Nat) (K : Kernel)
    (st : V4L2_Backend) (frames : List Multiplanar_Buffer_View) (sys : Syscalls) (B : Nat)
    (hmode : st._configuration_.buffering ≠ Buffering.Internal) (hneg : Negotiated st)
    (hframes : ∀ f ∈ frames, num_planes st ≤ f.length)
    (hrange : ∀ k b, sys.nd ≤ k → K.dqbuf k = dqbuf_result.ok b →
      b.index < frames.length
        ∧ (st._buffer_plane_type_ = v4l2_buf_type.V4L2_BUF_TYPE_VIDEO_CAPTURE_MPLANE →
          b.length ≤ num_planes st))
    (hB : ∀ k, B ≤ k → K.dqbuf k ≠ dqbuf_result.error Errno.EAGAIN)
    (hfuel : frames.length + (B - sys.nd) ≤ fuel) :
    ∃ out log, put_frame_data fuel K st frames sys = some out
      ∧ out.2.2.trace = sys.trace ++ log
      ∧ dqbuf_attempts log ≤ frames.length + (B - sys.nd) := by
  obtain ⟨out, hout⟩ := put_frame_data_userptr_some fuel K st frames sys B hmode hneg hframes
    hrange hB hfuel
  obtain ⟨log, hlog, hle⟩ := put_frame_data_userptr_attempts fuel K st frames sys B out hmode hB
    hout
  exact ⟨out, log, hout, hlog, hle⟩

/-- C27 (witness). Instance: three caller views, the QBUF of the second fails, the first
DQBUF answers EAGAIN and the next two hand back buffers 2 and 0; no EAGAIN from DQBUF 1
on, fuel 4: the call returns after three DQBUF attempts. -/
theorem userptr_exchange_returns_after_last_eagain_witness :
    ∃ out log, put_frame_data 4 userptr_kernel (userptr_mplane 3) caller_views {} = some out
      ∧ out.2.2.trace = ({} : Syscalls).trace ++ log
      ∧ dqbuf_attempts log ≤ caller_views.length + (1 - ({} : Syscalls).nd) :=
  userptr_exchange_returns_after_last_eagain 4 userptr_kernel (userptr_mplane 3) caller_views
    {} 1 (by decide) (by decide) (by decide)
    (by
      intro k b _ hkb
      simp only [userptr_kernel] at hkb
      split_ifs at hkb <;> injection hkb with hb <;> subst hb <;> decide)
    (by
      intro k hk
      simp only [userptr_kernel]
      split_ifs with h1 h2 h0
      · simp
      · simp
      · omega
      · simp)
    (by decide)

/-- C28 (evaluation at the failing input). NV12 on a device that opens (fd 3) and
answers QUERYCAP and CROPCAP, and on which S_FMT fails: the constructor throws
"VIDIOC_S_FMT" and the log of the calls made ends with the failed S_FMT; it holds the
`open` and no `close`. -/
theorem failed_construction_leaves_fd_open :
    construct (demo_configuration Pixel_Format.NV12 Buffering.Internal true) no_format_device
      = (Outcome.raised Construction_Error.VIDIOC_S_FMT,
          [Setup_Event.STAT 0 stat_result.chr,
           Setup_Event.OPEN 0 3,
           Setup_Event.QUERYCAP (some 0x04001001),
           Setup_Event.CROPCAP v4l2_buf_type.V4L2_BUF_TYPE_VIDEO_CAPTURE true,
           Setup_Event.S_FMT
             { type := v4l2_buf_type.V4L2_BUF_TYPE_VIDEO_CAPTURE, width := 640, height := 480,
               pixelformat := 0x3231564E, field := V4L2_FIELD_INTERLACED,
               quantization := V4L2_QUANTIZATION_FULL_RANGE } none])
    ∧ ((construct (demo_configuration Pixel_Format.NV12 Buffering.Internal true)
          no_format_device).2.filter is_close) = [] := by
  decide

/-- C29 (evaluation at the failing input). Crop rectangle `{2^31, 2^31, 0, 0}` on a
device whose CROPCAP succeeds: two components are non-zero, the sum accumulated in the
`int` wraps to 0, and the crop part logs the CROPCAP only, no S_CROP.  With the rectangle
`{0, 0, 320, 240}` the S_CROP is issued. -/
theorem crop_rect_sum_wraps_to_zero :
    accumulate_crop_rect [2147483648, 2147483648, 0, 0] = 0
    ∧ setup_crop good_device
        { _configuration_ := { v4l2 := { crop_rect := [2147483648, 2147483648, 0, 0] } } } []
      = [Setup_Event.CROPCAP v4l2_buf_type.V4L2_BUF_TYPE_VIDEO_CAPTURE true]
    ∧ setup_crop good_device
        { _configuration_ := { v4l2 := { crop_rect := [0, 0, 320, 240] } } } []
      = [Setup_Event.CROPCAP v4l2_buf_type.V4L2_BUF_TYPE_VIDEO_CAPTURE true,
         Setup_Event.S_CROP v4l2_buf_type.V4L2_BUF_TYPE_VIDEO_CAPTURE 0 0 320 240 true] := by
  decide

/-- C30 (counterexample to the claim as stated). Width `2^52 - 3`, height 1: the product
is below `2^52`, yet `width * height * 1.5` is a tie between two `double`s and rounds up:
NV12 gets one plane of 6755399441055740 bytes, one more than `floor(1.5 * width *
height)`, and one more than the two NV12sp planes together. -/
theorem nv12_plane_size_rounds_up :
    (2 ^ 52 - 3) * 1 < 2 ^ 52
    ∧ get_plane_dimensions Pixel_Format.NV12 (2 ^ 52 - 3) 1 = some [6755399441055740]
    ∧ 3 * ((2 ^ 52 - 3) * 1) / 2 = 6755399441055739
    ∧ get_plane_dimensions Pixel_Format.NV12sp (2 ^ 52 - 3) 1
        = some [4503599627370493, 2251799813685246]
    ∧ 4503599627370493 + 2251799813685246 = 6755399441055739 := by
  decide

/-- C30 (amended). NV12 and NV12sp buffer sizes agree: for every width and height with
`3 * width * height < 2^53` (the product is at most 3002399751580330, so that `1.5 * width
* height` is a `double`), `get_plane_dimensions` returns one plane of `floor(1.5 * width *
height)` bytes for NV12 and two planes of `width * height` and `floor(width * height / 2)`
bytes for NV12sp, and the two NV12sp plane sizes sum to exactly the NV12 plane size.  For
every format, width and height the vector returned has `get_num_planes(format)` entries. -/
theorem nv12_plane_sizes_agree (width height : Nat) (h : 3 * (width * height) < 2 ^ 53) :
    get_plane_dimensions Pixel_Format.NV12 width height = some [3 * (width * height) / 2]
    ∧ get_plane_dimensions Pixel_Format.NV12sp width height
        = some [width * height, width * height / 2]
    ∧ width * height + width * height / 2 = 3 * (width * height) / 2
    ∧ ∀ (px_format : Pixel_Format) (w h : Nat) (sizes : List Nat),
        get_plane_dimensions px_format w h = some sizes →
        sizes.length = get_num_planes px_format := by
  have harea : width * height % 2 ^ 64 = width * height := Nat.mod_eq_of_lt (by omega)
  refine ⟨?_, ?_, by omega, fun px_format w h sizes hs =>
    get_plane_dimensions_length px_format w h sizes hs⟩
  · unfold get_plane_dimensions
    simp only []
    rw [harea, times_one_and_a_half_exact _ h]
    rfl
  · unfold get_plane_dimensions
    simp only []
    rw [harea]
    rfl

/-- C30 (witness). Instance: the demo's 1920 x 1080 frame, 3110400 bytes for NV12 and
2073600 + 1036800 bytes for NV12sp. -/
theorem nv12_plane_sizes_agree_witness :
    get_plane_dimensions Pixel_Format.NV12 1920 1080 = some [3110400]
    ∧ get_plane_dimensions Pixel_Format.NV12sp 1920 1080 = some [2073600, 1036800]
    ∧ 2073600 + 1036800 = 3110400 :=
  ⟨(nv12_plane_sizes_agree 1920 1080 (by decide)).1,
   (nv12_plane_sizes_agree 1920 1080 (by decide)).2.1,
   (nv12_plane_sizes_agree 1920 1080 (by decide)).2.2.1⟩

end Cartrack
